import Mathlib

/-!
# Tarantool box core: memtx engine, alter-space planner

A shallow embedding of `src/box/memtx_engine.cc` and `src/box/alter.cc`.
Pointers to tuples are values of an arbitrary type `τ`; an index object is a
value of an arbitrary type `σ` whose virtual methods (`Index::replace`,
`MemtxIndex::endBuild`, ...) are passed to the functions that call them.
C++ exceptions are the `Except.error` results of the `Exception` type.
-/

set_option autoImplicit false

namespace Tarantool

/-! ## Errors -/

/-- Error codes of `ClientError` that the embedded code raises. -/
inductive box_error_code
  | ER_MODIFY_INDEX
  | ER_INDEX_TYPE
  | ER_LAST_DROP
  | ER_DROP_PRIMARY_KEY
  | ER_NO_SUCH_INDEX
  | ER_NO_SUCH_SPACE
  | ER_ALTER_SPACE
  | ER_CREATE_SPACE
  | ER_DROP_SPACE
  | ER_ACCESS_DENIED
  | ER_TUPLE_FOUND
  | ER_TUPLE_NOT_FOUND
  | ER_UNKNOWN_REQUEST_TYPE
  | ER_CROSS_ENGINE_TRANSACTION
  | ER_FIELD_TYPE
  | ER_NO_SUCH_FIELD
  | ER_CLUSTER_ID_IS_RO
  | ER_INVALID_UUID
  | ER_DROP_USER
  | ER_CREATE_USER
  | ER_NO_SUCH_USER
  | ER_NO_SUCH_FUNCTION
  | ER_UNKNOWN_SCHEMA_OBJECT
  | ER_INJECTION
  deriving DecidableEq, Repr

/-- C++ exceptions thrown with `tnt_raise`. The string of a `ClientError` is the
fixed part of its message. -/
inductive Exception
  | ClientError (code : box_error_code) (msg : String)
  | OutOfMemory
  | IllegalParams (msg : String)
  | SystemError (msg : String)
  deriving DecidableEq, Repr

/-! ## Key definitions (`struct key_def`) -/

/-- The `enum index_type`; `index_type_MAX` is what `STR2ENUM` yields for an
unknown type name. -/
inductive index_type
  | HASH
  | TREE
  | BITSET
  | RTREE
  | index_type_MAX
  deriving DecidableEq, Repr

/-- The `enum field_type`. -/
inductive field_type
  | FIELD_TYPE_ANY
  | FIELD_TYPE_UNSIGNED
  | FIELD_TYPE_STRING
  | FIELD_TYPE_ARRAY
  | FIELD_TYPE_NUMBER
  | FIELD_TYPE_INTEGER
  | FIELD_TYPE_SCALAR
  | field_type_MAX
  deriving DecidableEq, Repr

/-- One `struct key_part`. -/
structure key_part where
  fieldno : Nat
  type : field_type
  deriving DecidableEq, Repr

/-- The `struct key_def`: `parts` is the array `parts[0 .. part_count)`, so that
`part_count` is its length; `is_unique` is `opts.is_unique`. -/
structure key_def where
  space_id : Nat
  iid : Nat
  name : String
  type : index_type
  is_unique : Bool
  parts : List key_part
  deriving DecidableEq, Repr

/-- The field `part_count` of a key definition. -/
def key_def.part_count (kd : key_def) : Nat := kd.parts.length

/-- The loop at the end of `MemtxEngine::keydefCheck`: the first ARRAY part
raises. -/
def keydefCheck_parts : List key_part → Except Exception Unit
  | [] => .ok ()
  | p :: ps =>
    if p.type = field_type.FIELD_TYPE_ARRAY then
      .error (.ClientError .ER_MODIFY_INDEX "ARRAY field type is not supported")
    else keydefCheck_parts ps

/-- `MemtxEngine::keydefCheck(space, key_def)`; the space only supplies its name
to the error message. -/
def keydefCheck (kd : key_def) : Except Exception Unit :=
  match kd.type with
  | .HASH =>
    if !kd.is_unique then
      .error (.ClientError .ER_MODIFY_INDEX "HASH index must be unique")
    else keydefCheck_parts kd.parts
  | .TREE => keydefCheck_parts kd.parts
  | .RTREE =>
    if kd.part_count ≠ 1 then
      .error (.ClientError .ER_MODIFY_INDEX "RTREE index key can not be multipart")
    else if kd.is_unique then
      .error (.ClientError .ER_MODIFY_INDEX "RTREE index can not be unique")
    else if (kd.parts.map key_part.type).head? ≠ some field_type.FIELD_TYPE_ARRAY then
      .error (.ClientError .ER_MODIFY_INDEX "RTREE index field type must be ARRAY")
    else .ok ()
  | .BITSET =>
    if kd.part_count ≠ 1 then
      .error (.ClientError .ER_MODIFY_INDEX "BITSET index key can not be multipart")
    else if kd.is_unique then
      .error (.ClientError .ER_MODIFY_INDEX "BITSET can not be unique")
    else if (kd.parts.map key_part.type).head? ≠ some field_type.FIELD_TYPE_UNSIGNED ∧
        (kd.parts.map key_part.type).head? ≠ some field_type.FIELD_TYPE_STRING then
      .error (.ClientError .ER_MODIFY_INDEX "BITSET index field type must be NUM or STR")
    else .ok ()
  | .index_type_MAX =>
    .error (.ClientError .ER_INDEX_TYPE "")

/-- The error code of a result, when it is a `ClientError`. -/
def client_error_code {α : Type} : Except Exception α → Option box_error_code
  | .error (.ClientError c _) => some c
  | _ => none

/-- What the specification of `keydefCheck` accepts. -/
def keydef_accepted (kd : key_def) : Prop :=
  (kd.type = .HASH ∧ kd.is_unique = true ∧
      ∀ p ∈ kd.parts, p.type ≠ field_type.FIELD_TYPE_ARRAY) ∨
  (kd.type = .TREE ∧ ∀ p ∈ kd.parts, p.type ≠ field_type.FIELD_TYPE_ARRAY) ∨
  (kd.type = .RTREE ∧ kd.is_unique = false ∧
      ∃ p, kd.parts = [p] ∧ p.type = field_type.FIELD_TYPE_ARRAY) ∨
  (kd.type = .BITSET ∧ kd.is_unique = false ∧
      ∃ p, kd.parts = [p] ∧
        (p.type = field_type.FIELD_TYPE_UNSIGNED ∨ p.type = field_type.FIELD_TYPE_STRING))

/-! ## Tuples, indexes and spaces -/

/-- The `enum dup_replace_mode`. -/
inductive dup_replace_mode
  | DUP_REPLACE_OR_INSERT
  | DUP_REPLACE
  | DUP_INSERT
  deriving DecidableEq, Repr

/-- The `enum memtx_recovery_state`. -/
inductive memtx_recovery_state
  | MEMTX_INITIALIZED
  | MEMTX_INITIAL_RECOVERY
  | MEMTX_FINAL_RECOVERY
  | MEMTX_OK
  deriving DecidableEq, Repr

/-- The values the function pointer `MemtxSpace::replace` takes. -/
inductive engine_replace_f
  | memtx_replace_no_keys
  | memtx_replace_build_next
  | memtx_replace_primary_key
  | memtx_replace_all_keys
  deriving DecidableEq, Repr

/-- What stops the process: `panic()`, or the use of a pointer that is NULL. -/
inductive Fatal
  | panic (msg : String)
  | null_pointer
  deriving DecidableEq, Repr

/-- The functions a `struct trigger` can run. -/
inductive trigger_f
  | on_replace_in_old_space
  | on_rollback_in_old_space
  | alter_space_commit
  | alter_space_rollback
  | on_drop_space
  | on_replace_dd_space
  | on_replace_dd_index
  | txn_on_yield_or_stop
  | user_cache_remove_user
  | user_cache_replace_user
  | revoke_priv
  | modify_priv
  | other
  deriving DecidableEq, Repr

/-- A `struct trigger`: `ptr` is the address of the trigger object, `data` its
`data` pointer (the address of an alter plan, or the iid of a new index). -/
structure trigger where
  ptr : Nat
  run : trigger_f
  data : Nat
  deriving DecidableEq, Repr

/-- The `struct space_def`. -/
structure space_def where
  id : Nat
  uid : Nat
  name : String
  engine_name : String
  field_count : Nat
  temporary : Bool
  deriving DecidableEq, Repr

/-- An `Index` object: its `key_def` and the state `impl` that its
implementation (hash, tree, rtree, bitset) keeps. -/
structure Index (σ : Type) where
  key_def : key_def
  impl : σ

/-- The `struct MemtxSpace` handler: the engine it belongs to and the current
`replace` function. -/
structure MemtxSpace where
  engine : Nat
  replace : engine_replace_f
  deriving DecidableEq, Repr

/-- The `struct space`: `index` is the dense array `space->index[0 ..
index_count)`, kept ordered by iid; `access` is the array `access[token]`. -/
structure space (σ : Type) where
  def_ : space_def
  index : List (Index σ)
  handler : MemtxSpace
  on_replace : List trigger
  access : Nat → Nat

/-- The field `index_count`. -/
def space.index_count {σ : Type} (sp : space σ) : Nat := sp.index.length

/-- The field `index_id_max`: the largest iid of the indexes of the space, `0`
when it has none. -/
def space.index_id_max {σ : Type} (sp : space σ) : Nat :=
  (sp.index.map (fun i => i.key_def.iid)).foldr max 0

/-- Modelled from the spec: `space_index(space, iid)` (space.h is not under
src/), the index of the space with the given iid, or NULL. -/
def space_index {σ : Type} (sp : space σ) (iid : Nat) : Option (Index σ) :=
  sp.index.find? (fun i => i.key_def.iid == iid)

/-- The invariant of `space->index` that `space_fill_index_map` keeps: the dense
array is ordered by iid, so that the primary key, when there is one, is
`index[0]`. -/
def space_wf {σ : Type} (sp : space σ) : Prop :=
  sp.index.Pairwise (fun a b => a.key_def.iid < b.key_def.iid)

/-- A virtual method without arguments called on `space->index[0]`. -/
def space.call_index0 {σ : Type} (sp : space σ) (method : σ → σ) : space σ :=
  { sp with index := sp.index.modifyHead (fun i => { i with impl := method i.impl }) }

/-! ## The memtx engine: recovery states and the replace function -/

/-- The constructor `MemtxSpace::MemtxSpace(Engine *e)`. -/
def MemtxSpace.new (e : Nat) : MemtxSpace :=
  { engine := e, replace := .memtx_replace_no_keys }

/-- The fields of `MemtxEngine` that recovery reads and writes; `this` is the
address of the engine, `panic_if_error` is `m_snap_dir.panic_if_error`. -/
structure MemtxEngine where
  this : Nat
  m_state : memtx_recovery_state
  panic_if_error : Bool
  m_panic_on_wal_error : Bool
  deriving DecidableEq, Repr

/-- The constructor `MemtxEngine::MemtxEngine(snap_dirname, panic_on_snap_error,
panic_on_wal_error)`. -/
def MemtxEngine.new (this : Nat) (panic_on_snap_error panic_on_wal_error : Bool) :
    MemtxEngine :=
  { this := this, m_state := .MEMTX_INITIALIZED,
    panic_if_error := panic_on_snap_error,
    m_panic_on_wal_error := panic_on_wal_error }

/-- `MemtxEngine::open()`. -/
def MemtxEngine.open (e : MemtxEngine) : MemtxSpace := MemtxSpace.new e.this

/-- `memtx_add_primary_key(space, state)`. -/
def memtx_add_primary_key {σ : Type} (beginBuild endBuild : σ → σ)
    (sp : space σ) (state : memtx_recovery_state) : Except Fatal (space σ) :=
  match state with
  | .MEMTX_INITIALIZED =>
    .error (.panic "can't create a new space before snapshot recovery")
  | .MEMTX_INITIAL_RECOVERY =>
    if sp.index.isEmpty then .error .null_pointer else
    .ok { sp.call_index0 beginBuild with
          handler := { sp.handler with replace := .memtx_replace_build_next } }
  | .MEMTX_FINAL_RECOVERY =>
    if sp.index.isEmpty then .error .null_pointer else
    .ok { (sp.call_index0 beginBuild).call_index0 endBuild with
          handler := { sp.handler with replace := .memtx_replace_primary_key } }
  | .MEMTX_OK =>
    if sp.index.isEmpty then .error .null_pointer else
    .ok { (sp.call_index0 beginBuild).call_index0 endBuild with
          handler := { sp.handler with replace := .memtx_replace_all_keys } }

/-- `MemtxEngine::dropPrimaryKey(space)`. -/
def MemtxEngine.dropPrimaryKey {σ : Type} (sp : space σ) : space σ :=
  { sp with handler := { sp.handler with replace := .memtx_replace_no_keys } }

/-- `MemtxEngine::initSystemSpace(space)`. -/
def MemtxEngine.initSystemSpace {σ : Type} (beginBuild endBuild : σ → σ)
    (sp : space σ) : Except Fatal (space σ) :=
  memtx_add_primary_key beginBuild endBuild sp .MEMTX_OK

/-- `memtx_end_build_primary_key(space, param)`. -/
def memtx_end_build_primary_key {σ : Type} (endBuild : σ → σ)
    (sp : space σ) (param : Nat) : space σ :=
  if sp.handler.engine ≠ param ∨ (space_index sp 0).isNone ∨
      sp.handler.replace = .memtx_replace_all_keys then sp
  else
    { sp.call_index0 endBuild with
      handler := { sp.handler with replace := .memtx_replace_primary_key } }

/-- The loop `for (j = 1; j < index_count; j++) index_build(index[j], pk)` of
`memtx_build_secondary_keys`, over `index[j ..]`. -/
def build_secondary_loop {σ : Type} (index_build : σ → σ → Except Exception σ)
    (pk : σ) : List (Index σ) → Except Exception (List (Index σ))
  | [] => .ok []
  | i :: rest =>
    match index_build i.impl pk with
    | .error e => .error e
    | .ok s =>
      match build_secondary_loop index_build pk rest with
      | .error e => .error e
      | .ok rest' => .ok ({ i with impl := s } :: rest')

/-- `memtx_build_secondary_keys(space, param)`; `index_build(index, pk)` (of
index.cc) may raise. -/
def memtx_build_secondary_keys {σ : Type} (index_build : σ → σ → Except Exception σ)
    (sp : space σ) (param : Nat) : Except Exception (space σ) :=
  if sp.handler.engine ≠ param ∨ (space_index sp 0).isNone ∨
      sp.handler.replace = .memtx_replace_all_keys then .ok sp
  else
    let built : Except Exception (List (Index σ)) :=
      if sp.index_id_max > 0 then
        match sp.index with
        | [] => .ok []
        | pk :: rest =>
          match build_secondary_loop index_build pk.impl rest with
          | .error e => .error e
          | .ok rest' => .ok (pk :: rest')
      else .ok sp.index
    match built with
    | .error e => .error e
    | .ok index' =>
      .ok { sp with index := index',
                    handler := { sp.handler with replace := .memtx_replace_all_keys } }

/-- Modelled from the spec: `space_foreach(func, param)` (schema.cc is not under
src/) calls `func(space, param)` for every space of the space cache, here the
list of the spaces in the order they are visited; a call that raises ends the
walk, the spaces visited before keep their change. -/
def space_foreach {σ : Type} (func : space σ → Nat → Except Exception (space σ))
    (param : Nat) : List (space σ) → List (space σ) × Option Exception
  | [] => ([], none)
  | sp :: rest =>
    match func sp param with
    | .error e => (sp :: rest, some e)
    | .ok sp' =>
      let r := space_foreach func param rest
      (sp' :: r.1, r.2)

/-- `MemtxEngine::beginInitialRecovery(vclock)`. -/
def MemtxEngine.beginInitialRecovery (e : MemtxEngine) : MemtxEngine :=
  { e with m_state := if e.panic_if_error then .MEMTX_INITIAL_RECOVERY else .MEMTX_OK }

/-- `MemtxEngine::beginFinalRecovery()`: the engine, the space cache and the
exception that left the function, if any. -/
def MemtxEngine.beginFinalRecovery {σ : Type} (endBuild : σ → σ)
    (index_build : σ → σ → Except Exception σ)
    (e : MemtxEngine) (cache : List (space σ)) :
    MemtxEngine × List (space σ) × Option Exception :=
  if e.m_state = .MEMTX_OK then (e, cache, none)
  else
    let cache1 := (space_foreach
      (fun sp param => .ok (memtx_end_build_primary_key endBuild sp param)) e.this cache).1
    if e.m_panic_on_wal_error then
      ({ e with m_state := .MEMTX_FINAL_RECOVERY }, cache1, none)
    else
      let r := space_foreach (memtx_build_secondary_keys index_build) e.this cache1
      ({ e with m_state := .MEMTX_OK }, r.1, r.2)

/-- A data dictionary space before `initSystemSpace`: one TREE primary key, the
handler that `open` returns for the engine at address `1`. The index state
counts the calls of `endBuild`. -/
def example_system_space : space Nat :=
  { def_ := { id := 280, uid := 1, name := "_space", engine_name := "memtx",
              field_count := 0, temporary := false },
    index := [{ key_def := { space_id := 280, iid := 0, name := "primary",
                             type := .TREE, is_unique := true,
                             parts := [{ fieldno := 0,
                                         type := .FIELD_TYPE_UNSIGNED }] },
                impl := 0 }],
    handler := (MemtxEngine.new 1 true true).open,
    on_replace := [],
    access := fun _ => 0 }

/-- The space cache with the one data dictionary space, after
`initSystemSpace`. -/
def example_system_cache : List (space Nat) :=
  match MemtxEngine.initSystemSpace id (fun n => n + 1) example_system_space with
  | .ok sp => [sp]
  | .error _ => []

/-! ## The replace functions of the memtx engine -/

/-- The virtual method `Index::replace(old_tuple, new_tuple, mode)`, implemented
in memtx_hash.cc, memtx_tree.cc, memtx_rtree.cc and memtx_bitset.cc, none of
them under src/: the new state of the index with the old tuple it returns, or
the exception it raises. -/
abbrev index_replace_f (σ τ : Type) : Type :=
  σ → Option τ → Option τ → dup_replace_mode → σ × Except Exception (Option τ)

/-- `RESERVE_EXTENTS_BEFORE_DELETE`. -/
def RESERVE_EXTENTS_BEFORE_DELETE : Nat := 8

/-- `RESERVE_EXTENTS_BEFORE_REPLACE`. -/
def RESERVE_EXTENTS_BEFORE_REPLACE : Nat := 16

/-- `tuple_ref(tuple)` on the reference counts of the tuples. -/
def tuple_ref {τ : Type} [DecidableEq τ] (refs : τ → Nat) (t : τ) : τ → Nat :=
  fun x => if x = t then refs t + 1 else refs x

/-- `tuple_unref(tuple)` on the reference counts of the tuples. -/
def tuple_unref {τ : Type} [DecidableEq τ] (refs : τ → Nat) (t : τ) : τ → Nat :=
  fun x => if x = t then refs t - 1 else refs x

/-- The statement `if (tuple) tuple_ref(tuple)`. -/
def tuple_ref_if {τ : Type} [DecidableEq τ] (refs : τ → Nat) : Option τ → τ → Nat
  | some t => tuple_ref refs t
  | none => refs

/-- The statement `if (tuple) tuple_unref(tuple)`. -/
def tuple_unref_if {τ : Type} [DecidableEq τ] (refs : τ → Nat) : Option τ → τ → Nat
  | some t => tuple_unref refs t
  | none => refs

/-- What a replace function of the engine leaves behind: the space, the
reference counts, and the old tuple it returns or the exception it raises. -/
structure replace_result (σ τ : Type) where
  space : space σ
  refs : τ → Nat
  result : Except Exception (Option τ)

/-- Modelled from the spec: `index_find(space, iid)` (space.h is not under src/):
the position in `space->index` of the index with the given iid and the index
itself, `ER_NO_SUCH_INDEX` when the space has none. -/
def index_find {σ : Type} (sp : space σ) (iid : Nat) : Except Exception (Nat × Index σ) :=
  match sp.index.enum.find? (fun x => x.2.key_def.iid == iid) with
  | some x => .ok x
  | none => .error (.ClientError .ER_NO_SUCH_INDEX "")

/-- The call `space->index[i]->replace(old_tuple, new_tuple, mode)`: the array
after the call and what the call returned or raised; `none` when there is no
`index[i]`. -/
def index_call {σ τ : Type} (replace : index_replace_f σ τ) (l : List (Index σ))
    (i : Nat) (old_tuple new_tuple : Option τ) (mode : dup_replace_mode) :
    Option (List (Index σ) × Except Exception (Option τ)) :=
  match l[i]? with
  | none => none
  | some idx =>
    let r := replace idx.impl old_tuple new_tuple mode
    some (l.set i { idx with impl := r.1 }, r.2)

/-- The loop `for (i++; i < space->index_count; i++)` of
`memtx_replace_all_keys`, entered with `n = index_count - i` iterations to go:
the array, the value of `i` and the exception when the loop is left. -/
def all_keys_secondary {σ τ : Type} (replace : index_replace_f σ τ)
    (old_tuple new_tuple : Option τ) :
    Nat → Nat → List (Index σ) → List (Index σ) × Nat × Option Exception
  | 0, i, l => (l, i, none)
  | n + 1, i, l =>
    match index_call replace l i old_tuple new_tuple .DUP_INSERT with
    | none => (l, i, none)
    | some (l', .error e) => (l', i, some e)
    | some (l', .ok _) => all_keys_secondary replace old_tuple new_tuple n (i + 1) l'

/-- The loop `for (; i > 0; i--)` of the handler of `memtx_replace_all_keys`:
`index[i-1]->replace(new_tuple, old_tuple, DUP_INSERT)`. An exception raised
there leaves the handler at once. -/
def all_keys_rollback {σ τ : Type} (replace : index_replace_f σ τ)
    (new_tuple old_tuple : Option τ) :
    Nat → List (Index σ) → List (Index σ) × Option Exception
  | 0, l => (l, none)
  | i + 1, l =>
    match index_call replace l i new_tuple old_tuple .DUP_INSERT with
    | none => all_keys_rollback replace new_tuple old_tuple i l
    | some (l', .error e) => (l', some e)
    | some (l', .ok _) => all_keys_rollback replace new_tuple old_tuple i l'

/-- `memtx_replace_all_keys(space, old_tuple, new_tuple, mode)`;
`reserve` is `memtx_index_extent_reserve`, which may raise `OutOfMemory`. -/
def memtx_replace_all_keys {σ τ : Type} [DecidableEq τ]
    (reserve : Nat → Except Exception Unit) (replace : index_replace_f σ τ)
    (sp : space σ) (refs : τ → Nat) (old_tuple new_tuple : Option τ)
    (mode : dup_replace_mode) : replace_result σ τ :=
  match reserve (if new_tuple.isSome then RESERVE_EXTENTS_BEFORE_REPLACE
                 else RESERVE_EXTENTS_BEFORE_DELETE) with
  | .error e => { space := sp, refs := refs, result := .error e }
  | .ok () =>
    -- try, with i = 0
    match index_find sp 0 with
    | .error e => { space := sp, refs := refs, result := .error e }
    | .ok (p, pk) =>
      match replace pk.impl old_tuple new_tuple mode with
      | (s, .error e) =>
        { space := { sp with index := sp.index.set p { pk with impl := s } },
          refs := refs, result := .error e }
      | (s, .ok old_tuple') =>
        match all_keys_secondary replace old_tuple' new_tuple (sp.index_count - 1) 1
            (sp.index.set p { pk with impl := s }) with
        | (l, i, some e) =>
          -- catch: roll back index[i-1], ..., index[0], then throw
          match all_keys_rollback replace new_tuple old_tuple' i l with
          | (l', some e') =>
            { space := { sp with index := l' }, refs := refs, result := .error e' }
          | (l', none) =>
            { space := { sp with index := l' }, refs := refs, result := .error e }
        | (l, _, none) =>
          { space := { sp with index := l },
            refs := tuple_ref_if refs new_tuple,
            result := .ok old_tuple' }

/-- `memtx_replace_primary_key(space, old_tuple, new_tuple, mode)`. -/
def memtx_replace_primary_key {σ τ : Type} [DecidableEq τ]
    (replace : index_replace_f σ τ)
    (sp : space σ) (refs : τ → Nat) (old_tuple new_tuple : Option τ)
    (mode : dup_replace_mode) : Except Fatal (replace_result σ τ) :=
  match sp.index with
  | [] => .error .null_pointer
  | pk :: rest =>
    match replace pk.impl old_tuple new_tuple mode with
    | (s, .error e) =>
      .ok { space := { sp with index := { pk with impl := s } :: rest },
            refs := refs, result := .error e }
    | (s, .ok old_tuple') =>
      .ok { space := { sp with index := { pk with impl := s } :: rest },
            refs := tuple_ref_if refs new_tuple,
            result := .ok old_tuple' }

/-- The assumptions on `Index::replace` under which `memtx_replace_all_keys` is
all-or-nothing: a replace that raises leaves the index as it was, and the
inverse replace undoes a successful one: for the primary key it is made of the
new tuple and the old tuple that the replace returned, for a secondary key of the
new tuple and the old tuple that the replace was given. -/
structure index_replace_contract {σ τ : Type} (replace : index_replace_f σ τ) : Prop where
  fail_unchanged : ∀ s o n m e, (replace s o n m).2 = .error e → (replace s o n m).1 = s
  undo_primary : ∀ s o n m r, (replace s o n m).2 = .ok r →
    ∃ r', replace (replace s o n m).1 n r .DUP_INSERT = (s, .ok r')
  undo_secondary : ∀ s o n r, (replace s o n .DUP_INSERT).2 = .ok r →
    ∃ r', replace (replace s o n .DUP_INSERT).1 n o .DUP_INSERT = (s, .ok r')

/-! ## Transactions of the memtx engine -/

/-- A `struct txn_stmt`: `space` is the pointer `stmt->space`, here the position
of the space among the spaces of the engine. -/
structure txn_stmt (τ : Type) where
  space : Nat
  old_tuple : Option τ
  new_tuple : Option τ

/-- The fields of `struct txn` that memtx_engine.cc and alter.cc use: `stmts` is
the list `txn->stmts` in the order of the statements; `old_tuple` and `new_tuple`
are the tuples that a trigger of alter.cc reads from its event. -/
structure txn (τ : Type) where
  stmts : List (txn_stmt τ)
  is_autocommit : Bool
  fiber_on_yield : trigger
  fiber_on_stop : trigger
  on_commit : List trigger
  on_rollback : List trigger
  old_tuple : Option τ
  new_tuple : Option τ

/-- The trigger lists `on_yield` and `on_stop` of the fiber the transaction runs
in. -/
structure fiber_triggers where
  on_yield : List trigger
  on_stop : List trigger
  deriving DecidableEq, Repr

/-- The spaces of the engine and the reference counts of the tuples. -/
structure box (σ τ : Type) where
  spaces : List (space σ)
  refs : τ → Nat

/-- Modelled from the spec: `trigger_clear(trigger)` (trigger.h is not under
src/) takes the trigger object out of the list it is in. -/
def trigger_clear (t : trigger) (l : List trigger) : List trigger :=
  l.filter (fun x => x.ptr ≠ t.ptr)

/-- Modelled from the spec: `trigger_add(list, trigger)` (trigger.h is not under
src/) puts the trigger at the head of the list. -/
def trigger_add (l : List trigger) (t : trigger) : List trigger := t :: l

/-- Modelled from the spec: `txn_begin_stmt(space)` (txn.cc is not under src/)
opens a statement on the space, with no tuples yet. -/
def txn_begin_stmt {τ : Type} (t : txn τ) (space : Nat) : txn τ :=
  { t with stmts := t.stmts ++ [{ space := space, old_tuple := none, new_tuple := none }] }

/-- `memtx_txn_add_undo(txn, old_tuple, new_tuple)`: the tuples of the current
statement, the last one of the list, are set. -/
def memtx_txn_add_undo {τ : Type} (t : txn τ) (old_tuple new_tuple : Option τ) : txn τ :=
  { t with stmts := match t.stmts.reverse with
      | [] => []
      | stmt :: before =>
        (({ stmt with old_tuple := old_tuple, new_tuple := new_tuple } : txn_stmt τ)
          :: before).reverse }

/-- The call `handler->replace(space, old_tuple, new_tuple, mode)` through the
function pointer. `memtx_replace_no_keys` raises in `index_find` (and returns
NULL if the space has a primary key after all); `memtx_replace_build_next`
panics when given an old tuple. -/
def handler_replace {σ τ : Type} [DecidableEq τ]
    (reserve : Nat → Except Exception Unit) (replace : index_replace_f σ τ)
    (buildNext : σ → τ → σ × Option Exception)
    (sp : space σ) (refs : τ → Nat) (old_tuple new_tuple : Option τ)
    (mode : dup_replace_mode) : Except Fatal (replace_result σ τ) :=
  match sp.handler.replace with
  | .memtx_replace_no_keys =>
    match index_find sp 0 with
    | .error e => .ok { space := sp, refs := refs, result := .error e }
    | .ok _ => .ok { space := sp, refs := refs, result := .ok none }
  | .memtx_replace_build_next =>
    match old_tuple, new_tuple, sp.index with
    | some _, _, _ =>
      .error (.panic "Failed to commit transaction when loading from snapshot")
    | none, none, _ => .error .null_pointer
    | none, some _, [] => .error .null_pointer
    | none, some t, pk :: rest =>
      match buildNext pk.impl t with
      | (s, some e) =>
        .ok { space := { sp with index := { pk with impl := s } :: rest },
              refs := refs, result := .error e }
      | (s, none) =>
        .ok { space := { sp with index := { pk with impl := s } :: rest },
              refs := tuple_ref refs t, result := .ok none }
  | .memtx_replace_primary_key =>
    memtx_replace_primary_key replace sp refs old_tuple new_tuple mode
  | .memtx_replace_all_keys =>
    .ok (memtx_replace_all_keys reserve replace sp refs old_tuple new_tuple mode)

/-- A request, after the tuples it names have been made or found:
`executeReplace` gets the new tuple and the mode `dup_replace_mode(type)`,
`executeDelete` the old tuple that `findByKey` found, `executeUpdate` that old
tuple and the updated one. -/
inductive request (τ : Type)
  | REPLACE (space : Nat) (new_tuple : τ) (mode : dup_replace_mode)
  | DELETE (space : Nat) (old_tuple : τ)
  | UPDATE (space : Nat) (old_tuple new_tuple : τ)

/-- The space of a request. -/
def request.space {τ : Type} : request τ → Nat
  | .REPLACE sp _ _ => sp
  | .DELETE sp _ => sp
  | .UPDATE sp _ _ => sp

/-- The arguments `(old_tuple, new_tuple, mode)` with which `executeReplace`,
`executeDelete` and `executeUpdate` call `this->replace`. -/
def request.replace_args {τ : Type} : request τ → Option τ × Option τ × dup_replace_mode
  | .REPLACE _ n m => (none, some n, m)
  | .DELETE _ o => (some o, none, .DUP_REPLACE_OR_INSERT)
  | .UPDATE _ o n => (some o, some n, .DUP_REPLACE)

/-- The old tuple that `executeReplace`, `executeDelete` and `executeUpdate` hand
to `memtx_txn_add_undo`: the old tuple that `replace` returned for
`executeReplace`, the old tuple of the request for the other two. -/
def request.undo_old_tuple {τ : Type} (req : request τ) (old_tuple' : Option τ) : Option τ :=
  match req with
  | .REPLACE _ _ _ => old_tuple'
  | .DELETE _ o => some o
  | .UPDATE _ o _ => some o

/-- One statement: `txn_begin_stmt`, then `MemtxSpace::executeReplace`,
`executeDelete` or `executeUpdate`: the call of `this->replace` and, when it
returns, `memtx_txn_add_undo` with the old tuple that `replace` returned
(`executeReplace`) or the old tuple of the request (the other two). An exception
leaves the statement without tuples. -/
def execute_stmt {σ τ : Type} [DecidableEq τ]
    (reserve : Nat → Except Exception Unit) (replace : index_replace_f σ τ)
    (buildNext : σ → τ → σ × Option Exception)
    (b : box σ τ) (t : txn τ) (req : request τ) :
    Except Fatal (box σ τ × txn τ × Option Exception) :=
  match b.spaces[req.space]? with
  | none => .error .null_pointer
  | some sp =>
    match handler_replace reserve replace buildNext sp b.refs req.replace_args.1
        req.replace_args.2.1 req.replace_args.2.2 with
    | .error f => .error f
    | .ok r =>
      let b' : box σ τ := { spaces := b.spaces.set req.space r.space, refs := r.refs }
      match r.result with
      | .error e => .ok (b', txn_begin_stmt t req.space, some e)
      | .ok old_tuple' =>
        .ok (b', memtx_txn_add_undo (txn_begin_stmt t req.space)
          (req.undo_old_tuple old_tuple') req.replace_args.2.1, none)

/-- The statements of a transaction one after the other, as long as none
raises. -/
def execute_stmts {σ τ : Type} [DecidableEq τ]
    (reserve : Nat → Except Exception Unit) (replace : index_replace_f σ τ)
    (buildNext : σ → τ → σ × Option Exception) :
    box σ τ → txn τ → List (request τ) → Except Fatal (box σ τ × txn τ × Option Exception)
  | b, t, [] => .ok (b, t, none)
  | b, t, req :: reqs =>
    match execute_stmt reserve replace buildNext b t req with
    | .error f => .error f
    | .ok (b', t', some e) => .ok (b', t', some e)
    | .ok (b', t', none) => execute_stmts reserve replace buildNext b' t' reqs

/-- Modelled from the spec: `trigger_create(trigger, run, data, destroy)`
(trigger.h is not under src/) sets the function and the data of the trigger
object. -/
def trigger_create (t : trigger) (run : trigger_f) (data : Nat) : trigger :=
  { t with run := run, data := data }

/-- `MemtxEngine::begin(txn)`; `f` are the trigger lists of the fiber that
runs. -/
def MemtxEngine.begin {τ : Type} (t : txn τ) (f : fiber_triggers) : txn τ × fiber_triggers :=
  if t.is_autocommit = false then
    let t1 : txn τ :=
      { t with fiber_on_yield := trigger_create t.fiber_on_yield .txn_on_yield_or_stop 0,
               fiber_on_stop := trigger_create t.fiber_on_stop .txn_on_yield_or_stop 0 }
    (t1, { on_yield := trigger_add f.on_yield t1.fiber_on_yield,
           on_stop := trigger_add f.on_stop t1.fiber_on_stop })
  else (t, f)

/-- `MemtxEngine::prepare(txn)`. -/
def MemtxEngine.prepare {τ : Type} (t : txn τ) (f : fiber_triggers) : fiber_triggers :=
  if t.is_autocommit then f
  else { on_yield := trigger_clear t.fiber_on_yield f.on_yield,
         on_stop := trigger_clear t.fiber_on_stop f.on_stop }

/-- The loop `for (int i = 0; i < index_count; i++)` of `rollbackStatement`, with
`cnt = index_count - i` iterations to go:
`space->index[i]->replace(stmt->new_tuple, stmt->old_tuple, DUP_INSERT)`. -/
def rollbackStatement_loop {σ τ : Type} (replace : index_replace_f σ τ)
    (new_tuple old_tuple : Option τ) :
    Nat → Nat → List (Index σ) → Except Fatal (List (Index σ) × Option Exception)
  | 0, _, l => .ok (l, none)
  | cnt + 1, i, l =>
    match index_call replace l i new_tuple old_tuple .DUP_INSERT with
    | none => .error .null_pointer
    | some (l', .error e) => .ok (l', some e)
    | some (l', .ok _) => rollbackStatement_loop replace new_tuple old_tuple cnt (i + 1) l'

/-- `MemtxEngine::rollbackStatement(txn, stmt)`: the spaces and reference counts,
the statement, and the exception that an index raised, if any. -/
def MemtxEngine.rollbackStatement {σ τ : Type} [DecidableEq τ]
    (replace : index_replace_f σ τ) (b : box σ τ) (stmt : txn_stmt τ) :
    Except Fatal (box σ τ × txn_stmt τ × Option Exception) :=
  if stmt.old_tuple.isNone ∧ stmt.new_tuple.isNone then .ok (b, stmt, none)
  else
    match b.spaces[stmt.space]? with
    | none => .error .null_pointer
    | some sp =>
      let index_count : Except Fatal Nat :=
        match sp.handler.replace with
        | .memtx_replace_all_keys => .ok sp.index_count
        | .memtx_replace_primary_key => .ok 1
        | _ => .error (.panic "transaction rolled back during snapshot recovery")
      match index_count with
      | .error f => .error f
      | .ok cnt =>
        match rollbackStatement_loop replace stmt.new_tuple stmt.old_tuple cnt 0 sp.index with
        | .error f => .error f
        | .ok (l, some e) =>
          .ok ({ b with spaces := b.spaces.set stmt.space { sp with index := l } }, stmt, some e)
        | .ok (l, none) =>
          .ok ({ spaces := b.spaces.set stmt.space { sp with index := l },
                 refs := tuple_unref_if b.refs stmt.new_tuple },
               { stmt with old_tuple := none, new_tuple := none }, none)

/-- The loop `stailq_foreach_entry(stmt, &txn->stmts, next)` of
`MemtxEngine::rollback`. -/
def rollback_stmts {σ τ : Type} [DecidableEq τ] (replace : index_replace_f σ τ) :
    box σ τ → List (txn_stmt τ) →
      Except Fatal (box σ τ × List (txn_stmt τ) × Option Exception)
  | b, [] => .ok (b, [], none)
  | b, stmt :: rest =>
    match MemtxEngine.rollbackStatement replace b stmt with
    | .error f => .error f
    | .ok (b', stmt', some e) => .ok (b', stmt' :: rest, some e)
    | .ok (b', stmt', none) =>
      match rollback_stmts replace b' rest with
      | .error f => .error f
      | .ok (b'', rest', e) => .ok (b'', stmt' :: rest', e)

/-- `MemtxEngine::rollback(txn)`: `prepare`, `stailq_reverse`, then
`rollbackStatement` on every statement. -/
def MemtxEngine.rollback {σ τ : Type} [DecidableEq τ] (replace : index_replace_f σ τ)
    (b : box σ τ) (f : fiber_triggers) (t : txn τ) :
    Except Fatal (box σ τ × fiber_triggers × txn τ × Option Exception) :=
  match rollback_stmts replace b t.stmts.reverse with
  | .error fatal => .error fatal
  | .ok (b', stmts', e) => .ok (b', MemtxEngine.prepare t f, { t with stmts := stmts' }, e)

/-- `MemtxEngine::commit(txn, signature)`, on the reference counts of the
tuples. -/
def MemtxEngine.commit {τ : Type} [DecidableEq τ] (refs : τ → Nat) (t : txn τ) : τ → Nat :=
  t.stmts.foldl (fun r stmt => tuple_unref_if r stmt.old_tuple) refs

/-! ## The data dictionary: tuples of the system spaces -/

/-- A field of a tuple of a system space: an unsigned number or a string. -/
inductive field
  | num (n : Nat)
  | str (s : String)
  deriving DecidableEq, Repr

/-- A tuple of a system space, the list of its fields. -/
abbrev tuple : Type := List field

/-- The `_space` columns. -/
def ID : Nat := 0
/-- Column `UID`. -/
def UID : Nat := 1
/-- Column `NAME`. -/
def NAME : Nat := 2
/-- Column `ENGINE`. -/
def ENGINE : Nat := 3
/-- Column `FIELD_COUNT`. -/
def FIELD_COUNT : Nat := 4
/-- Column `FLAGS`. -/
def FLAGS : Nat := 5
/-- The `_index` columns. -/
def INDEX_ID : Nat := 1
/-- Column `INDEX_TYPE`. -/
def INDEX_TYPE : Nat := 3
/-- Column `INDEX_IS_UNIQUE`. -/
def INDEX_IS_UNIQUE : Nat := 4
/-- Column `INDEX_PART_COUNT`. -/
def INDEX_PART_COUNT : Nat := 5

/-- Modelled from the spec: `tuple_field_count` (tuple.h is not under src/). -/
def tuple_field_count (t : tuple) : Nat := t.length

/-- Modelled from the spec: `tuple_field_u32(tuple, fieldno)` (tuple.h is not
under src/): the field as a 32-bit unsigned number, an exception when there is no
such field or it is something else. -/
def tuple_field_u32 (t : tuple) (fieldno : Nat) : Except Exception Nat :=
  match t[fieldno]? with
  | none => .error (.ClientError .ER_NO_SUCH_FIELD "")
  | some (.num n) =>
    if n < 2 ^ 32 then .ok n else .error (.ClientError .ER_FIELD_TYPE "")
  | some (.str _) => .error (.ClientError .ER_FIELD_TYPE "")

/-- Modelled from the spec: `tuple_field_cstr(tuple, fieldno)` (tuple.h is not
under src/): the field as a string. -/
def tuple_field_cstr (t : tuple) (fieldno : Nat) : Except Exception String :=
  match t[fieldno]? with
  | none => .error (.ClientError .ER_NO_SUCH_FIELD "")
  | some (.str s) => .ok s
  | some (.num _) => .error (.ClientError .ER_FIELD_TYPE "")

/-- The constants and functions of the schema that alter.cc uses and that are
declared in files not under src/: the reserved user ids, the band of the ids of
the system spaces, the current user `user()->uid`, the checks `space_def_check`
and `key_def_check`, the names of the field types (`STR2ENUM`), the comparisons
`key_part_cmp` and `key_def_cmp` of key_def.cc, `space_is_system` as a function
of the space id, and `schema_find_grants`. -/
structure schema_env where
  GUEST : Nat
  ADMIN : Nat
  PUBLIC : Nat
  SC_SYSTEM_ID_MIN : Nat
  SC_SYSTEM_ID_MAX : Nat
  current_uid : Nat
  space_def_check : space_def → Nat → Nat → box_error_code → Except Exception Unit
  key_def_check : key_def → Except Exception Unit
  str2field_type : String → field_type
  key_part_cmp : List key_part → List key_part → Int
  key_def_cmp : key_def → key_def → Int
  space_is_system : Nat → Bool
  schema_find_grants : String → Nat → Bool

/-- `access_check_ddl(owner_uid)`. -/
def access_check_ddl (env : schema_env) (owner_uid : Nat) : Except Exception Unit :=
  if owner_uid ≠ env.current_uid ∧ env.current_uid ≠ env.ADMIN then
    .error (.ClientError .ER_ACCESS_DENIED "Create or drop")
  else .ok ()

/-- Modelled from the spec: `STR2ENUM(index_type, type_str)`; the index types are
`HASH`, `TREE`, `RTREE`, `BITSET`, any other name gives `index_type_MAX`. -/
def str2index_type (s : String) : index_type :=
  if s = "HASH" then .HASH
  else if s = "TREE" then .TREE
  else if s = "BITSET" then .BITSET
  else if s = "RTREE" then .RTREE
  else .index_type_MAX

/-- The loop of `key_def_new_from_tuple` over the parts, which follow the part
count in the tuple: `tuple_next_u32`, `tuple_next_cstr`, `key_def_set_part`. -/
def key_def_parts_from_tuple (env : schema_env) (t : tuple) :
    Nat → Nat → Except Exception (List key_part)
  | 0, _ => .ok []
  | part_count + 1, pos =>
    match tuple_field_u32 t pos with
    | .error e => .error e
    | .ok fieldno =>
      match tuple_field_cstr t (pos + 1) with
      | .error e => .error e
      | .ok field_type_str =>
        match key_def_parts_from_tuple env t part_count (pos + 2) with
        | .error e => .error e
        | .ok rest =>
          .ok ({ fieldno := fieldno, type := env.str2field_type field_type_str } :: rest)

/-- `key_def_new_from_tuple(tuple)`. -/
def key_def_new_from_tuple (env : schema_env) (t : tuple) : Except Exception key_def :=
  match tuple_field_u32 t ID with
  | .error e => .error e
  | .ok id =>
  match tuple_field_u32 t INDEX_ID with
  | .error e => .error e
  | .ok index_id =>
  match tuple_field_cstr t INDEX_TYPE with
  | .error e => .error e
  | .ok type_str =>
  match tuple_field_u32 t INDEX_IS_UNIQUE with
  | .error e => .error e
  | .ok is_unique =>
  match tuple_field_u32 t INDEX_PART_COUNT with
  | .error e => .error e
  | .ok part_count =>
  match tuple_field_cstr t NAME with
  | .error e => .error e
  | .ok name =>
  match key_def_parts_from_tuple env t part_count (INDEX_PART_COUNT + 1) with
  | .error e => .error e
  | .ok parts =>
    let kd : key_def :=
      { space_id := id, iid := index_id, name := name, type := str2index_type type_str,
        is_unique := decide (is_unique > 0), parts := parts }
    match env.key_def_check kd with
    | .error e => .error e
    | .ok () => .ok kd

/-- `isspace` of the C locale. -/
def isspace (c : Char) : Bool :=
  c = ' ' ∨ c = '\t' ∨ c = '\n' ∨ c = '\x0b' ∨ c = '\x0c' ∨ c = '\r'

/-- `strchr(flags, ',')` followed by `flags++`: what follows the first comma, if
there is one. -/
def after_comma : List Char → Option (List Char)
  | [] => none
  | c :: cs => if c = ',' then some cs else after_comma cs

/-- The loop `while (flags && *flags)` of `space_def_init_flags`; every
iteration but the last drops a comma, so the length of the string bounds their
number. -/
def init_flags_loop : Nat → List Char → Bool → Bool
  | 0, _, temporary => temporary
  | fuel + 1, flags, temporary =>
    if flags.isEmpty then temporary
    else
      let flags1 := flags.dropWhile isspace
      let temporary1 := temporary || "temporary".toList.isPrefixOf flags1
      match after_comma flags1 with
      | none => temporary1
      | some rest => init_flags_loop fuel rest temporary1

/-- `space_def_init_flags(def, tuple)`. -/
def space_def_init_flags (d : space_def) (t : tuple) : Except Exception space_def :=
  if tuple_field_count t ≤ FLAGS then .ok { d with temporary := false }
  else
    match tuple_field_cstr t FLAGS with
    | .error e => .error e
    | .ok flags =>
      .ok { d with temporary := init_flags_loop (flags.length + 1) flags.toList false }

/-- `space_def_create_from_tuple(def, tuple, errcode)`. -/
def space_def_create_from_tuple (env : schema_env) (t : tuple) (errcode : box_error_code) :
    Except Exception space_def :=
  match tuple_field_u32 t ID with
  | .error e => .error e
  | .ok id =>
  match tuple_field_u32 t UID with
  | .error e => .error e
  | .ok uid =>
  match tuple_field_u32 t FIELD_COUNT with
  | .error e => .error e
  | .ok field_count =>
  match tuple_field_cstr t NAME with
  | .error e => .error e
  | .ok name =>
  match tuple_field_cstr t ENGINE with
  | .error e => .error e
  | .ok engine_name =>
  match space_def_init_flags
      { id := id, uid := uid, name := name, engine_name := engine_name,
        field_count := field_count, temporary := false } t with
  | .error e => .error e
  | .ok d =>
    match env.space_def_check d name.length engine_name.length errcode with
    | .error e => .error e
    | .ok () =>
      match access_check_ddl env d.uid with
      | .error e => .error e
      | .ok () => .ok d

/-! ## The alter-space planner -/

/-- The virtual methods and helpers of the indexes and of the engine that the
planner calls, none of them under src/: `Index::replace`, `beginBuild`,
`endBuild`, `index_build(index, pk)`, the index that `createIndex` makes for a
key definition, the tuples that the `ITER_ALL` iterator of an index returns,
`tuple_init_field_map` for the format of a space with the given keys, what can
make `space_new` raise, `space_size`, the engine a new space is bound to, and
`recovery->recover(space)`. -/
structure index_vtab (σ τ : Type) where
  replace : index_replace_f σ τ
  beginBuild : σ → σ
  endBuild : σ → σ
  index_build : σ → σ → Except Exception σ
  createIndex : key_def → σ
  tuples : σ → List τ
  tuple_init_field_map : List key_def → τ → Except Exception Unit
  space_new_check : space_def → List key_def → Except Exception Unit
  space_size : space σ → Nat
  engine : Nat
  recover : space σ → Except Exception (space σ)

/-- The `enum engine_recovery_state` of the engine recovery that alter.cc
reads. -/
inductive engine_recovery_state
  | READY_NO_KEYS
  | READY_PRIMARY_KEY
  | READY_ALL_KEYS
  deriving DecidableEq, Repr

/-- Modelled from the spec: `space->engine->recovery.state` (engine.h is not
under src/). The recovery of a space is its replace function: no keys,
the primary key only (while a snapshot or the WAL is read), or all keys. -/
def space.recovery_state {σ : Type} (sp : space σ) : engine_recovery_state :=
  match sp.handler.replace with
  | .memtx_replace_no_keys => .READY_NO_KEYS
  | .memtx_replace_build_next => .READY_PRIMARY_KEY
  | .memtx_replace_primary_key => .READY_PRIMARY_KEY
  | .memtx_replace_all_keys => .READY_ALL_KEYS

/-- The classes derived from `AlterSpaceOp`, with their fields. A pointer that
can be NULL is an `Option`. -/
inductive AlterSpaceOp
  | ModifySpace (def_ : space_def)
  | DropIndex (old_key_def : key_def)
  | ModifyIndex (new_key_def : Option key_def) (old_key_def : key_def)
  | AddIndex (new_key_def : Option key_def) (on_replace : Option trigger)
  deriving DecidableEq, Repr

/-- The `struct alter_space`: `old_space` is the pointer to the old space, the
id under which the space cache holds it. -/
structure alter_space (σ : Type) where
  ops : List AlterSpaceOp
  space_def : space_def
  key_list : List key_def
  old_space : Option Nat
  new_space : Option (space σ)

/-- A `struct space_def` in zeroed memory. -/
def space_def_zero : space_def :=
  { id := 0, uid := 0, name := "", engine_name := "", field_count := 0, temporary := false }

/-- `alter_space_new()`: the plan is zeroed memory with an empty list of ops. -/
def alter_space_new {σ : Type} : alter_space σ :=
  { ops := [], space_def := space_def_zero, key_list := [], old_space := none,
    new_space := none }

/-- What the triggers of alter.cc work on: the space cache, the transaction (the
event of the trigger), the alter plan that the trigger builds in the region of
the fiber and that the `data` of the alter triggers points to, and the next free
address of that region. -/
structure ddl_state (σ : Type) where
  cache : List (space σ)
  txn : txn tuple
  alter : alter_space σ
  next_ptr : Nat

/-- Modelled from the spec: `space_by_id(id)` (schema.cc is not under src/): the
space that the cache, a map from id to space, holds under the id. -/
def space_by_id {σ : Type} (cache : List (space σ)) (id : Nat) : Option (space σ) :=
  cache.find? (fun sp => sp.def_.id == id)

/-- Modelled from the spec: `space_cache_find(id)` (schema.cc is not under
src/), which raises `ER_NO_SUCH_SPACE` when there is no such space. -/
def space_cache_find {σ : Type} (cache : List (space σ)) (id : Nat) :
    Except Exception (space σ) :=
  match space_by_id cache id with
  | some sp => .ok sp
  | none => .error (.ClientError .ER_NO_SUCH_SPACE "")

/-- Modelled from the spec: `space_cache_delete(id)` (schema.cc is not under
src/) takes the space with the id out of the cache. -/
def space_cache_delete {σ : Type} (cache : List (space σ)) (id : Nat) : List (space σ) :=
  cache.filter (fun sp => sp.def_.id != id)

/-- Modelled from the spec: `space_cache_replace(space)` (schema.cc is not under
src/) puts the space into the cache under its id, in place of the space that
was there. -/
def space_cache_replace {σ : Type} (cache : List (space σ)) (sp : space σ) : List (space σ) :=
  if (space_by_id cache sp.def_.id).isSome then
    cache.map (fun old => if old.def_.id = sp.def_.id then sp else old)
  else cache ++ [sp]

/-- A write through the pointer to the space that the cache holds under `id`. -/
def space_cache_update {σ : Type} (cache : List (space σ)) (id : Nat)
    (f : space σ → space σ) : List (space σ) :=
  cache.map (fun sp => if sp.def_.id = id then f sp else sp)

/-- Modelled from the spec: `space_dump_def(space, key_list)` (space.cc is not
under src/): the key definitions of the indexes of the space. -/
def space_dump_def {σ : Type} (sp : space σ) : List key_def :=
  sp.index.map (fun i => i.key_def)

/-- Modelled from the spec: `space_new(def, key_list)` (space.cc is not under
src/): a new space for the definition, bound to the engine, with one empty index
for every key definition, ordered by iid, and no trigger. -/
def space_new {σ τ : Type} (V : index_vtab σ τ) (d : space_def) (key_list : List key_def) :
    Except Exception (space σ) :=
  match V.space_new_check d key_list with
  | .error e => .error e
  | .ok () =>
    .ok { def_ := d,
          index := (key_list.insertionSort (fun a b => a.iid ≤ b.iid)).map
            (fun kd => { key_def := kd, impl := V.createIndex kd }),
          handler := MemtxSpace.new V.engine,
          on_replace := [],
          access := fun _ => 0 }

/-- Modelled from the spec: `trigger_set(list, trigger)` (trigger.h is not under
src/) puts the trigger at the head of the list. -/
def trigger_set (l : List trigger) (t : trigger) : List trigger := t :: l

/-- `ModifySpace::prepare(alter)`; the old space is the one the plan points
to. -/
def ModifySpace.prepare {σ τ : Type} (V : index_vtab σ τ) (d : space_def)
    (old_space : space σ) : Except Exception Unit :=
  if d.id ≠ old_space.def_.id then
    .error (.ClientError .ER_ALTER_SPACE "space id is immutable")
  else if d.engine_name ≠ old_space.def_.engine_name then
    .error (.ClientError .ER_ALTER_SPACE "can not change space engine")
  else if d.field_count ≠ 0 ∧ d.field_count ≠ old_space.def_.field_count ∧
      old_space.recovery_state ≠ .READY_NO_KEYS ∧ V.space_size old_space > 0 then
    .error (.ClientError .ER_ALTER_SPACE "can not change field count on a non-empty space")
  else if d.temporary ≠ old_space.def_.temporary ∧
      old_space.recovery_state ≠ .READY_NO_KEYS ∧ V.space_size old_space > 0 then
    .error (.ClientError .ER_ALTER_SPACE
      "can not switch temporary flag on a non-empty space")
  else .ok ()

/-- The decision of `AddIndex::prepare`, given the op before this one in the list
(`rlist_prev_entry_safe`, NULL for the first op) and the new key definition:
`none` when the index has to be rebuilt; otherwise the `DropIndex` and the
`AddIndex` leave the list, and the result is the `ModifyIndex` that is added, if
any. -/
def AddIndex.merge (env : schema_env) (prev_op : Option AlterSpaceOp)
    (new_key_def : Option key_def) : Option (Option AlterSpaceOp) :=
  match prev_op, new_key_def with
  | some (.DropIndex old_key_def), some nkd =>
    if old_key_def.type ≠ nkd.type ∨ old_key_def.is_unique ≠ nkd.is_unique ∨
        env.key_part_cmp old_key_def.parts nkd.parts ≠ 0 then none
    else if env.key_def_cmp old_key_def nkd ≠ 0 then
      some (some (.ModifyIndex (some nkd) old_key_def))
    else some none
  | _, _ => none

/-- `AddIndex::prepare(alter)` for the `AddIndex` at position `i` of the list of
ops: the list after the call. `rlist_del_entry` takes the `DropIndex` and the
`AddIndex` out, `alter_space_add_op` adds the `ModifyIndex` to the tail. -/
def AddIndex.prepare (env : schema_env) (ops : List AlterSpaceOp) (i : Nat) :
    List AlterSpaceOp :=
  match ops[i]? with
  | some (.AddIndex new_key_def _) =>
    match AddIndex.merge env (if i = 0 then none else ops[i - 1]?) new_key_def with
    | none => ops
    | some modify => ((ops.eraseIdx i).eraseIdx (i - 1)) ++ modify.toList
  | _ => ops

/-- The loop `rlist_foreach_entry_safe(op, &alter->ops, link, tmp)
op->prepare(alter)` of `alter_space_do`: `done` are the ops before the current
one, `todo` the current one and those after it, `added` the `ModifyIndex` ops
that `AddIndex::prepare` has put at the tail, whose own `prepare` does nothing.
The result is the list of ops, with the exception of `ModifySpace::prepare` if
it raised. -/
def prepare_ops {σ τ : Type} (env : schema_env) (V : index_vtab σ τ) (old_space : space σ) :
    List AlterSpaceOp → List AlterSpaceOp → List AlterSpaceOp →
      List AlterSpaceOp × Option Exception
  | done, [], added => (done ++ added, none)
  | done, op :: rest, added =>
    match op with
    | .ModifySpace d =>
      match ModifySpace.prepare V d old_space with
      | .error e => (done ++ op :: rest ++ added, some e)
      | .ok () => prepare_ops env V old_space (done ++ [op]) rest added
    | .AddIndex new_key_def _ =>
      match AddIndex.merge env done.getLast? new_key_def with
      | none => prepare_ops env V old_space (done ++ [op]) rest added
      | some modify => prepare_ops env V old_space done.dropLast rest (added ++ modify.toList)
    | _ => prepare_ops env V old_space (done ++ [op]) rest added

/-- `rlist_del_entry(old_key_def, link)`: the key definition of the old index
leaves the list of the keys of the new space. -/
def key_list_del (key_list : List key_def) (old_key_def : key_def) : List key_def :=
  key_list.filter (fun kd => kd.iid != old_key_def.iid)

/-- The method `alter_def(alter)` of an op, on the definition and the list of keys
of the new space. -/
def AlterSpaceOp.alter_def {σ : Type} (op : AlterSpaceOp) (alter : alter_space σ) :
    alter_space σ :=
  match op with
  | .ModifySpace d => { alter with space_def := d }
  | .DropIndex old_key_def =>
    { alter with key_list := key_list_del alter.key_list old_key_def }
  | .ModifyIndex new_key_def old_key_def =>
    { alter with key_list := new_key_def.toList ++ key_list_del alter.key_list old_key_def }
  | .AddIndex new_key_def _ =>
    { alter with key_list := alter.key_list ++ new_key_def.toList }

/-- `DropIndex::alter(alter)`; `initRecovery()` puts the new space back on
`memtx_replace_no_keys`. -/
def DropIndex.alter {σ : Type} (env : schema_env) (st : ddl_state σ) :
    ddl_state σ × Option Exception :=
  match st.alter.new_space with
  | none => (st, none)
  | some new_space =>
    if (space_index new_space 0).isSome then (st, none)
    else if env.space_is_system new_space.def_.id then
      (st, some (.ClientError .ER_LAST_DROP ""))
    else if new_space.index_count ≠ 0 then
      (st, some (.ClientError .ER_DROP_PRIMARY_KEY ""))
    else
      ({ st with alter := { st.alter with
          new_space := some (MemtxEngine.dropPrimaryKey new_space) } }, none)

/-- The loop `while ((tuple = it->next(it)))` of `AddIndex::alter`: every tuple
of the primary key is checked against the new format and inserted into the new
index with `DUP_INSERT`. -/
def add_index_build {σ τ : Type} (V : index_vtab σ τ) (keys : List key_def) :
    σ → List τ → σ × Option Exception
  | s, [] => (s, none)
  | s, t :: ts =>
    match V.tuple_init_field_map keys t with
    | .error e => (s, some e)
    | .ok () =>
      match V.replace s none (some t) .DUP_INSERT with
      | (s', .error e) => (s', some e)
      | (s', .ok _) => add_index_build V keys s' ts

/-- The new space of the plan with the state of its index at position `p`
set. -/
def set_new_index {σ : Type} (st : ddl_state σ) (new_space : space σ) (p : Nat)
    (idx : Index σ) (s : σ) : ddl_state σ :=
  let new_space' : space σ :=
    { new_space with index := new_space.index.set p { idx with impl := s } }
  { st with alter := { st.alter with new_space := some new_space' } }

/-- `AddIndex::alter(alter)` for the `AddIndex` at position `i` of the list of
ops, with the new key definition `nkd`. -/
def AddIndex.alter {σ τ : Type} (V : index_vtab σ τ) (st : ddl_state σ) (i : Nat)
    (nkd : key_def) : ddl_state σ × Option Exception :=
  match st.alter.new_space, st.alter.old_space.bind (space_by_id st.cache) with
  | some new_space, some old_space =>
    if new_space.recovery_state = .READY_NO_KEYS then
      if nkd.iid = 0 then
        match V.recover new_space with
        | .error e => (st, some e)
        | .ok sp => ({ st with alter := { st.alter with new_space := some sp } }, none)
      else (st, none)
    else
      match index_find old_space 0 with
      | .error e => (st, some e)
      | .ok (_, pk) =>
        match index_find new_space nkd.iid with
        | .error e => (st, some e)
        | .ok (p, new_index) =>
          if new_space.recovery_state = .READY_PRIMARY_KEY then
            if nkd.iid = 0 then
              match V.index_build new_index.impl pk.impl with
              | .error e => (st, some e)
              | .ok s => (set_new_index st new_space p new_index s, none)
            else (st, none)
          else
            match add_index_build V (space_dump_def new_space)
                (V.endBuild (V.beginBuild new_index.impl)) (V.tuples pk.impl) with
            | (s, some e) => (set_new_index st new_space p new_index s, some e)
            | (s, none) =>
              let on_replace : trigger :=
                { ptr := st.next_ptr, run := .on_replace_in_old_space, data := nkd.iid }
              let st1 := set_new_index st new_space p new_index s
              ({ st1 with
                  cache := space_cache_update st.cache old_space.def_.id
                    (fun sp => { sp with on_replace := trigger_set sp.on_replace on_replace }),
                  alter := { st1.alter with
                    ops := st1.alter.ops.set i (.AddIndex (some nkd) (some on_replace)) },
                  next_ptr := st.next_ptr + 1 }, none)
  | _, _ => (st, none)

/-- The method `alter(alter)` of the op at position `i` of the list. -/
def AlterSpaceOp.alter {σ τ : Type} (env : schema_env) (V : index_vtab σ τ)
    (op : AlterSpaceOp) (i : Nat) (st : ddl_state σ) : ddl_state σ × Option Exception :=
  match op with
  | .ModifySpace _ => (st, none)
  | .DropIndex _ => DropIndex.alter env st
  | .ModifyIndex _ _ => (st, none)
  | .AddIndex (some nkd) _ => AddIndex.alter V st i nkd
  | .AddIndex none _ => (st, none)

/-- The loop `rlist_foreach_entry(op, &alter->ops, link) op->alter(alter)` of
`alter_space_do`, from the op at position `i` on. -/
def alter_ops {σ τ : Type} (env : schema_env) (V : index_vtab σ τ) :
    Nat → List AlterSpaceOp → ddl_state σ → ddl_state σ × Option Exception
  | _, [], st => (st, none)
  | i, op :: rest, st =>
    match op.alter env V i st with
    | (st', some e) => (st', some e)
    | (st', none) => alter_ops env V (i + 1) rest st'

/-- `txn_alter_trigger_new(run, alter)`: a trigger object at a fresh address of
the region. -/
def txn_alter_trigger_new (run : trigger_f) (ptr : Nat) : trigger :=
  { ptr := ptr, run := run, data := 0 }

/-- `alter_space_do(txn, alter, old_space)`. -/
def alter_space_do {σ τ : Type} (env : schema_env) (V : index_vtab σ τ)
    (st : ddl_state σ) (old_space : space σ) : ddl_state σ × Option Exception :=
  let alter1 : alter_space σ :=
    { st.alter with old_space := some old_space.def_.id,
                    space_def := old_space.def_,
                    key_list := space_dump_def old_space }
  match prepare_ops env V old_space [] alter1.ops [] with
  | (ops, some e) => ({ st with alter := { alter1 with ops := ops } }, some e)
  | (ops, none) =>
    let alter2 : alter_space σ := ops.foldl (fun a op => op.alter_def a) { alter1 with ops := ops }
    match space_new V alter2.space_def alter2.key_list with
    | .error e => ({ st with alter := alter2 }, some e)
    | .ok new_space =>
      let new_space1 : space σ :=
        { new_space with
            handler := { new_space.handler with replace := old_space.handler.replace },
            access := old_space.access }
      let alter3 : alter_space σ := { alter2 with new_space := some new_space1 }
      match alter_ops env V 0 ops { st with alter := alter3 } with
      | (st', some e) => (st', some e)
      | (st', none) =>
        ({ st' with
            txn := { st'.txn with
              on_commit := trigger_set st'.txn.on_commit
                (txn_alter_trigger_new .alter_space_commit st'.next_ptr),
              on_rollback := trigger_set st'.txn.on_rollback
                (txn_alter_trigger_new .alter_space_rollback (st'.next_ptr + 1)) },
            next_ptr := st'.next_ptr + 2 }, none)

/-- `AlterSpaceOp::destroy(op)`: the destructor of an `AddIndex` takes its
`on_replace` trigger out of the list it is in, whichever space that is. -/
def AlterSpaceOp.destroy {σ : Type} (cache : List (space σ)) : AlterSpaceOp → List (space σ)
  | .AddIndex _ (some on_replace) =>
    cache.map (fun sp => { sp with on_replace := trigger_clear on_replace sp.on_replace })
  | _ => cache

/-- `alter_space_delete(alter)`: the ops are destroyed one by one, the new space,
if any, is deleted. -/
def alter_space_delete {σ : Type} (st : ddl_state σ) : ddl_state σ :=
  { st with cache := st.alter.ops.foldl AlterSpaceOp.destroy st.cache,
            alter := { st.alter with ops := [], new_space := none } }

/-- `alter_space_rollback(trigger, event)`: the `rollback` of every op does
nothing, then the plan is deleted. -/
def alter_space_rollback {σ : Type} (st : ddl_state σ) : ddl_state σ :=
  alter_space_delete st

/-- The tuple `old_tuple ? old_tuple : new_tuple` of the event. -/
def txn.old_or_new {τ : Type} (t : txn τ) : Option τ :=
  match t.old_tuple with
  | some o => some o
  | none => t.new_tuple

/-- `on_drop_space(trigger, event)`. -/
def on_drop_space {σ : Type} (st : ddl_state σ) : Except Fatal (ddl_state σ × Option Exception) :=
  match st.txn.old_or_new with
  | none => .error .null_pointer
  | some t =>
    match tuple_field_u32 t ID with
    | .error e => .ok (st, some e)
    | .ok id =>
      match space_by_id st.cache id with
      | none => .error .null_pointer
      | some _ => .ok ({ st with cache := space_cache_delete st.cache id }, none)

/-- The static trigger `drop_space_trigger`. -/
def drop_space_trigger : trigger := { ptr := 0, run := .on_drop_space, data := 0 }

/-- `trigger_run(&txn->on_rollback, txn)` for the triggers that alter.cc puts on
the list. -/
def run_rollback_triggers {σ : Type} :
    List trigger → ddl_state σ → Except Fatal (ddl_state σ × Option Exception)
  | [], st => .ok (st, none)
  | t :: rest, st =>
    match t.run with
    | .alter_space_rollback => run_rollback_triggers rest (alter_space_rollback st)
    | .on_drop_space =>
      match on_drop_space st with
      | .error f => .error f
      | .ok (st', some e) => .ok (st', some e)
      | .ok (st', none) => run_rollback_triggers rest st'
    | _ => run_rollback_triggers rest st

/-- `on_replace_dd_space(trigger, event)`. -/
def on_replace_dd_space {σ τ : Type} (env : schema_env) (V : index_vtab σ τ)
    (st : ddl_state σ) : Except Fatal (ddl_state σ × Option Exception) :=
  match st.txn.old_or_new with
  | none => .error .null_pointer
  | some t =>
    match tuple_field_u32 t ID with
    | .error e => .ok (st, some e)
    | .ok old_id =>
      match st.txn.new_tuple, space_by_id st.cache old_id with
      | some new_tuple, none =>
        -- INSERT
        match space_def_create_from_tuple env new_tuple .ER_CREATE_SPACE with
        | .error e => .ok (st, some e)
        | .ok d =>
          match space_new V d [] with
          | .error e => .ok (st, some e)
          | .ok sp =>
            .ok ({ st with
                    cache := space_cache_replace st.cache sp,
                    txn := { st.txn with
                      on_rollback := trigger_set st.txn.on_rollback drop_space_trigger } },
                 none)
      | none, none => .error .null_pointer
      | none, some old_space =>
        -- DELETE
        match access_check_ddl env old_space.def_.uid with
        | .error e => .ok (st, some e)
        | .ok () =>
          if old_space.index_count ≠ 0 then
            .ok (st, some (.ClientError .ER_DROP_SPACE "the space has indexes"))
          else if env.schema_find_grants "space" old_space.def_.id then
            .ok (st, some (.ClientError .ER_DROP_SPACE "the space has grants"))
          else
            .ok ({ st with txn := { st.txn with
                    on_commit := trigger_set st.txn.on_commit drop_space_trigger } }, none)
      | some new_tuple, some old_space =>
        -- UPDATE, REPLACE; the scoped guard deletes the plan on any exception
        let st1 : ddl_state σ :=
          { st with alter := { (alter_space_new : alter_space σ) with
                                 ops := [.ModifySpace space_def_zero] } }
        match space_def_create_from_tuple env new_tuple .ER_ALTER_SPACE with
        | .error e => .ok (alter_space_delete st1, some e)
        | .ok d =>
          match alter_space_do env V
              { st1 with alter := { st1.alter with ops := [.ModifySpace d] } } old_space with
          | (st', some e) => .ok (alter_space_delete st', some e)
          | (st', none) => .ok (st', none)

/-- `on_replace_dd_index(trigger, event)`. -/
def on_replace_dd_index {σ τ : Type} (env : schema_env) (V : index_vtab σ τ)
    (st : ddl_state σ) : Except Fatal (ddl_state σ × Option Exception) :=
  match st.txn.old_or_new with
  | none => .error .null_pointer
  | some t =>
    match tuple_field_u32 t ID with
    | .error e => .ok (st, some e)
    | .ok id =>
    match tuple_field_u32 t INDEX_ID with
    | .error e => .ok (st, some e)
    | .ok iid =>
    match space_cache_find st.cache id with
    | .error e => .ok (st, some e)
    | .ok old_space =>
    match access_check_ddl env old_space.def_.uid with
    | .error e => .ok (st, some e)
    | .ok () =>
      -- alter_space_new(); the scoped guard deletes the plan on any exception
      let drop : List AlterSpaceOp :=
        match space_index old_space iid with
        | some old_index => [.DropIndex old_index.key_def]
        | none => []
      match st.txn.new_tuple with
      | none =>
        match alter_space_do env V
            { st with alter := { (alter_space_new : alter_space σ) with ops := drop } }
            old_space with
        | (st', some e) => .ok (alter_space_delete st', some e)
        | (st', none) => .ok (st', none)
      | some new_tuple =>
        match key_def_new_from_tuple env new_tuple with
        | .error e =>
          .ok (alter_space_delete
            { st with alter := { (alter_space_new : alter_space σ) with
                ops := drop ++ [.AddIndex none none] } }, some e)
        | .ok nkd =>
          match alter_space_do env V
              { st with alter := { (alter_space_new : alter_space σ) with
                  ops := drop ++ [.AddIndex (some nkd) none] } }
              old_space with
          | (st', some e) => .ok (alter_space_delete st', some e)
          | (st', none) => .ok (st', none)

/-! ## Cluster configuration (alter.cc) -/

/-- `tuple_field_uuid(tuple, fieldno)`; `tt_uuid_from_string` (tt_uuid.h is not
under src/) parses the string representation of a UUID, here a number, and gives
nothing when the string is not one. -/
def tuple_field_uuid (tt_uuid_from_string : String → Option Nat) (t : tuple) (fieldno : Nat) :
    Except Exception Nat :=
  match tuple_field_cstr t fieldno with
  | .error e => .error e
  | .ok value =>
    match tt_uuid_from_string value with
    | none => .error (.ClientError .ER_INVALID_UUID value)
    | some uuid => .ok uuid

/-- `on_replace_dd_schema(trigger, event)`: the global `cluster_id` after the
call and the exception that is raised, if any. -/
def on_replace_dd_schema (tt_uuid_from_string : String → Option Nat) (cluster_id : Nat)
    (t : txn tuple) : Except Fatal (Nat × Option Exception) :=
  match (match t.new_tuple with
         | some new_tuple => some new_tuple
         | none => t.old_tuple) with
  | none => .error .null_pointer
  | some tup =>
    match tuple_field_cstr tup 0 with
    | .error e => .ok (cluster_id, some e)
    | .ok key =>
      if key = "cluster" then
        match t.new_tuple with
        | none => .ok (cluster_id, some (.ClientError .ER_CLUSTER_ID_IS_RO ""))
        | some new_tuple =>
          match tuple_field_uuid tt_uuid_from_string new_tuple 1 with
          | .error e => .ok (cluster_id, some e)
          | .ok uu => .ok (uu, none)
      else .ok (cluster_id, none)

/-! ## The fiber runtime (fiber.c) -/

/-- Modelled from the spec: the flags of a fiber (fiber.h is not under src/),
`flags ∈ {CANCELLED, CANCELLABLE, JOINABLE, DEAD}`, one bit each. -/
structure fiber_flags where
  FIBER_IS_CANCELLABLE : Bool
  FIBER_IS_CANCELLED : Bool
  FIBER_IS_JOINABLE : Bool
  FIBER_IS_DEAD : Bool
  deriving DecidableEq, Repr

/-- The fields of `struct fiber` that fiber.c reads and writes. Pointers to
fibers are addresses; `f` is the function of the fiber or NULL, `diag` the last
error of the diagnostic area, `wake` the list of the fibers that wait in
`fiber_join` for this one, linked by their `state`. -/
structure fiber where
  fid : Nat
  flags : fiber_flags
  caller : Nat
  csw : Nat
  f : Option Nat
  name : String
  diag : Option Exception
  wake : List Nat
  on_yield : List trigger
  on_stop : List trigger

/-- The fields of `struct cord` that fiber.c reads and writes. `mem` is the
memory that holds the fibers, `sched` the address of `cord->sched`, `fiber` the
running fiber; `alive`, `ready` and `dead` are the lists of the cord, linked by
`link`, `state` and `link`; `wakeup_fed` counts the calls of `ev_feed_event` for
the wakeup event. -/
structure cord where
  mem : Nat → fiber
  sched : Nat
  fiber : Nat
  alive : List Nat
  ready : List Nat
  dead : List Nat
  fiber_registry : Nat → Option Nat
  max_fid : Nat
  wakeup_fed : Nat

/-- Modelled from the spec: `fiber_is_dead(f)` (fiber.h is not under src/). -/
def fiber_is_dead (f : fiber) : Bool := f.flags.FIBER_IS_DEAD

/-- Modelled from the spec: `rlist_del_entry` (salad/rlist.h is not under src/)
takes the entry out of the list it is in. -/
def rlist_del (l : List Nat) (x : Nat) : List Nat := l.filter (fun y => y != x)

/-- The write `cord->mem[p] = v`. -/
def cord_set (c : cord) (p : Nat) (v : fiber) : cord :=
  { c with mem := Function.update c.mem p v }

/-- `fiber_wakeup(f)`. The `state` of the fiber leaves the list it is in, the
ready list or the `wake` list of a fiber, and is put at the tail of the ready
list. -/
def fiber_wakeup (c : cord) (f : Nat) : cord :=
  { c with
    wakeup_fed := if c.ready.isEmpty then c.wakeup_fed + 1 else c.wakeup_fed,
    mem := fun p => { c.mem p with wake := rlist_del (c.mem p).wake f },
    ready := rlist_del c.ready f ++ [f] }

/-- `fiber_cancel(f)`. -/
def fiber_cancel (c : cord) (f : Nat) : cord :=
  let self := c.fiber
  let c1 := cord_set c f { c.mem f with flags := { (c.mem f).flags with FIBER_IS_CANCELLED := true } }
  if f ≠ self ∧ ¬ fiber_is_dead (c1.mem f) then
    if (c1.mem f).flags.FIBER_IS_CANCELLABLE then fiber_wakeup c1 f else c1
  else c1

/-- `fiber_set_cancellable(yesno)`: the new state and the previous value of the
flag. -/
def fiber_set_cancellable (c : cord) (yesno : Bool) : cord × Bool :=
  (cord_set c c.fiber { c.mem c.fiber with
      flags := { (c.mem c.fiber).flags with FIBER_IS_CANCELLABLE := yesno } },
    (c.mem c.fiber).flags.FIBER_IS_CANCELLABLE)

/-- `fiber_set_joinable(fiber, yesno)`. -/
def fiber_set_joinable (c : cord) (f : Nat) (yesno : Bool) : cord :=
  cord_set c f { c.mem f with flags := { (c.mem f).flags with FIBER_IS_JOINABLE := yesno } }

/-- `fiber_call_impl(callee)`: the callee becomes the running fiber, and the
coroutine is switched. -/
def fiber_call_impl (c : cord) (callee : Nat) : cord :=
  { c with fiber := callee,
           mem := Function.update c.mem callee
             { c.mem callee with csw := (c.mem callee).csw + 1 } }

/-- `fiber_call(callee)`. -/
def fiber_call (c : cord) (callee : Nat) : cord :=
  fiber_call_impl (cord_set c callee { c.mem callee with caller := c.fiber }) callee

/-- `fiber_yield()`; `trigger_run` (trigger.h is not under src/) runs the
triggers of a list. -/
def fiber_yield (trigger_run : List trigger → cord → cord) (c : cord) : cord :=
  let caller := c.fiber
  let callee := (c.mem caller).caller
  let c1 := cord_set c caller { c.mem caller with caller := c.sched }
  let c2 := if (c1.mem caller).on_yield.isEmpty then c1
            else trigger_run (c1.mem caller).on_yield c1
  -- coro_transfer
  { c2 with fiber := callee,
            mem := Function.update c2.mem callee
              { c2.mem callee with csw := (c2.mem callee).csw + 1 } }

/-- The loop `while (! rlist_empty(list))` of `fiber_schedule_list`. -/
def schedule_chain (mem : Nat → fiber) : Nat → List Nat → (Nat → fiber) × Nat
  | last, [] => (mem, last)
  | last, next :: rest =>
    schedule_chain (Function.update mem last { mem last with caller := next }) next rest

/-- `fiber_schedule_list(&cord->ready)`, which `fiber_schedule_wakeup` calls. On
an empty list the assertion fails. -/
def fiber_schedule_list (c : cord) : Except Fatal cord :=
  match c.ready with
  | [] => .error (.panic "assert(! rlist_empty(list))")
  | first :: rest =>
    let r := schedule_chain c.mem first rest
    let mem1 := Function.update r.1 r.2 { r.1 r.2 with caller := c.fiber }
    .ok (fiber_call_impl { c with mem := mem1, ready := [] } first)

/-- `register_fid(fiber)`: `mh_i32ptr_put` stores the fiber under its fid, in
place of what was there. -/
def register_fid (c : cord) (p : Nat) : cord :=
  { c with fiber_registry := Function.update c.fiber_registry (c.mem p).fid (some p) }

/-- `unregister_fid(fiber)`: `mh_i32ptr_remove` removes the entry of the fid of
the fiber. -/
def unregister_fid (c : cord) (p : Nat) : cord :=
  { c with fiber_registry := Function.update c.fiber_registry (c.mem p).fid none }

/-- `fiber_find(fid)`. -/
def fiber_find (c : cord) (fid : Nat) : Option Nat := c.fiber_registry fid

/-- `fiber_reset(fiber)`; `dflt` is `FIBER_DEFAULT_FLAGS` (fiber.h is not under
src/). -/
def fiber_reset (dflt : fiber_flags) (f : fiber) : fiber :=
  { f with on_yield := [], on_stop := [], flags := dflt }

/-- `fiber_recycle(fiber)`. `rlist_move_entry(&cord()->dead, fiber, link)` takes
the fiber out of the list its `link` is in and puts it at the head of the dead
list. -/
def fiber_recycle (dflt : fiber_flags) (c : cord) (p : Nat) : cord :=
  let c1 := cord_set c p { fiber_reset dflt (c.mem p) with name := "", f := none }
  let c2 := unregister_fid c1 p
  let c3 := cord_set c2 p { c2.mem p with fid := 0 }
  { c3 with alive := rlist_del c3.alive p, dead := p :: rlist_del c3.dead p }

/-- A `struct fiber` after `memset(fiber, 0, sizeof(struct fiber))`. -/
def fiber_zero : fiber :=
  { fid := 0,
    flags := { FIBER_IS_CANCELLABLE := false, FIBER_IS_CANCELLED := false,
               FIBER_IS_JOINABLE := false, FIBER_IS_DEAD := false },
    caller := 0, csw := 0, f := none, name := "", diag := none, wake := [],
    on_yield := [], on_stop := [] }

/-- The tail of `fiber_new`, from `fiber->f = f` on, for the fiber at `p`:
`max_fid` is a `uint32_t`. -/
def fiber_new_init (c : cord) (p : Nat) (name : String) (f : Nat) : cord :=
  let max_fid1 := (c.max_fid + 1) % 2 ^ 32
  let max_fid2 := if max_fid1 < 100 then 101 else max_fid1
  let c1 : cord := { c with max_fid := max_fid2 }
  register_fid (cord_set c1 p { c1.mem p with f := some f, fid := max_fid2, name := name }) p

/-- `fiber_new(name, f)`: the new state and the fiber, NULL if there is no
memory. `alloc` is what `mempool_alloc` returns when it is called, `coro_ok`
says whether `tarantool_coro_create` succeeds. -/
def fiber_new (dflt : fiber_flags) (alloc : Option Nat) (coro_ok : Bool) (c : cord)
    (name : String) (f : Nat) : cord × Option Nat :=
  match c.dead with
  | p :: _ =>
    (fiber_new_init { c with dead := rlist_del c.dead p, alive := p :: rlist_del c.alive p }
      p name f, some p)
  | [] =>
    match alloc with
    | none => (cord_set c c.fiber { c.mem c.fiber with diag := some .OutOfMemory }, none)
    | some p =>
      if coro_ok then
        (fiber_new_init { cord_set c p (fiber_reset dflt fiber_zero) with alive := p :: c.alive }
          p name f, some p)
      else (c, none)

/-- `cord_create(cord, name)`, the fields of the cord that fiber.c uses later;
`sched` is the address of `cord->sched`. -/
def cord_create (dflt : fiber_flags) (sched : Nat) : cord :=
  { mem := Function.update (fun _ => fiber_zero) sched
      { fiber_reset dflt fiber_zero with fid := 1, name := "sched" },
    sched := sched,
    fiber := sched,
    alive := [],
    ready := [],
    dead := [],
    fiber_registry := fun _ => none,
    max_fid := 100,
    wakeup_fed := 0 }

/-- Modelled from the spec: `diag_move(from, to)` (diag.h is not under src/)
moves the diagnostic of one area into the other and leaves the first empty. -/
def diag_move (c : cord) (src dst : Nat) : cord :=
  let d := (c.mem src).diag
  let c1 := cord_set c src { c.mem src with diag := none }
  cord_set c1 dst { c1.mem dst with diag := d }

/-- Modelled from the spec: `diag_clear(diag)` (diag.h is not under src/)
empties the diagnostic area. -/
def diag_clear (c : cord) (p : Nat) : cord :=
  cord_set c p { c.mem p with diag := none }

/-- The part of `fiber_join(fiber)` before the caller is suspended: if the fiber
is not dead, the caller is put on its `wake` list and yields. -/
def fiber_join_wait (trigger_run : List trigger → cord → cord) (c : cord) (f : Nat) : cord :=
  if fiber_is_dead (c.mem f) then c
  else fiber_yield trigger_run
    (cord_set c f { c.mem f with wake := (c.mem f).wake ++ [c.fiber] })

/-- The part of `fiber_join(fiber)` after `fiber_yield()` has returned. -/
def fiber_join_finish (dflt : fiber_flags) (c : cord) (f : Nat) : cord :=
  let fiber_was_cancelled := (c.mem f).flags.FIBER_IS_CANCELLED
  let c1 := diag_move c f c.fiber
  let c2 := if fiber_was_cancelled then diag_clear c1 c1.fiber else c1
  fiber_recycle dflt c2 f

/-- `fiber_join(fiber)`. When the fiber is not dead, the caller yields; `resumed`
is the state in which control comes back to the caller, as a function of the
state in which it left. -/
def fiber_join (dflt : fiber_flags) (trigger_run : List trigger → cord → cord)
    (resumed : cord → cord) (c : cord) (f : Nat) : cord :=
  if fiber_is_dead (c.mem f) then fiber_join_finish dflt c f
  else fiber_join_finish dflt (resumed (fiber_join_wait trigger_run c f)) f

/-- `txn_on_yield_or_stop(trigger, event)`: a call of `txn_rollback()` (txn.cc is
not under src/), which does not throw. -/
def txn_on_yield_or_stop (txn_rollback : cord → cord) (c : cord) : cord := txn_rollback c

/-- Modelled from the spec: `trigger_run(list, event)` (trigger.h is not under
src/) runs the triggers of the list one after the other; `other` stands for the
functions of the triggers that are not in the embedded code. -/
def fiber_trigger_run (txn_rollback : cord → cord) (other : trigger → cord → cord) :
    List trigger → cord → cord
  | [], c => c
  | t :: rest, c =>
    fiber_trigger_run txn_rollback other rest
      (match t.run with
        | .txn_on_yield_or_stop => txn_on_yield_or_stop txn_rollback c
        | _ => other t c)

/-- The trigger lists of a fiber. -/
def fiber.triggers (f : fiber) : fiber_triggers :=
  { on_yield := f.on_yield, on_stop := f.on_stop }

/-! ## The pool of index extents (memtx_engine.cc) -/

/-- The globals of the index arena: `memtx_index_reserved_extents`, the stack of
the reserved extents linked through their first word, with the top first;
`memtx_index_num_reserved_extents`, an `int`; and the state of the mempool
`memtx_index_extent_pool` (small/mempool.h is not under src/). -/
structure index_arena (ρ : Type) where
  memtx_index_reserved_extents : List Nat
  memtx_index_num_reserved_extents : Int
  memtx_index_extent_pool : ρ

/-- `memtx_index_arena_init()`, on a mempool that has just been created. -/
def memtx_index_arena_init {ρ : Type} (pool : ρ) : index_arena ρ :=
  { memtx_index_reserved_extents := [],
    memtx_index_num_reserved_extents := 0,
    memtx_index_extent_pool := pool }

/-- `memtx_index_extent_alloc()`: the new state and the extent, or the exception.
`mempool_alloc_xc` gives an extent and the new state of the mempool or raises
`OutOfMemory`; `errinj` says whether the error injection `ERRINJ_INDEX_ALLOC` is
armed. -/
def memtx_index_extent_alloc {ρ : Type} (mempool_alloc_xc : ρ → Except Exception (Nat × ρ))
    (errinj : Bool) (a : index_arena ρ) : index_arena ρ × Except Exception Nat :=
  match a.memtx_index_reserved_extents with
  | result :: next =>
    ({ a with memtx_index_num_reserved_extents := a.memtx_index_num_reserved_extents - 1,
              memtx_index_reserved_extents := next }, .ok result)
  | [] =>
    if errinj then (a, .error .OutOfMemory)
    else
      match mempool_alloc_xc a.memtx_index_extent_pool with
      | .error e => (a, .error e)
      | .ok (ext, pool) => ({ a with memtx_index_extent_pool := pool }, .ok ext)

/-- The loop `while (memtx_index_num_reserved_extents < num)` of
`memtx_index_extent_reserve`; every iteration that does not raise adds one to
the count, so `num - memtx_index_num_reserved_extents` bounds their number. -/
def extent_reserve_loop {ρ : Type} (mempool_alloc_xc : ρ → Except Exception (Nat × ρ))
    (num : Int) : Nat → index_arena ρ → index_arena ρ × Option Exception
  | 0, a => (a, none)
  | fuel + 1, a =>
    if a.memtx_index_num_reserved_extents < num then
      match mempool_alloc_xc a.memtx_index_extent_pool with
      | .error e => (a, some e)
      | .ok (ext, pool) =>
        extent_reserve_loop mempool_alloc_xc num fuel
          { memtx_index_reserved_extents := ext :: a.memtx_index_reserved_extents,
            memtx_index_num_reserved_extents := a.memtx_index_num_reserved_extents + 1,
            memtx_index_extent_pool := pool }
    else (a, none)

/-- `memtx_index_extent_reserve(num)`: the new state and the exception, if one is
raised. -/
def memtx_index_extent_reserve {ρ : Type}
    (mempool_alloc_xc : ρ → Except Exception (Nat × ρ)) (errinj : Bool) (num : Int)
    (a : index_arena ρ) : index_arena ρ × Option Exception :=
  if errinj then (a, some .OutOfMemory)
  else extent_reserve_loop mempool_alloc_xc num
    (num - a.memtx_index_num_reserved_extents).toNat a

/-! ## Users and privileges (alter.cc) -/

/-- Column `USER_TYPE` of `_user`. -/
def USER_TYPE : Nat := 3
/-- Column `AUTH_MECH_LIST` of `_user`. -/
def AUTH_MECH_LIST : Nat := 4
/-- Column `PRIV_OBJECT_TYPE` of `_priv`. -/
def PRIV_OBJECT_TYPE : Nat := 2
/-- Column `PRIV_OBJECT_ID` of `_priv`. -/
def PRIV_OBJECT_ID : Nat := 3
/-- Column `PRIV_ACCESS` of `_priv`. -/
def PRIV_ACCESS : Nat := 4

/-- Modelled from the spec: the `enum schema_object_type` (schema.h is not under
src/); the kinds of object a privilege can be on, and `SC_UNKNOWN`. -/
inductive schema_object_type
  | SC_UNKNOWN
  | SC_UNIVERSE
  | SC_SPACE
  | SC_FUNCTION
  | SC_USER
  | SC_ROLE
  deriving DecidableEq, Repr

/-- Modelled from the spec: the fields of `struct user` (user_def.h is not under
src/) that alter.cc reads and writes. -/
structure user where
  uid : Nat
  owner : Nat
  type : schema_object_type
  name : String
  hash2 : List Nat
  universal_access : Nat
  auth_token : Nat
  deriving DecidableEq, Repr

/-- Modelled from the spec: the fields of `struct func_def` (key_def.h is not
under src/) that the privilege code reads and writes. -/
structure func_def where
  fid : Nat
  uid : Nat
  access : Nat → Nat

/-- The `struct priv_def`. -/
structure priv_def where
  grantor_id : Nat
  grantee_id : Nat
  object_id : Nat
  object_type : schema_object_type
  access : Nat
  deriving DecidableEq, Repr

/-- The constants and functions that the access control part of alter.cc uses
and that are declared in files not under src/: the ids of the system spaces
`_space`, `_func` and `_priv`, `schema_object_type(name)`, `identifier_check`,
the size of the array `user->name`, `strlen` of a raw field, the msgpack decoding
of the authentication data by `user_fill_auth_data`, the slot that the user
cache hands to a new user, and whether `it->next(it)` of the `ITER_EQ` iterator
of an index, positioned at the key, returns a tuple. -/
structure access_env (σ : Type) where
  SC_SPACE_ID : Nat
  SC_FUNC_ID : Nat
  SC_PRIV_ID : Nat
  object_type_of_name : String → schema_object_type
  identifier_check : String → Except Exception Unit
  user_name_size : Nat
  strlen : field → Nat
  user_fill_auth_data : user → field → Except Exception user
  user_map_get_slot : List user → Nat
  iterator_eq_next : σ → Nat → Bool

/-- What the triggers of `_user` and `_priv` work on: the user cache, the
function cache, the space cache and the transaction (the event of the
trigger). -/
structure acl_state (σ : Type) where
  users : List user
  funcs : List func_def
  cache : List (space σ)
  txn : txn tuple

/-- Modelled from the spec: `user_cache_find(uid)` (user.h is not under src/):
the user that the cache, a map from uid to user, holds under the uid, NULL when
there is none. -/
def user_cache_find (users : List user) (uid : Nat) : Option user :=
  users.find? (fun u => u.uid == uid)

/-- Modelled from the spec: `user_cache_replace(user)` (user.h is not under
src/) puts the user into the cache under its uid; a user that was there keeps
its slot, a new one gets a free slot. -/
def user_cache_replace {σ : Type} (A : access_env σ) (users : List user) (u : user) :
    List user :=
  match user_cache_find users u.uid with
  | some old =>
    users.map (fun v => if v.uid = u.uid then { u with auth_token := old.auth_token } else v)
  | none => users ++ [{ u with auth_token := A.user_map_get_slot users }]

/-- Modelled from the spec: `user_cache_delete(uid)` (user.h is not under src/)
takes the user with the uid out of the cache. -/
def user_cache_delete (users : List user) (uid : Nat) : List user :=
  users.filter (fun u => u.uid != uid)

/-- A write through the pointer to the user that the cache holds under `uid`. -/
def user_cache_update (users : List user) (uid : Nat) (f : user → user) : List user :=
  users.map (fun u => if u.uid = uid then f u else u)

/-- Modelled from the spec: `func_by_id(fid)` (schema.h is not under src/). -/
def func_by_id (funcs : List func_def) (fid : Nat) : Option func_def :=
  funcs.find? (fun f => f.fid == fid)

/-- Modelled from the spec: `func_cache_find(fid)` (schema.h is not under src/),
which raises `ER_NO_SUCH_FUNCTION` when there is no such function. -/
def func_cache_find (funcs : List func_def) (fid : Nat) : Except Exception func_def :=
  match func_by_id funcs fid with
  | some f => .ok f
  | none => .error (.ClientError .ER_NO_SUCH_FUNCTION "")

/-- A write through the pointer to the function that the cache holds under
`fid`. -/
def func_cache_update (funcs : List func_def) (fid : Nat) (f : func_def → func_def) :
    List func_def :=
  funcs.map (fun g => if g.fid = fid then f g else g)

/-- `space_has_data(id, iid, uid)`. -/
def space_has_data {σ : Type} (A : access_env σ) (cache : List (space σ))
    (id iid uid : Nat) : Bool :=
  match space_by_id cache id with
  | none => false
  | some sp =>
    match space_index sp iid with
    | none => false
    | some index => A.iterator_eq_next index.impl uid

/-- `user_has_data(uid)`: the loop over `_space`, `_func` and `_priv` returns
true at the first of them that has a record of the user. -/
def user_has_data {σ : Type} (A : access_env σ) (cache : List (space σ)) (uid : Nat) : Bool :=
  [A.SC_SPACE_ID, A.SC_FUNC_ID, A.SC_PRIV_ID].any (fun id => space_has_data A cache id 1 uid)

/-- A `struct user` in zeroed memory. -/
def user_zero : user :=
  { uid := 0, owner := 0, type := .SC_UNKNOWN, name := "", hash2 := [],
    universal_access := 0, auth_token := 0 }

/-- `user_create_from_tuple(user, tuple)`. -/
def user_create_from_tuple {σ : Type} (env : schema_env) (A : access_env σ) (t : tuple) :
    Except Exception user :=
  match tuple_field_u32 t ID with
  | .error e => .error e
  | .ok uid =>
  match tuple_field_u32 t UID with
  | .error e => .error e
  | .ok owner =>
  match tuple_field_cstr t USER_TYPE with
  | .error e => .error e
  | .ok user_type =>
  match tuple_field_cstr t NAME with
  | .error e => .error e
  | .ok name =>
    let u : user :=
      { user_zero with uid := uid, owner := owner,
                       type := A.object_type_of_name user_type, name := name }
    if name.length ≥ A.user_name_size then
      .error (.ClientError .ER_CREATE_USER "user name is too long")
    else
      match A.identifier_check name with
      | .error e => .error e
      | .ok () =>
        match access_check_ddl env owner with
        | .error e => .error e
        | .ok () =>
          if tuple_field_count t > AUTH_MECH_LIST then
            match t[AUTH_MECH_LIST]? with
            | none => .ok u
            | some auth_data =>
              if u.type = .SC_ROLE ∧ A.strlen auth_data ≠ 0 then
                .error (.ClientError .ER_CREATE_USER
                  "authentication data can not be set for a role")
              else A.user_fill_auth_data u auth_data
          else .ok u

/-- The static trigger `drop_user_trigger`. -/
def drop_user_trigger : trigger := { ptr := 3, run := .user_cache_remove_user, data := 0 }

/-- The static trigger `modify_user_trigger`. -/
def modify_user_trigger : trigger := { ptr := 4, run := .user_cache_replace_user, data := 0 }

/-- `user_cache_remove_user(trigger, event)`. -/
def user_cache_remove_user {σ : Type} (st : acl_state σ) :
    Except Fatal (acl_state σ × Option Exception) :=
  match st.txn.old_or_new with
  | none => .error .null_pointer
  | some t =>
    match tuple_field_u32 t ID with
    | .error e => .ok (st, some e)
    | .ok uid => .ok ({ st with users := user_cache_delete st.users uid }, none)

/-- `user_cache_replace_user(trigger, event)`. -/
def user_cache_replace_user {σ : Type} (env : schema_env) (A : access_env σ)
    (st : acl_state σ) : Except Fatal (acl_state σ × Option Exception) :=
  match st.txn.new_tuple with
  | none => .error .null_pointer
  | some new_tuple =>
    match user_create_from_tuple env A new_tuple with
    | .error e => .ok (st, some e)
    | .ok u => .ok ({ st with users := user_cache_replace A st.users u }, none)

/-- `on_replace_dd_user(trigger, event)`. -/
def on_replace_dd_user {σ : Type} (env : schema_env) (A : access_env σ) (st : acl_state σ) :
    Except Fatal (acl_state σ × Option Exception) :=
  match st.txn.old_or_new with
  | none => .error .null_pointer
  | some t =>
    match tuple_field_u32 t ID with
    | .error e => .ok (st, some e)
    | .ok uid =>
      match st.txn.new_tuple, user_cache_find st.users uid with
      | some new_tuple, none =>
        -- INSERT
        match user_create_from_tuple env A new_tuple with
        | .error e => .ok (st, some e)
        | .ok u =>
          .ok ({ st with
                  users := user_cache_replace A st.users u,
                  txn := { st.txn with
                    on_rollback := trigger_set st.txn.on_rollback drop_user_trigger } },
               none)
      | none, none => .error .null_pointer
      | none, some old_user =>
        -- DELETE
        match access_check_ddl env old_user.owner with
        | .error e => .ok (st, some e)
        | .ok () =>
          if uid = env.GUEST ∨ uid = env.ADMIN ∨ uid = env.PUBLIC then
            .ok (st, some (.ClientError .ER_DROP_USER "the user is a system user"))
          else if user_has_data A st.cache uid then
            .ok (st, some (.ClientError .ER_DROP_USER "the user has objects"))
          else
            .ok ({ st with txn := { st.txn with
                    on_commit := trigger_set st.txn.on_commit drop_user_trigger } }, none)
      | some new_tuple, some _ =>
        -- UPDATE, REPLACE
        match user_create_from_tuple env A new_tuple with
        | .error e => .ok (st, some e)
        | .ok _ =>
          .ok ({ st with txn := { st.txn with
                  on_commit := trigger_set st.txn.on_commit modify_user_trigger } }, none)
/-- `priv_def_create_from_tuple(priv, tuple)`. -/
def priv_def_create_from_tuple {σ : Type} (A : access_env σ) (t : tuple) :
    Except Exception priv_def :=
  match tuple_field_u32 t ID with
  | .error e => .error e
  | .ok grantor_id =>
  match tuple_field_u32 t UID with
  | .error e => .error e
  | .ok grantee_id =>
  match tuple_field_cstr t PRIV_OBJECT_TYPE with
  | .error e => .error e
  | .ok object_type =>
  match tuple_field_u32 t PRIV_OBJECT_ID with
  | .error e => .error e
  | .ok object_id =>
    if A.object_type_of_name object_type = .SC_UNKNOWN then
      .error (.ClientError .ER_UNKNOWN_SCHEMA_OBJECT object_type)
    else
      match tuple_field_u32 t PRIV_ACCESS with
      | .error e => .error e
      | .ok access =>
        .ok { grantor_id := grantor_id, grantee_id := grantee_id, object_id := object_id,
              object_type := A.object_type_of_name object_type, access := access }

/-- `priv_def_check(priv)`. -/
def priv_def_check {σ : Type} (env : schema_env) (st : acl_state σ) (priv : priv_def) :
    Except Exception Unit :=
  match user_cache_find st.users priv.grantor_id with
  | none => .error (.ClientError .ER_NO_SUCH_USER "")
  | some grantor =>
    match user_cache_find st.users priv.grantee_id with
    | none => .error (.ClientError .ER_NO_SUCH_USER "")
    | some _ =>
      match access_check_ddl env grantor.uid with
      | .error e => .error e
      | .ok () =>
        match priv.object_type with
        | .SC_UNIVERSE =>
          if grantor.uid ≠ env.ADMIN then .error (.ClientError .ER_ACCESS_DENIED grantor.name)
          else .ok ()
        | .SC_SPACE =>
          match space_cache_find st.cache priv.object_id with
          | .error e => .error e
          | .ok sp =>
            if sp.def_.uid ≠ grantor.uid then
              .error (.ClientError .ER_ACCESS_DENIED grantor.name)
            else .ok ()
        | .SC_FUNCTION =>
          match func_cache_find st.funcs priv.object_id with
          | .error e => .error e
          | .ok func =>
            if func.uid ≠ grantor.uid then
              .error (.ClientError .ER_ACCESS_DENIED grantor.name)
            else .ok ()
        | _ => .ok ()

/-- `grant_or_revoke(priv)`. -/
def grant_or_revoke {σ : Type} (st : acl_state σ) (priv : priv_def) : acl_state σ :=
  match user_cache_find st.users priv.grantee_id with
  | none => st
  | some grantee =>
    match priv.object_type with
    | .SC_UNIVERSE =>
      { st with users := user_cache_update st.users priv.grantee_id
                  (fun u => { u with universal_access := priv.access }) }
    | .SC_SPACE =>
      match space_by_id st.cache priv.object_id with
      | none => st
      | some _ =>
        { st with cache := space_cache_update st.cache priv.object_id
                    (fun sp => { sp with
                      access := Function.update sp.access grantee.auth_token priv.access }) }
    | .SC_FUNCTION =>
      match func_by_id st.funcs priv.object_id with
      | none => st
      | some _ =>
        { st with funcs := func_cache_update st.funcs priv.object_id
                    (fun f => { f with
                      access := Function.update f.access grantee.auth_token priv.access }) }
    | _ => st

/-- `revoke_priv(trigger, event)`. -/
def revoke_priv {σ : Type} (A : access_env σ) (st : acl_state σ) :
    Except Fatal (acl_state σ × Option Exception) :=
  match (match st.txn.new_tuple with
         | some new_tuple => some new_tuple
         | none => st.txn.old_tuple) with
  | none => .error .null_pointer
  | some t =>
    match priv_def_create_from_tuple A t with
    | .error e => .ok (st, some e)
    | .ok priv => .ok (grant_or_revoke st { priv with access := 0 }, none)

/-- The static trigger `revoke_priv_trigger`. -/
def revoke_priv_trigger : trigger := { ptr := 5, run := .revoke_priv, data := 0 }

/-- `modify_priv(trigger, event)`. -/
def modify_priv {σ : Type} (A : access_env σ) (st : acl_state σ) :
    Except Fatal (acl_state σ × Option Exception) :=
  match st.txn.new_tuple with
  | none => .error .null_pointer
  | some new_tuple =>
    match priv_def_create_from_tuple A new_tuple with
    | .error e => .ok (st, some e)
    | .ok priv => .ok (grant_or_revoke st priv, none)

/-- The static trigger `modify_priv_trigger`. -/
def modify_priv_trigger : trigger := { ptr := 6, run := .modify_priv, data := 0 }

/-- `on_replace_dd_priv(trigger, event)`. -/
def on_replace_dd_priv {σ : Type} (env : schema_env) (A : access_env σ) (st : acl_state σ) :
    Except Fatal (acl_state σ × Option Exception) :=
  match st.txn.new_tuple, st.txn.old_tuple with
  | some new_tuple, none =>
    -- grant
    match priv_def_create_from_tuple A new_tuple with
    | .error e => .ok (st, some e)
    | .ok priv =>
      match priv_def_check env st priv with
      | .error e => .ok (st, some e)
      | .ok () =>
        let st1 := grant_or_revoke st priv
        .ok ({ st1 with txn := { st1.txn with
                on_rollback := trigger_set st1.txn.on_rollback revoke_priv_trigger } }, none)
  | none, none => .error .null_pointer
  | none, some old_tuple =>
    -- revoke
    match priv_def_create_from_tuple A old_tuple with
    | .error e => .ok (st, some e)
    | .ok priv =>
      match access_check_ddl env priv.grantor_id with
      | .error e => .ok (st, some e)
      | .ok () =>
        .ok ({ st with txn := { st.txn with
                on_commit := trigger_set st.txn.on_commit revoke_priv_trigger } }, none)
  | some new_tuple, some _ =>
    -- modify
    match priv_def_create_from_tuple A new_tuple with
    | .error e => .ok (st, some e)
    | .ok priv =>
      match priv_def_check env st priv with
      | .error e => .ok (st, some e)
      | .ok () =>
        .ok ({ st with txn := { st.txn with
                on_commit := trigger_set st.txn.on_commit modify_priv_trigger } }, none)

/-- The call `trigger->run(trigger, event)` for the static triggers of `_user`
and `_priv`; the other triggers do not touch the access control state. -/
def acl_trigger_run {σ : Type} (env : schema_env) (A : access_env σ) (t : trigger)
    (st : acl_state σ) : Except Fatal (acl_state σ × Option Exception) :=
  match t.run with
  | .user_cache_remove_user => user_cache_remove_user st
  | .user_cache_replace_user => user_cache_replace_user env A st
  | .revoke_priv => revoke_priv A st
  | .modify_priv => modify_priv A st
  | _ => .ok (st, none)

/-! ## Recovery from a snapshot (memtx_engine.cc) -/

/-- A `struct checkpoint_entry`: the space, here its id, and the iterator. -/
structure checkpoint_entry (ι : Type) where
  space : Nat
  iterator : ι

/-- The fields of `struct checkpoint` that `beginCheckpoint` sets; `entries` is
the list in the order of `rlist_add_tail_entry`. -/
structure checkpoint (ι : Type) where
  entries : List (checkpoint_entry ι)
  snap_io_rate_limit : Nat
  waiting_for_snap_thread : Bool

/-- What `checkpoint_add_space` calls and that is not under src/:
`space_is_memtx`, the allocation in the region of the fiber, which is given the
number of objects allocated before and can raise, and the methods of the primary
key `allocIterator`, `initIterator(it, ITER_ALL, NULL, 0)` and
`createReadViewForIterator(it)`, which give the index with its read view and the
iterator. -/
structure checkpoint_vtab (σ ι : Type) where
  space_is_memtx : space σ → Bool
  region_alloc_object_xc : Nat → Except Exception Unit
  createReadViewForIterator : σ → σ × ι

/-- Modelled from the spec: `space_is_temporary(space)` (space.h is not under
src/), the flag of the definition of the space. -/
def space_is_temporary {σ : Type} (sp : space σ) : Bool := sp.def_.temporary

/-- `checkpoint_init(ckpt, snap_dirname, snap_io_rate_limit)`. -/
def checkpoint_init {ι : Type} (snap_io_rate_limit : Nat) : checkpoint ι :=
  { entries := [], snap_io_rate_limit := snap_io_rate_limit, waiting_for_snap_thread := false }

/-- `checkpoint_add_space(sp, data)`: the space, whose primary key has got a
read view, and the checkpoint. -/
def checkpoint_add_space {σ ι : Type} (C : checkpoint_vtab σ ι) (sp : space σ)
    (data : checkpoint ι) : Except Exception (space σ × checkpoint ι) :=
  if space_is_temporary sp then .ok (sp, data)
  else if !C.space_is_memtx sp then .ok (sp, data)
  else
    match space_index sp 0 with
    | none => .ok (sp, data)
    | some pk =>
      match C.region_alloc_object_xc (data.entries.length + 1) with
      | .error ex => .error ex
      | .ok () =>
        .ok ({ sp with index := sp.index.map (fun i =>
                 if i.key_def.iid = 0 then
                   { i with impl := (C.createReadViewForIterator pk.impl).1 }
                 else i) },
             { data with entries := data.entries ++
                 [{ space := sp.def_.id,
                    iterator := (C.createReadViewForIterator pk.impl).2 }] })

/-- The call `space_foreach(checkpoint_add_space, m_checkpoint)`: as
`space_foreach` above, with the checkpoint as the data that the calls share. -/
def checkpoint_foreach {σ ι : Type} (C : checkpoint_vtab σ ι) :
    List (space σ) → checkpoint ι → List (space σ) × checkpoint ι × Option Exception
  | [], data => ([], data, none)
  | sp :: rest, data =>
    match checkpoint_add_space C sp data with
    | .error ex => (sp :: rest, data, some ex)
    | .ok (sp1, data1) =>
      let r := checkpoint_foreach C rest data1
      (sp1 :: r.1, r.2)

/-- `MemtxEngine::beginCheckpoint()`: the space cache, the checkpoint
`m_checkpoint`, the snapshot version that `tuple_begin_snapshot` (tuple.h is not
under src/) increments, and the exception, if an allocation raises. -/
def MemtxEngine.beginCheckpoint {σ ι : Type} (C : checkpoint_vtab σ ι)
    (m_snap_io_rate_limit snapshot_version : Nat) (cache : List (space σ)) :
    List (space σ) × Option (checkpoint ι) × Nat × Option Exception :=
  match C.region_alloc_object_xc 0 with
  | .error ex => (cache, none, snapshot_version, some ex)
  | .ok () =>
    match checkpoint_foreach C cache (checkpoint_init m_snap_io_rate_limit) with
    | (cache1, data, some ex) => (cache1, some data, snapshot_version, some ex)
    | (cache1, data, none) => (cache1, some data, snapshot_version + 1, none)

/-! ## Select (memtx_engine.cc) -/

/-- The values of the slot `cord->on_exit`: NULL, the sentinel
`CORD_ON_EXIT_WONT_RUN`, or the pointer to a `struct cord_on_exit` with its
callback and argument. -/
inductive cord_on_exit
  | NULL
  | CORD_ON_EXIT_WONT_RUN
  | handler (callback : Nat) (argument : Nat)
  deriving DecidableEq, Repr

/-- Modelled from the spec: `pm_atomic_compare_exchange_strong(obj, expected,
desired)` (pm_atomic.h is not under src/), one indivisible step: when the object
holds the expected value it gets the desired one and the result is true,
otherwise the expected value becomes what the object holds and the result is
false. The result is the object, the flag and the expected value. -/
def pm_atomic_compare_exchange_strong (obj expected desired : cord_on_exit) :
    cord_on_exit × Bool × cord_on_exit :=
  if obj = expected then (desired, true, expected) else (obj, false, obj)

/-- The end of `cord_thread_func`, after `f(arg)` has returned: the slot
`cord()->on_exit` after the compare-exchange and the calls
`handler->callback(handler->argument)` that the thread makes. The callback of the
sentinel is NULL. -/
def cord_thread_func_exit (on_exit : cord_on_exit) :
    Except Fatal (cord_on_exit × List (Nat × Nat)) :=
  let r := pm_atomic_compare_exchange_strong on_exit .NULL .CORD_ON_EXIT_WONT_RUN
  if !r.2.1 then
    match r.2.2 with
    | .handler callback argument => .ok (r.1, [(callback, argument)])
    | _ => .error .null_pointer
  else .ok (r.1, [])

/-- `cord_cojoin(cord)` up to the point where the caller either waits or goes on
to `cord_join`: the cord of the caller, the slot `cord->on_exit` of the joined
cord, and whether the caller has yielded. `callback` is the address of
`cord_cojoin_on_exit`, `ctx` the address of the context on the stack of the
caller. The caller that has installed its handler makes itself non-cancellable
and yields; the other one goes on to `ev_async_stop` and `cord_join`. -/
def cord_cojoin_begin (trigger_run : List trigger → cord → cord) (c : cord)
    (on_exit : cord_on_exit) (callback ctx : Nat) : cord × cord_on_exit × Bool :=
  let r := pm_atomic_compare_exchange_strong on_exit .NULL (.handler callback ctx)
  if !r.2.1 then (c, r.1, false)
  else (fiber_yield trigger_run (fiber_set_cancellable c false).1, r.1, true)

/-- `cord_cojoin(cord)` from the point where the waiting caller runs again:
`task_complete` is the flag of the context, `cancellable` what
`fiber_set_cancellable(false)` returned before the wait. -/
def cord_cojoin_resume (c : cord) (task_complete cancellable : Bool) : Except Fatal cord :=
  if task_complete = false then .error (.panic "Wrong fiber woken")
  else .ok (fiber_set_cancellable c cancellable).1

/-- `cord_cojoin_wakeup(loop, ev, revents)`, which the event loop of the caller
runs after `cord_cojoin_on_exit` has sent the async event: the flag
`task_complete` of the context and the cord with the waiting fiber woken. -/
def cord_cojoin_wakeup (c : cord) (ctx_fiber : Nat) : cord × Bool :=
  (fiber_wakeup c ctx_fiber, true)

/-! ## Writing the rows of a snapshot (memtx_engine.cc) -/

/-- The largest 64-bit unsigned number. -/
def UINT64_MAX : Nat := 2 ^ 64 - 1

/-- The clock of the event loop and the sleep, none of them under src/, for a
type `T` of time stamps (`ev_tstamp`): `ev_now_update`, `ev_now`, the test
`last == 0`, the test `elapsed < 1` for `elapsed = ev_now(loop) - last`, given the
time and `last`, and `usleep((1 - elapsed) * 1000000)`, given the same. -/
structure clock_vtab (κ T : Type) where
  ev_now_update : κ → κ
  ev_now : κ → T
  is_zero : T → Bool
  elapsed_lt_one : T → T → Bool
  usleep : T → T → κ → κ

/-- What `checkpoint_write_row` reads and writes: its static variables `bytes`
(a 64-bit unsigned number) and `last`, the counter `l->rows` of the log, the
clock of the event loop, and the numbers of calls of `fdatasync` and of
`fiber_gc`. -/
structure snap_writer (κ T : Type) where
  bytes : Nat
  last : T
  rows : Nat
  clock : κ
  fdatasyncs : Nat
  gcs : Nat

/-- The loop `while (bytes > snap_io_rate_limit)` of `checkpoint_write_row`, with
fuel for the number of iterations: nothing when the fuel runs out before the
loop ends. -/
def throttle_loop {κ T : Type} (K : clock_vtab κ T) (snap_io_rate_limit : Nat) :
    Nat → snap_writer κ T → Option (snap_writer κ T)
  | 0, w => if w.bytes > snap_io_rate_limit then none else some w
  | fuel + 1, w =>
    if w.bytes > snap_io_rate_limit then
      let c1 := K.ev_now_update w.clock
      let c2 := if K.elapsed_lt_one (K.ev_now c1) w.last then
                  K.usleep (K.ev_now c1) w.last c1 else c1
      let c3 := K.ev_now_update c2
      throttle_loop K snap_io_rate_limit fuel
        { w with clock := c3, last := K.ev_now c3,
                 bytes := (w.bytes + 2 ^ 64 - snap_io_rate_limit) % 2 ^ 64 }
    else some w

/-- `checkpoint_write_row(l, row, snap_io_rate_limit)`, with fuel for the
throttling loop; `written` is what `xlog_write_row` (xlog.h) returns for the
row. -/
def checkpoint_write_row {κ T : Type} (K : clock_vtab κ T) (fuel : Nat)
    (w : snap_writer κ T) (written : Int) (snap_io_rate_limit : Nat) :
    Option (snap_writer κ T × Option Exception) :=
  let w1 := { w with rows := w.rows + 1 }
  if written < 0 then some (w1, some (.SystemError "Can't write snapshot row"))
  else
    let w2 := { w1 with bytes := (w1.bytes + written.toNat) % 2 ^ 64,
                        gcs := if written ≠ 0 then w1.gcs + 1 else w1.gcs }
    let w3 :=
      if snap_io_rate_limit ≠ UINT64_MAX then
        let w4 := if K.is_zero w2.last then
                    { w2 with clock := K.ev_now_update w2.clock,
                              last := K.ev_now (K.ev_now_update w2.clock) }
                  else w2
        if w4.bytes > snap_io_rate_limit then { w4 with fdatasyncs := w4.fdatasyncs + 1 }
        else w4
      else w2
    (throttle_loop K snap_io_rate_limit fuel w3).map (fun w5 => (w5, none))

/-! ## A unique index as a key-to-tuple map -/

/-- Modelled from the spec: a unique index (memtx_tree.cc and memtx_hash.cc are
not under src/) as a map from the key to the tuple that has it. A tuple is the
list of its fields, its key is the field `fieldno`; `wf` says that every tuple is
stored under its own key. -/
structure MemtxIndex where
  fieldno : Nat
  map : Nat → Option (List Nat)
  wf : ∀ k t, map k = some t → t.getD fieldno 0 = k

/-- The key of a tuple in the index. -/
def MemtxIndex.key (s : MemtxIndex) (t : List Nat) : Nat := t.getD s.fieldno 0

/-- The index without tuples. -/
def MemtxIndex.empty (fieldno : Nat) : MemtxIndex :=
  { fieldno := fieldno, map := fun _ => none, wf := fun _ _ h => by simp at h }

/-- The tuple is stored under its key, in place of the tuple that was there. -/
def MemtxIndex.insert (s : MemtxIndex) (t : List Nat) : MemtxIndex :=
  { fieldno := s.fieldno,
    map := fun k => if k = s.key t then some t else s.map k,
    wf := by
      intro k u h
      by_cases hk : k = s.key t
      · simp only [hk, if_true, Option.some.injEq] at h
        rw [← h, hk]
        rfl
      · simp only [hk, if_false] at h
        exact s.wf k u h }

/-- The key of the tuple is freed. -/
def MemtxIndex.erase (s : MemtxIndex) (t : List Nat) : MemtxIndex :=
  { fieldno := s.fieldno,
    map := fun k => if k = s.key t then none else s.map k,
    wf := by
      intro k u h
      by_cases hk : k = s.key t
      · simp [hk] at h
      · simp only [hk, if_false] at h
        exact s.wf k u h }

/-- Modelled from the spec: `Index::replace` of a unique index. With a new
tuple, the tuple that has its key is the duplicate: it is an error
(`ER_TUPLE_FOUND`) when it is not the old tuple and an old tuple is given or the
mode is `DUP_INSERT`, otherwise the new tuple takes its place and it is
returned. Without a duplicate, `DUP_REPLACE` with no old tuple is an error
(`ER_TUPLE_NOT_FOUND`). An old tuple that is given has to be found and deleted,
or an error is raised. A replace that raises leaves the index as it was. -/
def MemtxIndex.replace (s : MemtxIndex) (old_tuple new_tuple : Option (List Nat))
    (mode : dup_replace_mode) : MemtxIndex × Except Exception (Option (List Nat)) :=
  match new_tuple with
  | some n =>
    match s.map (s.key n) with
    | some dup =>
      if some dup ≠ old_tuple ∧ (old_tuple.isSome ∨ mode = .DUP_INSERT) then
        (s, .error (.ClientError .ER_TUPLE_FOUND "Duplicate key exists in unique index"))
      else (s.insert n, .ok (some dup))
    | none =>
      match old_tuple with
      | some o =>
        if s.map (s.key o) = some o then ((s.erase o).insert n, .ok (some o))
        else (s, .error (.ClientError .ER_TUPLE_NOT_FOUND "Tuple doesn't exist in index"))
      | none =>
        if mode = .DUP_REPLACE then
          (s, .error (.ClientError .ER_TUPLE_NOT_FOUND "Tuple doesn't exist in index"))
        else (s.insert n, .ok none)
  | none =>
    match old_tuple with
    | some o =>
      if s.map (s.key o) = some o then (s.erase o, .ok (some o))
      else (s, .error (.ClientError .ER_TUPLE_NOT_FOUND "Tuple doesn't exist in index"))
    | none => (s, .ok none)

/-- The old tuple that the replace on the primary key returns, with which
`memtx_replace_all_keys` goes on to the secondary keys. -/
def all_keys_old_tuple {σ τ : Type} (replace : index_replace_f σ τ)
    (old_tuple new_tuple : Option τ) (mode : dup_replace_mode)
    (l : List (Index σ)) : Option τ :=
  match l with
  | [] => none
  | pk :: _ =>
    match (replace pk.impl old_tuple new_tuple mode).2 with
    | .ok r => r
    | .error _ => none

/-- The replace that `memtx_replace_all_keys` calls on `index[j]`, here the index
`idx`: with the mode of the request on the primary key, with `DUP_INSERT` and the
old tuple of the primary key on a secondary key. -/
def all_keys_call {σ τ : Type} (replace : index_replace_f σ τ)
    (old_tuple new_tuple : Option τ) (mode : dup_replace_mode)
    (l : List (Index σ)) (j : Nat) (idx : Index σ) : σ × Except Exception (Option τ) :=
  if j = 0 then replace idx.impl old_tuple new_tuple mode
  else replace idx.impl (all_keys_old_tuple replace old_tuple new_tuple mode l)
    new_tuple .DUP_INSERT

/-- The replace on `index[k]` is the first to raise, and raises `e`. -/
def all_keys_first_failure {σ τ : Type} (replace : index_replace_f σ τ)
    (old_tuple new_tuple : Option τ) (mode : dup_replace_mode)
    (l : List (Index σ)) (k : Nat) (e : Exception) : Prop :=
  (∀ j idx, j < k → l[j]? = some idx →
    ∃ r, (all_keys_call replace old_tuple new_tuple mode l j idx).2 = .ok r) ∧
  ∃ idx, l[k]? = some idx ∧
    (all_keys_call replace old_tuple new_tuple mode l k idx).2 = .error e

/-- The indexes after the replace on `index[k]` has raised and the inverse
replace `(new_tuple, old_tuple, DUP_INSERT)` has been applied to exactly
`index[k-1], ..., index[0]`: the inverse replace on the state that the replace
left for `j < k`, the state that the failed replace left for `j = k`, the index
as it was for `j > k`. -/
def all_keys_undone {σ τ : Type} (replace : index_replace_f σ τ)
    (old_tuple new_tuple : Option τ) (mode : dup_replace_mode)
    (k : Nat) (l : List (Index σ)) : List (Index σ) :=
  l.enum.map (fun x =>
    if x.1 < k then
      { x.2 with impl :=
          (replace (all_keys_call replace old_tuple new_tuple mode l x.1 x.2).1 new_tuple
            (all_keys_old_tuple replace old_tuple new_tuple mode l) .DUP_INSERT).1 }
    else if x.1 = k then
      { x.2 with impl := (all_keys_call replace old_tuple new_tuple mode l x.1 x.2).1 }
    else x.2)

/-- A unique TREE index of the space 512 on one field, holding the given
tuples. -/
def example_index (iid fieldno : Nat) (tuples : List (List Nat)) : Index MemtxIndex :=
  { key_def := { space_id := 512, iid := iid, name := "i", type := .TREE,
                 is_unique := true,
                 parts := [{ fieldno := fieldno, type := .FIELD_TYPE_UNSIGNED }] },
    impl := tuples.foldl MemtxIndex.insert (MemtxIndex.empty fieldno) }

/-- The space 512 with a primary key on field 0 and a unique secondary key on
field 1, holding the tuples `[1, 10]` and `[2, 20]`, with all keys enabled. -/
def example_space : space MemtxIndex :=
  { def_ := { id := 512, uid := 1, name := "t", engine_name := "memtx",
              field_count := 0, temporary := false },
    index := [example_index 0 0 [[1, 10], [2, 20]], example_index 1 1 [[1, 10], [2, 20]]],
    handler := { engine := 1, replace := .memtx_replace_all_keys },
    on_replace := [],
    access := fun _ => 0 }

/-- The indexes `l` are such that the inverse replace
`(new_tuple, old_tuple, DUP_INSERT)` on each of them gives back the index of
`l0` at the same place. -/
def undone_by {σ τ : Type} (replace : index_replace_f σ τ) (new_tuple old_tuple : Option τ)
    (l0 l : List (Index σ)) : Prop :=
  l.length = l0.length ∧
  ∀ j, j < l0.length → ∃ a b r, l0[j]? = some a ∧ l[j]? = some b ∧
    b.key_def = a.key_def ∧ replace b.impl new_tuple old_tuple .DUP_INSERT = (a.impl, .ok r)

/-- The spaces of the engine: the space 512 alone, no tuple referenced yet. -/
def example_box : box MemtxIndex (List Nat) :=
  { spaces := [example_space], refs := fun _ => 0 }

/-- A transaction that has not begun a statement. -/
def example_txn : txn (List Nat) :=
  { stmts := [], is_autocommit := false,
    fiber_on_yield := { ptr := 1, run := .other, data := 0 },
    fiber_on_stop := { ptr := 2, run := .other, data := 0 },
    on_commit := [], on_rollback := [], old_tuple := none, new_tuple := none }

/-- Three statements on the space 512: the insertion of `[3, 30]`, the deletion
of `[1, 10]` and the update of `[2, 20]` to `[2, 10]`. -/
def example_requests : List (request (List Nat)) :=
  [.REPLACE 0 [3, 30] .DUP_INSERT, .DELETE 0 [1, 10], .UPDATE 0 [2, 20] [2, 10]]

/-- The spaces and reference counts after the three statements. -/
def example_box_after : box MemtxIndex (List Nat) :=
  match execute_stmts (fun _ => .ok ()) MemtxIndex.replace (fun s _ => (s, none))
      example_box example_txn example_requests with
  | .ok (b, _, _) => b
  | .error _ => example_box

/-- The transaction after the three statements. -/
def example_txn_after : txn (List Nat) :=
  match execute_stmts (fun _ => .ok ()) MemtxIndex.replace (fun s _ => (s, none))
      example_box example_txn example_requests with
  | .ok (_, t, _) => t
  | .error _ => example_txn

/-- A schema for the examples: the reserved user ids 0, 1, 2, the system spaces
in the band 257 .. 510, the admin as the current user, no check that raises, and
key definitions that compare equal only when they are the same. -/
def example_env : schema_env :=
  { GUEST := 0, ADMIN := 1, PUBLIC := 2,
    SC_SYSTEM_ID_MIN := 256, SC_SYSTEM_ID_MAX := 511,
    current_uid := 1,
    space_def_check := fun _ _ _ _ => .ok (),
    key_def_check := fun _ => .ok (),
    str2field_type := fun s => if s = "NUM" then .FIELD_TYPE_UNSIGNED else .FIELD_TYPE_STRING,
    key_part_cmp := fun a b => if a = b then 0 else 1,
    key_def_cmp := fun a b => if a = b then 0 else 1,
    space_is_system := fun id => decide (256 < id ∧ id < 511),
    schema_find_grants := fun _ _ => false }

/-- Indexes for the examples: an index is the list of its tuples, unique on the
first field; a replace takes the old tuple out and puts the new one in, and
raises on a duplicate of the first field. -/
def example_vtab : index_vtab (List (List Nat)) (List Nat) :=
  { replace := fun s o n _ =>
      match n with
      | some t =>
        if (s.filter (fun u => some u ≠ o)).any (fun u => u.head? == t.head?) then
          (s, .error (.ClientError .ER_TUPLE_FOUND "Duplicate key exists in unique index"))
        else (t :: s.filter (fun u => some u ≠ o), .ok o)
      | none => (s.filter (fun u => some u ≠ o), .ok o),
    beginBuild := fun s => s,
    endBuild := fun s => s,
    index_build := fun _ pk => .ok pk,
    createIndex := fun _ => [],
    tuples := fun s => s,
    tuple_init_field_map := fun _ _ => .ok (),
    space_new_check := fun _ _ => .ok (),
    space_size := fun sp => match sp.index with
      | [] => 0
      | pk :: _ => pk.impl.length,
    engine := 1,
    recover := fun sp => .ok sp }

/-- A TREE key definition on one unsigned field. -/
def example_key_def (space_id iid fieldno : Nat) (name : String) : key_def :=
  { space_id := space_id, iid := iid, name := name, type := .TREE, is_unique := true,
    parts := [{ fieldno := fieldno, type := .FIELD_TYPE_UNSIGNED }] }

/-- A space with a primary key on field 0 and a secondary key on field 1, with
all keys enabled, holding the given tuples. -/
def example_two_key_space (id : Nat) (tuples : List (List Nat)) : space (List (List Nat)) :=
  { def_ := { id := id, uid := 1, name := "t", engine_name := "memtx", field_count := 0,
              temporary := false },
    index := [{ key_def := example_key_def id 0 0 "primary", impl := tuples },
              { key_def := example_key_def id 1 1 "secondary", impl := tuples }],
    handler := { engine := 1, replace := .memtx_replace_all_keys },
    on_replace := [],
    access := fun _ => 0 }

/-- The state of a trigger of a system space for the examples: the cache with the
data dictionary space 280 and the user space 512, a transaction with the tuples
of the event and no trigger, an empty plan. -/
def example_ddl_state (old_tuple new_tuple : Option tuple) : ddl_state (List (List Nat)) :=
  { cache := [example_two_key_space 280 [], example_two_key_space 512 [[1, 10], [2, 10]]],
    txn := { stmts := [], is_autocommit := true,
             fiber_on_yield := { ptr := 1, run := .other, data := 0 },
             fiber_on_stop := { ptr := 2, run := .other, data := 0 },
             on_commit := [], on_rollback := [],
             old_tuple := old_tuple, new_tuple := new_tuple },
    alter := alter_space_new,
    next_ptr := 100 }

/-- The error code of the exception that left a function, if it is a
`ClientError`. -/
def raised_code : Option Exception → Option box_error_code
  | some (.ClientError c _) => some c
  | _ => none

/-- The `on_replace` trigger of an op, which only an `AddIndex` has, once its
`alter` has installed it. -/
def op_trigger : AlterSpaceOp → Option trigger
  | .AddIndex _ (some t) => some t
  | _ => none

/-- The `on_replace` triggers of the ops of a plan. -/
def op_triggers (ops : List AlterSpaceOp) : List trigger := ops.filterMap op_trigger

/-- The space without the triggers of `on_replace` whose address is in the
list. -/
def strip_triggers {σ : Type} (ptrs : List Nat) (sp : space σ) : space σ :=
  { sp with on_replace := sp.on_replace.filter (fun x => !ptrs.contains x.ptr) }

/-- The space without the triggers of `on_replace` at an address from `n` on. -/
def strip_from {σ : Type} (n : Nat) (sp : space σ) : space σ :=
  { sp with on_replace := sp.on_replace.filter (fun x => decide (x.ptr < n)) }

/-- The entries of the space cache, the trigger lists of the spaces apart: the
map from id to space. -/
def cache_entries {σ : Type} (cache : List (space σ)) : List (space σ) :=
  cache.map (fun sp => { sp with on_replace := [] })

/-- The invariant of the alter phase of `alter_space_do`, started with the cache
`cache0`, the transaction `txn0` and the next free address `n0`: the transaction
is untouched, the cache is `cache0` up to triggers at addresses from `n0` on, and
these triggers are exactly those that the ops of the plan hold. -/
structure alter_inv {σ : Type} (cache0 : List (space σ)) (txn0 : txn tuple) (n0 : Nat)
    (st : ddl_state σ) : Prop where
  txn_eq : st.txn = txn0
  ptr_le : n0 ≤ st.next_ptr
  cache_eq : st.cache.map (strip_from n0) = cache0
  ops_fresh : ∀ t ∈ op_triggers st.alter.ops, n0 ≤ t.ptr ∧ t.ptr < st.next_ptr
  cache_fresh : ∀ sp ∈ st.cache, ∀ t ∈ sp.on_replace, n0 ≤ t.ptr → t ∈ op_triggers st.alter.ops

/-- A call of `alter_space_do` on a new plan with the given ops, under the scoped
guard of the caller, which deletes the plan when an exception leaves the
call. -/
def guarded_alter {σ τ : Type} (env : schema_env) (V : index_vtab σ τ) (st : ddl_state σ)
    (ops : List AlterSpaceOp) (old_space : space σ) :
    Except Fatal (ddl_state σ × Option Exception) :=
  match alter_space_do env V
      { st with alter := { (alter_space_new : alter_space σ) with ops := ops } } old_space with
  | (st', some e) => .ok (alter_space_delete st', some e)
  | (st', none) => .ok (st', none)

/-- The ops that `on_replace_dd_index` puts into a new plan. -/
def index_ops {σ : Type} (old_index : Option (Index σ)) (add : List AlterSpaceOp) :
    List AlterSpaceOp :=
  (match old_index with
    | some i => [AlterSpaceOp.DropIndex i.key_def]
    | none => []) ++ add

/-- The tuple of `_index` for a third index of the space 512, a unique TREE index
on field 1. -/
def example_index_tuple : tuple :=
  [.num 512, .num 2, .str "third", .str "TREE", .num 1, .num 1, .num 1, .str "NUM"]

/-- A plan on the space 512 that builds a third index and then drops the primary
key, which the secondary key forbids. -/
def example_failing_plan : ddl_state (List (List Nat)) :=
  { example_ddl_state none none with
    alter := { (alter_space_new : alter_space (List (List Nat))) with
                 ops := [.AddIndex (some (example_key_def 512 2 1 "third")) none,
                         .DropIndex (example_key_def 512 0 0 "primary")] } }

/-- The calls `fiber_wakeup(f)` for the fibers of a list, one after the other. -/
def wakeups (c : cord) (fs : List Nat) : cord := fs.foldl fiber_wakeup c

/-- The fiber is in the list exactly once. -/
def once_in (a : Nat) (l : List Nat) : Prop :=
  ∃ l₁ l₂, l = l₁ ++ a :: l₂ ∧ a ∉ l₁ ∧ a ∉ l₂

/-- The fibers `a` and `b` are in the list exactly once each, `a` before `b`. -/
def precedes (a b : Nat) (l : List Nat) : Prop :=
  ∃ l₁ l₂ l₃, l = l₁ ++ a :: l₂ ++ b :: l₃ ∧
    (a ∉ l₁ ∧ a ∉ l₂ ∧ a ∉ l₃) ∧ (b ∉ l₁ ∧ b ∉ l₂ ∧ b ∉ l₃)

/-- The running fiber calls `fiber_yield()`, `k` times in a row. -/
def yields (trigger_run : List trigger → cord → cord) : Nat → cord → cord
  | 0, c => c
  | k + 1, c => yields trigger_run k (fiber_yield trigger_run c)

/-- Flags for the examples: a fiber is cancellable by default. -/
def example_flags : fiber_flags :=
  { FIBER_IS_CANCELLABLE := true, FIBER_IS_CANCELLED := false,
    FIBER_IS_JOINABLE := false, FIBER_IS_DEAD := false }

/-- A cord for the examples, with the scheduler at address 0, after
`fiber_wakeup` of the fibers at 5, 7 and 5 again. -/
def example_cord : cord := wakeups (cord_create example_flags 0) [5, 7, 5]

/-- One call of a function of fiber.c that changes the cord, `fiber_new` apart.
`fiber_recycle` is called on a fiber of the alive list, by `fiber_loop` when the
function of a fiber that is not joinable has returned, or by `fiber_join`, whose
part after the yield is `fiber_join_finish`. -/
inductive cord_step (dflt : fiber_flags) : cord → cord → Prop
  | recycle (c : cord) (p : Nat) (hp : p ∈ c.alive) : cord_step dflt c (fiber_recycle dflt c p)
  | join (c : cord) (p : Nat) (hp : p ∈ c.alive) :
      cord_step dflt c (fiber_join_finish dflt c p)
  | wakeup (c : cord) (p : Nat) : cord_step dflt c (fiber_wakeup c p)
  | cancel (c : cord) (p : Nat) : cord_step dflt c (fiber_cancel c p)
  | set_cancellable (c : cord) (yesno : Bool) :
      cord_step dflt c (fiber_set_cancellable c yesno).1
  | set_joinable (c : cord) (p : Nat) (yesno : Bool) :
      cord_step dflt c (fiber_set_joinable c p yesno)

/-- The states of a cord that are reached from `cord_create` by calls of the
functions of fiber.c, with the number of the calls of `fiber_new`. The allocator
gives `fiber_new`, if it asks, memory that no fiber of the cord occupies. -/
inductive cord_reachable (dflt : fiber_flags) (sched : Nat) : Nat → cord → Prop
  | create : cord_reachable dflt sched 0 (cord_create dflt sched)
  | new (n : Nat) (c : cord) (alloc : Option Nat) (coro_ok : Bool) (name : String) (f : Nat)
      (hc : cord_reachable dflt sched n c)
      (halloc : ∀ p, alloc = some p → p ∉ c.alive ∧ p ∉ c.dead ∧ p ≠ c.sched) :
      cord_reachable dflt sched (n + 1) (fiber_new dflt alloc coro_ok c name f).1
  | step (n : Nat) (c c' : cord) (hc : cord_reachable dflt sched n c)
      (hs : cord_step dflt c c') : cord_reachable dflt sched n c'

/-- The invariant of the fiber ids of a cord: the counter `max_fid` is a 32-bit
number that is at least 100, the scheduler has the fid 1 and is on no list, and
the fibers of the alive list have fids above 100. -/
structure fid_inv (c : cord) : Prop where
  max_fid_ge : 100 ≤ c.max_fid
  max_fid_lt : c.max_fid < 2 ^ 32
  sched_fid : (c.mem c.sched).fid = 1
  sched_alive : c.sched ∉ c.alive
  sched_dead : c.sched ∉ c.dead
  alive_fid : ∀ p ∈ c.alive, 100 < (c.mem p).fid

/-- No two fibers of the alive list have the same fid. -/
def fids_unique (c : cord) : Prop :=
  ∀ p ∈ c.alive, ∀ q ∈ c.alive, (c.mem p).fid = (c.mem q).fid → p = q

/-- A fiber is created, taken from the dead list at address 2, runs to its end
and is recycled, `k` times in a row. -/
def churn (dflt : fiber_flags) : Nat → cord → cord
  | 0, c => c
  | k + 1, c => churn dflt k (fiber_recycle dflt (fiber_new dflt none true c "" 0).1 2)

/-- A cord with the scheduler at address 0 and a long-lived fiber at address 1,
the first one created; a second fiber at address 2 has been created and
recycled. -/
def example_cord_two : cord :=
  fiber_recycle example_flags
    (fiber_new example_flags (some 2) true
      (fiber_new example_flags (some 1) true (cord_create example_flags 0) "a" 0).1 "b" 0).1 2

/-- A cord with the scheduler at address 0, running, and a joinable fiber at
address 5 that has died with an error in its diagnostic area and waits to be
joined. -/
def example_dead_cord : cord :=
  { cord_set (cord_create example_flags 0) 5
      { fiber_zero with
        fid := 101,
        flags := { FIBER_IS_CANCELLABLE := true, FIBER_IS_CANCELLED := false,
                   FIBER_IS_JOINABLE := true, FIBER_IS_DEAD := true },
        diag := some (.IllegalParams "error of the fiber") } with
    alive := [5],
    fiber_registry := Function.update (fun _ => none) 101 (some 5),
    max_fid := 101 }

/-- The calls of `memtx_index_extent_alloc()`, `k` in a row: the state after them
and what each call returned. -/
def extent_allocs {ρ : Type} (mempool_alloc_xc : ρ → Except Exception (Nat × ρ))
    (errinj : Bool) : Nat → index_arena ρ → index_arena ρ × List (Except Exception Nat)
  | 0, a => (a, [])
  | k + 1, a =>
    ((extent_allocs mempool_alloc_xc errinj k
        (memtx_index_extent_alloc mempool_alloc_xc errinj a).1).1,
      (memtx_index_extent_alloc mempool_alloc_xc errinj a).2 ::
        (extent_allocs mempool_alloc_xc errinj k
          (memtx_index_extent_alloc mempool_alloc_xc errinj a).1).2)

/-- The count of the reserved extents is the length of their stack. -/
def arena_inv {ρ : Type} (a : index_arena ρ) : Prop :=
  a.memtx_index_num_reserved_extents = (a.memtx_index_reserved_extents.length : Int)

/-- A mempool for the examples: the state is the number of extents that are
left, an extent is named by that number. -/
def example_mempool (n : Nat) : Except Exception (Nat × Nat) :=
  match n with
  | 0 => .error .OutOfMemory
  | k + 1 => .ok (k + 1, k)

/-- A parser of UUIDs for the examples: the strings "a" and "b" are the UUIDs 1
and 2. -/
def example_uuid_from_string (s : String) : Option Nat :=
  if s = "a" then some 1 else if s = "b" then some 2 else none

/-- The event of a trigger of `_schema`, with the old and the new tuple. -/
def example_schema_txn (old_tuple new_tuple : Option tuple) : txn tuple :=
  { stmts := [], is_autocommit := true,
    fiber_on_yield := { ptr := 1, run := .other, data := 0 },
    fiber_on_stop := { ptr := 2, run := .other, data := 0 },
    on_commit := [], on_rollback := [],
    old_tuple := old_tuple, new_tuple := new_tuple }

/-- The access control environment of the examples: the system spaces `_space`,
`_func` and `_priv` have the ids 280, 296 and 312, no check raises, and an index
has a record of a user when one of its tuples starts with the uid. -/
def example_access_env : access_env (List (List Nat)) :=
  { SC_SPACE_ID := 280, SC_FUNC_ID := 296, SC_PRIV_ID := 312,
    object_type_of_name := fun s =>
      if s = "universe" then .SC_UNIVERSE
      else if s = "space" then .SC_SPACE
      else if s = "function" then .SC_FUNCTION
      else if s = "user" then .SC_USER
      else if s = "role" then .SC_ROLE
      else .SC_UNKNOWN,
    identifier_check := fun _ => .ok (),
    user_name_size := 32,
    strlen := fun f => match f with
      | .str s => s.length
      | .num _ => 1,
    user_fill_auth_data := fun u _ => .ok u,
    user_map_get_slot := fun users => users.length,
    iterator_eq_next := fun index uid => index.any (fun t => t.head? == some uid) }

/-- The users of the examples: the system users guest, admin and public, and
the user bob with the uid 5, all created by the admin. -/
def example_users : List user :=
  [{ user_zero with uid := 0, owner := 1, type := .SC_USER, name := "guest", auth_token := 0 },
   { user_zero with uid := 1, owner := 1, type := .SC_USER, name := "admin", auth_token := 1,
                    universal_access := 7 },
   { user_zero with uid := 2, owner := 1, type := .SC_ROLE, name := "public", auth_token := 2 },
   { user_zero with uid := 5, owner := 1, type := .SC_USER, name := "bob", auth_token := 3 }]

/-- The access control state of the examples: the users above, no function, the
user space 512, and the transaction of the event. -/
def example_acl_state (old_tuple new_tuple : Option tuple) : acl_state (List (List Nat)) :=
  { users := example_users,
    funcs := [],
    cache := [example_two_key_space 512 [[1, 10], [2, 10]]],
    txn := example_schema_txn old_tuple new_tuple }

/-- The access bits of the grantee of a privilege on its object, as the caches
hold them: `universal_access` of the grantee, `space->access[token]` or
`func->access[token]`; nothing when the grantee or the object is not in the
cache or the object is of another type. -/
def access_bits {σ : Type} (st : acl_state σ) (priv : priv_def) : Option Nat :=
  match user_cache_find st.users priv.grantee_id with
  | none => none
  | some grantee =>
    match priv.object_type with
    | .SC_UNIVERSE => some grantee.universal_access
    | .SC_SPACE =>
      (space_by_id st.cache priv.object_id).map (fun sp => sp.access grantee.auth_token)
    | .SC_FUNCTION =>
      (func_by_id st.funcs priv.object_id).map (fun f => f.access grantee.auth_token)
    | _ => none

/-- A grant that is rolled back: `on_replace_dd_priv`, then the rollback trigger
at the head of `txn->on_rollback`; the state after the first and after the
second, when neither raises. -/
def grant_and_rollback {σ : Type} (env : schema_env) (A : access_env σ) (st : acl_state σ) :
    Option (acl_state σ × acl_state σ) :=
  match on_replace_dd_priv env A st with
  | .ok (st1, none) =>
    match st1.txn.on_rollback with
    | t :: _ =>
      match acl_trigger_run env A t st1 with
      | .ok (st2, none) => some (st1, st2)
      | _ => none
    | [] => none
  | _ => none

/-- The entry that `beginCheckpoint` makes for a space: one with the read view
iterator of the primary key for a memtx space that is not temporary and has a
primary key, none for any other space. -/
def checkpoint_entry_of {σ ι : Type} (C : checkpoint_vtab σ ι) (sp : space σ) :
    Option (checkpoint_entry ι) :=
  if sp.def_.temporary = false ∧ C.space_is_memtx sp = true then
    (space_index sp 0).map (fun pk =>
      { space := sp.def_.id, iterator := (C.createReadViewForIterator pk.impl).2 })
  else none

/-- The checkpoints of the examples: the memtx engine is the engine 1, no
allocation fails, and the read view of an index is the list of its tuples. -/
def example_checkpoint_vtab : checkpoint_vtab (List (List Nat)) (List (List Nat)) :=
  { space_is_memtx := fun sp => sp.handler.engine == 1,
    region_alloc_object_xc := fun _ => .ok (),
    createReadViewForIterator := fun s => (s, s) }

/-- A memtx space that is not temporary and has no index yet. -/
def example_keyless_space : space (List (List Nat)) :=
  { def_ := { id := 513, uid := 1, name := "k", engine_name := "memtx", field_count := 0,
              temporary := false },
    index := [],
    handler := MemtxSpace.new 1,
    on_replace := [],
    access := fun _ => 0 }

/-- A user space without a primary key and with two secondary keys, on the
fields 0 and 1: the state that adding two secondary indexes to a new space
leaves. -/
def example_secondary_only_space : space (List (List Nat)) :=
  { def_ := { id := 512, uid := 1, name := "t", engine_name := "memtx", field_count := 0,
              temporary := false },
    index := [{ key_def := example_key_def 512 1 0 "first", impl := [] },
              { key_def := example_key_def 512 2 1 "second", impl := [] }],
    handler := MemtxSpace.new 1,
    on_replace := [],
    access := fun _ => 0 }

/-- A clock for the examples: the time is a number of seconds, every update of
the clock adds one second, and a sleep adds nothing. -/
def example_clock : clock_vtab Nat Nat :=
  { ev_now_update := fun c => c + 1,
    ev_now := fun c => c,
    is_zero := fun t => t == 0,
    elapsed_lt_one := fun now last => decide (now < last + 1),
    usleep := fun _ _ c => c }

/-- The state of the writer of the examples: 700 bytes written in the current
window, nothing else done. -/
def example_snap_writer : snap_writer Nat Nat :=
  { bytes := 700, last := 5, rows := 0, clock := 5, fdatasyncs := 0, gcs := 0 }

theorem keydefCheck_parts_ok (ps : List key_part) :
    keydefCheck_parts ps = .ok () ↔ ∀ p ∈ ps, p.type ≠ field_type.FIELD_TYPE_ARRAY := by
  induction ps with
  | nil => simp [keydefCheck_parts]
  | cons p ps ih =>
    by_cases h : p.type = field_type.FIELD_TYPE_ARRAY
    · simp [keydefCheck_parts, h]
    · simp [keydefCheck_parts, h, ih]

theorem keydefCheck_parts_code (ps : List key_part)
    (h : keydefCheck_parts ps ≠ .ok ()) :
    client_error_code (keydefCheck_parts ps) = some .ER_MODIFY_INDEX := by
  induction ps with
  | nil => simp [keydefCheck_parts] at h
  | cons p ps ih =>
    by_cases hp : p.type = field_type.FIELD_TYPE_ARRAY
    · simp [keydefCheck_parts, hp, client_error_code]
    · simp only [keydefCheck_parts, hp, if_false] at h ⊢
      exact ih h

/-- C6: `MemtxEngine::keydefCheck` accepts a key definition exactly when it is a
unique HASH without ARRAY parts, a TREE without ARRAY parts, a non-unique RTREE
with a single ARRAY part, or a non-unique BITSET with a single UNSIGNED or STRING
part; every other key definition raises a `ClientError`, with code
`ER_MODIFY_INDEX` for these four types and `ER_INDEX_TYPE` for any other type;
in particular a non-unique HASH is rejected. -/
theorem keydefCheck_accepts_iff (kd : key_def) :
    (keydefCheck kd = .ok () ↔ keydef_accepted kd) ∧
    (¬ keydef_accepted kd →
      client_error_code (keydefCheck kd) =
        some (if kd.type = .index_type_MAX then box_error_code.ER_INDEX_TYPE
              else box_error_code.ER_MODIFY_INDEX)) ∧
    (kd.type = .HASH ∧ kd.is_unique = false →
      client_error_code (keydefCheck kd) = some box_error_code.ER_MODIFY_INDEX) := by
  obtain ⟨sid, iid, name, ty, uniq, parts⟩ := kd
  have hiff : keydefCheck ⟨sid, iid, name, ty, uniq, parts⟩ = .ok () ↔
      keydef_accepted ⟨sid, iid, name, ty, uniq, parts⟩ := by
    cases ty <;> cases uniq <;>
      simp [keydefCheck, keydef_accepted, keydefCheck_parts_ok, key_def.part_count]
    all_goals
      rcases parts with _ | ⟨p, _ | ⟨q, r⟩⟩ <;> simp
    all_goals
      by_cases h1 : p.type = field_type.FIELD_TYPE_UNSIGNED <;>
        by_cases h2 : p.type = field_type.FIELD_TYPE_STRING <;> simp [h1, h2]
  refine ⟨hiff, ?_, ?_⟩
  · intro hna
    have hne : keydefCheck ⟨sid, iid, name, ty, uniq, parts⟩ ≠ .ok () :=
      fun h => hna (hiff.mp h)
    cases ty <;> cases uniq <;>
      simp only [keydefCheck, key_def.part_count] at hne ⊢ <;>
      first
        | exact keydefCheck_parts_code _ hne
        | (split_ifs at hne ⊢ <;> simp_all [client_error_code])
  · rintro ⟨hty, hu⟩
    simp only at hty hu
    subst hty; subst hu
    simp [keydefCheck, client_error_code]

/-! ### The replace function and the recovery state -/

/-- C9: a newly opened `MemtxSpace` and a space after `dropPrimaryKey` dispatch
replace to `memtx_replace_no_keys`; `memtx_add_primary_key(space, state)` panics
for `MEMTX_INITIALIZED` and, for a space that has an `index[0]`, sets the replace
function to `memtx_replace_build_next` for `MEMTX_INITIAL_RECOVERY`, to
`memtx_replace_primary_key` for `MEMTX_FINAL_RECOVERY` and to
`memtx_replace_all_keys` for `MEMTX_OK`. -/
theorem replace_follows_recovery_state {σ : Type} (beginBuild endBuild : σ → σ)
    (e : MemtxEngine) (sp : space σ) :
    e.open.replace = .memtx_replace_no_keys ∧
    (MemtxEngine.dropPrimaryKey sp).handler.replace = .memtx_replace_no_keys ∧
    memtx_add_primary_key beginBuild endBuild sp .MEMTX_INITIALIZED =
      .error (.panic "can't create a new space before snapshot recovery") ∧
    (sp.index ≠ [] →
      (∃ sp', memtx_add_primary_key beginBuild endBuild sp .MEMTX_INITIAL_RECOVERY = .ok sp' ∧
        sp'.handler.replace = .memtx_replace_build_next) ∧
      (∃ sp', memtx_add_primary_key beginBuild endBuild sp .MEMTX_FINAL_RECOVERY = .ok sp' ∧
        sp'.handler.replace = .memtx_replace_primary_key) ∧
      (∃ sp', memtx_add_primary_key beginBuild endBuild sp .MEMTX_OK = .ok sp' ∧
        sp'.handler.replace = .memtx_replace_all_keys)) := by
  refine ⟨rfl, rfl, rfl, ?_⟩
  intro h
  have hne : sp.index.isEmpty = false := by
    cases hi : sp.index with
    | nil => exact absurd hi h
    | cons a l => rfl
  refine ⟨?_, ?_, ?_⟩ <;> simp [memtx_add_primary_key, hne]

/-! ### Recovery -/

theorem space_foreach_total {σ : Type} (g : space σ → Nat → space σ) (param : Nat)
    (l : List (space σ)) :
    space_foreach (fun sp p => .ok (g sp p)) param l = (l.map (fun sp => g sp param), none) := by
  induction l with
  | nil => rfl
  | cons sp rest ih => simp [space_foreach, ih]

theorem space_index_isSome {σ : Type} (sp : space σ) (iid : Nat) :
    (space_index sp iid).isSome = true ↔ iid ∈ sp.index.map (fun i => i.key_def.iid) := by
  simp [space_index, List.find?_isSome]

theorem memtx_end_build_primary_key_spec {σ : Type} (endBuild : σ → σ)
    (sp : space σ) (param : Nat) :
    (memtx_end_build_primary_key endBuild sp param).handler.engine = sp.handler.engine ∧
    (memtx_end_build_primary_key endBuild sp param).index.map (fun i => i.key_def) =
      sp.index.map (fun i => i.key_def) ∧
    (sp.handler.engine = param → (space_index sp 0).isSome →
      sp.handler.replace ≠ .memtx_replace_all_keys →
      (memtx_end_build_primary_key endBuild sp param).handler.replace =
        .memtx_replace_primary_key ∧
      (memtx_end_build_primary_key endBuild sp param).index =
        sp.index.modifyHead (fun i => { i with impl := endBuild i.impl })) ∧
    (¬ (sp.handler.engine = param ∧ (space_index sp 0).isSome ∧
        sp.handler.replace ≠ .memtx_replace_all_keys) →
      memtx_end_build_primary_key endBuild sp param = sp) := by
  unfold memtx_end_build_primary_key
  by_cases hg : sp.handler.engine ≠ param ∨ (space_index sp 0).isNone ∨
      sp.handler.replace = .memtx_replace_all_keys
  · rw [if_pos hg]
    refine ⟨rfl, rfl, ?_, fun _ => rfl⟩
    intro h1 h2 h3
    rcases hg with h | h | h
    · exact absurd h1 h
    · simp [Option.isNone_iff_eq_none] at h
      simp [h] at h2
    · exact absurd h h3
  · rw [if_neg hg]
    refine ⟨rfl, ?_, fun _ _ _ => ⟨rfl, rfl⟩, ?_⟩
    · simp only [space.call_index0]
      cases sp.index <;> simp [List.modifyHead]
    · intro h
      exfalso
      apply h
      push_neg at hg
      refine ⟨hg.1, ?_, hg.2.2⟩
      have := hg.2.1
      cases hx : space_index sp 0 <;> simp_all

/-- Counterexample of C10: a data dictionary space, which `initSystemSpace` has
put on `memtx_replace_all_keys`, is a space of the engine with a primary key and
still dispatches to `memtx_replace_all_keys` after `beginFinalRecovery`. -/
theorem beginFinalRecovery_keeps_all_keys :
    ¬ (∀ sp ∈ ((MemtxEngine.new 1 true true).beginInitialRecovery.beginFinalRecovery
          (fun n => n + 1) (fun i _ => .ok i) example_system_cache).2.1,
        sp.handler.engine = 1 → (space_index sp 0).isSome →
          sp.handler.replace = .memtx_replace_primary_key) := by
  intro h
  have h' := h _ (List.mem_singleton.mpr rfl) rfl rfl
  exact absurd h' (by decide)

/-- C10, amended: when `beginFinalRecovery` is called in `MEMTX_INITIAL_RECOVERY`
with `panic_on_wal_error` set, the engine moves to `MEMTX_FINAL_RECOVERY`; for
every space of the engine that has a primary key and does not already dispatch
to `memtx_replace_all_keys`, `endBuild` is called on `index[0]` and the space then
dispatches replace to `memtx_replace_primary_key`; every other space of the cache
is left as it was. -/
theorem beginFinalRecovery_ends_build {σ : Type} (endBuild : σ → σ)
    (index_build : σ → σ → Except Exception σ) (e : MemtxEngine)
    (cache : List (space σ))
    (hs : e.m_state = .MEMTX_INITIAL_RECOVERY) (hw : e.m_panic_on_wal_error = true) :
    (e.beginFinalRecovery endBuild index_build cache).1.m_state = .MEMTX_FINAL_RECOVERY ∧
    (e.beginFinalRecovery endBuild index_build cache).2.2 = none ∧
    (e.beginFinalRecovery endBuild index_build cache).2.1 =
      cache.map (fun sp => memtx_end_build_primary_key endBuild sp e.this) ∧
    ∀ sp ∈ cache,
      (sp.handler.engine = e.this → (space_index sp 0).isSome →
        sp.handler.replace ≠ .memtx_replace_all_keys →
        (memtx_end_build_primary_key endBuild sp e.this).handler.replace =
          .memtx_replace_primary_key ∧
        (memtx_end_build_primary_key endBuild sp e.this).index =
          sp.index.modifyHead (fun i => { i with impl := endBuild i.impl })) ∧
      (¬ (sp.handler.engine = e.this ∧ (space_index sp 0).isSome ∧
          sp.handler.replace ≠ .memtx_replace_all_keys) →
        memtx_end_build_primary_key endBuild sp e.this = sp) := by
  have hne : ¬ e.m_state = .MEMTX_OK := by rw [hs]; decide
  refine ⟨?_, ?_, ?_, ?_⟩
  · simp [MemtxEngine.beginFinalRecovery, hne, hw]
  · simp [MemtxEngine.beginFinalRecovery, hne, hw]
  · simp [MemtxEngine.beginFinalRecovery, hne, hw, space_foreach_total]
  · intro sp _
    obtain ⟨_, _, g3, g4⟩ := memtx_end_build_primary_key_spec endBuild sp e.this
    exact ⟨g3, g4⟩

/-- Witness of C10, amended: a user space loaded from the snapshot, on
`memtx_replace_build_next`, next to the data dictionary space. -/
theorem beginFinalRecovery_ends_build_witness :
    ((MemtxEngine.new 1 true true).beginInitialRecovery.beginFinalRecovery
        (fun n => n + 1) (fun i _ => .ok i)
        ({ example_system_space with
            handler := { engine := 1, replace := .memtx_replace_build_next } } ::
          example_system_cache)).2.1 =
      ({ example_system_space with
            handler := { engine := 1, replace := .memtx_replace_build_next } } ::
          example_system_cache).map
        (fun sp => memtx_end_build_primary_key (fun n => n + 1) sp 1) :=
  (beginFinalRecovery_ends_build (fun n => n + 1) (fun i _ => .ok i)
    (MemtxEngine.new 1 true true).beginInitialRecovery
    ({ example_system_space with
        handler := { engine := 1, replace := .memtx_replace_build_next } } ::
      example_system_cache) rfl rfl).2.2.1

/-! ### The key-to-tuple map keeps the contract of `Index::replace` -/

theorem MemtxIndex.ext_map (s t : MemtxIndex) (hf : s.fieldno = t.fieldno)
    (hm : ∀ k, s.map k = t.map k) : s = t := by
  obtain ⟨f1, m1, w1⟩ := s
  obtain ⟨f2, m2, w2⟩ := t
  simp only at hf hm
  subst hf
  have : m1 = m2 := funext hm
  subst this
  rfl

theorem MemtxIndex.replace_fail_unchanged (s : MemtxIndex) (o n : Option (List Nat))
    (m : dup_replace_mode) (e : Exception) (h : (s.replace o n m).2 = .error e) :
    (s.replace o n m).1 = s := by
  unfold MemtxIndex.replace at h ⊢
  split at h <;> split at h <;> (try split at h) <;> (try split at h) <;>
    simp_all

theorem MemtxIndex.insert_erase_self (s : MemtxIndex) (o : List Nat)
    (h : s.map (s.key o) = some o) : (s.erase o).insert o = s := by
  refine MemtxIndex.ext_map _ _ rfl ?_
  intro k
  show (if k = s.key o then some o else if k = s.key o then none else s.map k) = s.map k
  by_cases hk : k = s.key o
  · simp [hk, h]
  · simp [hk]

theorem MemtxIndex.erase_insert_self (s : MemtxIndex) (n : List Nat)
    (h : s.map (s.key n) = none) : (s.insert n).erase n = s := by
  refine MemtxIndex.ext_map _ _ rfl ?_
  intro k
  show (if k = s.key n then none else if k = s.key n then some n else s.map k) = s.map k
  by_cases hk : k = s.key n
  · simp [hk, h]
  · simp [hk]

theorem MemtxIndex.insert_insert_dup (s : MemtxIndex) (n d : List Nat)
    (h : s.map (s.key n) = some d) : (s.insert n).insert d = s := by
  have hd : s.key d = s.key n := s.wf _ _ h
  refine MemtxIndex.ext_map _ _ rfl ?_
  intro k
  show (if k = s.key d then some d else if k = s.key n then some n else s.map k) = s.map k
  by_cases hk : k = s.key n
  · simp [hk, h, hd]
  · simp [hk, hd]

theorem MemtxIndex.swap_back (s : MemtxIndex) (o n : List Nat)
    (ho : s.map (s.key o) = some o) (hn : s.map (s.key n) = none) :
    (((s.erase o).insert n).erase n).insert o = s := by
  have hne : s.key o ≠ s.key n := fun h => by rw [h, hn] at ho; simp at ho
  refine MemtxIndex.ext_map _ _ rfl ?_
  intro k
  show (if k = s.key o then some o else if k = s.key n then none else
      if k = s.key n then some n else if k = s.key o then none else s.map k) = s.map k
  by_cases hk : k = s.key o
  · simp [hk, ho]
  · by_cases hk' : k = s.key n
    · simp [hk', hn, Ne.symm hne]
    · simp [hk, hk']

theorem MemtxIndex.replace_undo (s : MemtxIndex) (o n : Option (List Nat))
    (m : dup_replace_mode) (r : Option (List Nat)) (h : (s.replace o n m).2 = .ok r) :
    ∃ r', (s.replace o n m).1.replace n r .DUP_INSERT = (s, .ok r') := by
  rcases n with _ | n <;> rcases o with _ | o
  · have e : s.replace none none m = (s, .ok none) := rfl
    rw [e] at h ⊢
    cases h
    exact ⟨none, rfl⟩
  · by_cases ho : s.map (s.key o) = some o
    · have e : s.replace (some o) none m = (s.erase o, .ok (some o)) := by
        simp [MemtxIndex.replace, ho]
      rw [e] at h ⊢
      cases h
      refine ⟨none, ?_⟩
      have hd : (s.erase o).map ((s.erase o).key o) = none := by
        show (if s.key o = s.key o then none else s.map (s.key o)) = none
        simp
      simp only [MemtxIndex.replace, hd]
      simp [MemtxIndex.insert_erase_self s o ho]
    · have e : (s.replace (some o) none m).2 =
          .error (.ClientError .ER_TUPLE_NOT_FOUND "Tuple doesn't exist in index") := by
        simp [MemtxIndex.replace, ho]
      rw [e] at h
      cases h
  · cases hd : s.map (s.key n) with
    | none =>
      by_cases hm : m = .DUP_REPLACE
      · have e : (s.replace none (some n) m).2 =
            .error (.ClientError .ER_TUPLE_NOT_FOUND "Tuple doesn't exist in index") := by
          simp [MemtxIndex.replace, hd, hm]
        rw [e] at h
        cases h
      · have e : s.replace none (some n) m = (s.insert n, .ok none) := by
          simp [MemtxIndex.replace, hd, hm]
        rw [e] at h ⊢
        cases h
        refine ⟨some n, ?_⟩
        have hn : (s.insert n).map ((s.insert n).key n) = some n := by
          show (if s.key n = s.key n then some n else s.map (s.key n)) = some n
          simp
        simp only [MemtxIndex.replace, hn, if_true]
        simp [MemtxIndex.erase_insert_self s n hd]
    | some d =>
      by_cases hm : m = .DUP_INSERT
      · have e : (s.replace none (some n) m).2 =
            .error (.ClientError .ER_TUPLE_FOUND "Duplicate key exists in unique index") := by
          simp [MemtxIndex.replace, hd, hm]
        rw [e] at h
        cases h
      · have e : s.replace none (some n) m = (s.insert n, .ok (some d)) := by
          simp [MemtxIndex.replace, hd, hm]
        rw [e] at h ⊢
        cases h
        refine ⟨some n, ?_⟩
        have hk : s.key d = s.key n := s.wf _ _ hd
        have hn : (s.insert n).map ((s.insert n).key d) = some n := by
          show (if s.key d = s.key n then some n else s.map (s.key d)) = some n
          simp [hk]
        simp only [MemtxIndex.replace, hn]
        simp [MemtxIndex.insert_insert_dup s n d hd]
  · cases hd : s.map (s.key n) with
    | none =>
      by_cases ho : s.map (s.key o) = some o
      · have e : s.replace (some o) (some n) m = ((s.erase o).insert n, .ok (some o)) := by
          simp [MemtxIndex.replace, hd, ho]
        rw [e] at h ⊢
        cases h
        refine ⟨some n, ?_⟩
        have hne : s.key o ≠ s.key n := fun h' => by rw [h', hd] at ho; simp at ho
        have h1 : ((s.erase o).insert n).map (((s.erase o).insert n).key o) = none := by
          show (if s.key o = s.key n then some n else
            if s.key o = s.key o then none else s.map (s.key o)) = none
          simp [hne]
        have h2 : ((s.erase o).insert n).map (((s.erase o).insert n).key n) = some n := by
          show (if s.key n = s.key n then some n else
            if s.key n = s.key o then none else s.map (s.key n)) = some n
          simp
        simp only [MemtxIndex.replace, h1, h2, if_true]
        simp [MemtxIndex.swap_back s o n ho hd]
      · have e : (s.replace (some o) (some n) m).2 =
            .error (.ClientError .ER_TUPLE_NOT_FOUND "Tuple doesn't exist in index") := by
          simp [MemtxIndex.replace, hd, ho]
        rw [e] at h
        cases h
    | some d =>
      by_cases hdo : d = o
      · subst hdo
        have e : s.replace (some d) (some n) m = (s.insert n, .ok (some d)) := by
          simp [MemtxIndex.replace, hd]
        rw [e] at h ⊢
        cases h
        refine ⟨some n, ?_⟩
        have hk : s.key d = s.key n := s.wf _ _ hd
        have hn : (s.insert n).map ((s.insert n).key d) = some n := by
          show (if s.key d = s.key n then some n else s.map (s.key d)) = some n
          simp [hk]
        simp only [MemtxIndex.replace, hn]
        simp [MemtxIndex.insert_insert_dup s n d hd]
      · have e : (s.replace (some o) (some n) m).2 =
            .error (.ClientError .ER_TUPLE_FOUND "Duplicate key exists in unique index") := by
          simp [MemtxIndex.replace, hd, hdo]
        rw [e] at h
        cases h

theorem MemtxIndex.replace_returns_old (s : MemtxIndex) (o : List Nat)
    (n : Option (List Nat)) (m : dup_replace_mode) (r : Option (List Nat))
    (h : (s.replace (some o) n m).2 = .ok r) : r = some o := by
  unfold MemtxIndex.replace at h
  split at h <;> split at h <;> (try split at h) <;> (try split at h) <;> simp_all

theorem MemtxIndex.replace_insert_returns_old (s : MemtxIndex) (o n r : Option (List Nat))
    (h : (s.replace o n .DUP_INSERT).2 = .ok r) : r = o := by
  unfold MemtxIndex.replace at h
  split at h <;> split at h <;> (try split at h) <;> (try split at h) <;> simp_all

theorem MemtxIndex.replace_contract : index_replace_contract MemtxIndex.replace where
  fail_unchanged := MemtxIndex.replace_fail_unchanged
  undo_primary := MemtxIndex.replace_undo
  undo_secondary := by
    intro s o n r h
    have hr := MemtxIndex.replace_insert_returns_old s o n r h
    subst hr
    exact MemtxIndex.replace_undo s r n .DUP_INSERT r h

/-! ### `memtx_replace_all_keys` is all-or-nothing -/

theorem index_find_zero {σ : Type} (sp : space σ) (hwf : space_wf sp) (p : Nat)
    (pk : Index σ) (h : index_find sp 0 = .ok (p, pk)) :
    p = 0 ∧ ∃ rest, sp.index = pk :: rest := by
  unfold index_find at h
  unfold space_wf at hwf
  cases hi : sp.index with
  | nil => rw [hi] at h; simp at h
  | cons a rest =>
    rw [hi] at h hwf
    rw [List.enum_cons, List.find?_cons] at h
    by_cases ha : a.key_def.iid = 0
    · simp [ha] at h
      exact ⟨h.1.symm, rest, by rw [h.2]⟩
    · have ha' : (a.key_def.iid == 0) = false := by simp [ha]
      simp only [ha'] at h
      cases hf : List.find? (fun x => x.2.key_def.iid == 0) (List.enumFrom 1 rest) with
      | none => simp [hf] at h
      | some x =>
        have hx := List.find?_some hf
        have hm := List.snd_mem_of_mem_enumFrom (List.mem_of_find?_eq_some hf)
        have := (List.pairwise_cons.mp hwf).1 x.2 hm
        simp at hx
        omega

theorem index_find_isSome {σ : Type} (sp : space σ) (hwf : space_wf sp)
    (h : (space_index sp 0).isSome) :
    ∃ pk rest, sp.index = pk :: rest ∧ index_find sp 0 = .ok (0, pk) := by
  cases hi : sp.index with
  | nil => simp [space_index, hi] at h
  | cons a rest =>
    by_cases ha : a.key_def.iid = 0
    · refine ⟨a, rest, rfl, ?_⟩
      simp [index_find, hi, List.enum_cons, List.find?_cons, ha]
    · exfalso
      rw [space_index_isSome, hi] at h
      simp only [List.map_cons, List.mem_cons] at h
      rcases h with h | h
      · exact ha h.symm
      · obtain ⟨b, hb, hb0⟩ := List.mem_map.mp h
        unfold space_wf at hwf
        rw [hi] at hwf
        have := (List.pairwise_cons.mp hwf).1 b hb
        omega

theorem index_call_some {σ τ : Type} (replace : index_replace_f σ τ) (l : List (Index σ))
    (i : Nat) (o n : Option τ) (m : dup_replace_mode) (idx : Index σ)
    (h : l[i]? = some idx) :
    index_call replace l i o n m =
      some (l.set i { idx with impl := (replace idx.impl o n m).1 }, (replace idx.impl o n m).2) := by
  simp [index_call, h]

theorem list_set_same {α : Type} (l : List α) (i : Nat) (a : α) (h : l[i]? = some a) :
    l.set i a = l := by
  apply List.ext_getElem?
  intro j
  by_cases hj : i = j
  · subst hj
    rw [List.getElem?_set_self', h]
    rfl
  · rw [List.getElem?_set_ne hj]

theorem Index.with_impl_self {σ : Type} (a : Index σ) : { a with impl := a.impl } = a := by
  cases a
  rfl

theorem all_keys_secondary_spec {σ τ : Type} (replace : index_replace_f σ τ)
    (hc : index_replace_contract replace) (o n : Option τ) :
    ∀ (cnt i : Nat) (l : List (Index σ)), i + cnt = l.length →
      ∃ l' i' err, all_keys_secondary replace o n cnt i l = (l', i', err) ∧
        l'.length = l.length ∧ i ≤ i' ∧ i' ≤ l.length ∧
        (∀ j, (j < i ∨ i' ≤ j) → l'[j]? = l[j]?) ∧
        (∀ j, i ≤ j → j < i' → ∃ a r, l[j]? = some a ∧
          (replace a.impl o n .DUP_INSERT).2 = .ok r ∧
          l'[j]? = some { a with impl := (replace a.impl o n .DUP_INSERT).1 }) ∧
        (err = none → i' = l.length) ∧
        (∀ e, err = some e → ∃ a, l[i']? = some a ∧
          (replace a.impl o n .DUP_INSERT).2 = .error e) := by
  intro cnt
  induction cnt with
  | zero =>
    intro i l h
    refine ⟨l, i, none, rfl, rfl, le_refl _, by omega, fun _ _ => rfl, ?_, fun _ => by omega, ?_⟩
    · intro j h1 h2
      omega
    · intro e he
      cases he
  | succ cnt ih =>
    intro i l h
    have hi : i < l.length := by omega
    have hget : l[i]? = some l[i] := List.getElem?_eq_getElem hi
    have hcall := index_call_some replace l i o n .DUP_INSERT l[i] hget
    cases hr : (replace l[i].impl o n .DUP_INSERT).2 with
    | error e =>
      have hsame := hc.fail_unchanged _ _ _ _ _ hr
      have hset : l.set i { l[i] with impl := (replace l[i].impl o n .DUP_INSERT).1 } = l := by
        rw [hsame, Index.with_impl_self]
        exact list_set_same l i l[i] hget
      refine ⟨l, i, some e, ?_, rfl, le_refl _, le_of_lt hi, fun _ _ => rfl, ?_, ?_, ?_⟩
      · simp only [all_keys_secondary, hcall, hr, hset]
      · intro j h1 h2
        omega
      · intro he
        cases he
      · intro e' he
        cases he
        exact ⟨l[i], hget, hr⟩
    | ok r =>
      obtain ⟨l', i', err, h1, h2, h3, h4, h5, h6, h7, h8⟩ :=
        ih (i + 1) (l.set i { l[i] with impl := (replace l[i].impl o n .DUP_INSERT).1 })
          (by rw [List.length_set]; omega)
      rw [List.length_set] at h2 h4 h7
      refine ⟨l', i', err, ?_, h2, by omega, h4, ?_, ?_, h7, ?_⟩
      · simp only [all_keys_secondary, hcall, hr, h1]
      · intro j hj
        rw [h5 j (by omega), List.getElem?_set_ne (by omega)]
      · intro j hj1 hj2
        by_cases hji : j = i
        · subst hji
          refine ⟨l[j], r, hget, hr, ?_⟩
          rw [h5 j (by omega), List.getElem?_set_self hi]
        · obtain ⟨a, r', ha, hr', hl'⟩ := h6 j (by omega) hj2
          rw [List.getElem?_set_ne (by omega)] at ha
          exact ⟨a, r', ha, hr', hl'⟩
      · intro e he
        obtain ⟨a, ha, hae⟩ := h8 e he
        have hne : i ≠ i' := by omega
        rw [List.getElem?_set_ne hne] at ha
        exact ⟨a, ha, hae⟩

theorem all_keys_rollback_spec {σ τ : Type} (replace : index_replace_f σ τ)
    (n o : Option τ) :
    ∀ (i : Nat) (l l0 : List (Index σ)), l.length = l0.length → i ≤ l.length →
      (∀ j, i ≤ j → l[j]? = l0[j]?) →
      (∀ j, j < i → ∃ a b r, l0[j]? = some a ∧ l[j]? = some b ∧ b.key_def = a.key_def ∧
        replace b.impl n o .DUP_INSERT = (a.impl, .ok r)) →
      all_keys_rollback replace n o i l = (l0, none) := by
  intro i
  induction i with
  | zero =>
    intro l l0 _ _ h _
    have : l = l0 := List.ext_getElem? (fun j => h j (Nat.zero_le _))
    rw [this]
    rfl
  | succ i ih =>
    intro l l0 hlen hi hge hlt
    obtain ⟨a, b, r, ha, hb, hk, hrep⟩ := hlt i (Nat.lt_succ_self i)
    have hcall := index_call_some replace l i n o .DUP_INSERT b hb
    rw [hrep] at hcall
    have hba : ({ b with impl := a.impl } : Index σ) = a := by
      cases a; cases b
      simp only at hk
      subst hk
      rfl
    simp only [hba] at hcall
    simp only [all_keys_rollback, hcall]
    apply ih (l.set i a) l0 (by rw [List.length_set]; exact hlen)
      (by rw [List.length_set]; omega)
    · intro j hj
      by_cases hji : j = i
      · subst hji
        rw [List.getElem?_set_self (by omega), ha]
      · rw [List.getElem?_set_ne (by omega)]
        exact hge j (by omega)
    · intro j hj
      obtain ⟨a', b', r', ha', hb', hk', hrep'⟩ := hlt j (by omega)
      refine ⟨a', b', r', ha', ?_, hk', hrep'⟩
      rw [List.getElem?_set_ne (by omega)]
      exact hb'

theorem all_keys_after_primary {σ τ : Type} (replace : index_replace_f σ τ)
    (hc : index_replace_contract replace) (pk : Index σ) (rest : List (Index σ))
    (o n : Option τ) (m : dup_replace_mode) (s : σ) (o' : Option τ)
    (hpk : replace pk.impl o n m = (s, .ok o')) :
    ∃ l i err, all_keys_secondary replace o' n rest.length 1
        ({ pk with impl := s } :: rest) = (l, i, err) ∧
      (∀ e, err = some e →
        all_keys_rollback replace n o' i l = (pk :: rest, none) ∧ 1 ≤ i ∧
        (∃ a, (pk :: rest)[i]? = some a ∧ (replace a.impl o' n .DUP_INSERT).2 = .error e) ∧
        ∀ j, 1 ≤ j → j < i → ∃ a r, (pk :: rest)[j]? = some a ∧
          (replace a.impl o' n .DUP_INSERT).2 = .ok r) ∧
      (err = none → ∀ j, 1 ≤ j → j < (pk :: rest).length →
        ∃ a r, (pk :: rest)[j]? = some a ∧ (replace a.impl o' n .DUP_INSERT).2 = .ok r) := by
  obtain ⟨l, i, err, h1, h2, h3, h4, h5, h6, h7, h8⟩ :=
    all_keys_secondary_spec replace hc o' n rest.length 1 ({ pk with impl := s } :: rest)
      (by simp [Nat.add_comm])
  have htail : ∀ j, 1 ≤ j →
      ({ pk with impl := s } :: rest : List (Index σ))[j]? = (pk :: rest)[j]? := by
    intro j hj
    obtain ⟨j', rfl⟩ : ∃ j', j = j' + 1 := ⟨j - 1, by omega⟩
    simp
  refine ⟨l, i, err, h1, ?_, ?_⟩
  · intro e he
    refine ⟨?_, h3, ?_, ?_⟩
    · apply all_keys_rollback_spec replace n o' i l (pk :: rest)
      · rw [h2]; simp
      · rw [h2]; exact h4
      · intro j hj
        rw [h5 j (Or.inr hj), htail j (by omega)]
      · intro j hj
        by_cases hj0 : j = 0
        · subst hj0
          obtain ⟨r', hr'⟩ := hc.undo_primary pk.impl o n m o' (by rw [hpk])
          rw [hpk] at hr'
          refine ⟨pk, { pk with impl := s }, r', by simp, ?_, rfl, hr'⟩
          rw [h5 0 (Or.inl (by omega))]
          simp
        · obtain ⟨a, r, ha, hr, hl⟩ := h6 j (by omega) hj
          obtain ⟨r', hr'⟩ := hc.undo_secondary a.impl o' n r hr
          rw [htail j (by omega)] at ha
          exact ⟨a, _, r', ha, hl, rfl, hr'⟩
    · obtain ⟨a, ha, hae⟩ := h8 e he
      rw [htail i h3] at ha
      exact ⟨a, ha, hae⟩
    · intro j hj1 hj2
      obtain ⟨a, r, ha, hr, _⟩ := h6 j hj1 hj2
      rw [htail j hj1] at ha
      exact ⟨a, r, ha, hr⟩
  · intro he j hj1 hj2
    have hi := h7 he
    simp only [List.length_cons] at hi hj2
    obtain ⟨a, r, ha, hr, _⟩ := h6 j hj1 (by omega)
    rw [htail j hj1] at ha
    exact ⟨a, r, ha, hr⟩

theorem all_keys_undone_eq {σ τ : Type} (replace : index_replace_f σ τ)
    (hc : index_replace_contract replace) (o n : Option τ) (m : dup_replace_mode)
    (l : List (Index σ)) (k : Nat) (e : Exception)
    (hf : all_keys_first_failure replace o n m l k e) :
    all_keys_undone replace o n m k l = l := by
  apply List.ext_getElem?
  intro j
  unfold all_keys_undone
  rw [List.getElem?_map, List.getElem?_enum]
  cases hj : l[j]? with
  | none => rfl
  | some a =>
    simp only [Option.map_some']
    congr 1
    by_cases hjk : j < k
    · rw [if_pos hjk]
      obtain ⟨r, hr⟩ := hf.1 j a hjk hj
      by_cases hj0 : j = 0
      · subst hj0
        have hl : ∃ rest, l = a :: rest := by
          cases l with
          | nil => simp at hj
          | cons b rest =>
            simp at hj
            exact ⟨rest, by rw [hj]⟩
        obtain ⟨rest, rfl⟩ := hl
        simp only [all_keys_call, if_true] at hr ⊢
        have ho : all_keys_old_tuple replace o n m (a :: rest) = r := by
          simp only [all_keys_old_tuple, hr]
        rw [ho]
        obtain ⟨r', hr'⟩ := hc.undo_primary a.impl o n m r hr
        rw [hr']
      · simp only [all_keys_call, if_neg hj0] at hr ⊢
        obtain ⟨r', hr'⟩ := hc.undo_secondary a.impl _ n r hr
        rw [hr']
    · rw [if_neg hjk]
      by_cases hjk' : j = k
      · rw [if_pos hjk']
        obtain ⟨idx, hidx, he⟩ := hf.2
        rw [← hjk', hj] at hidx
        cases hidx
        rw [← hjk'] at he
        unfold all_keys_call at he ⊢
        split_ifs at he ⊢ <;>
          rw [hc.fail_unchanged _ _ _ _ _ he]
      · rw [if_neg hjk']

/-- C1: `memtx_replace_all_keys` is all-or-nothing. `Index::replace` is any
function that leaves the index as it was when it raises and whose inverse
replace `(new_tuple, old_tuple, DUP_INSERT)` undoes a successful replace; the
indexes of the space are ordered by iid. Then, whatever makes the call raise
(the reservation of extents, a missing primary key, the replace on the primary
or on a secondary key), the space with all its indexes and the reference counts
are what they were before the call. When the replace on `index[k]` is the first
to raise, with the exception `e` (`k = 0` being the primary key, for instance
`DUP_REPLACE` without a matching primary key), the call raises `e`, `new_tuple`
gets no reference, and the indexes are those with the inverse replace applied to
exactly `index[k-1], ..., index[0]`. -/
theorem memtx_replace_all_keys_all_or_nothing {σ τ : Type} [DecidableEq τ]
    (reserve : Nat → Except Exception Unit) (replace : index_replace_f σ τ)
    (hc : index_replace_contract replace) (sp : space σ) (hwf : space_wf sp)
    (refs : τ → Nat) (old_tuple new_tuple : Option τ) (mode : dup_replace_mode) :
    (∀ e, (memtx_replace_all_keys reserve replace sp refs old_tuple new_tuple mode).result =
        .error e →
      (memtx_replace_all_keys reserve replace sp refs old_tuple new_tuple mode).space = sp ∧
      (memtx_replace_all_keys reserve replace sp refs old_tuple new_tuple mode).refs = refs) ∧
    (∀ k e,
      reserve (if new_tuple.isSome then RESERVE_EXTENTS_BEFORE_REPLACE
               else RESERVE_EXTENTS_BEFORE_DELETE) = .ok () →
      (space_index sp 0).isSome →
      all_keys_first_failure replace old_tuple new_tuple mode sp.index k e →
      (memtx_replace_all_keys reserve replace sp refs old_tuple new_tuple mode).result =
        .error e ∧
      (memtx_replace_all_keys reserve replace sp refs old_tuple new_tuple mode).refs = refs ∧
      (memtx_replace_all_keys reserve replace sp refs old_tuple new_tuple mode).space.index =
        all_keys_undone replace old_tuple new_tuple mode k sp.index) := by
  have hsp : ∀ (l : List (Index σ)), l = sp.index → ({ sp with index := l } : space σ) = sp := by
    intro l hl
    subst hl
    cases sp
    rfl
  constructor
  · intro e he
    unfold memtx_replace_all_keys at he ⊢
    cases hres : reserve (if new_tuple.isSome then RESERVE_EXTENTS_BEFORE_REPLACE
                 else RESERVE_EXTENTS_BEFORE_DELETE) with
    | error e1 => exact ⟨rfl, rfl⟩
    | ok u =>
      cases hfind : index_find sp 0 with
      | error e1 => exact ⟨rfl, rfl⟩
      | ok ppk =>
        obtain ⟨p, pk⟩ := ppk
        obtain ⟨hp, rest, hidx⟩ := index_find_zero sp hwf p pk hfind
        subst hp
        rw [hres, hfind] at he
        simp only at he ⊢
        cases hpk : replace pk.impl old_tuple new_tuple mode with
        | mk s res =>
          cases res with
          | error e1 =>
            have hs : s = pk.impl := by
              have := hc.fail_unchanged pk.impl old_tuple new_tuple mode e1 (by rw [hpk])
              rw [hpk] at this
              exact this
            subst hs
            simp only
            refine ⟨hsp _ ?_, ?_⟩
            · rw [Index.with_impl_self]
              exact list_set_same _ _ _ (by rw [hidx]; simp)
            · first | rfl | trivial
          | ok o' =>
            obtain ⟨l, i, err, h1, h2, h3⟩ :=
              all_keys_after_primary replace hc pk rest old_tuple new_tuple mode s o' hpk
            have hcnt : sp.index_count - 1 = rest.length := by
              simp [space.index_count, hidx]
            have hset : sp.index.set 0 { pk with impl := s } = { pk with impl := s } :: rest := by
              rw [hidx]; rfl
            rw [hpk] at he
            simp only [hcnt, hset, h1] at he ⊢
            cases err with
            | none => simp at he
            | some e1 =>
              obtain ⟨hrb, _, _, _⟩ := h2 e1 rfl
              simp only [hrb]
              refine ⟨hsp _ hidx.symm, ?_⟩
              first | rfl | trivial
  · intro k e hres hpk0 hf
    obtain ⟨pk, rest, hidx, hfind⟩ := index_find_isSome sp hwf hpk0
    rw [all_keys_undone_eq replace hc old_tuple new_tuple mode sp.index k e hf]
    unfold memtx_replace_all_keys
    rw [hres, hfind]
    simp only
    have hcnt : sp.index_count - 1 = rest.length := by
      simp [space.index_count, hidx]
    cases hpk : replace pk.impl old_tuple new_tuple mode with
    | mk s res =>
      by_cases hk0 : k = 0
      · subst hk0
        obtain ⟨idx, hi, he⟩ := hf.2
        rw [hidx] at hi
        simp at hi
        subst hi
        simp only [all_keys_call, if_true, hpk] at he
        subst he
        have hs : s = pk.impl := by
          have := hc.fail_unchanged pk.impl old_tuple new_tuple mode e (by rw [hpk])
          rw [hpk] at this
          exact this
        subst hs
        simp only
        refine ⟨?_, ?_, ?_⟩
        · first | rfl | trivial
        · first | rfl | trivial
        · rw [Index.with_impl_self]
          exact list_set_same _ _ _ (by rw [hidx]; simp)
      · obtain ⟨r0, hr0⟩ := hf.1 0 pk (by omega) (by rw [hidx]; simp)
        simp only [all_keys_call, if_true, hpk] at hr0
        subst hr0
        have hold : all_keys_old_tuple replace old_tuple new_tuple mode sp.index = r0 := by
          rw [hidx]
          simp only [all_keys_old_tuple, hpk]
        obtain ⟨l, i, err, h1, h2, h3⟩ :=
          all_keys_after_primary replace hc pk rest old_tuple new_tuple mode s r0 hpk
        have hset : sp.index.set 0 { pk with impl := s } = { pk with impl := s } :: rest := by
          rw [hidx]; rfl
        simp only [hcnt, hset, h1]
        obtain ⟨idx, hidxk, hek⟩ := hf.2
        simp only [all_keys_call, if_neg hk0, hold] at hek
        rw [hidx] at hidxk
        have hklen : k < (pk :: rest).length := by
          obtain ⟨h, _⟩ := List.getElem?_eq_some.mp hidxk
          exact h
        cases err with
        | none =>
          exfalso
          obtain ⟨a, r, ha, hr⟩ := h3 rfl k (by omega) hklen
          rw [hidxk] at ha
          cases ha
          rw [hek] at hr
          cases hr
        | some e1 =>
          obtain ⟨hrb, hi1, ⟨a, ha, hae⟩, hbefore⟩ := h2 e1 rfl
          have hik : i = k := by
            rcases Nat.lt_trichotomy i k with h | h | h
            · exfalso
              obtain ⟨r, hr⟩ := hf.1 i a h (by rw [hidx]; exact ha)
              simp only [all_keys_call, if_neg (show ¬ i = 0 by omega), hold] at hr
              rw [hae] at hr
              cases hr
            · exact h
            · exfalso
              obtain ⟨a', r, ha', hr⟩ := hbefore k (by omega) h
              rw [hidxk] at ha'
              cases ha'
              rw [hek] at hr
              cases hr
          subst hik
          rw [hidxk] at ha
          cases ha
          rw [hek] at hae
          cases hae
          simp only [hrb]
          refine ⟨?_, ?_, hidx.symm⟩ <;> first | rfl | trivial

theorem example_space_wf : space_wf example_space := by
  simp [space_wf, example_space, example_index]

/-- Witness of C1: the insertion of `[3, 10]` into the space that holds
`[1, 10]` and `[2, 20]` passes the primary key and raises on the unique
secondary key, `index[1]`; the primary key is rolled back. -/
theorem memtx_replace_all_keys_all_or_nothing_witness :
    (memtx_replace_all_keys (fun _ => .ok ()) MemtxIndex.replace example_space
        (fun _ => 0) none (some [3, 10]) .DUP_INSERT).result =
      .error (.ClientError .ER_TUPLE_FOUND "Duplicate key exists in unique index") ∧
    (memtx_replace_all_keys (fun _ => .ok ()) MemtxIndex.replace example_space
        (fun _ => 0) none (some [3, 10]) .DUP_INSERT).space = example_space :=
  have h := memtx_replace_all_keys_all_or_nothing (fun _ => .ok ()) MemtxIndex.replace
    MemtxIndex.replace_contract example_space example_space_wf (fun _ => 0) none
    (some [3, 10]) .DUP_INSERT
  have h2 := h.2 1 (.ClientError .ER_TUPLE_FOUND "Duplicate key exists in unique index") rfl rfl
    ⟨by
      intro j idx hj hidx
      obtain rfl : j = 0 := by omega
      simp only [example_space, List.getElem?_cons_zero, Option.some.injEq] at hidx
      subst hidx
      exact ⟨none, rfl⟩,
     ⟨example_index 1 1 [[1, 10], [2, 20]], rfl, rfl⟩⟩
  ⟨h2.1, (h.1 _ h2.1).1⟩

/-! ### Rollback of a transaction -/

theorem space_with_index {σ : Type} (sp : space σ) (l : List (Index σ)) (hl : l = sp.index) :
    ({ sp with index := l } : space σ) = sp := by
  subst hl
  cases sp
  rfl

theorem memtx_replace_all_keys_success {σ τ : Type} [DecidableEq τ]
    (reserve : Nat → Except Exception Unit) (replace : index_replace_f σ τ)
    (hc : index_replace_contract replace) (sp : space σ) (hwf : space_wf sp)
    (refs : τ → Nat) (o n : Option τ) (m : dup_replace_mode) (o' : Option τ)
    (h : (memtx_replace_all_keys reserve replace sp refs o n m).result = .ok o') :
    ∃ l, memtx_replace_all_keys reserve replace sp refs o n m =
        { space := { sp with index := l },
          refs := tuple_ref_if refs n,
          result := .ok o' } ∧
      undone_by replace n o' sp.index l ∧
      ∃ pk rest, sp.index = pk :: rest ∧ (replace pk.impl o n m).2 = .ok o' := by
  unfold memtx_replace_all_keys at h ⊢
  cases hres : reserve (if n.isSome then RESERVE_EXTENTS_BEFORE_REPLACE
               else RESERVE_EXTENTS_BEFORE_DELETE) with
  | error e1 => rw [hres] at h; simp at h
  | ok u =>
    cases hfind : index_find sp 0 with
    | error e1 => rw [hres, hfind] at h; simp at h
    | ok ppk =>
      obtain ⟨p, pk⟩ := ppk
      obtain ⟨hp, rest, hidx⟩ := index_find_zero sp hwf p pk hfind
      subst hp
      rw [hres, hfind] at h
      simp only at h ⊢
      cases hpk : replace pk.impl o n m with
      | mk s res =>
        cases res with
        | error e1 => rw [hpk] at h; simp at h
        | ok r0 =>
          have hcnt : sp.index_count - 1 = rest.length := by
            simp [space.index_count, hidx]
          have hset : sp.index.set 0 { pk with impl := s } = { pk with impl := s } :: rest := by
            rw [hidx]; rfl
          obtain ⟨l, i, err, h1, h2, h3, h4, h5, h6, h7, h8⟩ :=
            all_keys_secondary_spec replace hc r0 n rest.length 1 ({ pk with impl := s } :: rest)
              (by simp [Nat.add_comm])
          obtain ⟨l2, i2, err2, g1, g2, g3⟩ :=
            all_keys_after_primary replace hc pk rest o n m s r0 hpk
          rw [hpk] at h
          simp only [hcnt, hset, h1] at h ⊢
          cases err with
          | some e1 =>
            exfalso
            rw [h1] at g1
            cases g1
            obtain ⟨hrb, _⟩ := g2 e1 rfl
            simp [hrb] at h
          | none =>
            simp only at h
            cases h
            refine ⟨l, rfl, ⟨?_, ?_⟩, pk, rest, hidx, by rw [hpk]⟩
            · rw [h2, hidx]; rfl
            · intro j hj
              rw [hidx] at hj ⊢
              have hi := h7 rfl
              by_cases hj0 : j = 0
              · subst hj0
                obtain ⟨r', hr'⟩ := hc.undo_primary pk.impl o n m o' (by rw [hpk])
                rw [hpk] at hr'
                refine ⟨pk, { pk with impl := s }, r', by simp, ?_, rfl, hr'⟩
                rw [h5 0 (Or.inl (by omega))]
                simp
              · obtain ⟨a, r, ha, hr, hl⟩ := h6 j (by omega) (by rw [hi]; simpa using hj)
                obtain ⟨r', hr'⟩ := hc.undo_secondary a.impl o' n r hr
                obtain ⟨j', rfl⟩ : ∃ j', j = j' + 1 := ⟨j - 1, by omega⟩
                simp only [List.getElem?_cons_succ] at ha ⊢
                exact ⟨a, _, r', ha, hl, rfl, hr'⟩

theorem rollbackStatement_loop_spec {σ τ : Type} (replace : index_replace_f σ τ)
    (n o : Option τ) :
    ∀ (cnt i : Nat) (l l0 : List (Index σ)), l.length = l0.length → i + cnt ≤ l.length →
      (∀ j, (j < i ∨ i + cnt ≤ j) → l[j]? = l0[j]?) →
      (∀ j, i ≤ j → j < i + cnt → ∃ a b r, l0[j]? = some a ∧ l[j]? = some b ∧
        b.key_def = a.key_def ∧ replace b.impl n o .DUP_INSERT = (a.impl, .ok r)) →
      rollbackStatement_loop replace n o cnt i l = .ok (l0, none) := by
  intro cnt
  induction cnt with
  | zero =>
    intro i l l0 _ _ h _
    have : l = l0 := List.ext_getElem? (fun j => h j (by omega))
    rw [this]
    rfl
  | succ cnt ih =>
    intro i l l0 hlen hi hout hin
    obtain ⟨a, b, r, ha, hb, hk, hrep⟩ := hin i (le_refl _) (by omega)
    have hcall := index_call_some replace l i n o .DUP_INSERT b hb
    rw [hrep] at hcall
    have hba : ({ b with impl := a.impl } : Index σ) = a := by
      cases a; cases b
      simp only at hk
      subst hk
      rfl
    simp only [hba] at hcall
    simp only [rollbackStatement_loop, hcall]
    apply ih (i + 1) (l.set i a) l0 (by rw [List.length_set]; exact hlen)
      (by rw [List.length_set]; omega)
    · intro j hj
      by_cases hji : j = i
      · subst hji
        rw [List.getElem?_set_self (by omega), ha]
      · rw [List.getElem?_set_ne (by omega)]
        exact hout j (by omega)
    · intro j hj1 hj2
      obtain ⟨a', b', r', ha', hb', hk', hrep'⟩ := hin j (by omega) (by omega)
      refine ⟨a', b', r', ha', ?_, hk', hrep'⟩
      rw [List.getElem?_set_ne (by omega)]
      exact hb'

theorem rollbackStatement_loop_undone {σ τ : Type} (replace : index_replace_f σ τ)
    (n o : Option τ) (l0 l : List (Index σ)) (h : undone_by replace n o l0 l) :
    rollbackStatement_loop replace n o l.length 0 l = .ok (l0, none) := by
  apply rollbackStatement_loop_spec replace n o l.length 0 l l0 h.1 (by omega)
  · intro j hj
    have hj' : l.length ≤ j := by omega
    rw [List.getElem?_eq_none hj', List.getElem?_eq_none (by rw [← h.1]; exact hj')]
  · intro j _ hj
    exact h.2 j (by rw [← h.1]; omega)

theorem tuple_unref_ref {τ : Type} [DecidableEq τ] (refs : τ → Nat) (n : Option τ) :
    tuple_unref_if (tuple_ref_if refs n) n = refs := by
  cases n with
  | none => rfl
  | some t =>
    funext x
    simp only [tuple_unref_if, tuple_ref_if, tuple_unref, tuple_ref]
    by_cases hx : x = t
    · simp [hx]
    · simp [hx]

theorem rollbackStatement_restores {σ τ : Type} [DecidableEq τ]
    (replace : index_replace_f σ τ) (b : box σ τ) (p : Nat) (sp : space σ)
    (l : List (Index σ)) (n o : Option τ) (cnt : Nat)
    (hsp : b.spaces[p]? = some sp)
    (hne : ¬ (o.isNone ∧ n.isNone))
    (hcnt : (sp.handler.replace = .memtx_replace_all_keys ∧ cnt = l.length) ∨
      (sp.handler.replace = .memtx_replace_primary_key ∧ cnt = 1))
    (hloop : rollbackStatement_loop replace n o cnt 0 l = .ok (sp.index, none)) :
    MemtxEngine.rollbackStatement replace
        { spaces := b.spaces.set p { sp with index := l }, refs := tuple_ref_if b.refs n }
        { space := p, old_tuple := o, new_tuple := n } =
      .ok (b, { space := p, old_tuple := none, new_tuple := none }, none) := by
  have hp : p < b.spaces.length := by
    obtain ⟨h, _⟩ := List.getElem?_eq_some.mp hsp
    exact h
  have hget : (b.spaces.set p { sp with index := l })[p]? = some { sp with index := l } :=
    List.getElem?_set_self hp
  have hback : (b.spaces.set p { sp with index := l }).set p
      { ({ sp with index := l } : space σ) with index := sp.index } = b.spaces := by
    rw [List.set_set]
    exact list_set_same _ _ _ (by rw [hsp, space_with_index sp sp.index rfl])
  unfold MemtxEngine.rollbackStatement
  rw [if_neg hne]
  simp only [hget]
  rcases hcnt with ⟨hph, hc⟩ | ⟨hph, hc⟩
  · subst hc
    simp only [hph, space.index_count, hloop, hback, tuple_unref_ref]
  · subst hc
    simp only [hph, hloop, hback, tuple_unref_ref]

theorem undone_by_key_defs {σ τ : Type} (replace : index_replace_f σ τ) (n o : Option τ)
    (l0 l : List (Index σ)) (h : undone_by replace n o l0 l) :
    l.map (fun i => i.key_def) = l0.map (fun i => i.key_def) := by
  apply List.ext_getElem?
  intro j
  rw [List.getElem?_map, List.getElem?_map]
  by_cases hj : j < l0.length
  · obtain ⟨a, b, _, ha, hb, hk, _⟩ := h.2 j hj
    rw [ha, hb]
    simp [hk]
  · have h1 := h.1
    rw [List.getElem?_eq_none (by omega), List.getElem?_eq_none (by omega)]

theorem space_wf_of_key_defs {σ : Type} (sp sp' : space σ)
    (h : sp'.index.map (fun i => i.key_def) = sp.index.map (fun i => i.key_def))
    (hwf : space_wf sp) : space_wf sp' := by
  unfold space_wf at hwf ⊢
  have h' : sp'.index.map (fun i => i.key_def.iid) = sp.index.map (fun i => i.key_def.iid) := by
    have := congrArg (List.map key_def.iid) h
    simpa [List.map_map, Function.comp_def] using this
  have e1 : List.Pairwise (fun a b : Nat => a < b) (sp.index.map (fun i => i.key_def.iid)) :=
    List.pairwise_map.mpr hwf
  rw [← h'] at e1
  exact List.pairwise_map.mp e1

theorem memtx_txn_add_undo_begin {τ : Type} (t : txn τ) (p : Nat) (o n : Option τ) :
    memtx_txn_add_undo (txn_begin_stmt t p) o n =
      { t with stmts := t.stmts ++ [{ space := p, old_tuple := o, new_tuple := n }] } := by
  simp [memtx_txn_add_undo, txn_begin_stmt]

theorem execute_stmt_undone {σ τ : Type} [DecidableEq τ]
    (reserve : Nat → Except Exception Unit) (replace : index_replace_f σ τ)
    (buildNext : σ → τ → σ × Option Exception)
    (hc : index_replace_contract replace)
    (hret : ∀ s o n m r, (replace s (some o) n m).2 = .ok r → r = some o)
    (b b1 : box σ τ) (t t1 : txn τ) (req : request τ)
    (hwf : ∀ sp ∈ b.spaces, space_wf sp)
    (hphase : ∀ sp ∈ b.spaces, sp.handler.replace = .memtx_replace_all_keys ∨
      sp.handler.replace = .memtx_replace_primary_key)
    (h : execute_stmt reserve replace buildNext b t req = .ok (b1, t1, none)) :
    ∃ stmt, t1 = { t with stmts := t.stmts ++ [stmt] } ∧
      MemtxEngine.rollbackStatement replace b1 stmt =
        .ok (b, { stmt with old_tuple := none, new_tuple := none }, none) ∧
      (∀ sp ∈ b1.spaces, space_wf sp) ∧
      (∀ sp ∈ b1.spaces, sp.handler.replace = .memtx_replace_all_keys ∨
        sp.handler.replace = .memtx_replace_primary_key) := by
  unfold execute_stmt at h
  cases hsp : b.spaces[req.space]? with
  | none => simp [hsp] at h
  | some sp =>
    have hmem : sp ∈ b.spaces := List.getElem?_mem hsp
    simp only [hsp] at h
    cases hr : handler_replace reserve replace buildNext sp b.refs req.replace_args.1
        req.replace_args.2.1 req.replace_args.2.2 with
    | error f => simp [hr] at h
    | ok r =>
      simp only [hr] at h
      cases hres : r.result with
      | error e => simp [hres] at h
      | ok o' =>
        simp only [hres, Except.ok.injEq, Prod.mk.injEq, and_true] at h
        obtain ⟨hb1, ht1⟩ := h
        -- the shape of the result of the replace function
        have key : ∃ l cnt, r = replace_result.mk { sp with index := l }
              (tuple_ref_if b.refs req.replace_args.2.1) (.ok o') ∧
            l.map (fun i => i.key_def) = sp.index.map (fun i => i.key_def) ∧
            ((sp.handler.replace = .memtx_replace_all_keys ∧ cnt = l.length) ∨
              (sp.handler.replace = .memtx_replace_primary_key ∧ cnt = 1)) ∧
            rollbackStatement_loop replace req.replace_args.2.1 o' cnt 0 l =
              .ok (sp.index, none) ∧
            ∃ s, (replace s req.replace_args.1 req.replace_args.2.1
              req.replace_args.2.2).2 = .ok o' := by
          rcases hphase sp hmem with hph | hph
          · simp only [handler_replace, hph, Except.ok.injEq] at hr
            rw [← hr] at hres
            obtain ⟨l, hl, hu, pk, rest, _, hpk⟩ :=
              memtx_replace_all_keys_success reserve replace hc sp (hwf sp hmem) b.refs _ _ _ o'
                hres
            refine ⟨l, l.length, by rw [← hr, hl], undone_by_key_defs replace _ _ _ _ hu,
              Or.inl ⟨hph, rfl⟩, rollbackStatement_loop_undone replace _ _ _ _ hu, pk.impl, hpk⟩
          · simp only [handler_replace, hph, memtx_replace_primary_key] at hr
            cases hidx : sp.index with
            | nil => simp [hidx] at hr
            | cons pk rest =>
              simp only [hidx] at hr
              cases hpk : replace pk.impl req.replace_args.1 req.replace_args.2.1
                  req.replace_args.2.2 with
              | mk s res =>
                cases res with
                | error e =>
                  simp only [hpk, Except.ok.injEq] at hr
                  rw [← hr] at hres
                  simp at hres
                | ok r0 =>
                  simp only [hpk, Except.ok.injEq] at hr
                  rw [← hr] at hres
                  simp only [Except.ok.injEq] at hres
                  subst hres
                  obtain ⟨r', hr'⟩ := hc.undo_primary pk.impl _ _ _ r0 (by rw [hpk])
                  rw [hpk] at hr'
                  refine ⟨{ pk with impl := s } :: rest, 1, by rw [← hr], by simp,
                    Or.inr ⟨hph, rfl⟩, ?_, pk.impl, by rw [hpk]⟩
                  have hcall := index_call_some replace ({ pk with impl := s } :: rest) 0
                    req.replace_args.2.1 r0 .DUP_INSERT { pk with impl := s } (by simp)
                  simp only [hr'] at hcall
                  simp only [rollbackStatement_loop, hcall, List.set_cons_zero,
                    Index.with_impl_self]
        obtain ⟨l, cnt, hrl, hkd, hcnt, hloop, s0, hs0⟩ := key
        have hold : req.undo_old_tuple o' = o' := by
          cases req with
          | REPLACE p n m => rfl
          | DELETE p o => exact (hret s0 o _ _ o' hs0).symm
          | UPDATE p o n => exact (hret s0 o _ _ o' hs0).symm
        rw [hold, memtx_txn_add_undo_begin] at ht1
        have hne : ¬ (o'.isNone ∧ req.replace_args.2.1.isNone) := by
          cases req with
          | REPLACE p n m => simp [request.replace_args]
          | DELETE p o =>
            have := hret s0 o _ _ o' hs0
            simp [this]
          | UPDATE p o n => simp [request.replace_args]
        have hb1' : b1 = box.mk (b.spaces.set req.space { sp with index := l })
            (tuple_ref_if b.refs req.replace_args.2.1) := by
          rw [← hb1, hrl]
        refine ⟨txn_stmt.mk req.space o' req.replace_args.2.1,
          ht1.symm, ?_, ?_, ?_⟩
        · rw [hb1']
          exact rollbackStatement_restores replace b req.space sp l _ o' cnt hsp hne hcnt hloop
        · intro sp' hsp'
          rw [hb1'] at hsp'
          rcases List.mem_or_eq_of_mem_set hsp' with h' | h'
          · exact hwf sp' h'
          · rw [h']
            exact space_wf_of_key_defs sp _ hkd (hwf sp hmem)
        · intro sp' hsp'
          rw [hb1'] at hsp'
          rcases List.mem_or_eq_of_mem_set hsp' with h' | h'
          · exact hphase sp' h'
          · rw [h']
            exact hphase sp hmem

theorem rollback_stmts_append {σ τ : Type} [DecidableEq τ] (replace : index_replace_f σ τ)
    (l1 l2 : List (txn_stmt τ)) :
    ∀ (b b1 : box σ τ) (c1 : List (txn_stmt τ)),
      rollback_stmts replace b l1 = .ok (b1, c1, none) →
      rollback_stmts replace b (l1 ++ l2) =
        match rollback_stmts replace b1 l2 with
        | .error f => .error f
        | .ok (b2, c2, e) => .ok (b2, c1 ++ c2, e) := by
  induction l1 with
  | nil =>
    intro b b1 c1 h
    simp only [rollback_stmts, Except.ok.injEq, Prod.mk.injEq, and_true] at h
    obtain ⟨rfl, rfl⟩ := h
    simp only [List.nil_append]
    cases rollback_stmts replace b l2 with
    | error f => rfl
    | ok x => rfl
  | cons stmt rest ih =>
    intro b b1 c1 h
    simp only [rollback_stmts, List.cons_append] at h ⊢
    cases hs : MemtxEngine.rollbackStatement replace b stmt with
    | error f => simp [hs] at h
    | ok x =>
      obtain ⟨b', stmt', e⟩ := x
      cases e with
      | some e => simp [hs] at h
      | none =>
        simp only [hs] at h ⊢
        cases hr : rollback_stmts replace b' rest with
        | error f => simp [hr] at h
        | ok y =>
          obtain ⟨b'', rest', e'⟩ := y
          simp only [hr, Except.ok.injEq, Prod.mk.injEq] at h
          obtain ⟨rfl, rfl, rfl⟩ := h
          have ih' := ih b' b'' rest' hr
          simp only [List.append_eq] at ih' ⊢
          rw [ih']
          cases rollback_stmts replace b'' l2 with
          | error f => rfl
          | ok z => rfl

theorem execute_stmts_undone {σ τ : Type} [DecidableEq τ]
    (reserve : Nat → Except Exception Unit) (replace : index_replace_f σ τ)
    (buildNext : σ → τ → σ × Option Exception)
    (hc : index_replace_contract replace)
    (hret : ∀ s o n m r, (replace s (some o) n m).2 = .ok r → r = some o)
    (reqs : List (request τ)) :
    ∀ (b b' : box σ τ) (t t' : txn τ),
      (∀ sp ∈ b.spaces, space_wf sp) →
      (∀ sp ∈ b.spaces, sp.handler.replace = .memtx_replace_all_keys ∨
        sp.handler.replace = .memtx_replace_primary_key) →
      execute_stmts reserve replace buildNext b t reqs = .ok (b', t', none) →
      ∃ stmts cleared, t' = { t with stmts := t.stmts ++ stmts } ∧
        rollback_stmts replace b' stmts.reverse = .ok (b, cleared, none) := by
  induction reqs with
  | nil =>
    intro b b' t t' _ _ h
    simp only [execute_stmts, Except.ok.injEq, Prod.mk.injEq, and_true] at h
    obtain ⟨rfl, rfl⟩ := h
    exact ⟨[], [], by simp, rfl⟩
  | cons req reqs ih =>
    intro b b' t t' hwf hphase h
    simp only [execute_stmts] at h
    cases hs : execute_stmt reserve replace buildNext b t req with
    | error f => simp [hs] at h
    | ok x =>
      obtain ⟨b1, t1, e⟩ := x
      cases e with
      | some e => simp [hs] at h
      | none =>
        simp only [hs] at h
        obtain ⟨stmt, ht1, hrb, hwf1, hphase1⟩ :=
          execute_stmt_undone reserve replace buildNext hc hret b b1 t t1 req hwf hphase hs
        obtain ⟨stmts, cleared, ht', hrest⟩ := ih b1 b' t1 t' hwf1 hphase1 h
        refine ⟨stmt :: stmts, cleared ++ [{ stmt with old_tuple := none, new_tuple := none }],
          ?_, ?_⟩
        · rw [ht', ht1]
          simp
        · rw [List.reverse_cons, rollback_stmts_append replace _ _ b' b1 cleared hrest]
          simp only [rollback_stmts, hrb]

/-- C2: `MemtxEngine::rollback` undoes a transaction. The indexes are key-to-tuple
maps, the spaces have their indexes ordered by iid and are in the phase
`memtx_replace_all_keys` or `memtx_replace_primary_key`. When the statements of a
transaction that had none have been applied in order, none raising, each
recorded with `memtx_txn_add_undo`, then `rollback`, which hands the statements
in reverse order to `rollbackStatement`, returns normally and leaves every space
with all its indexes, and the reference counts, as they were before the first
statement. -/
theorem rollback_undoes_transaction (reserve : Nat → Except Exception Unit)
    (buildNext : MemtxIndex → List Nat → MemtxIndex × Option Exception)
    (b b' : box MemtxIndex (List Nat)) (t t' : txn (List Nat)) (f : fiber_triggers)
    (reqs : List (request (List Nat)))
    (hbegin : t.stmts = [])
    (hwf : ∀ sp ∈ b.spaces, space_wf sp)
    (hphase : ∀ sp ∈ b.spaces, sp.handler.replace = .memtx_replace_all_keys ∨
      sp.handler.replace = .memtx_replace_primary_key)
    (hexec : execute_stmts reserve MemtxIndex.replace buildNext b t reqs = .ok (b', t', none)) :
    ∃ t'', MemtxEngine.rollback MemtxIndex.replace b' f t' =
      .ok (b, MemtxEngine.prepare t' f, t'', none) := by
  obtain ⟨stmts, cleared, ht', hrb⟩ :=
    execute_stmts_undone reserve MemtxIndex.replace buildNext MemtxIndex.replace_contract
      MemtxIndex.replace_returns_old reqs b b' t t' hwf hphase hexec
  have hst : t'.stmts = stmts := by rw [ht', hbegin]; rfl
  refine ⟨{ t' with stmts := cleared }, ?_⟩
  simp only [MemtxEngine.rollback, hst, hrb]

/-- Witness of C2: an insertion, a deletion and an update on the space 512 are
rolled back. -/
theorem rollback_undoes_transaction_witness :
    ∃ t'', MemtxEngine.rollback MemtxIndex.replace example_box_after
        { on_yield := [], on_stop := [] } example_txn_after =
      .ok (example_box, MemtxEngine.prepare example_txn_after { on_yield := [], on_stop := [] },
        t'', none) :=
  rollback_undoes_transaction (fun _ => .ok ()) (fun s _ => (s, none)) example_box
    example_box_after example_txn example_txn_after { on_yield := [], on_stop := [] }
    example_requests rfl
    (by
      intro sp hsp
      rw [List.mem_singleton.mp hsp]
      exact example_space_wf)
    (by
      intro sp hsp
      rw [List.mem_singleton.mp hsp]
      exact Or.inl rfl)
    rfl

/-! ### The alter-space planner -/

/-- C5: `AddIndex::prepare` merges drop and add. When the `AddIndex` is right
after a `DropIndex` whose old key definition has the type, the uniqueness and
(for `key_part_cmp`) the parts of the new key definition, both ops leave the
list, which gains one `ModifyIndex` with the two key definitions at its tail
when `key_def_cmp` finds them different and nothing when they compare equal. In
every other case (type, uniqueness or parts differ, the op before is not a
`DropIndex`, or there is no op before) the list is unchanged. The prepare loop of
`alter_space_do` on the list `[DropIndex, AddIndex]` gives the same lists. -/
theorem AddIndex_prepare_merges {σ τ : Type} (env : schema_env) (V : index_vtab σ τ)
    (old_space : space σ) (before after : List AlterSpaceOp)
    (old_key_def new_key_def : key_def) (on_replace : Option trigger) :
    (old_key_def.type = new_key_def.type ∧ old_key_def.is_unique = new_key_def.is_unique ∧
        env.key_part_cmp old_key_def.parts new_key_def.parts = 0 →
      (env.key_def_cmp old_key_def new_key_def ≠ 0 →
        AddIndex.prepare env
            (before ++ .DropIndex old_key_def :: .AddIndex (some new_key_def) on_replace :: after)
            (before.length + 1) =
          before ++ after ++ [.ModifyIndex (some new_key_def) old_key_def] ∧
        (prepare_ops env V old_space []
            [.DropIndex old_key_def, .AddIndex (some new_key_def) on_replace] []).1 =
          [.ModifyIndex (some new_key_def) old_key_def]) ∧
      (env.key_def_cmp old_key_def new_key_def = 0 →
        AddIndex.prepare env
            (before ++ .DropIndex old_key_def :: .AddIndex (some new_key_def) on_replace :: after)
            (before.length + 1) =
          before ++ after ∧
        (prepare_ops env V old_space []
            [.DropIndex old_key_def, .AddIndex (some new_key_def) on_replace] []).1 = [])) ∧
    (¬ (old_key_def.type = new_key_def.type ∧ old_key_def.is_unique = new_key_def.is_unique ∧
        env.key_part_cmp old_key_def.parts new_key_def.parts = 0) →
      AddIndex.prepare env
          (before ++ .DropIndex old_key_def :: .AddIndex (some new_key_def) on_replace :: after)
          (before.length + 1) =
        before ++ .DropIndex old_key_def :: .AddIndex (some new_key_def) on_replace :: after ∧
      (prepare_ops env V old_space []
          [.DropIndex old_key_def, .AddIndex (some new_key_def) on_replace] []).1 =
        [.DropIndex old_key_def, .AddIndex (some new_key_def) on_replace]) ∧
    (∀ prev_op, (∀ kd, prev_op ≠ .DropIndex kd) →
      AddIndex.prepare env
          (before ++ prev_op :: .AddIndex (some new_key_def) on_replace :: after)
          (before.length + 1) =
        before ++ prev_op :: .AddIndex (some new_key_def) on_replace :: after) ∧
    AddIndex.prepare env (.AddIndex (some new_key_def) on_replace :: after) 0 =
      .AddIndex (some new_key_def) on_replace :: after := by
  have hget : ∀ (x : AlterSpaceOp),
      (before ++ x :: .AddIndex (some new_key_def) on_replace :: after)[before.length + 1]? =
        some (.AddIndex (some new_key_def) on_replace) := by
    intro x
    rw [List.getElem?_append_right (by omega)]
    simp
  have hprev : ∀ (x : AlterSpaceOp),
      (before ++ x :: .AddIndex (some new_key_def) on_replace :: after)[before.length + 1 - 1]? =
        some x := by
    intro x
    rw [Nat.add_sub_cancel, List.getElem?_append_right (by omega)]
    simp
  have herase : ∀ (x : AlterSpaceOp),
      ((before ++ x :: .AddIndex (some new_key_def) on_replace :: after).eraseIdx
        (before.length + 1)).eraseIdx (before.length + 1 - 1) = before ++ after := by
    intro x
    rw [Nat.add_sub_cancel, List.eraseIdx_append_of_length_le (by omega)]
    simp only [Nat.add_sub_cancel_left, List.eraseIdx_cons_succ, List.eraseIdx_cons_zero]
    rw [List.eraseIdx_append_of_length_le (by omega)]
    simp
  refine ⟨?_, ?_, ?_, ?_⟩
  · rintro ⟨h1, h2, h3⟩
    constructor
    · intro hcmp
      constructor
      · simp only [AddIndex.prepare, hget, hprev, Nat.add_one_ne_zero, if_false, AddIndex.merge,
          h1, h2, h3, hcmp, herase]
        simp [hcmp]
      · simp [prepare_ops, AddIndex.merge, h1, h2, h3, hcmp]
    · intro hcmp
      constructor
      · simp only [AddIndex.prepare, hget, hprev, Nat.add_one_ne_zero, if_false, AddIndex.merge,
          h1, h2, h3, hcmp, herase]
        simp [hcmp]
      · simp [prepare_ops, AddIndex.merge, h1, h2, h3, hcmp]
  · intro h
    have hm : AddIndex.merge env (some (.DropIndex old_key_def)) (some new_key_def) = none := by
      simp only [AddIndex.merge]
      rw [if_pos]
      by_contra hc
      push_neg at hc
      exact h hc
    constructor
    · simp only [AddIndex.prepare, hget, hprev, Nat.add_one_ne_zero, if_false, hm]
    · simp [prepare_ops, hm]
  · intro prev_op hp
    have hm : AddIndex.merge env (some prev_op) (some new_key_def) = none := by
      cases prev_op with
      | DropIndex kd => exact absurd rfl (hp kd)
      | _ => rfl
    simp only [AddIndex.prepare, hget, hprev, Nat.add_one_ne_zero, if_false, hm]
  · simp [AddIndex.prepare, AddIndex.merge]

/-- Counterexample of C7: the data dictionary space 280 has a primary key and a
secondary key; the alter that drops its primary key fails with `ER_LAST_DROP`,
not with `ER_DROP_PRIMARY_KEY`. -/
theorem drop_primary_key_of_system_space :
    raised_code (alter_space_do example_env example_vtab
        { example_ddl_state (some [.num 280, .num 0]) none with
          alter := { (alter_space_new : alter_space (List (List Nat))) with
                       ops := [.DropIndex (example_key_def 280 0 0 "primary")] } }
        (example_two_key_space 280 [])).2 = some .ER_LAST_DROP ∧
    raised_code (alter_space_do example_env example_vtab
        { example_ddl_state (some [.num 280, .num 0]) none with
          alter := { (alter_space_new : alter_space (List (List Nat))) with
                       ops := [.DropIndex (example_key_def 280 0 0 "primary")] } }
        (example_two_key_space 280 [])).2 ≠ some .ER_DROP_PRIMARY_KEY := by
  constructor
  · rfl
  · intro h
    have h' : raised_code (alter_space_do example_env example_vtab
        { example_ddl_state (some [.num 280, .num 0]) none with
          alter := { (alter_space_new : alter_space (List (List Nat))) with
                       ops := [.DropIndex (example_key_def 280 0 0 "primary")] } }
        (example_two_key_space 280 [])).2 = some .ER_LAST_DROP := rfl
    rw [h'] at h
    cases h

/-- C7, amended: for every space that has a primary key and at least one
secondary index, the alter whose only op is the `DropIndex` of the primary key
fails in `DropIndex::alter`, provided that the new space can be created
(`space_new` does not raise): with `ER_DROP_PRIMARY_KEY` when the space is not a
system space, and with `ER_LAST_DROP` when it is a system space. -/
theorem drop_primary_key_with_secondary {σ τ : Type} (env : schema_env)
    (V : index_vtab σ τ) (st : ddl_state σ) (old_space : space σ)
    (pk : Index σ) (rest : List (Index σ))
    (hidx : old_space.index = pk :: rest) (hpk : pk.key_def.iid = 0)
    (hrest : rest ≠ []) (hsec : ∀ i ∈ rest, i.key_def.iid ≠ 0)
    (hnew : V.space_new_check old_space.def_ (rest.map (fun i => i.key_def)) = .ok ())
    (hops : st.alter.ops = [.DropIndex pk.key_def]) :
    (env.space_is_system old_space.def_.id = false →
      (alter_space_do env V st old_space).2 =
        some (.ClientError .ER_DROP_PRIMARY_KEY "")) ∧
    (env.space_is_system old_space.def_.id = true →
      (alter_space_do env V st old_space).2 = some (.ClientError .ER_LAST_DROP "")) := by
  have hkeys : key_list_del (space_dump_def old_space) pk.key_def =
      rest.map (fun i => i.key_def) := by
    simp only [key_list_del, space_dump_def, hidx, List.map_cons, hpk]
    rw [List.filter_cons_of_neg (by simp [hpk])]
    rw [List.filter_eq_self]
    intro kd hkd
    obtain ⟨i, hi, rfl⟩ := List.mem_map.mp hkd
    simpa using hsec i hi
  have hperm := List.perm_insertionSort (fun a b : key_def => a.iid ≤ b.iid)
    (rest.map (fun i => i.key_def))
  have hprep : prepare_ops env V old_space [] [.DropIndex pk.key_def] [] =
      ([.DropIndex pk.key_def], none) := by
    simp [prepare_ops]
  have hsn : space_new V old_space.def_ (rest.map (fun i => i.key_def)) =
      .ok { def_ := old_space.def_,
            index := (List.insertionSort (fun a b : key_def => a.iid ≤ b.iid)
              (rest.map (fun i => i.key_def))).map
                (fun kd => { key_def := kd, impl := V.createIndex kd }),
            handler := MemtxSpace.new V.engine,
            on_replace := [],
            access := fun _ => 0 } := by
    simp [space_new, hnew]
  have hnone : List.find? (fun i : Index σ => i.key_def.iid == 0)
      ((List.insertionSort (fun a b : key_def => a.iid ≤ b.iid)
        (rest.map (fun i => i.key_def))).map
          (fun kd => { key_def := kd, impl := V.createIndex kd })) = none := by
    rw [List.find?_eq_none]
    intro i hi
    obtain ⟨kd, hkd, rfl⟩ := List.mem_map.mp hi
    obtain ⟨j, hj, rfl⟩ := List.mem_map.mp (hperm.mem_iff.mp hkd)
    simpa using hsec j hj
  have hlen : (List.insertionSort (fun a b : key_def => a.iid ≤ b.iid)
      (rest.map (fun i => i.key_def))).length ≠ 0 := by
    rw [hperm.length_eq, List.length_map]
    exact fun h => hrest (List.length_eq_zero.mp h)
  constructor
  · intro hsys
    unfold alter_space_do
    simp only [hops, hprep, List.foldl_cons, List.foldl_nil, AlterSpaceOp.alter_def, hkeys, hsn]
    simp only [alter_ops, AlterSpaceOp.alter, DropIndex.alter, space_index, hnone,
      Option.isSome_none, hsys, space.index_count, List.length_map]
    split_ifs <;> first | rfl | contradiction
  · intro hsys
    unfold alter_space_do
    simp only [hops, hprep, List.foldl_cons, List.foldl_nil, AlterSpaceOp.alter_def, hkeys, hsn]
    simp only [alter_ops, AlterSpaceOp.alter, DropIndex.alter, space_index, hnone,
      Option.isSome_none, hsys, space.index_count, List.length_map]
    split_ifs <;> first | rfl | contradiction

/-- Witness of C7, amended: the user space 512 with a primary and a secondary
key fails with `ER_DROP_PRIMARY_KEY`, the data dictionary space 300 with the
same keys fails with `ER_LAST_DROP`. -/
theorem drop_primary_key_with_secondary_witness :
    (alter_space_do example_env example_vtab
        { example_ddl_state (some [.num 512, .num 0]) none with
          alter := { (alter_space_new : alter_space (List (List Nat))) with
                       ops := [.DropIndex (example_key_def 512 0 0 "primary")] } }
        (example_two_key_space 512 [[1, 10], [2, 10]])).2 =
      some (.ClientError .ER_DROP_PRIMARY_KEY "") ∧
    (alter_space_do example_env example_vtab
        { example_ddl_state (some [.num 300, .num 0]) none with
          alter := { (alter_space_new : alter_space (List (List Nat))) with
                       ops := [.DropIndex (example_key_def 300 0 0 "primary")] } }
        (example_two_key_space 300 [[1, 10]])).2 =
      some (.ClientError .ER_LAST_DROP "") :=
  ⟨(drop_primary_key_with_secondary example_env example_vtab _
      (example_two_key_space 512 [[1, 10], [2, 10]])
      { key_def := example_key_def 512 0 0 "primary", impl := [[1, 10], [2, 10]] }
      [{ key_def := example_key_def 512 1 1 "secondary", impl := [[1, 10], [2, 10]] }]
      rfl rfl (by simp) (by simp [example_key_def]) rfl rfl).1 rfl,
   (drop_primary_key_with_secondary example_env example_vtab _
      (example_two_key_space 300 [[1, 10]])
      { key_def := example_key_def 300 0 0 "primary", impl := [[1, 10]] }
      [{ key_def := example_key_def 300 1 1 "secondary", impl := [[1, 10]] }]
      rfl rfl (by simp) (by simp [example_key_def]) rfl rfl).2 rfl⟩

/-! ### A failed or rolled back DDL -/

theorem strip_triggers_nil {σ : Type} (sp : space σ) : strip_triggers [] sp = sp := by
  cases sp
  simp [strip_triggers]

theorem AlterSpaceOp.destroy_eq {σ : Type} (cache : List (space σ)) (op : AlterSpaceOp) :
    AlterSpaceOp.destroy cache op = cache.map (strip_triggers ((op_trigger op).toList.map (·.ptr))) := by
  cases op with
  | AddIndex nkd tr =>
    cases tr with
    | none =>
      simp only [AlterSpaceOp.destroy, op_trigger, Option.toList, List.map_nil]
      rw [List.map_congr_left (fun sp _ => strip_triggers_nil sp), List.map_id']
    | some t =>
      simp only [AlterSpaceOp.destroy, op_trigger, Option.toList, List.map_cons, List.map_nil]
      apply List.map_congr_left
      intro sp _
      simp only [strip_triggers, trigger_clear]
      congr 1
      apply List.filter_congr
      intro x _
      simp
  | _ =>
    simp only [AlterSpaceOp.destroy, op_trigger, Option.toList, List.map_nil]
    rw [List.map_congr_left (fun sp _ => strip_triggers_nil sp), List.map_id']

theorem strip_triggers_append {σ : Type} (p q : List Nat) (sp : space σ) :
    strip_triggers q (strip_triggers p sp) = strip_triggers (p ++ q) sp := by
  simp only [strip_triggers, List.filter_filter]
  congr 1
  apply List.filter_congr
  intro x _
  simp [List.contains_eq_any_beq, Bool.and_comm]

theorem destroy_all {σ : Type} (ops : List AlterSpaceOp) :
    ∀ (cache : List (space σ)),
      ops.foldl AlterSpaceOp.destroy cache =
        cache.map (strip_triggers ((op_triggers ops).map (·.ptr))) := by
  induction ops with
  | nil =>
    intro cache
    simp only [List.foldl_nil, op_triggers, List.filterMap_nil, List.map_nil]
    rw [List.map_congr_left (fun sp _ => strip_triggers_nil sp), List.map_id']
  | cons op ops ih =>
    intro cache
    rw [List.foldl_cons, ih, AlterSpaceOp.destroy_eq, List.map_map]
    apply List.map_congr_left
    intro sp _
    simp only [Function.comp_apply, strip_triggers_append]
    congr 1
    cases h : op_trigger op <;> simp [op_triggers, List.filterMap_cons, h]

theorem alter_inv_of_same {σ : Type} {cache0 : List (space σ)} {txn0 : txn tuple} {n0 : Nat}
    (st st' : ddl_state σ) (h : alter_inv cache0 txn0 n0 st)
    (hc : st'.cache = st.cache) (ht : st'.txn = st.txn) (hn : st'.next_ptr = st.next_ptr)
    (ho : st'.alter.ops = st.alter.ops) : alter_inv cache0 txn0 n0 st' where
  txn_eq := by rw [ht]; exact h.txn_eq
  ptr_le := by rw [hn]; exact h.ptr_le
  cache_eq := by rw [hc]; exact h.cache_eq
  ops_fresh := by rw [ho, hn]; exact h.ops_fresh
  cache_fresh := by rw [hc, ho]; exact h.cache_fresh

theorem alter_inv_init {σ : Type} (st : ddl_state σ)
    (hfresh : ∀ sp ∈ st.cache, ∀ t ∈ sp.on_replace, t.ptr < st.next_ptr)
    (hops : op_triggers st.alter.ops = []) :
    alter_inv st.cache st.txn st.next_ptr st where
  txn_eq := rfl
  ptr_le := le_refl _
  cache_eq := by
    rw [List.map_congr_left (g := id), List.map_id]
    intro sp hsp
    cases sp with
    | mk d idx h o a =>
      simp only [strip_from, id, space.mk.injEq, true_and, and_true]
      rw [List.filter_eq_self]
      intro t ht
      simpa using hfresh _ hsp t ht
  ops_fresh := by
    rw [hops]
    intro t ht
    cases ht
  cache_fresh := by
    intro sp hsp t ht hn
    exact absurd (hfresh sp hsp t ht) (by omega)

theorem alter_space_delete_restores {σ : Type} {cache0 : List (space σ)} {txn0 : txn tuple}
    {n0 : Nat} (st : ddl_state σ) (h : alter_inv cache0 txn0 n0 st) :
    (alter_space_delete st).cache = cache0 ∧ (alter_space_delete st).txn = txn0 ∧
    (alter_space_delete st).alter.ops = [] ∧ (alter_space_delete st).alter.new_space = none := by
  refine ⟨?_, h.txn_eq, rfl, rfl⟩
  show st.alter.ops.foldl AlterSpaceOp.destroy st.cache = cache0
  rw [destroy_all, ← h.cache_eq]
  apply List.map_congr_left
  intro sp hsp
  simp only [strip_triggers, strip_from]
  congr 1
  apply List.filter_congr
  intro x hx
  by_cases hlt : x.ptr < n0
  · have : ¬ x.ptr ∈ (op_triggers st.alter.ops).map (·.ptr) := by
      intro hmem
      obtain ⟨t, ht, hpt⟩ := List.mem_map.mp hmem
      have := (h.ops_fresh t ht).1
      omega
    simp [hlt, this]
  · have hmem : x ∈ op_triggers st.alter.ops := h.cache_fresh sp hsp x hx (by omega)
    have : x.ptr ∈ (op_triggers st.alter.ops).map (·.ptr) := List.mem_map.mpr ⟨x, hmem, rfl⟩
    simp [hlt, this]

theorem AddIndex_alter_cases {σ τ : Type} (V : index_vtab σ τ) (st : ddl_state σ) (i : Nat)
    (nkd : key_def) :
    ((AddIndex.alter V st i nkd).1.cache = st.cache ∧
      (AddIndex.alter V st i nkd).1.txn = st.txn ∧
      (AddIndex.alter V st i nkd).1.next_ptr = st.next_ptr ∧
      (AddIndex.alter V st i nkd).1.alter.ops = st.alter.ops) ∨
    ((AddIndex.alter V st i nkd).2 = none ∧
      (AddIndex.alter V st i nkd).1.txn = st.txn ∧
      (AddIndex.alter V st i nkd).1.next_ptr = st.next_ptr + 1 ∧
      (∃ id t, t.ptr = st.next_ptr ∧
        (AddIndex.alter V st i nkd).1.cache = space_cache_update st.cache id
          (fun sp => { sp with on_replace := trigger_set sp.on_replace t }) ∧
        (AddIndex.alter V st i nkd).1.alter.ops = st.alter.ops.set i
          (.AddIndex (some nkd) (some t)))) := by
  unfold AddIndex.alter
  repeat' split
  all_goals
    first
      | (left; exact ⟨rfl, rfl, rfl, rfl⟩)
      | (right; exact ⟨rfl, rfl, rfl, _, _, rfl, rfl, rfl⟩)

theorem op_triggers_eq_nil (ops : List AlterSpaceOp) :
    op_triggers ops = [] ↔ ∀ op ∈ ops, op_trigger op = none := by
  simp [op_triggers, List.filterMap_eq_nil_iff]

theorem mem_op_triggers (ops : List AlterSpaceOp) (t : trigger) :
    t ∈ op_triggers ops ↔ ∃ op ∈ ops, op_trigger op = some t := by
  simp [op_triggers, List.mem_filterMap]

theorem mem_op_triggers_of_set (ops : List AlterSpaceOp) (i : Nat) (x : AlterSpaceOp)
    (t : trigger) (h : t ∈ op_triggers (ops.set i x)) :
    t ∈ op_triggers ops ∨ op_trigger x = some t := by
  rw [mem_op_triggers] at h
  obtain ⟨op, hop, ht⟩ := h
  rcases List.mem_or_eq_of_mem_set hop with hmem | heq
  · exact Or.inl ((mem_op_triggers ops t).mpr ⟨op, hmem, ht⟩)
  · exact Or.inr (heq ▸ ht)

theorem mem_op_triggers_set (ops : List AlterSpaceOp) (i : Nat) (x : AlterSpaceOp)
    (t : trigger) (h : t ∈ op_triggers ops)
    (hi : ∀ op, ops[i]? = some op → op_trigger op = none) :
    t ∈ op_triggers (ops.set i x) := by
  rw [mem_op_triggers] at h ⊢
  obtain ⟨op, hop, ht⟩ := h
  obtain ⟨j, hj, hget⟩ := List.mem_iff_getElem.mp hop
  have hne : i ≠ j := by
    intro heq
    subst heq
    have := hi op (by rw [List.getElem?_eq_getElem hj, hget])
    rw [this] at ht
    cases ht
  refine ⟨op, ?_, ht⟩
  rw [List.mem_iff_getElem]
  refine ⟨j, by simpa using hj, ?_⟩
  rw [List.getElem_set_ne hne]
  exact hget

theorem AddIndex.merge_no_trigger (env : schema_env) (prev_op : Option AlterSpaceOp)
    (nkd : Option key_def) (modify : Option AlterSpaceOp)
    (h : AddIndex.merge env prev_op nkd = some modify) :
    ∀ op ∈ modify.toList, op_trigger op = none := by
  unfold AddIndex.merge at h
  split at h
  · split_ifs at h
    · cases h
      intro op hop
      simp only [Option.toList, List.mem_singleton] at hop
      subst hop
      rfl
    · cases h
      intro op hop
      cases hop
  · cases h

theorem prepare_ops_no_trigger {σ τ : Type} (env : schema_env) (V : index_vtab σ τ)
    (old_space : space σ) :
    ∀ (todo done added : List AlterSpaceOp),
      (∀ op ∈ done, op_trigger op = none) → (∀ op ∈ todo, op_trigger op = none) →
      (∀ op ∈ added, op_trigger op = none) →
      ∀ op ∈ (prepare_ops env V old_space done todo added).1, op_trigger op = none := by
  intro todo
  induction todo with
  | nil =>
    intro done added hd _ ha op hop
    simp only [prepare_ops, List.mem_append] at hop
    rcases hop with h | h
    · exact hd op h
    · exact ha op h
  | cons o rest ih =>
    intro done added hd ht ha
    have ho : op_trigger o = none := ht o (List.mem_cons_self _ _)
    have hrest : ∀ op ∈ rest, op_trigger op = none :=
      fun op hop => ht op (List.mem_cons_of_mem _ hop)
    have hdone : ∀ op ∈ done ++ [o], op_trigger op = none := by
      intro op hop
      rcases List.mem_append.mp hop with h | h
      · exact hd op h
      · rw [List.mem_singleton.mp h]
        exact ho
    cases o with
    | ModifySpace d =>
      simp only [prepare_ops]
      split
      · intro op hop
        simp only [List.append_assoc, List.mem_append, List.mem_cons] at hop
        rcases hop with h | (h | h) | h
        · exact hd op h
        · rw [h]; exact ho
        · exact hrest op h
        · exact ha op h
      · exact ih _ _ hdone hrest ha
    | DropIndex k =>
      simp only [prepare_ops]
      exact ih _ _ hdone hrest ha
    | ModifyIndex n k =>
      simp only [prepare_ops]
      exact ih _ _ hdone hrest ha
    | AddIndex n tr =>
      simp only [prepare_ops]
      split
      · exact ih _ _ hdone hrest ha
      · rename_i modify hm
        refine ih _ _ (fun op hop => hd op (List.dropLast_subset _ hop)) hrest ?_
        intro op hop
        rcases List.mem_append.mp hop with h | h
        · exact ha op h
        · exact AddIndex.merge_no_trigger env _ _ _ hm op h

theorem strip_from_add {σ : Type} (n0 : Nat) (t : trigger) (h : n0 ≤ t.ptr) (sp : space σ) :
    strip_from n0 { sp with on_replace := trigger_set sp.on_replace t } = strip_from n0 sp := by
  have hlt : ¬ t.ptr < n0 := by omega
  simp [strip_from, trigger_set, List.filter_cons, hlt]

theorem alter_inv_install {σ : Type} {cache0 : List (space σ)} {txn0 : txn tuple} {n0 : Nat}
    (st st' : ddl_state σ) (h : alter_inv cache0 txn0 n0 st) (i id : Nat) (t : trigger)
    (x : AlterSpaceOp) (hx : op_trigger x = some t) (hptr : t.ptr = st.next_ptr)
    (op : AlterSpaceOp) (hop : st.alter.ops[i]? = some op) (hnone : op_trigger op = none)
    (ht : st'.txn = st.txn) (hn : st'.next_ptr = st.next_ptr + 1)
    (hc : st'.cache = space_cache_update st.cache id
      (fun sp => { sp with on_replace := trigger_set sp.on_replace t }))
    (ho : st'.alter.ops = st.alter.ops.set i x) : alter_inv cache0 txn0 n0 st' where
  txn_eq := by rw [ht]; exact h.txn_eq
  ptr_le := by have := h.ptr_le; omega
  cache_eq := by
    rw [hc, ← h.cache_eq, space_cache_update, List.map_map]
    apply List.map_congr_left
    intro sp _
    have hle : n0 ≤ t.ptr := by have := h.ptr_le; omega
    simp only [Function.comp]
    split_ifs
    · exact strip_from_add n0 t hle sp
    · rfl
  ops_fresh := by
    intro t' ht'
    rw [ho] at ht'
    rcases mem_op_triggers_of_set _ _ _ _ ht' with hold | hnew
    · have := h.ops_fresh t' hold
      omega
    · rw [hx] at hnew
      cases hnew
      have := h.ptr_le
      omega
  cache_fresh := by
    intro sp hsp t' ht' hle
    rw [hc, space_cache_update, List.mem_map] at hsp
    obtain ⟨sp0, hsp0, heq⟩ := hsp
    rw [ho]
    have hi : ∀ o, st.alter.ops[i]? = some o → op_trigger o = none := by
      intro o ho'
      rw [hop] at ho'
      cases ho'
      exact hnone
    have hold : t' ∈ sp0.on_replace → t' ∈ op_triggers (st.alter.ops.set i x) :=
      fun hm => mem_op_triggers_set _ _ _ _ (h.cache_fresh sp0 hsp0 t' hm hle) hi
    split_ifs at heq
    · subst heq
      simp only [trigger_set, List.mem_cons] at ht'
      rcases ht' with rfl | hm
      · rw [mem_op_triggers]
        refine ⟨x, ?_, hx⟩
        have hlt : i < st.alter.ops.length := by
          by_contra hge
          rw [List.getElem?_eq_none (by omega)] at hop
          cases hop
        exact List.mem_set _ _ hlt x
      · exact hold hm
    · subst heq
      exact hold ht'

theorem DropIndex_alter_same {σ : Type} (env : schema_env) (st : ddl_state σ) :
    (DropIndex.alter env st).1.cache = st.cache ∧ (DropIndex.alter env st).1.txn = st.txn ∧
    (DropIndex.alter env st).1.next_ptr = st.next_ptr ∧
    (DropIndex.alter env st).1.alter.ops = st.alter.ops := by
  unfold DropIndex.alter
  repeat' split
  all_goals exact ⟨rfl, rfl, rfl, rfl⟩

theorem drop_cons {α : Type} (l : List α) (i : Nat) (a : α) (rest : List α)
    (h : l.drop i = a :: rest) : l[i]? = some a ∧ l.drop (i + 1) = rest := by
  constructor
  · have := List.getElem?_drop l i 0
    rw [h] at this
    simpa using this.symm
  · have := List.drop_drop 1 i l
    rw [h] at this
    simpa using this.symm

theorem alter_step_inv {σ τ : Type} (env : schema_env) (V : index_vtab σ τ)
    {cache0 : List (space σ)} {txn0 : txn tuple} {n0 : Nat} (op : AlterSpaceOp) (i : Nat)
    (st : ddl_state σ) (h : alter_inv cache0 txn0 n0 st) (hop : st.alter.ops[i]? = some op)
    (hnone : op_trigger op = none) :
    alter_inv cache0 txn0 n0 (op.alter env V i st).1 ∧
    (op.alter env V i st).1.alter.ops.drop (i + 1) = st.alter.ops.drop (i + 1) := by
  cases op with
  | ModifySpace d => exact ⟨h, rfl⟩
  | ModifyIndex n k => exact ⟨h, rfl⟩
  | DropIndex k =>
    obtain ⟨hc, ht, hn, ho⟩ := DropIndex_alter_same env st
    refine ⟨alter_inv_of_same st _ h hc ht hn ho, ?_⟩
    show (DropIndex.alter env st).1.alter.ops.drop (i + 1) = _
    rw [ho]
  | AddIndex n tr =>
    cases n with
    | none => exact ⟨h, rfl⟩
    | some nkd =>
      show alter_inv cache0 txn0 n0 (AddIndex.alter V st i nkd).1 ∧
        (AddIndex.alter V st i nkd).1.alter.ops.drop (i + 1) = _
      rcases AddIndex_alter_cases V st i nkd with ⟨hc, ht, hn, ho⟩ | ⟨_, ht, hn, id, t, hp, hc, ho⟩
      · refine ⟨alter_inv_of_same st _ h hc ht hn ho, ?_⟩
        rw [ho]
      · refine ⟨alter_inv_install st _ h i id t (.AddIndex (some nkd) (some t)) rfl hp _ hop hnone ht hn hc ho, ?_⟩
        rw [ho]
        exact List.drop_set_of_lt _ _ (Nat.lt_succ_self i)

theorem alter_ops_inv {σ τ : Type} (env : schema_env) (V : index_vtab σ τ)
    {cache0 : List (space σ)} {txn0 : txn tuple} {n0 : Nat} :
    ∀ (rest : List AlterSpaceOp) (i : Nat) (st : ddl_state σ),
      alter_inv cache0 txn0 n0 st → st.alter.ops.drop i = rest →
      (∀ op ∈ rest, op_trigger op = none) →
      alter_inv cache0 txn0 n0 (alter_ops env V i rest st).1 := by
  intro rest
  induction rest with
  | nil =>
    intro i st h _ _
    exact h
  | cons op rest ih =>
    intro i st h hdrop hnone
    obtain ⟨hget, hrest⟩ := drop_cons _ _ _ _ hdrop
    obtain ⟨hinv, hd⟩ :=
      alter_step_inv env V op i st h hget (hnone op (List.mem_cons_self _ _))
    unfold alter_ops
    split
    · rename_i st' e heq
      rw [heq] at hinv
      exact hinv
    · rename_i st' heq
      rw [heq] at hinv hd
      exact ih (i + 1) st' hinv (by rw [hd, hrest])
        (fun o ho => hnone o (List.mem_cons_of_mem _ ho))

theorem alter_def_ops {σ : Type} (ops : List AlterSpaceOp) (a : alter_space σ) :
    (ops.foldl (fun a op => op.alter_def a) a).ops = a.ops ∧
    (ops.foldl (fun a op => op.alter_def a) a).new_space = a.new_space := by
  induction ops generalizing a with
  | nil => exact ⟨rfl, rfl⟩
  | cons op rest ih =>
    rw [List.foldl_cons]
    obtain ⟨h1, h2⟩ := ih (op.alter_def a)
    rw [h1, h2]
    cases op <;> exact ⟨rfl, rfl⟩

theorem alter_inv_registered {σ : Type} {cache0 : List (space σ)} {txn0 : txn tuple} {n0 : Nat}
    (st : ddl_state σ) (h : alter_inv cache0 txn0 n0 st) (t : txn tuple) (k : Nat) :
    alter_inv cache0 t n0 { st with txn := t, next_ptr := st.next_ptr + k } where
  txn_eq := rfl
  ptr_le := by
    show n0 ≤ st.next_ptr + k
    have := h.ptr_le
    omega
  cache_eq := h.cache_eq
  ops_fresh := by
    intro t' ht'
    have := h.ops_fresh t' ht'
    show n0 ≤ t'.ptr ∧ t'.ptr < st.next_ptr + k
    omega
  cache_fresh := h.cache_fresh

theorem alter_inv_start {σ : Type} (st st' : ddl_state σ)
    (hfresh : ∀ sp ∈ st.cache, ∀ t ∈ sp.on_replace, t.ptr < st.next_ptr)
    (hc : st'.cache = st.cache) (ht : st'.txn = st.txn) (hn : st'.next_ptr = st.next_ptr)
    (ho : ∀ op ∈ st'.alter.ops, op_trigger op = none) :
    alter_inv st.cache st.txn st.next_ptr st' := by
  have h := alter_inv_init st' (by rw [hc, hn]; exact hfresh) ((op_triggers_eq_nil _).mpr ho)
  rw [hc, ht, hn] at h
  exact h

theorem alter_space_do_inv {σ τ : Type} (env : schema_env) (V : index_vtab σ τ)
    (st : ddl_state σ) (old_space : space σ)
    (hfresh : ∀ sp ∈ st.cache, ∀ t ∈ sp.on_replace, t.ptr < st.next_ptr)
    (hops : ∀ op ∈ st.alter.ops, op_trigger op = none) :
    ((alter_space_do env V st old_space).2 ≠ none →
      alter_inv st.cache st.txn st.next_ptr (alter_space_do env V st old_space).1) ∧
    ((alter_space_do env V st old_space).2 = none →
      alter_inv st.cache (alter_space_do env V st old_space).1.txn st.next_ptr
        (alter_space_do env V st old_space).1 ∧
      ∃ p, (alter_space_do env V st old_space).1.txn =
        { st.txn with
          on_commit := trigger_set st.txn.on_commit
            (txn_alter_trigger_new .alter_space_commit p),
          on_rollback := trigger_set st.txn.on_rollback
            (txn_alter_trigger_new .alter_space_rollback (p + 1)) }) := by
  unfold alter_space_do
  simp only []
  have hprep : ∀ op ∈ (prepare_ops env V old_space [] st.alter.ops []).1,
      op_trigger op = none :=
    prepare_ops_no_trigger env V old_space st.alter.ops [] [] (by simp) hops (by simp)
  split
  · rename_i ops e heq
    rw [heq] at hprep
    exact ⟨fun _ => alter_inv_start st _ hfresh rfl rfl rfl hprep, fun h => by cases h⟩
  · rename_i ops heq
    rw [heq] at hprep
    split
    · rename_i e hsn
      refine ⟨fun _ => alter_inv_start st _ hfresh rfl rfl rfl ?_, fun h => by cases h⟩
      intro op hop
      dsimp only at hop
      rw [(alter_def_ops ops _).1] at hop
      exact hprep op hop
    · rename_i new_space hsn
      have hloop := alter_ops_inv env V ops 0 _
        (alter_inv_start st
          { st with alter :=
              { (ops.foldl (fun a op => op.alter_def a)
                  { st.alter with old_space := some old_space.def_.id,
                                  space_def := old_space.def_,
                                  key_list := space_dump_def old_space,
                                  ops := ops }) with
                new_space := some
                  { new_space with
                      handler := { new_space.handler with
                                     replace := old_space.handler.replace },
                      access := old_space.access } } }
          hfresh rfl rfl rfl (by
            intro op hop
            dsimp only at hop
            rw [(alter_def_ops ops _).1] at hop
            exact hprep op hop))
        (by
          dsimp only
          rw [(alter_def_ops ops _).1]
          rfl) hprep
      split
      · rename_i st' e hao
        rw [hao] at hloop
        exact ⟨fun _ => hloop, fun h => by cases h⟩
      · rename_i st' hao
        rw [hao] at hloop
        refine ⟨fun h => absurd rfl h, fun _ => ⟨alter_inv_registered st' hloop _ 2, ?_⟩⟩
        refine ⟨st'.next_ptr, ?_⟩
        have ht : st'.txn = st.txn := hloop.txn_eq
        simp only [ht]

theorem index_ops_no_trigger {σ : Type} (old_index : Option (Index σ)) (add : List AlterSpaceOp)
    (h : ∀ op ∈ add, op_trigger op = none) :
    ∀ op ∈ index_ops old_index add, op_trigger op = none := by
  intro op hop
  unfold index_ops at hop
  rcases List.mem_append.mp hop with h1 | h1
  · cases old_index with
    | none => cases h1
    | some i =>
      rw [List.mem_singleton.mp h1]
      rfl
  · exact h op h1

theorem on_replace_dd_index_cases {σ τ : Type} (env : schema_env) (V : index_vtab σ τ)
    (st : ddl_state σ) :
    on_replace_dd_index env V st = .error .null_pointer ∨
    (∃ e, on_replace_dd_index env V st = .ok (st, some e)) ∨
    (∃ ops e, (∀ op ∈ ops, op_trigger op = none) ∧
      on_replace_dd_index env V st = .ok (alter_space_delete
        { st with alter := { (alter_space_new : alter_space σ) with ops := ops } }, some e)) ∨
    (∃ ops old_space, (∀ op ∈ ops, op_trigger op = none) ∧
      on_replace_dd_index env V st = guarded_alter env V st ops old_space) := by
  unfold on_replace_dd_index
  split
  · exact Or.inl rfl
  split
  · exact Or.inr (Or.inl ⟨_, rfl⟩)
  split
  · exact Or.inr (Or.inl ⟨_, rfl⟩)
  split
  · exact Or.inr (Or.inl ⟨_, rfl⟩)
  split
  · exact Or.inr (Or.inl ⟨_, rfl⟩)
  rename_i _ t _ _ id _ _ iid _ _ old_space _ _ _
  simp only []
  split
  · exact Or.inr (Or.inr (Or.inr ⟨index_ops (space_index old_space iid) [], old_space,
      index_ops_no_trigger _ _ (by simp), by
        simp only [guarded_alter, index_ops, List.append_nil]⟩))
  · split
    · exact Or.inr (Or.inr (Or.inl ⟨index_ops (space_index old_space iid) [.AddIndex none none],
        _, index_ops_no_trigger _ _ (by simp [op_trigger]), rfl⟩))
    · exact Or.inr (Or.inr (Or.inr ⟨index_ops (space_index old_space iid)
        [.AddIndex (some _) none], old_space,
        index_ops_no_trigger _ _ (by simp [op_trigger]), rfl⟩))

theorem guarded_alter_spec {σ τ : Type} (env : schema_env) (V : index_vtab σ τ)
    (st : ddl_state σ) (ops : List AlterSpaceOp) (old_space : space σ)
    (hfresh : ∀ sp ∈ st.cache, ∀ t ∈ sp.on_replace, t.ptr < st.next_ptr)
    (hops : ∀ op ∈ ops, op_trigger op = none) :
    (∀ st' e, guarded_alter env V st ops old_space = .ok (st', some e) →
      st'.txn = st.txn ∧ st'.cache = st.cache ∧ st'.alter.ops = [] ∧
      st'.alter.new_space = none) ∧
    (∀ st', guarded_alter env V st ops old_space = .ok (st', none) →
      ∃ p, st'.txn.on_rollback =
          [txn_alter_trigger_new .alter_space_rollback p] ++ st.txn.on_rollback ∧
        (alter_space_rollback st').cache = st.cache) ∧
    (∀ f, guarded_alter env V st ops old_space ≠ .error f) := by
  obtain ⟨hf, hs⟩ := alter_space_do_inv env V
    { st with alter := { (alter_space_new : alter_space σ) with ops := ops } } old_space
    hfresh hops
  unfold guarded_alter
  split
  · rename_i st1 e heq
    rw [heq] at hf
    have hinv := hf (by simp)
    obtain ⟨h1, h2, h3, h4⟩ := alter_space_delete_restores st1 hinv
    refine ⟨?_, ?_, ?_⟩
    · intro st' e' h
      cases h
      exact ⟨h2, h1, h3, h4⟩
    · intro st' h
      cases h
    · intro f h
      cases h
  · rename_i st1 heq
    rw [heq] at hs
    obtain ⟨hinv, p, hp⟩ := hs rfl
    refine ⟨?_, ?_, ?_⟩
    · intro st' e' h
      cases h
    · intro st' h
      cases h
      refine ⟨p + 1, ?_, (alter_space_delete_restores _ hinv).1⟩
      rw [hp]
      rfl
    · intro f h
      cases h

theorem tuple_field_u32_init_flags (d d' : space_def) (t : tuple)
    (h : space_def_init_flags d t = .ok d') : d'.id = d.id := by
  unfold space_def_init_flags at h
  split_ifs at h
  · cases h
    rfl
  · split at h
    · cases h
    · cases h
      rfl

theorem space_def_create_from_tuple_id (env : schema_env) (t : tuple) (c : box_error_code)
    (d : space_def) (h : space_def_create_from_tuple env t c = .ok d) :
    tuple_field_u32 t ID = .ok d.id := by
  unfold space_def_create_from_tuple at h
  repeat' split at h
  all_goals cases h
  rename_i hid _ _ _ _ _ _ _ _ _ _ _ _ _ _ _ hfl _ _
  rw [hid, tuple_field_u32_init_flags _ _ _ hfl]

theorem space_new_def {σ τ : Type} (V : index_vtab σ τ) (d : space_def) (kl : List key_def)
    (sp : space σ) (h : space_new V d kl = .ok sp) : sp.def_ = d ∧ sp.on_replace = [] := by
  unfold space_new at h
  split at h
  · cases h
  · cases h
    exact ⟨rfl, rfl⟩

theorem space_cache_insert_delete {σ : Type} (cache : List (space σ)) (sp : space σ)
    (h : space_by_id cache sp.def_.id = none) :
    space_cache_replace cache sp = cache ++ [sp] ∧
    space_by_id (cache ++ [sp]) sp.def_.id = some sp ∧
    space_cache_delete (cache ++ [sp]) sp.def_.id = cache := by
  have hall : ∀ x ∈ cache, ¬ x.def_.id = sp.def_.id := by
    simpa [space_by_id] using h
  refine ⟨by simp [space_cache_replace, h], ?_, ?_⟩
  · simp only [space_by_id] at h ⊢
    rw [List.find?_append, h]
    simp
  · simp only [space_cache_delete, List.filter_append]
    rw [List.filter_eq_self.mpr (by
      intro x hx
      simpa using hall x hx)]
    simp

theorem cache_entries_strip {σ : Type} (ptrs : List Nat) (cache : List (space σ)) :
    cache_entries (cache.map (strip_triggers ptrs)) = cache_entries cache := by
  simp only [cache_entries, List.map_map]
  apply List.map_congr_left
  intro sp _
  rfl

theorem cache_entries_update {σ : Type} (cache : List (space σ)) (id : Nat) (t : trigger) :
    cache_entries (space_cache_update cache id
      (fun sp => { sp with on_replace := trigger_set sp.on_replace t })) =
    cache_entries cache := by
  simp only [cache_entries, space_cache_update, List.map_map]
  apply List.map_congr_left
  intro sp _
  simp only [Function.comp]
  split_ifs <;> rfl

theorem alter_step_cache_entries {σ τ : Type} (env : schema_env) (V : index_vtab σ τ)
    (op : AlterSpaceOp) (i : Nat) (st : ddl_state σ) :
    cache_entries (op.alter env V i st).1.cache = cache_entries st.cache := by
  cases op with
  | ModifySpace d => rfl
  | ModifyIndex n k => rfl
  | DropIndex k =>
    show cache_entries (DropIndex.alter env st).1.cache = _
    rw [(DropIndex_alter_same env st).1]
  | AddIndex n tr =>
    cases n with
    | none => rfl
    | some nkd =>
      show cache_entries (AddIndex.alter V st i nkd).1.cache = _
      rcases AddIndex_alter_cases V st i nkd with ⟨hc, _⟩ | ⟨_, _, _, id, t, _, hc, _⟩
      · rw [hc]
      · rw [hc, cache_entries_update]

theorem alter_ops_cache_entries {σ τ : Type} (env : schema_env) (V : index_vtab σ τ) :
    ∀ (rest : List AlterSpaceOp) (i : Nat) (st : ddl_state σ),
      cache_entries (alter_ops env V i rest st).1.cache = cache_entries st.cache := by
  intro rest
  induction rest with
  | nil =>
    intro i st
    rfl
  | cons op rest ih =>
    intro i st
    have hstep := alter_step_cache_entries env V op i st
    unfold alter_ops
    split
    · rename_i st' e heq
      rw [heq] at hstep
      exact hstep
    · rename_i st' heq
      rw [heq] at hstep
      rw [ih (i + 1) st', hstep]

theorem alter_space_do_cache_entries {σ τ : Type} (env : schema_env) (V : index_vtab σ τ)
    (st : ddl_state σ) (old_space : space σ) :
    cache_entries (alter_space_do env V st old_space).1.cache = cache_entries st.cache := by
  unfold alter_space_do
  simp only []
  split
  · rfl
  · rename_i ops heq
    split
    · rfl
    · rename_i new_space hsn
      have hloop := alter_ops_cache_entries env V ops 0
        { st with alter :=
            { (ops.foldl (fun a op => op.alter_def a)
                { st.alter with old_space := some old_space.def_.id,
                                space_def := old_space.def_,
                                key_list := space_dump_def old_space,
                                ops := ops }) with
              new_space := some
                { new_space with
                    handler := { new_space.handler with
                                   replace := old_space.handler.replace },
                    access := old_space.access } } }
      split
      · rename_i st' e hao
        rw [hao] at hloop
        exact hloop
      · rename_i st' hao
        rw [hao] at hloop
        exact hloop

theorem on_replace_dd_space_cases {σ τ : Type} (env : schema_env) (V : index_vtab σ τ)
    (st : ddl_state σ) :
    on_replace_dd_space env V st = .error .null_pointer ∨
    (∃ e, on_replace_dd_space env V st = .ok (st, some e)) ∨
    (∃ ops e, (∀ op ∈ ops, op_trigger op = none) ∧
      on_replace_dd_space env V st = .ok (alter_space_delete
        { st with alter := { (alter_space_new : alter_space σ) with ops := ops } }, some e)) ∨
    (∃ ops old_space, (∀ op ∈ ops, op_trigger op = none) ∧
      on_replace_dd_space env V st = guarded_alter env V st ops old_space ∧
      ∃ t id, st.txn.old_or_new = some t ∧ tuple_field_u32 t ID = .ok id ∧
        space_by_id st.cache id = some old_space) ∨
    (on_replace_dd_space env V st = .ok ({ st with txn := { st.txn with
        on_commit := trigger_set st.txn.on_commit drop_space_trigger } }, none) ∧
      ∃ t id old_space, st.txn.old_or_new = some t ∧ tuple_field_u32 t ID = .ok id ∧
        space_by_id st.cache id = some old_space) ∨
    (∃ t old_id new_tuple d sp, st.txn.old_or_new = some t ∧
      tuple_field_u32 t ID = .ok old_id ∧ st.txn.new_tuple = some new_tuple ∧
      space_by_id st.cache old_id = none ∧
      space_def_create_from_tuple env new_tuple .ER_CREATE_SPACE = .ok d ∧
      space_new V d [] = .ok sp ∧
      on_replace_dd_space env V st = .ok ({ st with
        cache := space_cache_replace st.cache sp,
        txn := { st.txn with
          on_rollback := trigger_set st.txn.on_rollback drop_space_trigger } }, none)) := by
  unfold on_replace_dd_space
  split
  · exact Or.inl rfl
  rename_i t ht
  split
  · exact Or.inr (Or.inl ⟨_, rfl⟩)
  rename_i old_id hid
  split
  · rename_i new_tuple hnew hby
    split
    · exact Or.inr (Or.inl ⟨_, rfl⟩)
    rename_i d hd
    split
    · exact Or.inr (Or.inl ⟨_, rfl⟩)
    rename_i sp hsp
    exact Or.inr (Or.inr (Or.inr (Or.inr (Or.inr
      ⟨t, old_id, new_tuple, d, sp, ht, hid, hnew, hby, hd, hsp, rfl⟩))))
  · exact Or.inl rfl
  · rename_i old_space hnew hby
    split
    · exact Or.inr (Or.inl ⟨_, rfl⟩)
    split_ifs
    · exact Or.inr (Or.inl ⟨_, rfl⟩)
    · exact Or.inr (Or.inl ⟨_, rfl⟩)
    · exact Or.inr (Or.inr (Or.inr (Or.inr (Or.inl ⟨rfl, t, old_id, old_space, ht, hid, hby⟩))))
  · rename_i new_tuple old_space hnew hby
    simp only []
    split
    · exact Or.inr (Or.inr (Or.inl ⟨[.ModifySpace space_def_zero], _,
        by simp [op_trigger], rfl⟩))
    · rename_i d hd
      exact Or.inr (Or.inr (Or.inr (Or.inl ⟨[.ModifySpace d], old_space,
        by simp [op_trigger], rfl, t, old_id, ht, hid, hby⟩)))

theorem insert_space_rollback {σ : Type} (st : ddl_state σ) (sp : space σ) (t : tuple)
    (ht : st.txn.old_or_new = some t) (hid : tuple_field_u32 t ID = .ok sp.def_.id)
    (hby : space_by_id st.cache sp.def_.id = none) :
    on_drop_space { st with
        cache := space_cache_replace st.cache sp,
        txn := { st.txn with
          on_rollback := trigger_set st.txn.on_rollback drop_space_trigger } } =
      .ok ({ st with
        cache := st.cache,
        txn := { st.txn with
          on_rollback := trigger_set st.txn.on_rollback drop_space_trigger } }, none) := by
  obtain ⟨h1, h2, h3⟩ := space_cache_insert_delete st.cache sp hby
  have ht' : txn.old_or_new { st.txn with
      on_rollback := trigger_set st.txn.on_rollback drop_space_trigger } = some t := ht
  simp only [on_drop_space, ht', hid, h1, h2, h3]

theorem trigger_failure_spec {σ τ : Type} (env : schema_env) (V : index_vtab σ τ)
    (st : ddl_state σ)
    (hfresh : ∀ sp ∈ st.cache, ∀ t ∈ sp.on_replace, t.ptr < st.next_ptr)
    (r : Except Fatal (ddl_state σ × Option Exception))
    (hr : r = .error .null_pointer ∨ (∃ e, r = .ok (st, some e)) ∨
      (∃ ops e, (∀ op ∈ ops, op_trigger op = none) ∧
        r = .ok (alter_space_delete
          { st with alter := { (alter_space_new : alter_space σ) with ops := ops } }, some e)) ∨
      (∃ ops old_space, (∀ op ∈ ops, op_trigger op = none) ∧
        r = guarded_alter env V st ops old_space) ∨
      (∃ st1, r = .ok (st1, none)))
    (st' : ddl_state σ) (e : Exception) (h : r = .ok (st', some e)) :
    st'.txn = st.txn ∧ st'.cache = st.cache ∧
    (st' = st ∨ (st'.alter.ops = [] ∧ st'.alter.new_space = none)) := by
  rcases hr with h0 | ⟨e0, h0⟩ | ⟨ops, e0, hno, h0⟩ | ⟨ops, old_space, hno, h0⟩ | ⟨st1, h0⟩
  · rw [h0] at h
    cases h
  · rw [h0] at h
    cases h
    exact ⟨rfl, rfl, Or.inl rfl⟩
  · rw [h0] at h
    cases h
    obtain ⟨h1, h2, h3, h4⟩ := alter_space_delete_restores _
      (alter_inv_start st
        { st with alter := { (alter_space_new : alter_space σ) with ops := ops } }
        hfresh rfl rfl rfl hno)
    exact ⟨h2, h1, Or.inr ⟨h3, h4⟩⟩
  · rw [h0] at h
    obtain ⟨h1, h2, h3, h4⟩ := (guarded_alter_spec env V st ops old_space hfresh hno).1 st' e h
    exact ⟨h1, h2, Or.inr ⟨h3, h4⟩⟩
  · rw [h0] at h
    cases h

/-- C4: a DDL that fails before the WAL write leaves nothing behind. The cache
holds every space with its list of `on_replace` triggers, and every trigger that
is on a space when the DDL starts has an address below the next free one
(`hfresh`). If `alter_space_do`, called on a plan whose ops hold no trigger yet,
raises, then the transaction is as it was, so no `on_commit` and no
`on_rollback` trigger has been added, and after the guard of the caller
(`alter_space_delete`) the plan has no op and no new space and the cache, the
lists of `on_replace` triggers of its spaces included, is the one before the
call. For the two callers: when `on_replace_dd_index` or `on_replace_dd_space`
raises, the transaction and the cache are as before the call, and either nothing
at all has changed or the plan has been destroyed. -/
theorem failed_ddl_leaves_nothing_behind {σ τ : Type} (env : schema_env) (V : index_vtab σ τ)
    (st : ddl_state σ)
    (hfresh : ∀ sp ∈ st.cache, ∀ t ∈ sp.on_replace, t.ptr < st.next_ptr) :
    (∀ old_space e, (∀ op ∈ st.alter.ops, op_trigger op = none) →
      (alter_space_do env V st old_space).2 = some e →
        (alter_space_do env V st old_space).1.txn = st.txn ∧
        (alter_space_delete (alter_space_do env V st old_space).1).alter.ops = [] ∧
        (alter_space_delete (alter_space_do env V st old_space).1).alter.new_space = none ∧
        (alter_space_delete (alter_space_do env V st old_space).1).cache = st.cache ∧
        (alter_space_delete (alter_space_do env V st old_space).1).cache.map
          (fun sp => sp.on_replace) = st.cache.map (fun sp => sp.on_replace)) ∧
    (∀ st' e, on_replace_dd_index env V st = .ok (st', some e) →
      st'.txn = st.txn ∧ st'.cache = st.cache ∧
      (st' = st ∨ (st'.alter.ops = [] ∧ st'.alter.new_space = none))) ∧
    (∀ st' e, on_replace_dd_space env V st = .ok (st', some e) →
      st'.txn = st.txn ∧ st'.cache = st.cache ∧
      (st' = st ∨ (st'.alter.ops = [] ∧ st'.alter.new_space = none))) := by
  refine ⟨?_, ?_, ?_⟩
  · intro old_space e hops he
    have hinv := (alter_space_do_inv env V st old_space hfresh hops).1 (by rw [he]; simp)
    obtain ⟨h1, _, h3, h4⟩ := alter_space_delete_restores _ hinv
    exact ⟨hinv.txn_eq, h3, h4, h1, by rw [h1]⟩
  · intro st' e h
    refine trigger_failure_spec env V st hfresh _ ?_ st' e h
    rcases on_replace_dd_index_cases env V st with h0 | h0 | h0 | h0
    · exact Or.inl h0
    · exact Or.inr (Or.inl h0)
    · exact Or.inr (Or.inr (Or.inl h0))
    · exact Or.inr (Or.inr (Or.inr (Or.inl h0)))
  · intro st' e h
    refine trigger_failure_spec env V st hfresh _ ?_ st' e h
    rcases on_replace_dd_space_cases env V st with h0 | h0 | h0 | h0 | h0 | h0
    · exact Or.inl h0
    · exact Or.inr (Or.inl h0)
    · exact Or.inr (Or.inr (Or.inl h0))
    · obtain ⟨ops, old_space, hno, h1, _⟩ := h0
      exact Or.inr (Or.inr (Or.inr (Or.inl ⟨ops, old_space, hno, h1⟩)))
    · exact Or.inr (Or.inr (Or.inr (Or.inr ⟨_, h0.1⟩)))
    · obtain ⟨_, _, _, _, _, _, _, _, _, _, _, h1⟩ := h0
      exact Or.inr (Or.inr (Or.inr (Or.inr ⟨_, h1⟩)))

theorem insert_space_id {σ τ : Type} (env : schema_env) (V : index_vtab σ τ)
    (st : ddl_state σ) (t new_tuple : tuple) (old_id : Nat) (d : space_def) (sp : space σ)
    (hev : ∀ o id, st.txn.old_tuple = some o → tuple_field_u32 o ID = .ok id →
      space_by_id st.cache id ≠ none)
    (ht : st.txn.old_or_new = some t) (hid : tuple_field_u32 t ID = .ok old_id)
    (hnew : st.txn.new_tuple = some new_tuple) (hby : space_by_id st.cache old_id = none)
    (hd : space_def_create_from_tuple env new_tuple .ER_CREATE_SPACE = .ok d)
    (hsp : space_new V d [] = .ok sp) : old_id = sp.def_.id := by
  have h1 := space_def_create_from_tuple_id env new_tuple _ d hd
  have h2 := (space_new_def V d [] sp hsp).1
  have h3 : t = new_tuple := by
    unfold txn.old_or_new at ht
    split at ht
    · rename_i o ho
      cases ht
      exact absurd hby (hev _ _ ho hid)
    · rw [hnew] at ht
      cases ht
      rfl
  rw [h3, h1] at hid
  cases hid
  rw [h2]

theorem guarded_alter_rollback {σ τ : Type} (env : schema_env) (V : index_vtab σ τ)
    (st : ddl_state σ) (ops : List AlterSpaceOp) (old_space : space σ)
    (hfresh : ∀ sp ∈ st.cache, ∀ t ∈ sp.on_replace, t.ptr < st.next_ptr)
    (hops : ∀ op ∈ ops, op_trigger op = none) (st' : ddl_state σ)
    (h : guarded_alter env V st ops old_space = .ok (st', none)) :
    ∃ registered st'', st'.txn.on_rollback = registered ++ st.txn.on_rollback ∧
      run_rollback_triggers registered st' = .ok (st'', none) ∧ st''.cache = st.cache := by
  obtain ⟨p, hp, hc⟩ := (guarded_alter_spec env V st ops old_space hfresh hops).2.1 st' h
  exact ⟨[txn_alter_trigger_new .alter_space_rollback p], alter_space_rollback st', hp, rfl, hc⟩

theorem insert_space_spec {σ τ : Type} (env : schema_env) (V : index_vtab σ τ)
    (st : ddl_state σ)
    (hev : ∀ o id, st.txn.old_tuple = some o → tuple_field_u32 o ID = .ok id →
      space_by_id st.cache id ≠ none)
    (t new_tuple : tuple) (old_id : Nat) (d : space_def) (sp : space σ)
    (ht : st.txn.old_or_new = some t) (hid : tuple_field_u32 t ID = .ok old_id)
    (hnew : st.txn.new_tuple = some new_tuple) (hby : space_by_id st.cache old_id = none)
    (hd : space_def_create_from_tuple env new_tuple .ER_CREATE_SPACE = .ok d)
    (hsp : space_new V d [] = .ok sp) :
    (space_by_id (space_cache_replace st.cache sp) old_id).isSome ∧
    on_drop_space { st with
        cache := space_cache_replace st.cache sp,
        txn := { st.txn with
          on_rollback := trigger_set st.txn.on_rollback drop_space_trigger } } =
      .ok ({ st with
        cache := st.cache,
        txn := { st.txn with
          on_rollback := trigger_set st.txn.on_rollback drop_space_trigger } }, none) := by
  have hidsp := insert_space_id env V st t new_tuple old_id d sp hev ht hid hnew hby hd hsp
  subst hidsp
  obtain ⟨h1, h2, _⟩ := space_cache_insert_delete st.cache sp hby
  refine ⟨by rw [h1, h2]; rfl, insert_space_rollback st sp t ht hid hby⟩

theorem run_drop_space_trigger {σ : Type} (s s2 : ddl_state σ)
    (h : on_drop_space s = .ok (s2, none)) :
    run_rollback_triggers [drop_space_trigger] s = .ok (s2, none) := by
  simp [run_rollback_triggers, drop_space_trigger, h]

/-- C3: a DDL that is rolled back leaves the space cache as it was. The cache
holds every space with its list of `on_replace` triggers; every trigger on a
space has an address below the next free one when the trigger of the system
space starts (`hfresh`), and the old tuple of the event, when there is one,
carries the id of a space of the cache (`hev`). When `on_replace_dd_space` or `on_replace_dd_index`
returns without an exception, the `on_rollback` list of the transaction is the
old one with the registered triggers in front, running the registered triggers
ends without an exception and the cache after it is the cache before the
mutation. `alter_space_do` and `alter_space_rollback` leave the entries of the
cache, the spaces up to their trigger lists, as they are. A `_space` INSERT,
where the cache has no space with the id of the tuple, puts a space with this id
into the cache and registers `on_drop_space`, which takes it out again. -/
theorem rolled_back_ddl_restores_cache {σ τ : Type} (env : schema_env) (V : index_vtab σ τ)
    (st : ddl_state σ)
    (hfresh : ∀ sp ∈ st.cache, ∀ t ∈ sp.on_replace, t.ptr < st.next_ptr)
    (hev : ∀ o id, st.txn.old_tuple = some o → tuple_field_u32 o ID = .ok id →
      space_by_id st.cache id ≠ none) :
    (∀ st', on_replace_dd_space env V st = .ok (st', none) →
      ∃ registered st'', st'.txn.on_rollback = registered ++ st.txn.on_rollback ∧
        run_rollback_triggers registered st' = .ok (st'', none) ∧ st''.cache = st.cache) ∧
    (∀ st', on_replace_dd_index env V st = .ok (st', none) →
      ∃ registered st'', st'.txn.on_rollback = registered ++ st.txn.on_rollback ∧
        run_rollback_triggers registered st' = .ok (st'', none) ∧ st''.cache = st.cache) ∧
    (∀ old_space,
      cache_entries (alter_space_do env V st old_space).1.cache = cache_entries st.cache) ∧
    cache_entries (alter_space_rollback st).cache = cache_entries st.cache ∧
    (∀ t id st', st.txn.old_or_new = some t → tuple_field_u32 t ID = .ok id →
      space_by_id st.cache id = none → on_replace_dd_space env V st = .ok (st', none) →
      (space_by_id st'.cache id).isSome ∧
      st'.txn.on_rollback = drop_space_trigger :: st.txn.on_rollback ∧
      ∃ st'', on_drop_space st' = .ok (st'', none) ∧ st''.cache = st.cache ∧
        space_by_id st''.cache id = none) := by
  refine ⟨?_, ?_, alter_space_do_cache_entries env V st, ?_, ?_⟩
  · intro st' h
    rcases on_replace_dd_space_cases env V st with h0 | ⟨e, h0⟩ | ⟨_, e, _, h0⟩ |
      ⟨ops, old_space, hno, h0, _⟩ | ⟨h0, _⟩ |
      ⟨t, old_id, new_tuple, d, sp, ht, hid, hnew, hby, hd, hsp, h0⟩
    · rw [h0] at h
      cases h
    · rw [h0] at h
      cases h
    · rw [h0] at h
      cases h
    · rw [h0] at h
      exact guarded_alter_rollback env V st ops old_space hfresh hno st' h
    · rw [h0] at h
      cases h
      exact ⟨[], _, rfl, rfl, rfl⟩
    · rw [h0] at h
      cases h
      have hdrop :=
        (insert_space_spec env V st hev t new_tuple old_id d sp ht hid hnew hby hd hsp).2
      exact ⟨[drop_space_trigger], _, rfl, run_drop_space_trigger _ _ hdrop, rfl⟩
  · intro st' h
    rcases on_replace_dd_index_cases env V st with h0 | ⟨e, h0⟩ | ⟨_, e, _, h0⟩ |
      ⟨ops, old_space, hno, h0⟩
    · rw [h0] at h
      cases h
    · rw [h0] at h
      cases h
    · rw [h0] at h
      cases h
    · rw [h0] at h
      exact guarded_alter_rollback env V st ops old_space hfresh hno st' h
  · show cache_entries (st.alter.ops.foldl AlterSpaceOp.destroy st.cache) = _
    rw [destroy_all, cache_entries_strip]
  · intro t id st' ht hid hby h
    rcases on_replace_dd_space_cases env V st with h0 | ⟨e, h0⟩ | ⟨_, e, _, h0⟩ |
      ⟨ops, old_space, hno, h0, t1, id1, ht1, hid1, hby1⟩ | ⟨h0, t1, id1, o1, ht1, hid1, hby1⟩ |
      ⟨t1, old_id, new_tuple, d, sp, ht1, hid1, hnew, hby1, hd, hsp, h0⟩
    · rw [h0] at h
      cases h
    · rw [h0] at h
      cases h
    · rw [h0] at h
      cases h
    · rw [ht] at ht1
      cases ht1
      rw [hid] at hid1
      cases hid1
      rw [hby] at hby1
      cases hby1
    · rw [ht] at ht1
      cases ht1
      rw [hid] at hid1
      cases hid1
      rw [hby] at hby1
      cases hby1
    · rw [ht] at ht1
      cases ht1
      rw [hid] at hid1
      cases hid1
      rw [h0] at h
      cases h
      obtain ⟨hsome, hdrop⟩ :=
        insert_space_spec env V st hev t new_tuple id d sp ht hid hnew hby hd hsp
      exact ⟨hsome, rfl, _, hdrop, rfl, hby⟩

theorem example_ddl_state_fresh (o n : Option tuple) (a : alter_space (List (List Nat))) :
    ∀ sp ∈ ({ example_ddl_state o n with alter := a }).cache, ∀ t ∈ sp.on_replace,
      t.ptr < ({ example_ddl_state o n with alter := a }).next_ptr := by
  intro sp hsp t ht
  simp only [example_ddl_state, List.mem_cons, List.mem_singleton, List.not_mem_nil,
    or_false] at hsp
  rcases hsp with rfl | rfl <;> simp [example_two_key_space] at ht

/-- Witness of C4: the plan on the space 512 builds the third index, which puts
its `on_replace` trigger on the space 512, and fails at the drop of the primary
key. -/
theorem failed_ddl_leaves_nothing_behind_witness :
    (alter_space_do example_env example_vtab example_failing_plan
      (example_two_key_space 512 [[1, 10], [2, 10]])).2 =
        some (.ClientError .ER_DROP_PRIMARY_KEY "") ∧
    (alter_space_do example_env example_vtab example_failing_plan
      (example_two_key_space 512 [[1, 10], [2, 10]])).1.cache.map
        (fun sp => sp.on_replace.length) = [0, 1] ∧
    ((alter_space_do example_env example_vtab example_failing_plan
        (example_two_key_space 512 [[1, 10], [2, 10]])).1.txn = example_failing_plan.txn ∧
      (alter_space_delete (alter_space_do example_env example_vtab example_failing_plan
        (example_two_key_space 512 [[1, 10], [2, 10]])).1).alter.ops = [] ∧
      (alter_space_delete (alter_space_do example_env example_vtab example_failing_plan
        (example_two_key_space 512 [[1, 10], [2, 10]])).1).alter.new_space = none ∧
      (alter_space_delete (alter_space_do example_env example_vtab example_failing_plan
        (example_two_key_space 512 [[1, 10], [2, 10]])).1).cache = example_failing_plan.cache ∧
      (alter_space_delete (alter_space_do example_env example_vtab example_failing_plan
        (example_two_key_space 512 [[1, 10], [2, 10]])).1).cache.map
          (fun sp => sp.on_replace) = example_failing_plan.cache.map (fun sp => sp.on_replace)) :=
  ⟨rfl, rfl,
    (failed_ddl_leaves_nothing_behind example_env example_vtab example_failing_plan
      (example_ddl_state_fresh none none _)).1
      (example_two_key_space 512 [[1, 10], [2, 10]]) _
      (by
        intro op hop
        simp only [example_failing_plan, List.mem_cons, List.mem_singleton, List.not_mem_nil,
          or_false] at hop
        rcases hop with rfl | rfl <;> rfl)
      rfl⟩

/-- Witness of C3: the insert of the tuple of a third index of the space 512 into
`_index` succeeds, and the rollback trigger it registers restores the cache. -/
theorem rolled_back_ddl_restores_cache_witness :
    (∃ st', on_replace_dd_index example_env example_vtab
        (example_ddl_state none (some example_index_tuple)) = .ok (st', none) ∧
      st'.cache.map (fun sp => sp.on_replace.length) = [0, 1]) ∧
    (∀ st', on_replace_dd_index example_env example_vtab
        (example_ddl_state none (some example_index_tuple)) = .ok (st', none) →
      ∃ registered st'',
        st'.txn.on_rollback = registered ++
          (example_ddl_state none (some example_index_tuple)).txn.on_rollback ∧
        run_rollback_triggers registered st' = .ok (st'', none) ∧
        st''.cache = (example_ddl_state none (some example_index_tuple)).cache) :=
  ⟨⟨_, rfl, rfl⟩,
    (rolled_back_ddl_restores_cache example_env example_vtab
      (example_ddl_state none (some example_index_tuple))
      (example_ddl_state_fresh none (some example_index_tuple) _)
      (by
        intro o id ho
        cases ho)).2.1⟩

/-! ### The ready list of a cord -/

theorem rlist_del_append (l₁ l₂ : List Nat) (x : Nat) :
    rlist_del (l₁ ++ l₂) x = rlist_del l₁ x ++ rlist_del l₂ x := by
  simp [rlist_del]

theorem rlist_del_cons_ne (l : List Nat) (a x : Nat) (h : a ≠ x) :
    rlist_del (a :: l) x = a :: rlist_del l x := by
  simp [rlist_del, h]

theorem rlist_del_cons_self (l : List Nat) (x : Nat) :
    rlist_del (x :: l) x = rlist_del l x := by
  simp [rlist_del]

theorem not_mem_rlist_del (l : List Nat) (x : Nat) : x ∉ rlist_del l x := by
  simp [rlist_del]

theorem not_mem_rlist_del_of (l : List Nat) (a x : Nat) (h : a ∉ l) : a ∉ rlist_del l x := by
  intro hm
  exact h (List.mem_of_mem_filter hm)

theorem rlist_del_of_not_mem (l : List Nat) (x : Nat) (h : x ∉ l) : rlist_del l x = l := by
  unfold rlist_del
  rw [List.filter_eq_self]
  intro a ha
  have : a ≠ x := fun e => h (e ▸ ha)
  simpa using this

theorem fiber_wakeup_ready (c : cord) (f : Nat) :
    (fiber_wakeup c f).ready = rlist_del c.ready f ++ [f] := rfl

theorem once_in_wakeup_self (c : cord) (a : Nat) : once_in a (fiber_wakeup c a).ready :=
  ⟨rlist_del c.ready a, [], rfl, not_mem_rlist_del _ _, List.not_mem_nil _⟩

theorem once_in_wakeup (c : cord) (a x : Nat) (hx : x ≠ a) (h : once_in a c.ready) :
    once_in a (fiber_wakeup c x).ready := by
  obtain ⟨l₁, l₂, hl, h1, h2⟩ := h
  refine ⟨rlist_del l₁ x, rlist_del l₂ x ++ [x], ?_, not_mem_rlist_del_of _ _ _ h1, ?_⟩
  · rw [fiber_wakeup_ready, hl, rlist_del_append, rlist_del_cons_ne _ _ _ (Ne.symm hx)]
    simp
  · intro hm
    rcases List.mem_append.mp hm with hm | hm
    · exact not_mem_rlist_del_of _ _ _ h2 hm
    · exact hx (List.mem_singleton.mp hm).symm

theorem once_in_wakeups (fs : List Nat) (a : Nat) (ha : a ∉ fs) :
    ∀ c : cord, once_in a c.ready → once_in a (wakeups c fs).ready := by
  induction fs with
  | nil =>
    intro c h
    exact h
  | cons x rest ih =>
    intro c h
    have hx : x ≠ a := fun e => ha (e ▸ List.mem_cons_self _ _)
    exact ih (fun hm => ha (List.mem_cons_of_mem _ hm)) _ (once_in_wakeup c a x hx h)

theorem precedes_wakeup_second (c : cord) (a b : Nat) (hab : a ≠ b) (h : once_in a c.ready) :
    precedes a b (fiber_wakeup c b).ready := by
  obtain ⟨l₁, l₂, hl, h1, h2⟩ := h
  refine ⟨rlist_del l₁ b, rlist_del l₂ b, [], ?_,
    ⟨not_mem_rlist_del_of _ _ _ h1, not_mem_rlist_del_of _ _ _ h2, List.not_mem_nil _⟩,
    ⟨not_mem_rlist_del _ _, not_mem_rlist_del _ _, List.not_mem_nil _⟩⟩
  rw [fiber_wakeup_ready, hl, rlist_del_append, rlist_del_cons_ne _ _ _ hab]

theorem precedes_wakeup (c : cord) (a b x : Nat) (hab : a ≠ b) (hx : x ≠ a)
    (h : precedes a b c.ready) : precedes a b (fiber_wakeup c x).ready := by
  obtain ⟨l₁, l₂, l₃, hl, ⟨ha1, ha2, ha3⟩, ⟨hb1, hb2, hb3⟩⟩ := h
  by_cases hxb : x = b
  · subst hxb
    refine ⟨rlist_del l₁ x, rlist_del l₂ x ++ rlist_del l₃ x, [], ?_,
      ⟨not_mem_rlist_del_of _ _ _ ha1, ?_, List.not_mem_nil _⟩,
      ⟨not_mem_rlist_del _ _, ?_, List.not_mem_nil _⟩⟩
    · rw [fiber_wakeup_ready, hl, rlist_del_append, rlist_del_append,
        rlist_del_cons_ne _ _ _ hab, rlist_del_cons_self]
      simp
    · intro hm
      rcases List.mem_append.mp hm with hm | hm
      · exact not_mem_rlist_del_of _ _ _ ha2 hm
      · exact not_mem_rlist_del_of _ _ _ ha3 hm
    · intro hm
      rcases List.mem_append.mp hm with hm | hm
      · exact not_mem_rlist_del _ _ hm
      · exact not_mem_rlist_del _ _ hm
  · refine ⟨rlist_del l₁ x, rlist_del l₂ x, rlist_del l₃ x ++ [x], ?_,
      ⟨not_mem_rlist_del_of _ _ _ ha1, not_mem_rlist_del_of _ _ _ ha2, ?_⟩,
      ⟨not_mem_rlist_del_of _ _ _ hb1, not_mem_rlist_del_of _ _ _ hb2, ?_⟩⟩
    · rw [fiber_wakeup_ready, hl, rlist_del_append, rlist_del_append,
        rlist_del_cons_ne _ _ _ (Ne.symm hx), rlist_del_cons_ne _ _ _ (Ne.symm hxb)]
      simp
    · intro hm
      rcases List.mem_append.mp hm with hm | hm
      · exact not_mem_rlist_del_of _ _ _ ha3 hm
      · exact hx (List.mem_singleton.mp hm).symm
    · intro hm
      rcases List.mem_append.mp hm with hm | hm
      · exact not_mem_rlist_del_of _ _ _ hb3 hm
      · exact hxb (List.mem_singleton.mp hm).symm

theorem precedes_wakeups (fs : List Nat) (a b : Nat) (hab : a ≠ b) (ha : a ∉ fs) :
    ∀ c : cord, precedes a b c.ready → precedes a b (wakeups c fs).ready := by
  induction fs with
  | nil =>
    intro c h
    exact h
  | cons x rest ih =>
    intro c h
    have hx : x ≠ a := fun e => ha (e ▸ List.mem_cons_self _ _)
    exact ih (fun hm => ha (List.mem_cons_of_mem _ hm)) _ (precedes_wakeup c a b x hab hx h)

theorem wakeups_append (c : cord) (l₁ l₂ : List Nat) :
    wakeups c (l₁ ++ l₂) = wakeups (wakeups c l₁) l₂ := by
  simp [wakeups, List.foldl_append]

theorem schedule_chain_spec (x : Nat) :
    ∀ (rest : List Nat) (first : Nat) (mem : Nat → fiber), (first :: rest).Nodup →
      (∀ (j p : Nat), (first :: rest)[j]? = some p →
        (rest ++ [x])[j]? = some ((Function.update (schedule_chain mem first rest).1
          (schedule_chain mem first rest).2
          { (schedule_chain mem first rest).1 (schedule_chain mem first rest).2 with
            caller := x }) p).caller) ∧
      (∀ p, p ∉ first :: rest →
        Function.update (schedule_chain mem first rest).1 (schedule_chain mem first rest).2
          { (schedule_chain mem first rest).1 (schedule_chain mem first rest).2 with
            caller := x } p = mem p) := by
  intro rest
  induction rest with
  | nil =>
    intro first mem _
    constructor
    · intro j p hj
      cases j with
      | zero =>
        simp only [List.getElem?_cons_zero, Option.some.injEq] at hj
        subst hj
        simp [schedule_chain]
      | succ j => simp at hj
    · intro p hp
      have hne : p ≠ first := by
        intro e
        exact hp (e ▸ List.mem_cons_self _ _)
      simp [schedule_chain, Function.update_noteq hne]
  | cons next rest ih =>
    intro first mem hnd
    have hnd' : (next :: rest).Nodup := (List.nodup_cons.mp hnd).2
    have hfirst : first ∉ next :: rest := (List.nodup_cons.mp hnd).1
    obtain ⟨h1, h2⟩ := ih next
      (Function.update mem first { mem first with caller := next }) hnd'
    constructor
    · intro j p hj
      cases j with
      | zero =>
        simp only [List.getElem?_cons_zero, Option.some.injEq] at hj
        subst hj
        have := h2 first hfirst
        simp only [schedule_chain]
        rw [this]
        simp
      | succ j =>
        simp only [List.getElem?_cons_succ] at hj
        have := h1 j p hj
        simp only [schedule_chain, List.cons_append, List.getElem?_cons_succ]
        exact this
    · intro p hp
      have hp' : p ∉ next :: rest := fun hm => hp (List.mem_cons_of_mem _ hm)
      have hne : p ≠ first := by
        intro e
        exact hp (e ▸ List.mem_cons_self _ _)
      have := h2 p hp'
      simp only [schedule_chain]
      rw [this, Function.update_noteq hne]

theorem fiber_yield_fiber (trigger_run : List trigger → cord → cord) (c : cord) :
    (fiber_yield trigger_run c).fiber = (c.mem c.fiber).caller := rfl

theorem fiber_yield_caller (trigger_run : List trigger → cord → cord)
    (htr : ∀ l c p, ((trigger_run l c).mem p).caller = (c.mem p).caller)
    (c : cord) (p : Nat) (hp : p ≠ c.fiber) :
    ((fiber_yield trigger_run c).mem p).caller = (c.mem p).caller := by
  have h1 : ((cord_set c c.fiber { c.mem c.fiber with caller := c.sched }).mem p).caller =
      (c.mem p).caller := by
    simp [cord_set, Function.update_noteq hp]
  unfold fiber_yield
  simp only []
  by_cases hcallee : p = (c.mem c.fiber).caller
  · rw [hcallee, Function.update_same]
    simp only []
    rw [← hcallee]
    split_ifs
    · exact h1
    · rw [htr]
      exact h1
  · rw [Function.update_noteq hcallee]
    split_ifs
    · exact h1
    · rw [htr]
      exact h1

theorem yields_run_order (trigger_run : List trigger → cord → cord)
    (htr : ∀ l c p, ((trigger_run l c).mem p).caller = (c.mem p).caller)
    (l : List Nat) (x : Nat) (hnd : l.Nodup) :
    ∀ (n k : Nat) (s : cord), (l ++ [x])[k]? = some s.fiber →
      (∀ (j p : Nat), k ≤ j → l[j]? = some p → (l ++ [x])[j + 1]? = some (s.mem p).caller) →
      k + n ≤ l.length →
      (l ++ [x])[k + n]? = some (yields trigger_run n s).fiber := by
  intro n
  induction n with
  | zero =>
    intro k s hk _ _
    exact hk
  | succ n ih =>
    intro k s hk hinv hlen
    have hklt : k < l.length := by omega
    have hlk : l[k]? = some s.fiber := by
      rw [← List.getElem?_append_left hklt]
      exact hk
    have hstep := ih (k + 1) (fiber_yield trigger_run s)
      (by rw [fiber_yield_fiber]; exact hinv k s.fiber (le_refl _) hlk)
      (by
        intro j p hj hp
        have hne : p ≠ s.fiber := by
          intro e
          rw [e, ← hlk] at hp
          have := List.getElem?_inj (by
            by_contra hge
            rw [List.getElem?_eq_none (by omega)] at hp
            rw [hlk] at hp
            cases hp) hnd hp
          omega
        rw [fiber_yield_caller trigger_run htr s p hne]
        exact hinv j p (by omega) hp)
      (by omega)
    have heq : k + (n + 1) = k + 1 + n := by omega
    rw [heq]
    exact hstep

theorem fiber_call_impl_caller (c : cord) (callee p : Nat) :
    ((fiber_call_impl c callee).mem p).caller = (c.mem p).caller := by
  unfold fiber_call_impl
  simp only []
  by_cases h : p = callee
  · rw [h, Function.update_same]
  · rw [Function.update_noteq h]

/-- C11: wakeup order is run order. In a series of `fiber_wakeup` calls in which
`a` is woken, later `b`, and `a` is not woken again, the ready list holds `a` and
`b` once each, `a` before `b`. `fiber_schedule_list` on a ready list without
repetitions (a fiber has one `state` link) empties the list, makes its head the
running fiber, and sets the caller of every fiber of the list to the next one
and that of the last one to the fiber that called, the scheduler; so, as long as
the triggers of `on_yield` do not write a `caller`, the `n`-th `fiber_yield`
gives control to the `n`-th fiber after the head, and the last one to the
scheduler. -/
theorem wakeup_order_is_run_order (c : cord) :
    (∀ (pre mid post : List Nat) (a b : Nat), a ≠ b → a ∉ mid → a ∉ post →
      precedes a b (wakeups c (pre ++ a :: mid ++ b :: post)).ready) ∧
    (∀ (first : Nat) (rest : List Nat), c.ready = first :: rest → (first :: rest).Nodup →
      ∃ c', fiber_schedule_list c = .ok c' ∧ c'.ready = [] ∧ c'.fiber = first ∧
        (∀ (j p : Nat), (first :: rest)[j]? = some p →
          (rest ++ [c.fiber])[j]? = some (c'.mem p).caller) ∧
        (∀ trigger_run : List trigger → cord → cord,
          (∀ l c p, ((trigger_run l c).mem p).caller = (c.mem p).caller) →
          ∀ n, n ≤ (first :: rest).length →
            (first :: rest ++ [c.fiber])[n]? = some (yields trigger_run n c').fiber)) := by
  constructor
  · intro pre mid post a b hab hmid hpost
    have h1 : wakeups c (pre ++ a :: mid ++ b :: post) =
        wakeups (fiber_wakeup (wakeups (fiber_wakeup (wakeups c pre) a) mid) b) post := by
      simp [wakeups, List.foldl_append]
    rw [h1]
    apply precedes_wakeups post a b hab hpost
    apply precedes_wakeup_second _ a b hab
    exact once_in_wakeups mid a hmid _ (once_in_wakeup_self _ a)
  · intro first rest hready hnd
    obtain ⟨hchain, _⟩ := schedule_chain_spec c.fiber rest first c.mem hnd
    have hcallers : ∀ (j p : Nat), (first :: rest)[j]? = some p →
        (rest ++ [c.fiber])[j]? = some ((fiber_call_impl
          { c with
            mem := Function.update (schedule_chain c.mem first rest).1
              (schedule_chain c.mem first rest).2
              { (schedule_chain c.mem first rest).1 (schedule_chain c.mem first rest).2 with
                caller := c.fiber },
            ready := [] } first).mem p).caller := by
      intro j p hj
      rw [fiber_call_impl_caller]
      exact hchain j p hj
    refine ⟨_, by simp only [fiber_schedule_list, hready], rfl, rfl, hcallers, ?_⟩
    intro trigger_run htr n hn
    have := yields_run_order trigger_run htr (first :: rest) c.fiber hnd n 0 _
      (show (first :: rest ++ [c.fiber])[0]? = some first by simp)
      (by
        intro j p _ hj
        have := hcallers j p hj
        simpa using this)
      (by omega)
    simpa using this

/-- Witness of C11: after the wakeups of 5, 7 and 5 again the ready list is
7, 5; the scheduler at address 0 runs 7, then 5, then itself. -/
theorem wakeup_order_is_run_order_witness :
    example_cord.ready = [7, 5] ∧
    precedes 7 5 example_cord.ready ∧
    ∃ c', fiber_schedule_list example_cord = .ok c' ∧ c'.ready = [] ∧ c'.fiber = 7 ∧
      (∀ (j p : Nat), (7 :: [5])[j]? = some p →
        ([5] ++ [example_cord.fiber])[j]? = some (c'.mem p).caller) ∧
      (∀ trigger_run : List trigger → cord → cord,
        (∀ l c p, ((trigger_run l c).mem p).caller = (c.mem p).caller) →
        ∀ n, n ≤ (7 :: [5]).length →
          (7 :: [5] ++ [example_cord.fiber])[n]? = some (yields trigger_run n c').fiber) :=
  ⟨rfl,
    (wakeup_order_is_run_order (cord_create example_flags 0)).1 [5] [] [] 7 5
      (by decide) (by simp) (by simp),
    (wakeup_order_is_run_order example_cord).2 7 [5] rfl (by decide)⟩

/-! ### Fiber ids -/

theorem cord_set_mem_ne (c : cord) (p q : Nat) (v : fiber) (h : q ≠ p) :
    (cord_set c p v).mem q = c.mem q := by
  simp [cord_set, Function.update_noteq h]

theorem cord_set_mem_self (c : cord) (p : Nat) (v : fiber) :
    (cord_set c p v).mem p = v := by
  simp [cord_set]

theorem fiber_new_init_spec (c : cord) (p : Nat) (name : String) (f : Nat)
    (h1 : 100 ≤ c.max_fid) (h2 : c.max_fid < 2 ^ 32) :
    (fiber_new_init c p name f).max_fid =
      (if c.max_fid + 1 < 2 ^ 32 then c.max_fid + 1 else 101) ∧
    ((fiber_new_init c p name f).mem p).fid = (fiber_new_init c p name f).max_fid ∧
    100 < (fiber_new_init c p name f).max_fid ∧
    (fiber_new_init c p name f).max_fid < 2 ^ 32 ∧
    (∀ q, q ≠ p → (fiber_new_init c p name f).mem q = c.mem q) ∧
    (fiber_new_init c p name f).alive = c.alive ∧
    (fiber_new_init c p name f).dead = c.dead ∧
    (fiber_new_init c p name f).sched = c.sched := by
  have hmax : (fiber_new_init c p name f).max_fid =
      (if c.max_fid + 1 < 2 ^ 32 then c.max_fid + 1 else 101) := by
    have hmod : (c.max_fid + 1) % 2 ^ 32 =
        if c.max_fid + 1 < 2 ^ 32 then c.max_fid + 1 else 0 := by
      split_ifs with hlt
      · exact Nat.mod_eq_of_lt hlt
      · have heq : c.max_fid + 1 = 2 ^ 32 := by omega
        rw [heq, Nat.mod_self]
    simp only [fiber_new_init, register_fid, cord_set]
    rw [hmod]
    split_ifs <;> omega
  refine ⟨hmax, ?_, ?_, ?_, ?_, rfl, rfl, rfl⟩
  · simp [fiber_new_init, register_fid, cord_set]
  · rw [hmax]
    split_ifs <;> omega
  · rw [hmax]
    split_ifs <;> omega
  · intro q hq
    simp [fiber_new_init, register_fid, cord_set, Function.update_noteq hq]

theorem mem_rlist_del (l : List Nat) (x p : Nat) (h : p ∈ rlist_del l x) : p ∈ l ∧ p ≠ x := by
  simpa [rlist_del] using h

theorem fiber_recycle_frame (dflt : fiber_flags) (c : cord) (p : Nat) :
    (fiber_recycle dflt c p).max_fid = c.max_fid ∧
    (fiber_recycle dflt c p).sched = c.sched ∧
    (fiber_recycle dflt c p).alive = rlist_del c.alive p ∧
    (fiber_recycle dflt c p).dead = p :: rlist_del c.dead p ∧
    (∀ q, q ≠ p → (fiber_recycle dflt c p).mem q = c.mem q) := by
  refine ⟨rfl, rfl, rfl, rfl, ?_⟩
  intro q hq
  simp [fiber_recycle, unregister_fid, cord_set, Function.update_noteq hq]

theorem cord_step_frame (dflt : fiber_flags) (c c' : cord) (h : cord_step dflt c c') :
    c'.max_fid = c.max_fid ∧ c'.sched = c.sched ∧
    (∀ p, p ∈ c'.alive → p ∈ c.alive) ∧
    (∀ p, p ∈ c'.dead → p ∈ c.dead ∨ p ∈ c.alive) ∧
    (∀ p, (c'.mem p).fid = (c.mem p).fid ∨ (p ∈ c.alive ∧ p ∉ c'.alive)) := by
  cases h with
  | recycle p hp =>
    obtain ⟨h1, h2, h3, h4, h5⟩ := fiber_recycle_frame dflt c p
    refine ⟨h1, h2, ?_, ?_, ?_⟩
    · intro q hq
      rw [h3] at hq
      exact (mem_rlist_del _ _ _ hq).1
    · intro q hq
      rw [h4] at hq
      rcases List.mem_cons.mp hq with rfl | hq
      · exact Or.inr hp
      · exact Or.inl (mem_rlist_del _ _ _ hq).1
    · intro q
      by_cases hq : q = p
      · subst hq
        right
        exact ⟨hp, by rw [h3]; exact not_mem_rlist_del _ _⟩
      · left
        rw [h5 q hq]
  | join p hp =>
    have hfid : ∀ (q : Nat), ((if (c.mem p).flags.FIBER_IS_CANCELLED = true
        then diag_clear (diag_move c p c.fiber) (diag_move c p c.fiber).fiber
        else diag_move c p c.fiber).mem q).fid = (c.mem q).fid := by
      intro q
      have hm : ∀ q, ((diag_move c p c.fiber).mem q).fid = (c.mem q).fid := by
        intro q
        simp only [diag_move, cord_set]
        by_cases h1 : q = c.fiber
        · subst h1
          simp only [Function.update_same]
          by_cases h2 : c.fiber = p
          · rw [h2, Function.update_same]
          · rw [Function.update_noteq h2]
        · rw [Function.update_noteq h1]
          by_cases h2 : q = p
          · rw [h2, Function.update_same]
          · rw [Function.update_noteq h2]
      split_ifs
      · simp only [diag_clear, cord_set]
        by_cases h1 : q = (diag_move c p c.fiber).fiber
        · rw [h1, Function.update_same]
          exact hm _
        · rw [Function.update_noteq h1]
          exact hm _
      · exact hm q
    have hlists : (if (c.mem p).flags.FIBER_IS_CANCELLED = true
        then diag_clear (diag_move c p c.fiber) (diag_move c p c.fiber).fiber
        else diag_move c p c.fiber).alive = c.alive ∧
        (if (c.mem p).flags.FIBER_IS_CANCELLED = true
        then diag_clear (diag_move c p c.fiber) (diag_move c p c.fiber).fiber
        else diag_move c p c.fiber).dead = c.dead ∧
        (if (c.mem p).flags.FIBER_IS_CANCELLED = true
        then diag_clear (diag_move c p c.fiber) (diag_move c p c.fiber).fiber
        else diag_move c p c.fiber).max_fid = c.max_fid ∧
        (if (c.mem p).flags.FIBER_IS_CANCELLED = true
        then diag_clear (diag_move c p c.fiber) (diag_move c p c.fiber).fiber
        else diag_move c p c.fiber).sched = c.sched := by
      split_ifs <;> exact ⟨rfl, rfl, rfl, rfl⟩
    obtain ⟨hl1, hl2, hl3, hl4⟩ := hlists
    obtain ⟨h1, h2, h3, h4, h5⟩ := fiber_recycle_frame dflt
      (if (c.mem p).flags.FIBER_IS_CANCELLED = true
        then diag_clear (diag_move c p c.fiber) (diag_move c p c.fiber).fiber
        else diag_move c p c.fiber) p
    rw [hl1] at h3
    rw [hl2] at h4
    rw [hl3] at h1
    rw [hl4] at h2
    refine ⟨h1, h2, ?_, ?_, ?_⟩
    · intro q hq
      have : q ∈ rlist_del c.alive p := by
        rw [← h3]
        exact hq
      exact (mem_rlist_del _ _ _ this).1
    · intro q hq
      have : q ∈ p :: rlist_del c.dead p := by
        rw [← h4]
        exact hq
      rcases List.mem_cons.mp this with rfl | hq
      · exact Or.inr hp
      · exact Or.inl (mem_rlist_del _ _ _ hq).1
    · intro q
      by_cases hq : q = p
      · subst hq
        right
        refine ⟨hp, ?_⟩
        intro hm
        have : q ∈ rlist_del c.alive q := by
          rw [← h3]
          exact hm
        exact not_mem_rlist_del _ _ this
      · left
        have := h5 q hq
        show ((fiber_recycle dflt _ p).mem q).fid = _
        rw [this]
        exact hfid q
  | wakeup p => exact ⟨rfl, rfl, fun _ h => h, fun _ h => Or.inl h, fun _ => Or.inl rfl⟩
  | cancel p =>
    have hfid : ∀ q, ((fiber_cancel c p).mem q).fid = (c.mem q).fid := by
      intro q
      unfold fiber_cancel
      simp only []
      have h1 : ∀ q, ((cord_set c p { c.mem p with
          flags := { (c.mem p).flags with FIBER_IS_CANCELLED := true } }).mem q).fid =
          (c.mem q).fid := by
        intro q
        by_cases hq : q = p
        · rw [hq, cord_set_mem_self]
        · rw [cord_set_mem_ne _ _ _ _ hq]
      split_ifs
      · exact h1 q
      · exact h1 q
      · exact h1 q
    have hrest : (fiber_cancel c p).max_fid = c.max_fid ∧ (fiber_cancel c p).sched = c.sched ∧
        (fiber_cancel c p).alive = c.alive ∧ (fiber_cancel c p).dead = c.dead := by
      unfold fiber_cancel
      simp only []
      split_ifs <;> exact ⟨rfl, rfl, rfl, rfl⟩
    obtain ⟨h1, h2, h3, h4⟩ := hrest
    exact ⟨h1, h2, fun _ h => h3 ▸ h, fun _ h => Or.inl (h4 ▸ h), fun q => Or.inl (hfid q)⟩
  | set_cancellable yesno =>
    refine ⟨rfl, rfl, fun _ h => h, fun _ h => Or.inl h, fun q => Or.inl ?_⟩
    simp only [fiber_set_cancellable]
    by_cases hq : q = c.fiber
    · rw [hq, cord_set_mem_self]
    · rw [cord_set_mem_ne _ _ _ _ hq]
  | set_joinable p yesno =>
    refine ⟨rfl, rfl, fun _ h => h, fun _ h => Or.inl h, fun q => Or.inl ?_⟩
    simp only [fiber_set_joinable]
    by_cases hq : q = p
    · rw [hq, cord_set_mem_self]
    · rw [cord_set_mem_ne _ _ _ _ hq]

theorem fiber_new_some (dflt : fiber_flags) (alloc : Option Nat) (coro_ok : Bool) (c : cord)
    (name : String) (f p : Nat) (h : (fiber_new dflt alloc coro_ok c name f).2 = some p) :
    ∃ c0, (fiber_new dflt alloc coro_ok c name f).1 = fiber_new_init c0 p name f ∧
      c0.max_fid = c.max_fid ∧ c0.sched = c.sched ∧
      (∀ q, q ∈ c0.alive → q = p ∨ (q ∈ c.alive ∧ q ≠ p) ∨ (q ∈ c.alive ∧ alloc = some p)) ∧
      p ∈ c0.alive ∧ (∀ q, q ∈ c0.dead → q ∈ c.dead) ∧
      (∀ q, q ≠ p → c0.mem q = c.mem q) ∧ (p ∈ c.dead ∨ alloc = some p) := by
  unfold fiber_new at h ⊢
  split at h
  · rename_i p0 rest hdead
    simp only [Option.some.injEq] at h
    subst h
    rw [hdead]
    refine ⟨_, rfl, rfl, rfl, ?_, List.mem_cons_self _ _, ?_, fun _ _ => rfl,
      Or.inl (List.mem_cons_self _ _)⟩
    · intro q hq
      rcases List.mem_cons.mp hq with hq | hq
      · exact Or.inl hq
      · exact Or.inr (Or.inl (mem_rlist_del _ _ _ hq))
    · intro q hq
      exact (mem_rlist_del _ _ _ hq).1
  · rename_i hdead
    split at h
    · cases h
    · rename_i p0
      split_ifs at h with hok
      simp only [Option.some.injEq] at h
      subst h
      rw [hdead]
      simp only [hok, if_true]
      refine ⟨_, rfl, rfl, rfl, ?_, List.mem_cons_self _ _, ?_, ?_, Or.inr (by simp)⟩
      · intro q hq
        rcases List.mem_cons.mp hq with hq | hq
        · exact Or.inl hq
        · exact Or.inr (Or.inr ⟨hq, by simp⟩)
      · intro q hq
        have hq' : q ∈ c.dead := hq
        rw [hdead] at hq'
        exact hq'
      · intro q hq
        exact cord_set_mem_ne _ _ _ _ hq

theorem fiber_new_none (dflt : fiber_flags) (alloc : Option Nat) (coro_ok : Bool) (c : cord)
    (name : String) (f : Nat) (h : (fiber_new dflt alloc coro_ok c name f).2 = none) :
    (fiber_new dflt alloc coro_ok c name f).1.max_fid = c.max_fid ∧
    (fiber_new dflt alloc coro_ok c name f).1.sched = c.sched ∧
    (fiber_new dflt alloc coro_ok c name f).1.alive = c.alive ∧
    (fiber_new dflt alloc coro_ok c name f).1.dead = c.dead ∧
    (∀ q, ((fiber_new dflt alloc coro_ok c name f).1.mem q).fid = (c.mem q).fid) := by
  unfold fiber_new at h ⊢
  split at h
  · cases h
  · split at h
    · refine ⟨rfl, rfl, rfl, rfl, ?_⟩
      intro q
      simp only []
      by_cases hq : q = c.fiber
      · rw [hq, cord_set_mem_self]
      · rw [cord_set_mem_ne _ _ _ _ hq]
    · split_ifs at h with hok
      simp only [hok]
      exact ⟨rfl, rfl, rfl, rfl, fun _ => rfl⟩

theorem fid_inv_create (dflt : fiber_flags) (sched : Nat) : fid_inv (cord_create dflt sched) where
  max_fid_ge := le_refl _
  max_fid_lt := by
    show (100 : Nat) < 2 ^ 32
    norm_num
  sched_fid := by simp [cord_create]
  sched_alive := List.not_mem_nil _
  sched_dead := List.not_mem_nil _
  alive_fid := fun _ h => absurd h (List.not_mem_nil _)

theorem fid_inv_step (dflt : fiber_flags) (c c' : cord) (h : fid_inv c)
    (hs : cord_step dflt c c') : fid_inv c' := by
  obtain ⟨h1, h2, h3, h4, h5⟩ := cord_step_frame dflt c c' hs
  refine ⟨by rw [h1]; exact h.max_fid_ge, by rw [h1]; exact h.max_fid_lt, ?_, ?_, ?_, ?_⟩
  · rw [h2]
    rcases h5 c.sched with hf | ⟨ha, _⟩
    · rw [hf]
      exact h.sched_fid
    · exact absurd ha h.sched_alive
  · rw [h2]
    exact fun hm => h.sched_alive (h3 _ hm)
  · rw [h2]
    intro hm
    rcases h4 _ hm with hd | ha
    · exact h.sched_dead hd
    · exact h.sched_alive ha
  · intro p hp
    rcases h5 p with hf | ⟨_, hn⟩
    · rw [hf]
      exact h.alive_fid p (h3 p hp)
    · exact absurd hp hn

theorem fid_inv_new (dflt : fiber_flags) (alloc : Option Nat) (coro_ok : Bool) (c : cord)
    (name : String) (f : Nat) (h : fid_inv c)
    (halloc : ∀ p, alloc = some p → p ∉ c.alive ∧ p ∉ c.dead ∧ p ≠ c.sched) :
    fid_inv (fiber_new dflt alloc coro_ok c name f).1 ∧
    ∀ p, (fiber_new dflt alloc coro_ok c name f).2 = some p →
      ((fiber_new dflt alloc coro_ok c name f).1.mem p).fid =
        (if c.max_fid + 1 < 2 ^ 32 then c.max_fid + 1 else 101) ∧
      (fiber_new dflt alloc coro_ok c name f).1.max_fid =
        (if c.max_fid + 1 < 2 ^ 32 then c.max_fid + 1 else 101) := by
  cases hres : (fiber_new dflt alloc coro_ok c name f).2 with
  | none =>
    obtain ⟨h1, h2, h3, h4, h5⟩ := fiber_new_none dflt alloc coro_ok c name f hres
    refine ⟨⟨by rw [h1]; exact h.max_fid_ge, by rw [h1]; exact h.max_fid_lt, ?_, ?_, ?_, ?_⟩, ?_⟩
    · rw [h2, h5]
      exact h.sched_fid
    · rw [h2, h3]
      exact h.sched_alive
    · rw [h2, h4]
      exact h.sched_dead
    · intro p hp
      rw [h5]
      rw [h3] at hp
      exact h.alive_fid p hp
    · intro p hp
      cases hp
  | some p =>
    obtain ⟨c0, heq, hm, hs, ha, _, hd, hmem, hp⟩ := fiber_new_some dflt alloc coro_ok c name f p hres
    obtain ⟨i1, i2, i3, i4, i5, i6, i7, i8⟩ := fiber_new_init_spec c0 p name f
      (by rw [hm]; exact h.max_fid_ge) (by rw [hm]; exact h.max_fid_lt)
    have hpsched : p ≠ c.sched := by
      rcases hp with hp | hp
      · exact fun e => h.sched_dead (e ▸ hp)
      · exact (halloc p hp).2.2
    rw [heq]
    refine ⟨⟨by omega, i4, ?_, ?_, ?_, ?_⟩, ?_⟩
    · rw [i8, hs, i5 _ (Ne.symm hpsched), hmem _ (Ne.symm hpsched)]
      exact h.sched_fid
    · rw [i8, hs, i6]
      intro hmem'
      rcases ha _ hmem' with e | ⟨e, _⟩ | ⟨e, _⟩
      · exact hpsched e.symm
      · exact h.sched_alive e
      · exact h.sched_alive e
    · rw [i8, hs, i7]
      exact fun hmem' => h.sched_dead (hd _ hmem')
    · intro q hq
      rw [i6] at hq
      by_cases hqp : q = p
      · rw [hqp, i2]
        exact i3
      · rw [i5 q hqp, hmem q hqp]
        rcases ha _ hq with e | ⟨e, _⟩ | ⟨e, _⟩
        · exact absurd e hqp
        · exact h.alive_fid q e
        · exact h.alive_fid q e
    · intro p' hp'
      cases hp'
      rw [i2, i1, hm]
      exact ⟨rfl, rfl⟩

theorem fid_inv_reachable (dflt : fiber_flags) (sched n : Nat) (c : cord)
    (h : cord_reachable dflt sched n c) : fid_inv c := by
  induction h with
  | create => exact fid_inv_create dflt sched
  | new n c alloc coro_ok name f _ halloc ih =>
    exact (fid_inv_new dflt alloc coro_ok c name f ih halloc).1
  | step n c c' _ hs ih => exact fid_inv_step dflt c c' ih hs

/-- C12: fiber ids stay out of the reserved band. In every state that is
reached from `cord_create` by calls of `fiber_new`, however many, and of the
other functions of fiber.c, the scheduler has the fid 1 and every fiber of the
alive list a fid above 100; a fiber that a further `fiber_new` returns has a fid
above 100, the counter plus one, and 101 when the 32-bit counter wraps, which it
does at `max_fid = 2^32 - 1`; the scheduler keeps the fid 1. -/
theorem fiber_ids_above_reserved (dflt : fiber_flags) (sched n : Nat) (c : cord)
    (h : cord_reachable dflt sched n c) :
    (c.mem c.sched).fid = 1 ∧ (∀ p ∈ c.alive, 100 < (c.mem p).fid) ∧
    ∀ (alloc : Option Nat) (coro_ok : Bool) (name : String) (f p : Nat),
      (∀ q, alloc = some q → q ∉ c.alive ∧ q ∉ c.dead ∧ q ≠ c.sched) →
      (fiber_new dflt alloc coro_ok c name f).2 = some p →
        100 < ((fiber_new dflt alloc coro_ok c name f).1.mem p).fid ∧
        ((fiber_new dflt alloc coro_ok c name f).1.mem p).fid < 2 ^ 32 ∧
        (c.max_fid + 1 < 2 ^ 32 →
          ((fiber_new dflt alloc coro_ok c name f).1.mem p).fid = c.max_fid + 1) ∧
        (c.max_fid + 1 = 2 ^ 32 →
          ((fiber_new dflt alloc coro_ok c name f).1.mem p).fid = 101) ∧
        ((fiber_new dflt alloc coro_ok c name f).1.mem
          (fiber_new dflt alloc coro_ok c name f).1.sched).fid = 1 := by
  have hinv := fid_inv_reachable dflt sched n c h
  refine ⟨hinv.sched_fid, hinv.alive_fid, ?_⟩
  intro alloc coro_ok name f p halloc hp
  obtain ⟨hinv', hnew⟩ := fid_inv_new dflt alloc coro_ok c name f hinv halloc
  obtain ⟨hfid, _⟩ := hnew p hp
  have h1 := hinv.max_fid_ge
  have h2 := hinv.max_fid_lt
  refine ⟨?_, ?_, ?_, ?_, hinv'.sched_fid⟩
  · rw [hfid]
    split_ifs <;> omega
  · rw [hfid]
    split_ifs <;> omega
  · intro hlt
    rw [hfid, if_pos hlt]
  · intro heq
    rw [hfid, if_neg (by omega)]

/-- Witness of C12: the first fiber of a new cord gets the fid 101. -/
theorem fiber_ids_above_reserved_witness :
    ((cord_create example_flags 0).mem (cord_create example_flags 0).sched).fid = 1 ∧
    (fiber_new example_flags (some 1) true (cord_create example_flags 0) "a" 7).2 = some 1 ∧
    100 < ((fiber_new example_flags (some 1) true (cord_create example_flags 0) "a" 7).1.mem
      1).fid :=
  ⟨(fiber_ids_above_reserved example_flags 0 0 _ cord_reachable.create).1, rfl,
    ((fiber_ids_above_reserved example_flags 0 0 _ cord_reachable.create).2.2
      (some 1) true "a" 7 1 (by
        intro q hq
        cases hq
        exact ⟨List.not_mem_nil _, List.not_mem_nil _, by decide⟩) rfl).1⟩

theorem fiber_new_from_dead (dflt : fiber_flags) (c : cord) (name : String) (f m : Nat)
    (ha : c.alive = [1]) (hd : c.dead = [2]) (hf : (c.mem 1).fid = 101)
    (hm : c.max_fid = m) (hge : 100 ≤ m) (hlt : m < 2 ^ 32) :
    (fiber_new dflt none true c name f).1.alive = [2, 1] ∧
    (fiber_new dflt none true c name f).1.dead = [] ∧
    ((fiber_new dflt none true c name f).1.mem 1).fid = 101 ∧
    (fiber_new dflt none true c name f).1.max_fid = (if m + 1 < 2 ^ 32 then m + 1 else 101) ∧
    ((fiber_new dflt none true c name f).1.mem 2).fid =
      (if m + 1 < 2 ^ 32 then m + 1 else 101) := by
  have hnew : (fiber_new dflt none true c name f).1 =
      fiber_new_init { c with dead := [], alive := [2, 1] } 2 name f := by
    simp [fiber_new, hd, ha, rlist_del]
  obtain ⟨i1, i2, _, _, i5, i6, i7, _⟩ := fiber_new_init_spec
    { c with dead := [], alive := [2, 1] } 2 name f (by show 100 ≤ c.max_fid; omega)
    (by show c.max_fid < 2 ^ 32; omega)
  rw [hnew]
  refine ⟨i6, i7, ?_, ?_, ?_⟩
  · rw [i5 1 (by decide)]
    exact hf
  · rw [i1]
    show (if c.max_fid + 1 < 2 ^ 32 then c.max_fid + 1 else 101) = _
    rw [hm]
  · rw [i2, i1]
    show (if c.max_fid + 1 < 2 ^ 32 then c.max_fid + 1 else 101) = _
    rw [hm]

theorem churn_spec (dflt : fiber_flags) (sched : Nat) :
    ∀ (k n m : Nat) (c : cord), cord_reachable dflt sched n c →
      c.alive = [1] → c.dead = [2] → (c.mem 1).fid = 101 → c.max_fid = m → 100 ≤ m →
      m + k < 2 ^ 32 →
      cord_reachable dflt sched (n + k) (churn dflt k c) ∧ (churn dflt k c).alive = [1] ∧
      (churn dflt k c).dead = [2] ∧ ((churn dflt k c).mem 1).fid = 101 ∧
      (churn dflt k c).max_fid = m + k := by
  intro k
  induction k with
  | zero =>
    intro n m c hr ha hd hf hm _ _
    exact ⟨hr, ha, hd, hf, hm⟩
  | succ k ih =>
    intro n m c hr ha hd hf hm hge hlt
    obtain ⟨h1, h2, h3, h4, _⟩ := fiber_new_from_dead dflt c "" 0 m ha hd hf hm hge (by omega)
    rw [if_pos (by omega)] at h4
    obtain ⟨r1, _, r3, r4, r5⟩ := fiber_recycle_frame dflt (fiber_new dflt none true c "" 0).1 2
    have hreach : cord_reachable dflt sched (n + 1)
        (fiber_recycle dflt (fiber_new dflt none true c "" 0).1 2) :=
      cord_reachable.step _ _ _
        (cord_reachable.new n c none true "" 0 hr (by intro p hp; cases hp))
        (cord_step.recycle _ 2 (by rw [h1]; simp))
    have := ih (n + 1) (m + 1) (fiber_recycle dflt (fiber_new dflt none true c "" 0).1 2) hreach
      (by rw [r3, h1]; simp [rlist_del])
      (by rw [r4, h2]; simp [rlist_del])
      (by rw [r5 1 (by decide)]; exact h3)
      (by rw [r1, h4]) (by omega) (by omega)
    have e1 : n + (k + 1) = n + 1 + k := by omega
    have e2 : m + (k + 1) = m + 1 + k := by omega
    rw [e1, e2]
    exact this

theorem example_cord_two_spec :
    cord_reachable example_flags 0 2 example_cord_two ∧ example_cord_two.alive = [1] ∧
    example_cord_two.dead = [2] ∧ (example_cord_two.mem 1).fid = 101 ∧
    example_cord_two.max_fid = 102 := by
  refine ⟨?_, rfl, rfl, rfl, rfl⟩
  refine cord_reachable.step _ _ _
    (cord_reachable.new 1 _ (some 2) true "b" 0
      (cord_reachable.new 0 _ (some 1) true "a" 0 cord_reachable.create ?_) ?_)
    (cord_step.recycle _ 2 ?_)
  · intro p hp
    cases hp
    exact ⟨List.not_mem_nil _, List.not_mem_nil _, by decide⟩
  · intro p hp
    cases hp
    exact ⟨by decide, List.not_mem_nil _, by decide⟩
  · decide

/-- Counterexample of C13: the cord `example_cord_two` has a long-lived fiber at
address 1, which has the fid 101, and the counter at 102; after `2^32 - 103`
more short-lived fibers, each recycled when its function has returned, the
32-bit counter is at `2^32 - 1`, and the next fiber, at address 2, gets the fid
101 as well, while the first one is still alive. -/
theorem fid_reused_after_wrap :
    ∃ c : cord, cord_reachable example_flags 0 (2 ^ 32 - 100) c ∧
      1 ∈ c.alive ∧ 2 ∈ c.alive ∧ (c.mem 1).fid = 101 ∧ (c.mem 2).fid = 101 ∧
      ¬ fids_unique c := by
  obtain ⟨hr, ha, hd, hf, hm⟩ := example_cord_two_spec
  obtain ⟨kr, ka, kd, kf, km⟩ := churn_spec example_flags 0 (2 ^ 32 - 103) 2 102
    example_cord_two hr ha hd hf hm (by norm_num) (by norm_num)
  obtain ⟨n1, _, n3, _, n5⟩ := fiber_new_from_dead example_flags
    (churn example_flags (2 ^ 32 - 103) example_cord_two) "c" 0 (102 + (2 ^ 32 - 103))
    ka kd kf km (by norm_num) (by norm_num)
  rw [if_neg (by norm_num)] at n5
  have hreach := cord_reachable.new _ _ none true "c" 0 kr (by intro p hp; cases hp)
  have hn : 2 + (2 ^ 32 - 103) + 1 = 2 ^ 32 - 100 := by norm_num
  rw [hn] at hreach
  refine ⟨_, hreach, by rw [n1]; simp, by rw [n1]; simp, n3, n5, ?_⟩
  intro hu
  have := hu 1 (by rw [n1]; simp) 2 (by rw [n1]; simp) (by rw [n3, n5])
  exact absurd this (by decide)

theorem fids_unique_step (dflt : fiber_flags) (c c' : cord) (hs : cord_step dflt c c')
    (h : fids_unique c ∧ ∀ p ∈ c.alive, (c.mem p).fid ≤ c.max_fid) :
    fids_unique c' ∧ ∀ p ∈ c'.alive, (c'.mem p).fid ≤ c'.max_fid := by
  obtain ⟨h1, _, h3, _, h5⟩ := cord_step_frame dflt c c' hs
  have hfid : ∀ p ∈ c'.alive, (c'.mem p).fid = (c.mem p).fid := by
    intro p hp
    rcases h5 p with hf | ⟨_, hn⟩
    · exact hf
    · exact absurd hp hn
  constructor
  · intro p hp q hq hpq
    rw [hfid p hp, hfid q hq] at hpq
    exact h.1 p (h3 p hp) q (h3 q hq) hpq
  · intro p hp
    rw [hfid p hp, h1]
    exact h.2 p (h3 p hp)

theorem fids_unique_new (dflt : fiber_flags) (alloc : Option Nat) (coro_ok : Bool) (c : cord)
    (name : String) (f : Nat) (hinv : fid_inv c) (hwrap : c.max_fid + 1 < 2 ^ 32)
    (h : fids_unique c ∧ ∀ p ∈ c.alive, (c.mem p).fid ≤ c.max_fid) :
    fids_unique (fiber_new dflt alloc coro_ok c name f).1 ∧
    ∀ p ∈ (fiber_new dflt alloc coro_ok c name f).1.alive,
      ((fiber_new dflt alloc coro_ok c name f).1.mem p).fid ≤
        (fiber_new dflt alloc coro_ok c name f).1.max_fid := by
  cases hres : (fiber_new dflt alloc coro_ok c name f).2 with
  | none =>
    obtain ⟨h1, _, h3, _, h5⟩ := fiber_new_none dflt alloc coro_ok c name f hres
    constructor
    · intro p hp q hq hpq
      rw [h5, h5] at hpq
      rw [h3] at hp hq
      exact h.1 p hp q hq hpq
    · intro p hp
      rw [h5, h1]
      rw [h3] at hp
      exact h.2 p hp
  | some p =>
    obtain ⟨c0, heq, hm, _, ha, _, _, hmem, _⟩ :=
      fiber_new_some dflt alloc coro_ok c name f p hres
    obtain ⟨i1, i2, _, _, i5, i6, _, _⟩ := fiber_new_init_spec c0 p name f
      (by rw [hm]; exact hinv.max_fid_ge) (by rw [hm]; exact hinv.max_fid_lt)
    rw [hm, if_pos hwrap] at i1
    have hold : ∀ q, q ∈ c0.alive → q ≠ p →
        q ∈ c.alive ∧ ((fiber_new_init c0 p name f).mem q).fid = (c.mem q).fid := by
      intro q hq hqp
      rw [i5 q hqp, hmem q hqp]
      rcases ha q hq with e | ⟨e, _⟩ | ⟨e, _⟩
      · exact absurd e hqp
      · exact ⟨e, rfl⟩
      · exact ⟨e, rfl⟩
    rw [heq]
    constructor
    · intro q hq r hr hqr
      rw [i6] at hq hr
      by_cases hqp : q = p
      · by_cases hrp : r = p
        · rw [hqp, hrp]
        · obtain ⟨hra, hrf⟩ := hold r hr hrp
          rw [hqp, i2, i1, hrf] at hqr
          have := h.2 r hra
          omega
      · obtain ⟨hqa, hqf⟩ := hold q hq hqp
        by_cases hrp : r = p
        · rw [hrp, i2, i1, hqf] at hqr
          have := h.2 q hqa
          omega
        · obtain ⟨hra, hrf⟩ := hold r hr hrp
          rw [hqf, hrf] at hqr
          exact h.1 q hqa r hra hqr
    · intro q hq
      rw [i6] at hq
      by_cases hqp : q = p
      · rw [hqp, i2]
      · obtain ⟨hqa, hqf⟩ := hold q hq hqp
        rw [hqf, i1]
        have := h.2 q hqa
        omega

theorem fiber_new_max_fid (dflt : fiber_flags) (alloc : Option Nat) (coro_ok : Bool) (c : cord)
    (name : String) (f : Nat) (hinv : fid_inv c) :
    (fiber_new dflt alloc coro_ok c name f).1.max_fid ≤ c.max_fid + 1 := by
  cases hres : (fiber_new dflt alloc coro_ok c name f).2 with
  | none =>
    rw [(fiber_new_none dflt alloc coro_ok c name f hres).1]
    omega
  | some p =>
    obtain ⟨c0, heq, hm, _⟩ := fiber_new_some dflt alloc coro_ok c name f p hres
    obtain ⟨i1, _⟩ := fiber_new_init_spec c0 p name f
      (by rw [hm]; exact hinv.max_fid_ge) (by rw [hm]; exact hinv.max_fid_lt)
    rw [heq, i1, hm]
    have := hinv.max_fid_ge
    split_ifs <;> omega

theorem fids_unique_reachable (dflt : fiber_flags) (sched n : Nat) (c : cord)
    (h : cord_reachable dflt sched n c) :
    c.max_fid ≤ 100 + n ∧
    (100 + n < 2 ^ 32 → fids_unique c ∧ ∀ p ∈ c.alive, (c.mem p).fid ≤ c.max_fid) := by
  induction h with
  | create =>
    refine ⟨le_refl _, fun _ => ⟨?_, ?_⟩⟩
    · intro p hp
      exact absurd hp (List.not_mem_nil _)
    · intro p hp
      exact absurd hp (List.not_mem_nil _)
  | new n c alloc coro_ok name f hc halloc ih =>
    have hinv := fid_inv_reachable dflt sched n c hc
    have hmax := fiber_new_max_fid dflt alloc coro_ok c name f hinv
    refine ⟨by omega, fun hn => ?_⟩
    exact fids_unique_new dflt alloc coro_ok c name f hinv (by omega) (ih.2 (by omega))
  | step n c c' hc hs ih =>
    obtain ⟨h1, _⟩ := cord_step_frame dflt c c' hs
    refine ⟨by rw [h1]; exact ih.1, fun hn => ?_⟩
    exact fids_unique_step dflt c c' hs (ih.2 hn)

/-- C13, amended: fiber ids are unique among live fibers until the counter wraps.
In every state that is reached from `cord_create` by the functions of fiber.c with
at most `2^32 - 101` calls of `fiber_new`, no two fibers of the alive list have
the same fid; and when one more `fiber_new` stays within this number, the fid of
the fiber it returns is the fid of no other fiber of the alive list. -/
theorem fids_unique_before_wrap (dflt : fiber_flags) (sched n : Nat) (c : cord)
    (h : cord_reachable dflt sched n c) (hn : 100 + n < 2 ^ 32) :
    fids_unique c ∧
    ∀ (alloc : Option Nat) (coro_ok : Bool) (name : String) (f p : Nat),
      (∀ q, alloc = some q → q ∉ c.alive ∧ q ∉ c.dead ∧ q ≠ c.sched) →
      100 + (n + 1) < 2 ^ 32 →
      (fiber_new dflt alloc coro_ok c name f).2 = some p →
      ∀ q ∈ (fiber_new dflt alloc coro_ok c name f).1.alive, q ≠ p →
        ((fiber_new dflt alloc coro_ok c name f).1.mem q).fid ≠
          ((fiber_new dflt alloc coro_ok c name f).1.mem p).fid := by
  refine ⟨((fids_unique_reachable dflt sched n c h).2 hn).1, ?_⟩
  intro alloc coro_ok name f p halloc hn' hp q hq hqp hfid
  have hreach := cord_reachable.new n c alloc coro_ok name f h halloc
  have hu := ((fids_unique_reachable dflt sched (n + 1) _ hreach).2 hn').1
  have hpa : p ∈ (fiber_new dflt alloc coro_ok c name f).1.alive := by
    obtain ⟨c0, heq, hm, _, _, hpa, _⟩ := fiber_new_some dflt alloc coro_ok c name f p hp
    have hinv := fid_inv_reachable dflt sched n c h
    obtain ⟨_, _, _, _, _, i6, _⟩ := fiber_new_init_spec c0 p name f
      (by rw [hm]; exact hinv.max_fid_ge) (by rw [hm]; exact hinv.max_fid_lt)
    rw [heq, i6]
    exact hpa
  exact hqp (hu q hq p hpa hfid)

/-- Witness of C13, amended: in the cord `example_cord_two`, reached with two
calls of `fiber_new`, the fiber at address 1 is alive with the fid 101. A third
`fiber_new` returns the fiber at address 2 with another fid, and in the state it
leaves, reached with three calls, the two live fibers have different fids. -/
theorem fids_unique_before_wrap_witness :
    cord_reachable example_flags 0 2 example_cord_two ∧
    (fiber_new example_flags none true example_cord_two "c" 0).2 = some 2 ∧
    (fiber_new example_flags none true example_cord_two "c" 0).1.alive = [2, 1] ∧
    ((fiber_new example_flags none true example_cord_two "c" 0).1.mem 1).fid ≠
      ((fiber_new example_flags none true example_cord_two "c" 0).1.mem 2).fid ∧
    fids_unique (fiber_new example_flags none true example_cord_two "c" 0).1 :=
  ⟨example_cord_two_spec.1, rfl, rfl,
    (fids_unique_before_wrap example_flags 0 2 example_cord_two example_cord_two_spec.1
      (by norm_num)).2 none true "c" 0 2 (fun q hq => by cases hq) (by norm_num) rfl
      1 (by decide) (by decide),
    (fids_unique_before_wrap example_flags 0 3
      (fiber_new example_flags none true example_cord_two "c" 0).1
      (cord_reachable.new 2 example_cord_two none true "c" 0 example_cord_two_spec.1
        (fun q hq => by cases hq))
      (by norm_num)).1⟩

/-! ### Cancellation -/

theorem fiber_cancel_eq (c : cord) (f : Nat) :
    fiber_cancel c f =
      if f ≠ c.fiber ∧ (c.mem f).flags.FIBER_IS_DEAD = false ∧
          (c.mem f).flags.FIBER_IS_CANCELLABLE = true then
        fiber_wakeup (cord_set c f { c.mem f with
          flags := { (c.mem f).flags with FIBER_IS_CANCELLED := true } }) f
      else cord_set c f { c.mem f with
          flags := { (c.mem f).flags with FIBER_IS_CANCELLED := true } } := by
  unfold fiber_cancel
  simp only [cord_set_mem_self, fiber_is_dead]
  by_cases h1 : f = c.fiber
  · simp [h1]
  · by_cases h2 : (c.mem f).flags.FIBER_IS_DEAD = true
    · simp [h1, h2]
    · by_cases h3 : (c.mem f).flags.FIBER_IS_CANCELLABLE = true
      · simp [h1, h2, h3]
      · simp [h1, h2, h3]

theorem fiber_cancel_flags (c : cord) (f : Nat) :
    ((fiber_cancel c f).mem f).flags =
      { (c.mem f).flags with FIBER_IS_CANCELLED := true } := by
  rw [fiber_cancel_eq]
  split_ifs
  · simp [fiber_wakeup, cord_set]
  · simp [cord_set]

/-- C14: `fiber_cancel(f)` always sets the CANCELLED flag of `f` and leaves its
other flags as they are. If `f` is not the calling fiber, is not dead and is
cancellable, `fiber_cancel` is, after the flag, `fiber_wakeup(f)`: `f` is moved
to the tail of the ready list; otherwise nothing but the flag changes, the ready
list, the wake lists and the wakeup event included. Hence a fiber whose
CANCELLABLE flag is clear, as `fiber_set_cancellable(false)` leaves it, is not
moved by `fiber_cancel`, which leaves that flag clear; once
`fiber_set_cancellable(true)` has set it again, a cancel by another fiber moves
the fiber, unless it is dead. -/
theorem fiber_cancel_wakes_iff (c : cord) (f : Nat) :
    ((fiber_cancel c f).mem f).flags =
      { (c.mem f).flags with FIBER_IS_CANCELLED := true } ∧
    (f ≠ c.fiber ∧ (c.mem f).flags.FIBER_IS_DEAD = false ∧
        (c.mem f).flags.FIBER_IS_CANCELLABLE = true →
      fiber_cancel c f = fiber_wakeup (cord_set c f { c.mem f with
          flags := { (c.mem f).flags with FIBER_IS_CANCELLED := true } }) f ∧
      (fiber_cancel c f).ready = rlist_del c.ready f ++ [f]) ∧
    (¬ (f ≠ c.fiber ∧ (c.mem f).flags.FIBER_IS_DEAD = false ∧
        (c.mem f).flags.FIBER_IS_CANCELLABLE = true) →
      fiber_cancel c f = cord_set c f { c.mem f with
          flags := { (c.mem f).flags with FIBER_IS_CANCELLED := true } } ∧
      (fiber_cancel c f).ready = c.ready ∧
      (fiber_cancel c f).wakeup_fed = c.wakeup_fed ∧
      (∀ p, ((fiber_cancel c f).mem p).wake = (c.mem p).wake)) ∧
    ((fiber_set_cancellable c false).1.mem c.fiber).flags.FIBER_IS_CANCELLABLE = false ∧
    ((fiber_set_cancellable c true).1.mem c.fiber).flags.FIBER_IS_CANCELLABLE = true ∧
    ((c.mem f).flags.FIBER_IS_CANCELLABLE = false →
      (fiber_cancel c f).ready = c.ready ∧
      ((fiber_cancel c f).mem f).flags.FIBER_IS_CANCELLABLE = false) := by
  have hflags : ((fiber_cancel c f).mem f).flags =
      { (c.mem f).flags with FIBER_IS_CANCELLED := true } := by
    rw [fiber_cancel_eq]
    split_ifs
    · simp [fiber_wakeup, cord_set]
    · simp [cord_set]
  have hnot : ¬ (f ≠ c.fiber ∧ (c.mem f).flags.FIBER_IS_DEAD = false ∧
        (c.mem f).flags.FIBER_IS_CANCELLABLE = true) →
      fiber_cancel c f = cord_set c f { c.mem f with
          flags := { (c.mem f).flags with FIBER_IS_CANCELLED := true } } ∧
      (fiber_cancel c f).ready = c.ready ∧
      (fiber_cancel c f).wakeup_fed = c.wakeup_fed ∧
      (∀ p, ((fiber_cancel c f).mem p).wake = (c.mem p).wake) := by
    intro h
    rw [fiber_cancel_eq, if_neg h]
    refine ⟨rfl, rfl, rfl, ?_⟩
    intro p
    by_cases hp : p = f
    · rw [hp, cord_set_mem_self]
    · rw [cord_set_mem_ne _ _ _ _ hp]
  refine ⟨hflags, ?_, hnot, ?_, ?_, ?_⟩
  · intro h
    rw [fiber_cancel_eq, if_pos h]
    exact ⟨rfl, rfl⟩
  · simp [fiber_set_cancellable, cord_set]
  · simp [fiber_set_cancellable, cord_set]
  · intro h
    refine ⟨(hnot (by simp [h])).2.1, ?_⟩
    rw [hflags]
    exact h

theorem fiber_cancel_of_dead (c : cord) (f : Nat) (hdead : fiber_is_dead (c.mem f) = true) :
    fiber_cancel c f = cord_set c f { c.mem f with
        flags := { (c.mem f).flags with FIBER_IS_CANCELLED := true } } := by
  rw [fiber_cancel_eq, if_neg]
  intro hc
  rw [fiber_is_dead, hc.2.1] at hdead
  cases hdead

/-- Counterexample of C15: the fiber at address 5 of `example_dead_cord` is dead
and not cancelled; `fiber_cancel` sets its CANCELLED flag. -/
theorem fiber_cancel_dead_sets_flag :
    fiber_is_dead (example_dead_cord.mem 5) = true ∧
    (example_dead_cord.mem 5).flags.FIBER_IS_CANCELLED = false ∧
    ((fiber_cancel example_dead_cord 5).mem 5).flags.FIBER_IS_CANCELLED = true ∧
    ((fiber_cancel example_dead_cord 5).mem 5).flags ≠ (example_dead_cord.mem 5).flags := by
  refine ⟨?_, ?_, ?_, ?_⟩
  · simp [example_dead_cord, cord_set, fiber_is_dead]
  · simp [example_dead_cord, cord_set]
  · rw [(fiber_cancel_flags example_dead_cord 5)]
  · rw [(fiber_cancel_flags example_dead_cord 5)]
    simp [example_dead_cord, cord_set]

/-- C15, amended: `fiber_cancel` on a dead fiber sets the CANCELLED flag of the
fiber and changes nothing else: the other flags and fields of the fiber, the
ready list, the other lists, the registry, the wakeup event and every other
fiber are as before. -/
theorem fiber_cancel_dead (c : cord) (f : Nat) (hdead : fiber_is_dead (c.mem f) = true) :
    fiber_cancel c f = cord_set c f { c.mem f with
        flags := { (c.mem f).flags with FIBER_IS_CANCELLED := true } } ∧
    (fiber_cancel c f).mem f = { c.mem f with
        flags := { (c.mem f).flags with FIBER_IS_CANCELLED := true } } ∧
    (∀ p, p ≠ f → (fiber_cancel c f).mem p = c.mem p) ∧
    (fiber_cancel c f).ready = c.ready ∧ (fiber_cancel c f).alive = c.alive ∧
    (fiber_cancel c f).dead = c.dead ∧ (fiber_cancel c f).fiber = c.fiber ∧
    (fiber_cancel c f).fiber_registry = c.fiber_registry ∧
    (fiber_cancel c f).wakeup_fed = c.wakeup_fed := by
  rw [fiber_cancel_of_dead c f hdead]
  exact ⟨rfl, cord_set_mem_self _ _ _, fun p hp => cord_set_mem_ne _ _ _ _ hp,
    rfl, rfl, rfl, rfl, rfl, rfl⟩

/-- Witness of C15, amended: the dead fiber of `example_dead_cord`. -/
theorem fiber_cancel_dead_witness :
    fiber_is_dead (example_dead_cord.mem 5) = true ∧
    (fiber_cancel example_dead_cord 5).ready = example_dead_cord.ready ∧
    (∀ p, p ≠ 5 → (fiber_cancel example_dead_cord 5).mem p = example_dead_cord.mem p) :=
  ⟨by simp [example_dead_cord, cord_set, fiber_is_dead],
    (fiber_cancel_dead example_dead_cord 5
      (by simp [example_dead_cord, cord_set, fiber_is_dead])).2.2.2.1,
    (fiber_cancel_dead example_dead_cord 5
      (by simp [example_dead_cord, cord_set, fiber_is_dead])).2.2.1⟩

/-! ### Joining a fiber -/

theorem fiber_join_eq (dflt : fiber_flags) (trigger_run : List trigger → cord → cord)
    (resumed : cord → cord) (c : cord) (f : Nat) :
    fiber_join dflt trigger_run resumed c f =
      fiber_join_finish dflt
        (if fiber_is_dead (c.mem f) then c else resumed (fiber_join_wait trigger_run c f)) f := by
  unfold fiber_join
  split_ifs <;> rfl

theorem fiber_join_finish_spec (dflt : fiber_flags) (c : cord) (f : Nat) (hne : f ≠ c.fiber) :
    ((fiber_join_finish dflt c f).mem c.fiber).diag =
      (if (c.mem f).flags.FIBER_IS_CANCELLED then none else (c.mem f).diag) ∧
    ((fiber_join_finish dflt c f).mem f).diag = none ∧
    ((fiber_join_finish dflt c f).mem f).fid = 0 ∧
    (fiber_join_finish dflt c f).fiber_registry (c.mem f).fid = none ∧
    (fiber_join_finish dflt c f).dead = f :: rlist_del c.dead f ∧
    (fiber_join_finish dflt c f).alive = rlist_del c.alive f ∧
    ((fiber_join_finish dflt c f).mem f).flags = dflt ∧
    ((fiber_join_finish dflt c f).mem f).on_yield = [] ∧
    ((fiber_join_finish dflt c f).mem f).on_stop = [] ∧
    ((fiber_join_finish dflt c f).mem f).f = none := by
  have hne' : c.fiber ≠ f := Ne.symm hne
  by_cases hc : (c.mem f).flags.FIBER_IS_CANCELLED = true
  · simp [fiber_join_finish, hc, diag_move, diag_clear, fiber_recycle, unregister_fid,
      fiber_reset, cord_set, Function.update_noteq hne', Function.update_noteq hne]
  · simp [fiber_join_finish, hc, diag_move, fiber_recycle, unregister_fid,
      fiber_reset, cord_set, Function.update_noteq hne', Function.update_noteq hne]

/-- Counterexample of C16: the joinable fiber at address 5 has died with an error
in its diagnostic area and has been cancelled since; after `fiber_join` the
diagnostic area of the caller, the scheduler, is empty. -/
theorem fiber_join_drops_diag_of_cancelled :
    ((fiber_cancel example_dead_cord 5).mem 5).flags.FIBER_IS_JOINABLE = true ∧
    fiber_is_dead ((fiber_cancel example_dead_cord 5).mem 5) = true ∧
    ((fiber_cancel example_dead_cord 5).mem 5).diag =
      some (.IllegalParams "error of the fiber") ∧
    ((fiber_join example_flags (fun _ c => c) id (fiber_cancel example_dead_cord 5) 5).mem
      (fiber_cancel example_dead_cord 5).fiber).diag = none := by
  rw [fiber_cancel_of_dead example_dead_cord 5
    (by simp [example_dead_cord, cord_set, fiber_is_dead])]
  refine ⟨?_, ?_, ?_, ?_⟩
  · simp [example_dead_cord, cord_set]
  · simp [example_dead_cord, cord_set, fiber_is_dead]
  · simp [example_dead_cord, cord_set]
  · rw [fiber_join_eq]
    simp [example_dead_cord, cord_set, fiber_is_dead, fiber_join_finish, diag_move,
      diag_clear, fiber_recycle, unregister_fid, fiber_reset, cord_create]

/-- C16, amended: `fiber_join` hands over the diagnostic of a fiber that was not
cancelled. `c1` is the state in which the caller goes on after the yield, or the
state of the call if the fiber is dead already; there the fiber is dead, as the
assertion says, and its diagnostic area holds what it had when it died. After
`fiber_join(f)`, for `f` other than the caller, the diagnostic area of the caller
holds that diagnostic if `f` is not cancelled and is empty if it is; the
diagnostic area of `f` is empty, and `f` is recycled: its fid is 0, the registry
has no entry for its old fid, it is at the head of the dead list and not on the
alive list, and its flags are the default flags. -/
theorem fiber_join_hands_over_diag (dflt : fiber_flags)
    (trigger_run : List trigger → cord → cord) (resumed : cord → cord) (c c1 : cord) (f : Nat)
    (hc1 : c1 = if fiber_is_dead (c.mem f) then c
      else resumed (fiber_join_wait trigger_run c f))
    (hne : f ≠ c1.fiber) :
    ((fiber_join dflt trigger_run resumed c f).mem c1.fiber).diag =
      (if (c1.mem f).flags.FIBER_IS_CANCELLED then none else (c1.mem f).diag) ∧
    ((fiber_join dflt trigger_run resumed c f).mem f).diag = none ∧
    ((fiber_join dflt trigger_run resumed c f).mem f).fid = 0 ∧
    (fiber_join dflt trigger_run resumed c f).fiber_registry (c1.mem f).fid = none ∧
    (fiber_join dflt trigger_run resumed c f).dead = f :: rlist_del c1.dead f ∧
    f ∉ (fiber_join dflt trigger_run resumed c f).alive ∧
    ((fiber_join dflt trigger_run resumed c f).mem f).flags = dflt := by
  rw [fiber_join_eq, ← hc1]
  obtain ⟨h1, h2, h3, h4, h5, h6, h7, _⟩ := fiber_join_finish_spec dflt c1 f hne
  refine ⟨h1, h2, h3, h4, h5, ?_, h7⟩
  rw [h6]
  exact not_mem_rlist_del _ _

/-- Witness of C16, amended: the dead fiber of `example_dead_cord`, which is not
cancelled, is joined by the scheduler. -/
theorem fiber_join_hands_over_diag_witness :
    ((fiber_join example_flags (fun _ c => c) id example_dead_cord 5).mem
      example_dead_cord.fiber).diag = some (.IllegalParams "error of the fiber") ∧
    ((fiber_join example_flags (fun _ c => c) id example_dead_cord 5).mem 5).diag = none ∧
    ((fiber_join example_flags (fun _ c => c) id example_dead_cord 5).mem 5).fid = 0 := by
  have h := fiber_join_hands_over_diag example_flags (fun _ c => c) id example_dead_cord
    example_dead_cord 5 (by simp [example_dead_cord, cord_set, fiber_is_dead])
    (by simp [example_dead_cord, cord_set, cord_create])
  refine ⟨?_, h.2.1, h.2.2.1⟩
  rw [h.1]
  simp [example_dead_cord, cord_set]

/-! ### Yield inside a transaction -/

theorem trigger_clear_not_mem (t : trigger) (l : List trigger) :
    ∀ x ∈ trigger_clear t l, x.ptr ≠ t.ptr := by
  intro x hx
  simpa [trigger_clear] using (List.mem_filter.mp hx).2

theorem trigger_clear_add (t : trigger) (l : List trigger) (h : ∀ x ∈ l, x.ptr ≠ t.ptr) :
    trigger_clear t (trigger_add l t) = l := by
  simp only [trigger_clear, trigger_add, List.filter_cons]
  simp only [ne_eq, not_true_eq_false, decide_False, Bool.false_eq_true, if_false]
  rw [List.filter_eq_self]
  intro x hx
  simpa using h x hx

theorem fiber_yield_eq (trigger_run : List trigger → cord → cord) (c : cord) :
    fiber_yield trigger_run c =
      fiber_call_impl
        (if (c.mem c.fiber).on_yield.isEmpty then
          cord_set c c.fiber { c.mem c.fiber with caller := c.sched }
        else trigger_run (c.mem c.fiber).on_yield
          (cord_set c c.fiber { c.mem c.fiber with caller := c.sched }))
        (c.mem c.fiber).caller := by
  simp only [fiber_yield, fiber_call_impl, cord_set_mem_self]

/-- C17: a yield inside a memtx transaction rolls it back. For a transaction
that is not autocommit, `MemtxEngine::begin` sets the function of
`txn->fiber_on_yield` and of `txn->fiber_on_stop` to `txn_on_yield_or_stop`, the
call of `txn_rollback`, and puts the two triggers on the `on_yield` and the
`on_stop` list of the running fiber; for an autocommit transaction `begin` and
`prepare` change nothing. `MemtxEngine::prepare`, whose result
`MemtxEngine::rollback` returns for the fiber, leaves no trigger at the address
of either trigger object on the lists, and gives back the lists as they were
before `begin` if these held no such object. `fiber_yield` of a fiber that has
the triggers of `begin` is `txn_rollback`, then the triggers that were there
before, all of them run in the state in which the yielding fiber is still the
running one, and only then the switch to the caller. -/
theorem yield_in_transaction_rolls_back {σ τ : Type} [DecidableEq τ] (t : txn τ)
    (f : fiber_triggers) :
    (t.is_autocommit = false →
      (MemtxEngine.begin t f).2.on_yield =
        (MemtxEngine.begin t f).1.fiber_on_yield :: f.on_yield ∧
      (MemtxEngine.begin t f).2.on_stop =
        (MemtxEngine.begin t f).1.fiber_on_stop :: f.on_stop ∧
      (MemtxEngine.begin t f).1.fiber_on_yield =
        { t.fiber_on_yield with run := .txn_on_yield_or_stop, data := 0 } ∧
      (MemtxEngine.begin t f).1.fiber_on_stop =
        { t.fiber_on_stop with run := .txn_on_yield_or_stop, data := 0 }) ∧
    (t.is_autocommit = true →
      MemtxEngine.begin t f = (t, f) ∧ MemtxEngine.prepare t f = f) ∧
    (t.is_autocommit = false →
      (∀ x ∈ (MemtxEngine.prepare (MemtxEngine.begin t f).1 (MemtxEngine.begin t f).2).on_yield,
        x.ptr ≠ t.fiber_on_yield.ptr) ∧
      (∀ x ∈ (MemtxEngine.prepare (MemtxEngine.begin t f).1 (MemtxEngine.begin t f).2).on_stop,
        x.ptr ≠ t.fiber_on_stop.ptr) ∧
      ((∀ x ∈ f.on_yield, x.ptr ≠ t.fiber_on_yield.ptr) →
        (∀ x ∈ f.on_stop, x.ptr ≠ t.fiber_on_stop.ptr) →
        MemtxEngine.prepare (MemtxEngine.begin t f).1 (MemtxEngine.begin t f).2 = f)) ∧
    (∀ (replace : index_replace_f σ τ) (b b' : box σ τ) (f' : fiber_triggers) (t' : txn τ)
      (e : Option Exception),
      MemtxEngine.rollback replace b f t = .ok (b', f', t', e) →
        f' = MemtxEngine.prepare t f) ∧
    (∀ (trigger_run : List trigger → cord → cord) (c : cord),
      (cord_set c c.fiber { c.mem c.fiber with caller := c.sched }).fiber = c.fiber ∧
      fiber_yield trigger_run c =
        fiber_call_impl
          (if (c.mem c.fiber).on_yield.isEmpty then
            cord_set c c.fiber { c.mem c.fiber with caller := c.sched }
          else trigger_run (c.mem c.fiber).on_yield
            (cord_set c c.fiber { c.mem c.fiber with caller := c.sched }))
          (c.mem c.fiber).caller) ∧
    (∀ (txn_rollback : cord → cord) (other : trigger → cord → cord) (c : cord),
      t.is_autocommit = false →
      fiber.triggers (c.mem c.fiber) = (MemtxEngine.begin t f).2 →
      fiber_yield (fiber_trigger_run txn_rollback other) c =
        fiber_call_impl
          (fiber_trigger_run txn_rollback other f.on_yield
            (txn_rollback (cord_set c c.fiber { c.mem c.fiber with caller := c.sched })))
          (c.mem c.fiber).caller) := by
  refine ⟨?_, ?_, ?_, ?_, ?_, ?_⟩
  · intro h
    simp [MemtxEngine.begin, h, trigger_add, trigger_create]
  · intro h
    simp [MemtxEngine.begin, MemtxEngine.prepare, h]
  · intro h
    have hb : MemtxEngine.begin t f =
        ({ t with fiber_on_yield := trigger_create t.fiber_on_yield .txn_on_yield_or_stop 0,
                  fiber_on_stop := trigger_create t.fiber_on_stop .txn_on_yield_or_stop 0 },
         { on_yield := trigger_add f.on_yield
             (trigger_create t.fiber_on_yield .txn_on_yield_or_stop 0),
           on_stop := trigger_add f.on_stop
             (trigger_create t.fiber_on_stop .txn_on_yield_or_stop 0) }) := by
      simp [MemtxEngine.begin, h]
    rw [hb]
    simp only [MemtxEngine.prepare, h, Bool.false_eq_true, if_false]
    refine ⟨?_, ?_, ?_⟩
    · exact trigger_clear_not_mem (trigger_create t.fiber_on_yield .txn_on_yield_or_stop 0) _
    · exact trigger_clear_not_mem (trigger_create t.fiber_on_stop .txn_on_yield_or_stop 0) _
    · intro h1 h2
      rw [trigger_clear_add (trigger_create t.fiber_on_yield .txn_on_yield_or_stop 0) _ h1,
        trigger_clear_add (trigger_create t.fiber_on_stop .txn_on_yield_or_stop 0) _ h2]
  · intro replace b b' f' t' e hr
    unfold MemtxEngine.rollback at hr
    split at hr
    · cases hr
    · cases hr
      rfl
  · intro trigger_run c
    exact ⟨rfl, fiber_yield_eq trigger_run c⟩
  · intro txn_rollback other c h htr
    have hy : (c.mem c.fiber).on_yield =
        trigger_create t.fiber_on_yield .txn_on_yield_or_stop 0 :: f.on_yield := by
      have := congrArg fiber_triggers.on_yield htr
      simpa [fiber.triggers, MemtxEngine.begin, h, trigger_add] using this
    rw [fiber_yield_eq, hy]
    simp [fiber_trigger_run, trigger_create, txn_on_yield_or_stop]

/-! ### The reserved index extents -/

theorem extent_alloc_inv {ρ : Type} (mempool_alloc_xc : ρ → Except Exception (Nat × ρ))
    (errinj : Bool) (a : index_arena ρ) (h : arena_inv a) :
    arena_inv (memtx_index_extent_alloc mempool_alloc_xc errinj a).1 := by
  unfold memtx_index_extent_alloc
  split
  · rename_i result next hstack
    unfold arena_inv at h ⊢
    rw [hstack] at h
    simp only [List.length_cons] at h ⊢
    push_cast at h
    omega
  · split_ifs
    · exact h
    · split
      · exact h
      · exact h

theorem extent_reserve_loop_spec {ρ : Type}
    (mempool_alloc_xc : ρ → Except Exception (Nat × ρ)) (num : Int) :
    ∀ (fuel : Nat) (a : index_arena ρ), arena_inv a →
      (num - a.memtx_index_num_reserved_extents).toNat ≤ fuel →
      arena_inv (extent_reserve_loop mempool_alloc_xc num fuel a).1 ∧
      ((extent_reserve_loop mempool_alloc_xc num fuel a).2 = none →
        num ≤ (extent_reserve_loop mempool_alloc_xc num fuel a).1.memtx_index_num_reserved_extents)
      := by
  intro fuel
  induction fuel with
  | zero =>
    intro a h hf
    refine ⟨h, fun _ => ?_⟩
    show num ≤ a.memtx_index_num_reserved_extents
    omega
  | succ fuel ih =>
    intro a h hf
    unfold extent_reserve_loop
    split_ifs with hlt
    · split
      · exact ⟨h, fun hn => by cases hn⟩
      · rename_i ext pool halloc
        apply ih
        · unfold arena_inv at h ⊢
          simp only [List.length_cons]
          push_cast
          omega
        · simp only []
          omega
    · refine ⟨h, fun _ => ?_⟩
      show num ≤ a.memtx_index_num_reserved_extents
      omega

theorem extent_allocs_reserved {ρ : Type} (mempool_alloc_xc : ρ → Except Exception (Nat × ρ))
    (errinj : Bool) :
    ∀ (k : Nat) (a : index_arena ρ), k ≤ a.memtx_index_reserved_extents.length →
      (extent_allocs mempool_alloc_xc errinj k a).1 =
        { a with
          memtx_index_reserved_extents := a.memtx_index_reserved_extents.drop k,
          memtx_index_num_reserved_extents := a.memtx_index_num_reserved_extents - k } ∧
      (extent_allocs mempool_alloc_xc errinj k a).2 =
        (a.memtx_index_reserved_extents.take k).map Except.ok := by
  intro k
  induction k with
  | zero =>
    intro a _
    simp [extent_allocs]
  | succ k ih =>
    intro a hk
    cases hst : a.memtx_index_reserved_extents with
    | nil =>
      rw [hst] at hk
      simp at hk
    | cons x rest =>
      have halloc : memtx_index_extent_alloc mempool_alloc_xc errinj a =
          ({ a with memtx_index_num_reserved_extents := a.memtx_index_num_reserved_extents - 1,
                    memtx_index_reserved_extents := rest }, .ok x) := by
        simp [memtx_index_extent_alloc, hst]
      have hk' : k ≤ rest.length := by
        rw [hst] at hk
        simpa using hk
      obtain ⟨h1, h2⟩ := ih
        { a with memtx_index_num_reserved_extents := a.memtx_index_num_reserved_extents - 1,
                 memtx_index_reserved_extents := rest } hk'
      simp only [extent_allocs, halloc, h1, h2]
      refine ⟨?_, by simp⟩
      simp only [List.drop_succ_cons, Nat.cast_add, Nat.cast_one]
      congr 1
      omega

/-- C18: reserved extents make allocation infallible. When the count
`memtx_index_num_reserved_extents` is the length of the stack of reserved
extents, as after `memtx_index_arena_init`, it is so again after every
`memtx_index_extent_reserve` and every `memtx_index_extent_alloc`, whether they
raise or not. After a `memtx_index_extent_reserve(num)` that returns normally the
stack holds at least `num` extents, and each of the next `k ≤ num` calls of
`memtx_index_extent_alloc` returns the extent at the top of the stack: none
raises, the mempool is in the state it was in, and the outcome is the same
whatever the allocator of the mempool would do and whether the error injection is
armed or not. -/
theorem reserved_extents_make_alloc_infallible {ρ : Type}
    (mempool_alloc_xc : ρ → Except Exception (Nat × ρ)) (errinj : Bool) (num : Int)
    (a : index_arena ρ) (hinv : arena_inv a) :
    arena_inv (memtx_index_extent_reserve mempool_alloc_xc errinj num a).1 ∧
    arena_inv (memtx_index_extent_alloc mempool_alloc_xc errinj a).1 ∧
    ((memtx_index_extent_reserve mempool_alloc_xc errinj num a).2 = none →
      num ≤ ((memtx_index_extent_reserve mempool_alloc_xc errinj num
        a).1.memtx_index_reserved_extents.length : Int) ∧
      ∀ (mempool_alloc_xc' : ρ → Except Exception (Nat × ρ)) (errinj' : Bool) (k : Nat),
        (k : Int) ≤ num →
        (extent_allocs mempool_alloc_xc' errinj' k
          (memtx_index_extent_reserve mempool_alloc_xc errinj num a).1).2 =
          ((memtx_index_extent_reserve mempool_alloc_xc errinj num
            a).1.memtx_index_reserved_extents.take k).map Except.ok ∧
        (extent_allocs mempool_alloc_xc' errinj' k
          (memtx_index_extent_reserve mempool_alloc_xc errinj num
            a).1).1.memtx_index_extent_pool =
          (memtx_index_extent_reserve mempool_alloc_xc errinj num
            a).1.memtx_index_extent_pool ∧
        (extent_allocs mempool_alloc_xc' errinj' k
          (memtx_index_extent_reserve mempool_alloc_xc errinj num
            a).1).1.memtx_index_reserved_extents =
          (memtx_index_extent_reserve mempool_alloc_xc errinj num
            a).1.memtx_index_reserved_extents.drop k ∧
        arena_inv (extent_allocs mempool_alloc_xc' errinj' k
          (memtx_index_extent_reserve mempool_alloc_xc errinj num a).1).1) := by
  have hres : arena_inv (memtx_index_extent_reserve mempool_alloc_xc errinj num a).1 ∧
      ((memtx_index_extent_reserve mempool_alloc_xc errinj num a).2 = none →
        num ≤ (memtx_index_extent_reserve mempool_alloc_xc errinj num
          a).1.memtx_index_num_reserved_extents) := by
    unfold memtx_index_extent_reserve
    split_ifs
    · exact ⟨hinv, fun h => by cases h⟩
    · exact extent_reserve_loop_spec mempool_alloc_xc num _ a hinv (le_refl _)
  refine ⟨hres.1, extent_alloc_inv mempool_alloc_xc errinj a hinv, ?_⟩
  intro hnone
  have hnum := hres.2 hnone
  have hlen : num ≤ ((memtx_index_extent_reserve mempool_alloc_xc errinj num
      a).1.memtx_index_reserved_extents.length : Int) := by
    have := hres.1
    unfold arena_inv at this
    omega
  refine ⟨hlen, ?_⟩
  intro alloc' errinj' k hk
  have hkl : k ≤ (memtx_index_extent_reserve mempool_alloc_xc errinj num
      a).1.memtx_index_reserved_extents.length := by omega
  obtain ⟨h1, h2⟩ := extent_allocs_reserved alloc' errinj' k _ hkl
  refine ⟨h2, by rw [h1], by rw [h1], ?_⟩
  rw [h1]
  have := hres.1
  unfold arena_inv at this ⊢
  simp only [List.length_drop]
  push_cast [hkl]
  omega

/-- Witness of C18: a mempool with five extents left, three are reserved, two
are allocated. -/
theorem reserved_extents_make_alloc_infallible_witness :
    arena_inv (memtx_index_arena_init 5) ∧
    (memtx_index_extent_reserve example_mempool false 3 (memtx_index_arena_init 5)).2 = none ∧
    (memtx_index_extent_reserve example_mempool false 3
      (memtx_index_arena_init 5)).1.memtx_index_reserved_extents = [3, 4, 5] ∧
    (extent_allocs (fun _ => .error .OutOfMemory) true 2
      (memtx_index_extent_reserve example_mempool false 3 (memtx_index_arena_init 5)).1).2 =
      ((memtx_index_extent_reserve example_mempool false 3
        (memtx_index_arena_init 5)).1.memtx_index_reserved_extents.take 2).map Except.ok :=
  ⟨rfl, rfl, rfl,
    (((reserved_extents_make_alloc_infallible example_mempool false 3
      (memtx_index_arena_init 5) rfl).2.2 rfl).2
        (fun _ => .error .OutOfMemory) true 2 (by norm_num)).1⟩

/-! ### Reference counts of tuples -/

theorem memtx_replace_all_keys_refs {σ τ : Type} [DecidableEq τ]
    (reserve : Nat → Except Exception Unit) (replace : index_replace_f σ τ)
    (sp : space σ) (refs : τ → Nat) (o n : Option τ) (m : dup_replace_mode) :
    (memtx_replace_all_keys reserve replace sp refs o n m).refs =
      match (memtx_replace_all_keys reserve replace sp refs o n m).result with
      | .ok _ => tuple_ref_if refs n
      | .error _ => refs := by
  unfold memtx_replace_all_keys
  repeat' split
  all_goals first | rfl | simp_all

theorem memtx_replace_primary_key_refs {σ τ : Type} [DecidableEq τ]
    (replace : index_replace_f σ τ) (sp : space σ) (refs : τ → Nat) (o n : Option τ)
    (m : dup_replace_mode) (r : replace_result σ τ)
    (h : memtx_replace_primary_key replace sp refs o n m = .ok r) :
    r.refs = match r.result with
      | .ok _ => tuple_ref_if refs n
      | .error _ => refs := by
  unfold memtx_replace_primary_key at h
  split at h
  · cases h
  · split at h
    · cases h
      rfl
    · cases h
      rfl

theorem rollbackStatement_refs {σ τ : Type} [DecidableEq τ]
    (replace : index_replace_f σ τ) (b b' : box σ τ) (stmt stmt' : txn_stmt τ)
    (h : MemtxEngine.rollbackStatement replace b stmt = .ok (b', stmt', none)) :
    b'.refs = tuple_unref_if b.refs stmt.new_tuple := by
  unfold MemtxEngine.rollbackStatement at h
  split_ifs at h with hnone
  · cases h
    have : stmt.new_tuple = none := by
      cases hn : stmt.new_tuple with
      | none => rfl
      | some x => simp [hn] at hnone
    rw [this]
    rfl
  · split at h
    · cases h
    · simp only [] at h
      split at h
      · cases h
      · split at h
        · cases h
        · cases h
        · cases h
          rfl

theorem commit_refs {τ : Type} [DecidableEq τ] (stmts : List (txn_stmt τ)) :
    ∀ (refs : τ → Nat) (x : τ),
      stmts.foldl (fun r stmt => tuple_unref_if r stmt.old_tuple) refs x =
        refs x - (stmts.filter (fun stmt => decide (stmt.old_tuple = some x))).length := by
  induction stmts with
  | nil =>
    intro refs x
    simp
  | cons stmt rest ih =>
    intro refs x
    rw [List.foldl_cons, ih]
    by_cases hx : stmt.old_tuple = some x
    · simp only [List.filter_cons, hx, decide_True, if_true, List.length_cons]
      simp only [tuple_unref_if, tuple_unref, if_true]
      omega
    · simp only [List.filter_cons, hx, decide_False, Bool.false_eq_true, if_false]
      cases ho : stmt.old_tuple with
      | none => rfl
      | some t =>
        have hne : x ≠ t := by
          intro e
          exact hx (by rw [ho, e])
        simp [tuple_unref_if, tuple_unref, hne]

theorem commit_old_tuples {τ : Type} [DecidableEq τ] (refs : τ → Nat) (t : txn τ) :
    MemtxEngine.commit refs t =
      (t.stmts.map (fun stmt => stmt.old_tuple)).foldl tuple_unref_if refs := by
  unfold MemtxEngine.commit
  rw [List.foldl_map]

theorem tuple_ref_if_spec {τ : Type} [DecidableEq τ] (refs : τ → Nat) (t : τ) :
    tuple_ref_if refs (some t) t = refs t + 1 ∧
    ∀ x, x ≠ t → tuple_ref_if refs (some t) x = refs x := by
  constructor
  · simp [tuple_ref_if, tuple_ref]
  · intro x hx
    simp [tuple_ref_if, tuple_ref, hx]

theorem tuple_unref_if_spec {τ : Type} [DecidableEq τ] (refs : τ → Nat) (n : Option τ) :
    (∀ t, n = some t → tuple_unref_if refs n t = refs t - 1) ∧
    ∀ x, n ≠ some x → tuple_unref_if refs n x = refs x := by
  constructor
  · intro t ht
    subst ht
    simp [tuple_unref_if, tuple_unref]
  · intro x hx
    cases n with
    | none => rfl
    | some t =>
      have hne : x ≠ t := by
        intro e
        exact hx (by rw [e])
      simp [tuple_unref_if, tuple_unref, hne]

/-- C19: tuple reference counts balance. A `memtx_replace_all_keys` or
`memtx_replace_primary_key` that returns normally leaves the counts as
`if (new_tuple) tuple_ref(new_tuple)` makes them: the count of a new tuple that
is not NULL is one higher, every other count is as it was. `MemtxEngine::commit`
lowers the count of a tuple by the number of the statements that have it as old
tuple, one for each, and reads no new tuple: statements with the same old tuples
give the same counts. A `rollbackStatement` that returns normally lowers the
count of the new tuple of the statement by one, if it is not NULL, and leaves
every other count, that of an old tuple which is not the new tuple included, as
it was. So after a replace and the rollback of its statement every count is what
it was before the replace. -/
theorem tuple_refs_balance {σ τ : Type} [DecidableEq τ]
    (reserve : Nat → Except Exception Unit) (replace : index_replace_f σ τ)
    (sp : space σ) (refs : τ → Nat) (o n : Option τ) (m : dup_replace_mode) :
    (∀ o', (memtx_replace_all_keys reserve replace sp refs o n m).result = .ok o' →
      (memtx_replace_all_keys reserve replace sp refs o n m).refs = tuple_ref_if refs n) ∧
    (∀ r o', memtx_replace_primary_key replace sp refs o n m = .ok r → r.result = .ok o' →
      r.refs = tuple_ref_if refs n) ∧
    (∀ t, tuple_ref_if refs (some t) t = refs t + 1 ∧
      ∀ x, x ≠ t → tuple_ref_if refs (some t) x = refs x) ∧
    tuple_ref_if refs none = refs ∧
    (∀ (t : txn τ) (x : τ), MemtxEngine.commit refs t x =
      refs x - (t.stmts.filter (fun stmt => decide (stmt.old_tuple = some x))).length) ∧
    (∀ (t t' : txn τ),
      t'.stmts.map (fun stmt => stmt.old_tuple) = t.stmts.map (fun stmt => stmt.old_tuple) →
      MemtxEngine.commit refs t' = MemtxEngine.commit refs t) ∧
    (∀ (b b' : box σ τ) (stmt stmt' : txn_stmt τ),
      MemtxEngine.rollbackStatement replace b stmt = .ok (b', stmt', none) →
      (∀ t, stmt.new_tuple = some t → b'.refs t = b.refs t - 1) ∧
      (∀ x, stmt.new_tuple ≠ some x → b'.refs x = b.refs x)) ∧
    (∀ (b b' : box σ τ) (p : Nat) (o' o'' : Option τ) (stmt' : txn_stmt τ),
      (memtx_replace_all_keys reserve replace sp refs o n m).result = .ok o' →
      MemtxEngine.rollbackStatement replace
        { spaces := b.spaces.set p (memtx_replace_all_keys reserve replace sp refs o n m).space,
          refs := (memtx_replace_all_keys reserve replace sp refs o n m).refs }
        { space := p, old_tuple := o'', new_tuple := n } = .ok (b', stmt', none) →
      b'.refs = refs) := by
  have hall : ∀ o', (memtx_replace_all_keys reserve replace sp refs o n m).result = .ok o' →
      (memtx_replace_all_keys reserve replace sp refs o n m).refs = tuple_ref_if refs n := by
    intro o' h
    rw [memtx_replace_all_keys_refs, h]
  refine ⟨hall, ?_, tuple_ref_if_spec refs, rfl, ?_, ?_, ?_, ?_⟩
  · intro r o' h hr
    rw [memtx_replace_primary_key_refs replace sp refs o n m r h, hr]
  · intro t x
    exact commit_refs t.stmts refs x
  · intro t t' h
    rw [commit_old_tuples, commit_old_tuples, h]
  · intro b b' stmt stmt' h
    rw [rollbackStatement_refs replace b b' stmt stmt' h]
    exact tuple_unref_if_spec b.refs stmt.new_tuple
  · intro b b' p o' o'' stmt' h hr
    rw [rollbackStatement_refs replace _ b' _ stmt' hr]
    simp only []
    rw [hall o' h]
    exact tuple_unref_ref refs n

/-! ### The cluster id -/

/-- Counterexample of C20: the cluster id has been set to the UUID 1 from the
tuple `("cluster", "a")`; the replace of this tuple by `("cluster", "b")` is
accepted and sets the cluster id to the UUID 2. -/
theorem cluster_id_overwritten :
    on_replace_dd_schema example_uuid_from_string 0
      (example_schema_txn none (some [.str "cluster", .str "a"])) = .ok (1, none) ∧
    on_replace_dd_schema example_uuid_from_string 1
      (example_schema_txn (some [.str "cluster", .str "a"])
        (some [.str "cluster", .str "b"])) = .ok (2, none) := by
  constructor <;> rfl

/-- C20, amended: for an event on a `_schema` tuple with the key "cluster", a
delete is rejected with `ER_CLUSTER_ID_IS_RO` and leaves the cluster id as it is;
an insert or replace whose field 1 is a UUID is accepted and sets the cluster id
to that UUID, whatever the cluster id was before; one whose field 1 is not a UUID
is rejected and leaves the cluster id as it is, as does every call that
raises. -/
theorem cluster_id_set_by_schema_tuple (tt_uuid_from_string : String → Option Nat)
    (cluster_id : Nat) (t : txn tuple) :
    (∀ old_tuple, t.new_tuple = none → t.old_tuple = some old_tuple →
      tuple_field_cstr old_tuple 0 = .ok "cluster" →
      on_replace_dd_schema tt_uuid_from_string cluster_id t =
        .ok (cluster_id, some (.ClientError .ER_CLUSTER_ID_IS_RO ""))) ∧
    (∀ new_tuple uu, t.new_tuple = some new_tuple →
      tuple_field_cstr new_tuple 0 = .ok "cluster" →
      tuple_field_uuid tt_uuid_from_string new_tuple 1 = .ok uu →
      on_replace_dd_schema tt_uuid_from_string cluster_id t = .ok (uu, none)) ∧
    (∀ new_tuple e, t.new_tuple = some new_tuple →
      tuple_field_cstr new_tuple 0 = .ok "cluster" →
      tuple_field_uuid tt_uuid_from_string new_tuple 1 = .error e →
      on_replace_dd_schema tt_uuid_from_string cluster_id t = .ok (cluster_id, some e)) ∧
    (∀ id' e, on_replace_dd_schema tt_uuid_from_string cluster_id t = .ok (id', some e) →
      id' = cluster_id) := by
  refine ⟨?_, ?_, ?_, ?_⟩
  · intro old_tuple hn ho hkey
    simp [on_replace_dd_schema, hn, ho, hkey]
  · intro new_tuple uu hn hkey huu
    simp [on_replace_dd_schema, hn, hkey, huu]
  · intro new_tuple e hn hkey huu
    simp [on_replace_dd_schema, hn, hkey, huu]
  · intro id' e h
    unfold on_replace_dd_schema at h
    repeat' split at h
    all_goals first | (cases h; rfl) | cases h

/-! ### Users and privileges -/

/-- Counterexample of C21: bob, who is not the admin, deletes the tuple of the
system user guest, which the admin owns. The access check comes first, so the
DELETE fails with `ER_ACCESS_DENIED`, not with `ER_DROP_USER`. -/
theorem drop_system_user_access_denied :
    (on_replace_dd_user { example_env with current_uid := 5 } example_access_env
        (example_acl_state (some [.num 0, .num 1, .str "guest", .str "user"]) none)).toOption.map
      (fun r => raised_code r.2) = some (some .ER_ACCESS_DENIED) := by
  rfl

/-- C21, amended: for every existing user, a DELETE from `_user` registers the
commit-time removal trigger if and only if the DDL access check on the owner of
the user passes, the uid is none of GUEST, ADMIN, PUBLIC, and `user_has_data(uid)`
is false. When the access check passes, a system uid or a user that still has
objects fails with `ER_DROP_USER`; when the access check does not pass, the
DELETE fails with `ER_ACCESS_DENIED`, also for a system uid or a user with
objects. In every failing case no trigger is registered and nothing changes, the
user cache included. -/
theorem drop_user_guarded {σ : Type} (env : schema_env) (A : access_env σ) (st : acl_state σ)
    (old_tuple : tuple) (uid : Nat) (old_user : user)
    (hnew : st.txn.new_tuple = none) (hold : st.txn.old_tuple = some old_tuple)
    (hid : tuple_field_u32 old_tuple ID = .ok uid)
    (huser : user_cache_find st.users uid = some old_user) :
    ∃ r, on_replace_dd_user env A st = .ok r ∧
      (r.1.txn.on_commit = drop_user_trigger :: st.txn.on_commit ↔
        (access_check_ddl env old_user.owner = .ok () ∧
          ¬ (uid = env.GUEST ∨ uid = env.ADMIN ∨ uid = env.PUBLIC) ∧
          user_has_data A st.cache uid = false)) ∧
      (r.2 = none ↔ r.1.txn.on_commit = drop_user_trigger :: st.txn.on_commit) ∧
      (r.2 = none → r.1 = { st with txn := { st.txn with
          on_commit := drop_user_trigger :: st.txn.on_commit } }) ∧
      (r.2 ≠ none → r.1 = st) ∧
      (access_check_ddl env old_user.owner = .ok () →
        (uid = env.GUEST ∨ uid = env.ADMIN ∨ uid = env.PUBLIC) ∨
          user_has_data A st.cache uid = true →
        raised_code r.2 = some .ER_DROP_USER) ∧
      (access_check_ddl env old_user.owner ≠ .ok () →
        raised_code r.2 = some .ER_ACCESS_DENIED) := by
  have hne : ∀ l : List trigger, l ≠ drop_user_trigger :: l :=
    fun l h => List.cons_ne_self _ _ h.symm
  have hon : st.txn.old_or_new = some old_tuple := by simp [txn.old_or_new, hold]
  unfold on_replace_dd_user
  simp only [hon, hid, hnew, huser]
  by_cases hacc : old_user.owner ≠ env.current_uid ∧ env.current_uid ≠ env.ADMIN
  · have ha : access_check_ddl env old_user.owner =
        .error (.ClientError .ER_ACCESS_DENIED "Create or drop") := by
      rw [access_check_ddl, if_pos hacc]
    simp only [ha]
    refine ⟨_, rfl, ?_, ?_, ?_, ?_, ?_, ?_⟩
    · simp [hne]
    · simp [hne]
    · intro h; cases h
    · intro _; rfl
    · intro h; cases h
    · intro _; rfl
  · have ha : access_check_ddl env old_user.owner = .ok () := by
      rw [access_check_ddl, if_neg hacc]
    simp only [ha]
    by_cases hsys : uid = env.GUEST ∨ uid = env.ADMIN ∨ uid = env.PUBLIC
    · simp only [hsys, if_true]
      refine ⟨_, rfl, ?_, ?_, ?_, ?_, ?_, ?_⟩
      · simp [hne]
      · simp [hne]
      · intro h; cases h
      · intro _; rfl
      · intro _ _; rfl
      · intro h; exact absurd rfl h
    · simp only [hsys, if_false]
      cases hdata : user_has_data A st.cache uid
      · simp only [Bool.false_eq_true, if_false]
        refine ⟨_, rfl, ?_, ?_, ?_, ?_, ?_, ?_⟩
        · simp [trigger_set]
        · simp [trigger_set]
        · intro _; rfl
        · intro h; exact absurd rfl h
        · intro _ h; simp at h
        · intro h; exact absurd rfl h
      · simp only [if_true]
        refine ⟨_, rfl, ?_, ?_, ?_, ?_, ?_, ?_⟩
        · simp [hne]
        · simp [hne]
        · intro h; cases h
        · intro _; rfl
        · intro _ _; rfl
        · intro h; exact absurd rfl h

/-- Witness of C21, amended: the admin deletes the tuple of bob, who owns
nothing; the removal trigger is registered. -/
theorem drop_user_guarded_witness :
    ∃ r, on_replace_dd_user example_env example_access_env
        (example_acl_state (some [.num 5, .num 1, .str "bob", .str "user"]) none) = .ok r ∧
      r.2 = none ∧ r.1.txn.on_commit = [drop_user_trigger] := by
  obtain ⟨r, hr, _, h2, h3, _, _, _⟩ := drop_user_guarded example_env example_access_env
    (example_acl_state (some [.num 5, .num 1, .str "bob", .str "user"]) none)
    [.num 5, .num 1, .str "bob", .str "user"] 5
    { user_zero with uid := 5, owner := 1, type := .SC_USER, name := "bob", auth_token := 3 }
    rfl rfl rfl rfl
  have hr' : on_replace_dd_user example_env example_access_env
      (example_acl_state (some [.num 5, .num 1, .str "bob", .str "user"]) none) =
      .ok ({ example_acl_state (some [.num 5, .num 1, .str "bob", .str "user"]) none with
              txn := { example_schema_txn (some [.num 5, .num 1, .str "bob", .str "user"]) none with
                on_commit := [drop_user_trigger] } }, none) := rfl
  rw [hr'] at hr
  cases hr
  exact ⟨_, hr', rfl, rfl⟩

theorem user_cache_find_update (users : List user) (uid : Nat) (f : user → user)
    (hf : ∀ u, (f u).uid = u.uid) :
    user_cache_find (user_cache_update users uid f) uid = (user_cache_find users uid).map f := by
  induction users with
  | nil => rfl
  | cons u rest ih =>
    simp only [user_cache_find, user_cache_update, List.map_cons, List.find?_cons] at ih ⊢
    by_cases h : u.uid = uid
    · simp [h, hf]
    · have hb : ∀ a b : Nat, a ≠ b → (a == b) = false := fun a b hab => by simpa using hab
      rw [if_neg h, hb _ _ h]
      simp only [hb _ _ h]
      exact ih

theorem space_by_id_update {σ : Type} (cache : List (space σ)) (id : Nat)
    (f : space σ → space σ) (hf : ∀ sp, (f sp).def_.id = sp.def_.id) :
    space_by_id (space_cache_update cache id f) id = (space_by_id cache id).map f := by
  induction cache with
  | nil => rfl
  | cons sp rest ih =>
    simp only [space_by_id, space_cache_update, List.map_cons, List.find?_cons] at ih ⊢
    by_cases h : sp.def_.id = id
    · simp [h, hf]
    · have hb : ∀ a b : Nat, a ≠ b → (a == b) = false := fun a b hab => by simpa using hab
      rw [if_neg h, hb _ _ h]
      simp only [hb _ _ h]
      exact ih

theorem func_by_id_update (funcs : List func_def) (fid : Nat)
    (f : func_def → func_def) (hf : ∀ g, (f g).fid = g.fid) :
    func_by_id (func_cache_update funcs fid f) fid = (func_by_id funcs fid).map f := by
  induction funcs with
  | nil => rfl
  | cons g rest ih =>
    simp only [func_by_id, func_cache_update, List.map_cons, List.find?_cons] at ih ⊢
    by_cases h : g.fid = fid
    · simp [h, hf]
    · have hb : ∀ a b : Nat, a ≠ b → (a == b) = false := fun a b hab => by simpa using hab
      rw [if_neg h, hb _ _ h]
      simp only [hb _ _ h]
      exact ih

theorem grant_or_revoke_txn {σ : Type} (st : acl_state σ) (priv : priv_def) :
    (grant_or_revoke st priv).txn = st.txn := by
  unfold grant_or_revoke
  repeat' split
  all_goals rfl

/-- What `grant_or_revoke` does to the access bits of the grantee on the object:
they become the access of the privilege. -/
theorem access_bits_grant_or_revoke {σ : Type} (st : acl_state σ) (priv q : priv_def)
    (h1 : q.grantee_id = priv.grantee_id) (h2 : q.object_id = priv.object_id)
    (h3 : q.object_type = priv.object_type) :
    access_bits (grant_or_revoke st q) priv = (access_bits st priv).map (fun _ => q.access) := by
  cases hg : user_cache_find st.users priv.grantee_id with
  | none => simp only [grant_or_revoke, access_bits, h1, hg, Option.map_none']
  | some grantee =>
    cases ht : priv.object_type with
    | SC_UNIVERSE =>
      simp only [grant_or_revoke, access_bits, h1, h3, hg, ht]
      rw [user_cache_find_update st.users priv.grantee_id
        (fun u => { u with universal_access := q.access }) (fun _ => rfl), hg]
      rfl
    | SC_SPACE =>
      cases hs : space_by_id st.cache priv.object_id with
      | none => simp only [grant_or_revoke, access_bits, h1, h2, h3, hg, ht, hs, Option.map_none']
      | some sp =>
        simp only [grant_or_revoke, access_bits, h1, h2, h3, hg, ht, hs]
        rw [space_by_id_update st.cache priv.object_id
          (fun sp => { sp with access := Function.update sp.access grantee.auth_token q.access })
          (fun _ => rfl), hs]
        simp
    | SC_FUNCTION =>
      cases hs : func_by_id st.funcs priv.object_id with
      | none => simp only [grant_or_revoke, access_bits, h1, h2, h3, hg, ht, hs, Option.map_none']
      | some sp =>
        simp only [grant_or_revoke, access_bits, h1, h2, h3, hg, ht, hs]
        rw [func_by_id_update st.funcs priv.object_id
          (fun f => { f with access := Function.update f.access grantee.auth_token q.access })
          (fun _ => rfl), hs]
        simp
    | SC_UNKNOWN => simp only [grant_or_revoke, access_bits, h1, h3, hg, ht, Option.map_none']
    | SC_USER => simp only [grant_or_revoke, access_bits, h1, h3, hg, ht, Option.map_none']
    | SC_ROLE => simp only [grant_or_revoke, access_bits, h1, h3, hg, ht, Option.map_none']
theorem grant_or_revoke_with_txn {σ : Type} (st : acl_state σ) (t : txn tuple) (q : priv_def) :
    grant_or_revoke { st with txn := t } q = { grant_or_revoke st q with txn := t } := by
  unfold grant_or_revoke
  dsimp only
  repeat' split
  all_goals rfl

theorem access_bits_with_txn {σ : Type} (st : acl_state σ) (t : txn tuple) (q : priv_def) :
    access_bits { st with txn := t } q = access_bits st q := rfl

/-- Counterexample of C29: the admin, whose universal access is 7, is granted
the access 4 on the universe by an INSERT into `_priv` that passes
`priv_def_check`; the rollback trigger that the INSERT registered leaves the
universal access of the admin at 0, not at 7. -/
theorem rolled_back_grant_zeroes_access :
    access_bits
        (example_acl_state none (some [.num 1, .num 1, .str "universe", .num 0, .num 4]))
        { grantor_id := 1, grantee_id := 1, object_id := 0, object_type := .SC_UNIVERSE,
          access := 4 } = some 7 ∧
      (grant_and_rollback example_env example_access_env
        (example_acl_state none (some [.num 1, .num 1, .str "universe", .num 0, .num 4]))).map
        (fun p =>
          (p.1.txn.on_rollback,
           access_bits p.1 { grantor_id := 1, grantee_id := 1, object_id := 0,
                             object_type := .SC_UNIVERSE, access := 4 },
           access_bits p.2 { grantor_id := 1, grantee_id := 1, object_id := 0,
                             object_type := .SC_UNIVERSE, access := 4 })) =
        some ([revoke_priv_trigger], some 4, some 0) :=
  ⟨rfl, rfl⟩

/-- C29, amended: for every INSERT into `_priv` that passes `priv_def_check`,
`on_replace_dd_priv` sets the access bits of the grantee on the object to the
access of the privilege and registers one rollback trigger; running that trigger
sets the bits to 0. So the bits equal their value before the grant provided
that the grantee held no access bits on the object before (they were 0); the
earlier value is not restored otherwise. If `priv_def_check` raises, nothing is
changed and no trigger is registered. -/
theorem rolled_back_grant_clears_access {σ : Type} (env : schema_env) (A : access_env σ)
    (st : acl_state σ) (new_tuple : tuple) (priv : priv_def)
    (hold : st.txn.old_tuple = none) (hnew : st.txn.new_tuple = some new_tuple)
    (hpriv : priv_def_create_from_tuple A new_tuple = .ok priv) :
    (priv_def_check env st priv = .ok () →
      ∃ st1 t st2,
        on_replace_dd_priv env A st = .ok (st1, none) ∧
        st1.txn.on_rollback = t :: st.txn.on_rollback ∧
        access_bits st1 priv = (access_bits st priv).map (fun _ => priv.access) ∧
        acl_trigger_run env A t st1 = .ok (st2, none) ∧
        access_bits st2 priv = (access_bits st priv).map (fun _ => 0) ∧
        ((∀ b, access_bits st priv = some b → b = 0) →
          access_bits st2 priv = access_bits st priv)) ∧
    (∀ e, priv_def_check env st priv = .error e →
      on_replace_dd_priv env A st = .ok (st, some e)) := by
  constructor
  · intro hcheck
    have h1 : access_bits (grant_or_revoke st priv) priv =
        (access_bits st priv).map (fun _ => priv.access) :=
      access_bits_grant_or_revoke st priv priv rfl rfl rfl
    have h2 : access_bits (grant_or_revoke (grant_or_revoke st priv) { priv with access := 0 })
        priv = (access_bits st priv).map (fun _ => 0) := by
      rw [access_bits_grant_or_revoke _ priv { priv with access := 0 } rfl rfl rfl, h1,
        Option.map_map]
      rfl
    refine ⟨{ grant_or_revoke st priv with txn := { (grant_or_revoke st priv).txn with
        on_rollback := trigger_set (grant_or_revoke st priv).txn.on_rollback
          revoke_priv_trigger } }, revoke_priv_trigger,
      { grant_or_revoke (grant_or_revoke st priv) { priv with access := 0 } with
        txn := { (grant_or_revoke st priv).txn with
          on_rollback := trigger_set (grant_or_revoke st priv).txn.on_rollback
            revoke_priv_trigger } }, ?_, ?_, ?_, ?_, ?_, ?_⟩
    · unfold on_replace_dd_priv
      simp only [hnew, hold, hpriv, hcheck]
    · simp only [trigger_set, grant_or_revoke_txn]
    · rw [access_bits_with_txn]
      exact h1
    · simp only [acl_trigger_run, revoke_priv_trigger, revoke_priv, grant_or_revoke_txn, hnew,
        hpriv]
      rw [grant_or_revoke_with_txn]
    · rw [access_bits_with_txn]
      exact h2
    · intro hz
      rw [access_bits_with_txn, h2]
      cases hb : access_bits st priv with
      | none => rfl
      | some b => rw [hz b hb]; rfl
  · intro e hcheck
    unfold on_replace_dd_priv
    simp only [hnew, hold, hpriv, hcheck]

/-- Witness of C29, amended: the admin grants the access 4 on the space 512 to
bob, who had no access to it. -/
theorem rolled_back_grant_clears_access_witness :
    ∃ st1 t st2,
      on_replace_dd_priv example_env example_access_env
        (example_acl_state none (some [.num 1, .num 5, .str "space", .num 512, .num 4])) =
          .ok (st1, none) ∧
      acl_trigger_run example_env example_access_env t st1 = .ok (st2, none) ∧
      access_bits st2 { grantor_id := 1, grantee_id := 5, object_id := 512,
                        object_type := .SC_SPACE, access := 4 } = some 0 := by
  obtain ⟨st1, t, st2, h1, _, _, h4, h5, _⟩ :=
    (rolled_back_grant_clears_access example_env example_access_env
      (example_acl_state none (some [.num 1, .num 5, .str "space", .num 512, .num 4]))
      [.num 1, .num 5, .str "space", .num 512, .num 4]
      { grantor_id := 1, grantee_id := 5, object_id := 512, object_type := .SC_SPACE,
        access := 4 } rfl rfl rfl).1 rfl
  exact ⟨st1, t, st2, h1, h4, h5⟩

/-! ### Recovery from a snapshot -/

theorem checkpoint_foreach_entries {σ ι : Type} (C : checkpoint_vtab σ ι)
    (halloc : ∀ n, C.region_alloc_object_xc n = .ok ())
    (cache : List (space σ)) (data : checkpoint ι) :
    (checkpoint_foreach C cache data).2.2 = none ∧
    (checkpoint_foreach C cache data).2.1.entries =
      data.entries ++ cache.filterMap (checkpoint_entry_of C) := by
  induction cache generalizing data with
  | nil => simp [checkpoint_foreach]
  | cons sp rest ih =>
    simp only [checkpoint_foreach, checkpoint_add_space, space_is_temporary, halloc,
      List.filterMap_cons, checkpoint_entry_of]
    cases ht : sp.def_.temporary
    · cases hm : C.space_is_memtx sp
      · simpa using ih data
      · cases hpk : space_index sp 0 with
        | none => simpa using ih data
        | some pk =>
          simp only [Bool.false_eq_true, if_false, Bool.not_true, and_self, if_true,
            Option.map_some']
          refine ⟨(ih _).1, ?_⟩
          rw [(ih _).2]
          simp
    · simpa using ih data

/-- Counterexample of C23: the space cache holds the space 512 and the space
513, both memtx spaces that are not temporary; the space 513 has no primary key.
After `beginCheckpoint` the checkpoint has the one entry of the space 512 and
none for the space 513. -/
theorem beginCheckpoint_skips_keyless_space :
    example_keyless_space.def_.temporary = false ∧
    example_checkpoint_vtab.space_is_memtx example_keyless_space = true ∧
    (MemtxEngine.beginCheckpoint example_checkpoint_vtab (2 ^ 64 - 1) 0
        [example_two_key_space 512 [[1, 10]], example_keyless_space]).2.2.2 = none ∧
    ((MemtxEngine.beginCheckpoint example_checkpoint_vtab (2 ^ 64 - 1) 0
        [example_two_key_space 512 [[1, 10]], example_keyless_space]).2.1.map
      (fun data => data.entries.map (fun entry => entry.space))) = some [512] := by
  refine ⟨rfl, rfl, rfl, rfl⟩

/-- C23, amended: when no allocation fails, `beginCheckpoint` returns normally
and the entry list of the checkpoint contains, in `space_foreach` order, exactly
one read-view iterator entry for every non-temporary memtx space of the space
cache that has a primary key, and no entry for a temporary space, a space of
another engine or a space without a primary key. The snapshot version is
incremented. -/
theorem beginCheckpoint_entries {σ ι : Type} (C : checkpoint_vtab σ ι)
    (m_snap_io_rate_limit snapshot_version : Nat) (cache : List (space σ))
    (halloc : ∀ n, C.region_alloc_object_xc n = .ok ()) :
    ∃ cache1 data,
      MemtxEngine.beginCheckpoint C m_snap_io_rate_limit snapshot_version cache =
        (cache1, some data, snapshot_version + 1, none) ∧
      data.entries = cache.filterMap (checkpoint_entry_of C) ∧
      (∀ sp ∈ cache, sp.def_.temporary = true ∨ C.space_is_memtx sp = false ∨
          space_index sp 0 = none → checkpoint_entry_of C sp = none) ∧
      (∀ sp ∈ cache, sp.def_.temporary = false → C.space_is_memtx sp = true →
        ∀ pk, space_index sp 0 = some pk →
          checkpoint_entry_of C sp =
            some { space := sp.def_.id,
                   iterator := (C.createReadViewForIterator pk.impl).2 }) := by
  have h := checkpoint_foreach_entries C halloc cache (checkpoint_init m_snap_io_rate_limit)
  refine ⟨(checkpoint_foreach C cache (checkpoint_init m_snap_io_rate_limit)).1,
    (checkpoint_foreach C cache (checkpoint_init m_snap_io_rate_limit)).2.1, ?_, ?_, ?_, ?_⟩
  · unfold MemtxEngine.beginCheckpoint
    rw [halloc]
    dsimp only
    split
    · rename_i c1 d ex heq
      rw [heq] at h
      exact absurd h.1 (by simp)
    · rename_i c1 d heq
      rw [heq]
  · simpa [checkpoint_init] using h.2
  · intro sp _ hcase
    unfold checkpoint_entry_of
    rcases hcase with h1 | h1 | h1
    · simp [h1]
    · simp [h1]
    · simp [h1]
  · intro sp _ h1 h2 pk hpk
    simp [checkpoint_entry_of, h1, h2, hpk]

/-- Witness of C23, amended: the cache with the space 512 and the space 513
without a primary key. -/
theorem beginCheckpoint_entries_witness :
    ∃ cache1 data,
      MemtxEngine.beginCheckpoint example_checkpoint_vtab (2 ^ 64 - 1) 0
          [example_two_key_space 512 [[1, 10]], example_keyless_space] =
        (cache1, some data, 1, none) ∧
      data.entries.map (fun entry => (entry.space, entry.iterator)) = [(512, [[1, 10]])] := by
  obtain ⟨cache1, data, h1, h2, _, _⟩ := beginCheckpoint_entries example_checkpoint_vtab
    (2 ^ 64 - 1) 0 [example_two_key_space 512 [[1, 10]], example_keyless_space] (fun _ => rfl)
  refine ⟨cache1, data, h1, ?_⟩
  rw [h2]
  rfl

/-! ### The flags of a space -/

/-- C24: `space_def_init_flags` at the `_space` tuple
`(512, 1, "t", "memtx", 0, "temporaryX")`. The only item of the flags field is
the word `temporaryX`, which is not the word `temporary`, and yet the flag
`temporary` is set: `strncmp(flags, "temporary", strlen("temporary"))` compares
the first nine characters of the item and does not look at what follows them.
The item `temporar`, one character short, leaves the flag clear. -/
theorem init_flags_accepts_longer_word :
    space_def_init_flags space_def_zero
        [.num 512, .num 1, .str "t", .str "memtx", .num 0, .str "temporaryX"] =
      .ok { space_def_zero with temporary := true } ∧
    (space_def_create_from_tuple example_env
        [.num 512, .num 1, .str "t", .str "memtx", .num 0, .str "temporaryX"]
        .ER_CREATE_SPACE).toOption.map (fun d => d.temporary) = some true ∧
    space_def_init_flags space_def_zero
        [.num 512, .num 1, .str "t", .str "memtx", .num 0, .str "temporar"] =
      .ok { space_def_zero with temporary := false } := by
  refine ⟨?_, ?_, ?_⟩ <;> rfl
/-! ### Merging a drop and an add of an index -/

/-- Counterexample of C27: the plan drops the index with the iid 1 and adds an
index with the iid 2 that has the same type, uniqueness and parts.
`AddIndex::prepare` takes both ops out of the plan and creates a `ModifyIndex`,
although the two iids differ. -/
theorem AddIndex_prepare_merges_other_iid :
    (example_key_def 512 1 1 "secondary").iid ≠ (example_key_def 512 2 1 "secondary").iid ∧
    AddIndex.prepare example_env
        [.DropIndex (example_key_def 512 1 1 "secondary"),
         .AddIndex (some (example_key_def 512 2 1 "secondary")) none] 1 =
      [.ModifyIndex (some (example_key_def 512 2 1 "secondary"))
        (example_key_def 512 1 1 "secondary")] ∧
    (prepare_ops example_env example_vtab (example_two_key_space 512 []) []
        [.DropIndex (example_key_def 512 1 1 "secondary"),
         .AddIndex (some (example_key_def 512 2 1 "secondary")) none] []).1 =
      [.ModifyIndex (some (example_key_def 512 2 1 "secondary"))
        (example_key_def 512 1 1 "secondary")] := by
  refine ⟨?_, ?_, ?_⟩ <;> decide

theorem AddIndex_merge_isSome (env : schema_env) (old_key_def new_key_def : key_def) :
    AddIndex.merge env (some (.DropIndex old_key_def)) (some new_key_def) =
      if old_key_def.type = new_key_def.type ∧ old_key_def.is_unique = new_key_def.is_unique ∧
          env.key_part_cmp old_key_def.parts new_key_def.parts = 0 then
        some (if env.key_def_cmp old_key_def new_key_def ≠ 0 then
          some (.ModifyIndex (some new_key_def) old_key_def) else none)
      else none := by
  unfold AddIndex.merge
  by_cases h : old_key_def.type = new_key_def.type ∧
      old_key_def.is_unique = new_key_def.is_unique ∧
      env.key_part_cmp old_key_def.parts new_key_def.parts = 0
  · obtain ⟨h1, h2, h3⟩ := h
    by_cases hc : env.key_def_cmp old_key_def new_key_def = 0 <;> simp [h1, h2, h3, hc]
  · have hc : old_key_def.type ≠ new_key_def.type ∨
        old_key_def.is_unique ≠ new_key_def.is_unique ∨
        env.key_part_cmp old_key_def.parts new_key_def.parts ≠ 0 := by
      by_contra hc
      push_neg at hc
      exact h hc
    rw [if_neg h]
    simp only [if_pos hc]

/-- C27, amended: `AddIndex::prepare` does not look at the iids. For every
`DropIndex` right before the `AddIndex`, whatever the iids of the dropped and of
the added index, both ops stay in the plan unchanged exactly when the type, the
uniqueness or the parts of the two key definitions differ; when these agree, the
two ops leave the plan and a `ModifyIndex` with the two key definitions is
created if `key_def_cmp` finds them different. -/
theorem AddIndex_prepare_unchanged_iff (env : schema_env) (before after : List AlterSpaceOp)
    (old_key_def new_key_def : key_def) (on_replace : Option trigger) :
    (AddIndex.prepare env
        (before ++ .DropIndex old_key_def :: .AddIndex (some new_key_def) on_replace :: after)
        (before.length + 1) =
      before ++ .DropIndex old_key_def :: .AddIndex (some new_key_def) on_replace :: after ↔
      ¬ (old_key_def.type = new_key_def.type ∧ old_key_def.is_unique = new_key_def.is_unique ∧
        env.key_part_cmp old_key_def.parts new_key_def.parts = 0)) ∧
    (old_key_def.type = new_key_def.type ∧ old_key_def.is_unique = new_key_def.is_unique ∧
        env.key_part_cmp old_key_def.parts new_key_def.parts = 0 →
      AddIndex.prepare env
          (before ++ .DropIndex old_key_def :: .AddIndex (some new_key_def) on_replace :: after)
          (before.length + 1) =
        before ++ after ++
          (if env.key_def_cmp old_key_def new_key_def ≠ 0 then
            [.ModifyIndex (some new_key_def) old_key_def] else [])) := by
  have hget : (before ++ .DropIndex old_key_def ::
      .AddIndex (some new_key_def) on_replace :: after)[before.length + 1]? =
        some (.AddIndex (some new_key_def) on_replace) := by
    rw [List.getElem?_append_right (by omega)]
    simp
  have hprev : (before ++ .DropIndex old_key_def ::
      .AddIndex (some new_key_def) on_replace :: after)[before.length + 1 - 1]? =
        some (.DropIndex old_key_def) := by
    rw [Nat.add_sub_cancel, List.getElem?_append_right (by omega)]
    simp
  have herase : ((before ++ .DropIndex old_key_def ::
      .AddIndex (some new_key_def) on_replace :: after).eraseIdx
        (before.length + 1)).eraseIdx (before.length + 1 - 1) = before ++ after := by
    rw [Nat.add_sub_cancel, List.eraseIdx_append_of_length_le (by omega)]
    simp only [Nat.add_sub_cancel_left, List.eraseIdx_cons_succ, List.eraseIdx_cons_zero]
    rw [List.eraseIdx_append_of_length_le (by omega)]
    simp
  have hmerged : old_key_def.type = new_key_def.type ∧
      old_key_def.is_unique = new_key_def.is_unique ∧
      env.key_part_cmp old_key_def.parts new_key_def.parts = 0 →
      AddIndex.prepare env
          (before ++ .DropIndex old_key_def :: .AddIndex (some new_key_def) on_replace :: after)
          (before.length + 1) =
        before ++ after ++
          (if env.key_def_cmp old_key_def new_key_def ≠ 0 then
            [.ModifyIndex (some new_key_def) old_key_def] else []) := by
    intro h
    simp only [AddIndex.prepare, hget, hprev, Nat.add_one_ne_zero, if_false,
      AddIndex_merge_isSome, h, and_self, if_true, herase]
    by_cases hc : env.key_def_cmp old_key_def new_key_def = 0 <;> simp [hc]
  refine ⟨⟨?_, ?_⟩, hmerged⟩
  · intro heq h
    rw [hmerged h] at heq
    have hlen := congrArg List.length heq
    simp only [List.length_append, List.length_cons] at hlen
    split_ifs at hlen <;> simp at hlen <;> omega
  · intro h
    simp only [AddIndex.prepare, hget, hprev, Nat.add_one_ne_zero, if_false,
      AddIndex_merge_isSome, h, if_false]
/-! ### Dropping a secondary index -/

/-- C28: the DELETE of the `_index` tuple `(512, 1)` when the space 512 has the
secondary indexes 1 and 2 and no primary key. The plan is the one `DropIndex` of
the index 1, whose iid is not 0, and `DropIndex::alter` raises
`ER_DROP_PRIMARY_KEY`: it tests whether the new space has a primary key, not
whether the dropped index is the primary key. -/
theorem drop_secondary_without_primary_raises :
    (example_key_def 512 1 0 "first").iid ≠ 0 ∧
    space_index example_secondary_only_space 0 = none ∧
    (on_replace_dd_index example_env example_vtab
        { example_ddl_state (some [.num 512, .num 1]) none with
          cache := [example_secondary_only_space] }).toOption.map
      (fun r => raised_code r.2) = some (some .ER_DROP_PRIMARY_KEY) ∧
    raised_code (alter_space_do example_env example_vtab
        { example_ddl_state (some [.num 512, .num 1]) none with
          cache := [example_secondary_only_space],
          alter := { (alter_space_new : alter_space (List (List Nat))) with
                       ops := [.DropIndex (example_key_def 512 1 0 "first")] } }
        example_secondary_only_space).2 = some .ER_DROP_PRIMARY_KEY := by
  refine ⟨?_, ?_, ?_, ?_⟩
  · decide
  · rfl
  · rfl
  · rfl

/-! ### Select -/

/-- C26: the slot `cord->on_exit` is change-once and the handler runs exactly
when it is installed in time. The compare-exchanges are indivisible, so the
exchange of the exiting thread and the exchange of `cord_cojoin` happen in one of
two orders. Neither exchange changes a slot that is not NULL, and each takes a
NULL slot to a value that is not NULL, so the slot leaves NULL at most once. When
`cord_cojoin` comes first, it installs its handler and yields, and the exiting
thread then calls the handler, once. When the exiting thread comes first, it
calls nothing and leaves `CORD_ON_EXIT_WONT_RUN`, and `cord_cojoin` then finds the
sentinel, does not yield, leaves its cord as it is and goes on to `cord_join`. -/
theorem cord_on_exit_change_once (trigger_run : List trigger → cord → cord) (c : cord)
    (callback ctx : Nat) :
    (∀ on_exit, on_exit ≠ .NULL →
      (∀ r, cord_thread_func_exit on_exit = .ok r → r.1 = on_exit) ∧
      (cord_cojoin_begin trigger_run c on_exit callback ctx).2.1 = on_exit) ∧
    (∀ r, cord_thread_func_exit .NULL = .ok r → r.1 ≠ .NULL) ∧
    (cord_cojoin_begin trigger_run c .NULL callback ctx).2.1 ≠ .NULL ∧
    (cord_cojoin_begin trigger_run c .NULL callback ctx =
        (fiber_yield trigger_run (fiber_set_cancellable c false).1,
         .handler callback ctx, true) ∧
      cord_thread_func_exit (cord_cojoin_begin trigger_run c .NULL callback ctx).2.1 =
        .ok (.handler callback ctx, [(callback, ctx)])) ∧
    (cord_thread_func_exit .NULL = .ok (.CORD_ON_EXIT_WONT_RUN, []) ∧
      cord_cojoin_begin trigger_run c .CORD_ON_EXIT_WONT_RUN callback ctx =
        (c, .CORD_ON_EXIT_WONT_RUN, false)) := by
  refine ⟨?_, ?_, ?_, ⟨rfl, rfl⟩, ⟨rfl, rfl⟩⟩
  · intro on_exit hne
    constructor
    · intro r hr
      cases on_exit with
      | NULL => exact absurd rfl hne
      | CORD_ON_EXIT_WONT_RUN => cases hr
      | handler cb arg =>
        simp only [cord_thread_func_exit, pm_atomic_compare_exchange_strong] at hr
        cases hr
        rfl
    · cases on_exit with
      | NULL => exact absurd rfl hne
      | CORD_ON_EXIT_WONT_RUN => rfl
      | handler cb arg => rfl
  · intro r hr
    cases hr
    decide
  · simp [cord_cojoin_begin, pm_atomic_compare_exchange_strong]

/-! ### Throttling the writer of a snapshot -/

theorem throttle_loop_done {κ T : Type} (K : clock_vtab κ T) (L fuel : Nat)
    (w : snap_writer κ T) (h : w.bytes ≤ L) : throttle_loop K L fuel w = some w := by
  cases fuel <;> simp only [throttle_loop, if_neg (Nat.not_lt.mpr h)]

theorem throttle_loop_spec {κ T : Type} (K : clock_vtab κ T) (L : Nat) (hL : 0 < L) :
    ∀ (k fuel : Nat) (w : snap_writer κ T), w.bytes < 2 ^ 64 → (w.bytes - 1) / L = k →
      (k ≤ fuel → ∃ w1, throttle_loop K L fuel w = some w1 ∧ w1.bytes = w.bytes - k * L ∧
        w1.bytes ≤ L ∧ w1.rows = w.rows ∧ w1.fdatasyncs = w.fdatasyncs ∧ w1.gcs = w.gcs ∧
        (k = 0 → w1 = w)) ∧
      (fuel < k → throttle_loop K L fuel w = none) := by
  intro k
  induction k with
  | zero =>
    intro fuel w _ hk
    have hle : w.bytes ≤ L := by
      rcases Nat.lt_or_ge L w.bytes with h | h
      · have : 1 ≤ (w.bytes - 1) / L := (Nat.one_le_div_iff hL).mpr (by omega)
        omega
      · exact h
    refine ⟨fun _ => ⟨w, ?_, by simp, hle, rfl, rfl, rfl, fun _ => rfl⟩, fun h => by omega⟩
    cases fuel <;> simp [throttle_loop, Nat.not_lt.mpr hle]
  | succ k ih =>
    intro fuel w hw hk
    have hgt : w.bytes > L := by
      by_contra h
      have : (w.bytes - 1) / L = 0 := Nat.div_eq_of_lt (by omega)
      omega
    have hb : (w.bytes + 2 ^ 64 - L) % 2 ^ 64 = w.bytes - L := by
      have : w.bytes + 2 ^ 64 - L = (w.bytes - L) + 2 ^ 64 := by omega
      rw [this, Nat.add_mod_right, Nat.mod_eq_of_lt (by omega)]
    have hk' : (w.bytes - L - 1) / L = k := by
      have h1 : w.bytes - 1 = (w.bytes - L - 1) + L := by omega
      rw [h1, Nat.add_div_right _ hL] at hk
      omega
    cases fuel with
    | zero =>
      refine ⟨fun h => by omega, fun _ => ?_⟩
      simp [throttle_loop, hgt]
    | succ fuel =>
      have hstep := ih fuel
        { w with clock := K.ev_now_update
                   (if K.elapsed_lt_one (K.ev_now (K.ev_now_update w.clock)) w.last then
                      K.usleep (K.ev_now (K.ev_now_update w.clock)) w.last
                        (K.ev_now_update w.clock)
                    else K.ev_now_update w.clock),
                 last := K.ev_now (K.ev_now_update
                   (if K.elapsed_lt_one (K.ev_now (K.ev_now_update w.clock)) w.last then
                      K.usleep (K.ev_now (K.ev_now_update w.clock)) w.last
                        (K.ev_now_update w.clock)
                    else K.ev_now_update w.clock)),
                 bytes := (w.bytes + 2 ^ 64 - L) % 2 ^ 64 }
        (by show (w.bytes + 2 ^ 64 - L) % 2 ^ 64 < 2 ^ 64; exact Nat.mod_lt _ (by norm_num))
        (by show ((w.bytes + 2 ^ 64 - L) % 2 ^ 64 - 1) / L = k; rw [hb]; exact hk')
      constructor
      · intro hle
        obtain ⟨w1, h1, h2, h3, h4, h5, h6, _⟩ := hstep.1 (by omega)
        refine ⟨w1, ?_, ?_, h3, h4, h5, h6, fun h => by omega⟩
        · simp only [throttle_loop, hgt, if_true]
          exact h1
        · rw [h2]
          show (w.bytes + 2 ^ 64 - L) % 2 ^ 64 - k * L = w.bytes - (k + 1) * L
          rw [hb, Nat.add_mul, Nat.one_mul]
          omega
      · intro hlt
        simp only [throttle_loop, hgt, if_true]
        exact hstep.2 (by omega)
/-- C30: snapshot throttling terminates and bounds the backlog. For every rate
limit `L` with `0 < L < UINT64_MAX` and every value of the 64-bit byte counter,
the throttling loop of `checkpoint_write_row` ends after exactly
`(bytes - 1) / L` iterations, one for every `L` bytes of backlog (less fuel does
not reach the end, more changes nothing), and leaves the counter at
`bytes - ((bytes - 1) / L) * L`, which is at most `L`; so does the whole
`checkpoint_write_row` for a row that was written. With `L = UINT64_MAX` the body
of the loop never runs, whatever the fuel, and no `fdatasync` is issued: the
clock and `last` are untouched. -/
theorem snapshot_throttling_terminates {κ T : Type} (K : clock_vtab κ T) (L : Nat)
    (w : snap_writer κ T) (hw : w.bytes < 2 ^ 64) :
    (0 < L → L < UINT64_MAX →
      (∃ w1, throttle_loop K L ((w.bytes - 1) / L) w = some w1 ∧
        w1.bytes = w.bytes - ((w.bytes - 1) / L) * L ∧ w1.bytes ≤ L ∧
        (∀ fuel, (w.bytes - 1) / L ≤ fuel → throttle_loop K L fuel w = some w1) ∧
        (∀ fuel, fuel < (w.bytes - 1) / L → throttle_loop K L fuel w = none)) ∧
      (∀ written fuel, 0 ≤ written → 2 ^ 64 / L ≤ fuel →
        ∃ w1, checkpoint_write_row K fuel w written L = some (w1, none) ∧ w1.bytes ≤ L)) ∧
    (∀ written fuel, 0 ≤ written →
      ∃ w1, checkpoint_write_row K fuel w written UINT64_MAX = some (w1, none) ∧
        w1.bytes = (w.bytes + written.toNat) % 2 ^ 64 ∧
        w1.fdatasyncs = w.fdatasyncs ∧ w1.clock = w.clock ∧ w1.last = w.last) := by
  constructor
  · intro hL _
    constructor
    · obtain ⟨w1, h1, h2, h3, _⟩ :=
        (throttle_loop_spec K L hL ((w.bytes - 1) / L) ((w.bytes - 1) / L) w hw rfl).1
          (Nat.le_refl _)
      refine ⟨w1, h1, h2, h3, ?_, ?_⟩
      · intro fuel hfuel
        obtain ⟨w2, g1, g2, _⟩ :=
          (throttle_loop_spec K L hL ((w.bytes - 1) / L) fuel w hw rfl).1 hfuel
        obtain ⟨w3, e1, e2, _⟩ :=
          (throttle_loop_spec K L hL ((w.bytes - 1) / L) ((w.bytes - 1) / L) w hw rfl).1
            (Nat.le_refl _)
        rw [g1]
        rw [h1] at e1
        cases e1
        clear e2 g2
        -- the result does not depend on the fuel
        have key : ∀ (k f1 f2 : Nat) (v : snap_writer κ T), v.bytes < 2 ^ 64 →
            (v.bytes - 1) / L = k → k ≤ f1 → k ≤ f2 →
            throttle_loop K L f1 v = throttle_loop K L f2 v := by
          intro k
          induction k with
          | zero =>
            intro f1 f2 v hv hk _ _
            obtain ⟨a, ha, _, _, _, _, _, ha'⟩ := (throttle_loop_spec K L hL 0 f1 v hv hk).1
              (Nat.zero_le _)
            obtain ⟨b, hb, _, _, _, _, _, hb'⟩ := (throttle_loop_spec K L hL 0 f2 v hv hk).1
              (Nat.zero_le _)
            rw [ha, hb, ha' rfl, hb' rfl]
          | succ k ih =>
            intro f1 f2 v hv hk h1 h2
            have hgt : v.bytes > L := by
              by_contra h
              have : (v.bytes - 1) / L = 0 := Nat.div_eq_of_lt (by omega)
              omega
            have hb : (v.bytes + 2 ^ 64 - L) % 2 ^ 64 = v.bytes - L := by
              have : v.bytes + 2 ^ 64 - L = (v.bytes - L) + 2 ^ 64 := by omega
              rw [this, Nat.add_mod_right, Nat.mod_eq_of_lt (by omega)]
            have hk' : (v.bytes - L - 1) / L = k := by
              have h1 : v.bytes - 1 = (v.bytes - L - 1) + L := by omega
              rw [h1, Nat.add_div_right _ hL] at hk
              omega
            obtain ⟨g1, rfl⟩ : ∃ g, f1 = g + 1 := ⟨f1 - 1, by omega⟩
            obtain ⟨g2, rfl⟩ : ∃ g, f2 = g + 1 := ⟨f2 - 1, by omega⟩
            simp only [throttle_loop, hgt, if_true]
            apply ih
            · show (v.bytes + 2 ^ 64 - L) % 2 ^ 64 < 2 ^ 64
              exact Nat.mod_lt _ (by norm_num)
            · show ((v.bytes + 2 ^ 64 - L) % 2 ^ 64 - 1) / L = k
              rw [hb]
              exact hk'
            · omega
            · omega
        rw [← h1]
        exact (key _ fuel _ w hw rfl hfuel (Nat.le_refl _)) ▸ g1 ▸ rfl
      · intro fuel hfuel
        exact (throttle_loop_spec K L hL ((w.bytes - 1) / L) fuel w hw rfl).2 hfuel
    · intro written fuel hwr hfuel
      have hnot : ¬ written < 0 := by omega
      have hlim : L ≠ UINT64_MAX := by omega
      simp only [checkpoint_write_row, hnot, if_false, hlim, ne_eq, not_false_eq_true, if_true]
      have hmod : (w.bytes + written.toNat) % 2 ^ 64 < 2 ^ 64 := Nat.mod_lt _ (by norm_num)
      have hthr : ∀ v : snap_writer κ T, v.bytes < 2 ^ 64 →
          ∃ w1, (throttle_loop K L fuel v).map (fun w5 => (w5, (none : Option Exception))) =
            some (w1, none) ∧ w1.bytes ≤ L := by
        intro v hv
        obtain ⟨w1, h1, _, h3, _⟩ := (throttle_loop_spec K L hL _ fuel v hv rfl).1
          (Nat.le_trans (Nat.div_le_div_right (by omega)) hfuel)
        exact ⟨w1, by rw [h1]; rfl, h3⟩
      split_ifs <;> exact hthr _ hmod
  · intro written fuel hwr
    have hnot : ¬ written < 0 := by omega
    simp only [checkpoint_write_row, hnot, if_false, ne_eq, not_true_eq_false]
    have hmod : (w.bytes + written.toNat) % 2 ^ 64 < 2 ^ 64 := Nat.mod_lt _ (by norm_num)
    have hle : (w.bytes + written.toNat) % 2 ^ 64 ≤ UINT64_MAX := by
      unfold UINT64_MAX
      omega
    refine ⟨{ w with rows := w.rows + 1, bytes := (w.bytes + written.toNat) % 2 ^ 64,
                     gcs := if written ≠ 0 then w.gcs + 1 else w.gcs }, ?_, rfl, rfl, rfl, rfl⟩
    rw [throttle_loop_done K UINT64_MAX fuel _ hle]
    rfl

/-- Witness of C30: with 700 bytes in the counter and the limit 300 the loop
runs twice and leaves 100 bytes. -/
theorem snapshot_throttling_terminates_witness :
    ∃ w1, throttle_loop example_clock 300 2 example_snap_writer = some w1 ∧
      w1.bytes = 100 ∧ w1.bytes ≤ 300 := by
  obtain ⟨w1, h1, h2, h3, _⟩ :=
    ((snapshot_throttling_terminates example_clock 300 example_snap_writer
      (by norm_num [example_snap_writer])).1 (by norm_num) (by norm_num [UINT64_MAX])).1
  exact ⟨w1, h1, h2, h3⟩

end Tarantool
